import Mathlib

/-!
# Old-Bow: entities, projectiles, bosses and the scene frame

A shallow embedding of the runtime core of the Old-Bow shoot-em-up
(`GameEntity`, `TransformComponent`, `Collision2DComponent`, `Projectile`,
`Enemy`, `Boss`, `Player` and `Scene::update` with the functions it calls).

Conventions of the embedding

* C++ `float` and `double` values are modelled by rationals (`ℚ`). The rounding
  of binary32 and binary64 arithmetic (`f32`, `f64`: round to nearest, ties to
  even, exponent range not limited) is modelled where a result depends on it:
  in the hitbox arithmetic of Collision2DComponent::update, in the literal
  `0.6f`, in the five cooldown timers and the burst timer of Boss::update and
  in the projectile count of Boss::dragonBreath. Elsewhere arithmetic is exact
  and a literal stands for the decimal number it is written as.
* `SDL_GetTicks()` is the parameter `currentTime : ℕ`; `Uint64` subtraction wraps
  modulo `2^64`.
* `mComponents` is modelled by its two entries that carry state, the transform
  and the collision hitbox, each optional (`none` = the map has no such entry).
  Texture and input components have an empty `update` and hold no game state.
* A function whose source dereferences a null component pointer returns `none`.
* Members that a constructor leaves uninitialised are parameters (`Uninit`,
  `BossUninit`); so are the random draws (`BossDraws`, `FrameInput`) and the
  library functions `cos`, `sin`, `atan2` (`MathEnv`).
* `std::stoi` returns `Except LoadError`; an exception it throws is not caught
  by the caller.
* Globals and class statics are passed explicitly (`EnemyShared`, `Globals`);
  `Scene.update` returns the scene and the globals after the frame.
-/

namespace OldBow

/-! ## Constants -/

/-- Screen width in pixels, `WINDOW_WIDTH` of Application.cpp. -/
def WINDOW_WIDTH : ℚ := 1920

/-- Screen height in pixels, `WINDOW_HEIGHT` of Application.cpp. -/
def WINDOW_HEIGHT : ℚ := 1080

/-- Subtraction of two `Uint64` values, wrapping modulo `2^64`. -/
def uint64Sub (a b : ℕ) : ℕ := (a % 2 ^ 64 + (2 ^ 64 - b % 2 ^ 64)) % 2 ^ 64

/-! ## Binary floating-point rounding -/

/-- Round to the nearest integer, ties to the even one: the rounding of IEEE 754
arithmetic. -/
def roundHalfEven (q : ℚ) : ℤ :=
  if q - ⌊q⌋ < 1 / 2 then ⌊q⌋
  else if 1 / 2 < q - ⌊q⌋ then ⌊q⌋ + 1
  else if ⌊q⌋ % 2 = 0 then ⌊q⌋ else ⌊q⌋ + 1

/-- The value a binary floating-point format with `prec` significant bits stores
for the real number `q`: `q` rounded to the nearest multiple of the spacing
`2 ^ (e - (prec - 1))` of its binade `2 ^ e ≤ |q| < 2 ^ (e + 1)`, ties to even.
The exponent range is not limited: overflow to infinity, subnormal numbers and
NaN are not modelled. -/
def roundBits (prec : ℕ) (q : ℚ) : ℚ :=
  if q = 0 then 0
  else
    let quantum : ℚ := 2 ^ (Int.log 2 |q| - ((prec : ℤ) - 1))
    (roundHalfEven (q / quantum) : ℚ) * quantum

/-- The result of an arithmetic operation on `float` (binary32, 24 significant
bits) whose exact value is `q`. -/
def f32 (q : ℚ) : ℚ := roundBits 24 q

/-- The result of an arithmetic operation on `double` (binary64, 53 significant
bits) whose exact value is `q`. -/
def f64 (q : ℚ) : ℚ := roundBits 53 q

/-! ## Rectangles, transform and hitbox -/

/-- The SDL rectangle with float coordinates. -/
structure SDL_FRect where
  x : ℚ
  y : ℚ
  w : ℚ
  h : ℚ
deriving DecidableEq

/-- TransformComponent: position and size, rotation in degrees, player flag. -/
structure TransformComponent where
  mRectangle : SDL_FRect
  mRotation : ℚ
  isPlayer : Bool
deriving DecidableEq

namespace TransformComponent

/-- The member initialisers of TransformComponent.hpp: a 40x40 rectangle at
(40, 40), rotation 0, not the player. -/
def new : TransformComponent :=
  { mRectangle := { x := 40, y := 40, w := 40, h := 40 }, mRotation := 0, isPlayer := false }

def getX (t : TransformComponent) : ℚ := t.mRectangle.x
def getY (t : TransformComponent) : ℚ := t.mRectangle.y
def getWidth (t : TransformComponent) : ℚ := t.mRectangle.w
def getHeight (t : TransformComponent) : ℚ := t.mRectangle.h
def getRotation (t : TransformComponent) : ℚ := t.mRotation

def setWidth (t : TransformComponent) (w : ℚ) : TransformComponent :=
  { t with mRectangle := { t.mRectangle with w := w } }

def setHeight (t : TransformComponent) (h : ℚ) : TransformComponent :=
  { t with mRectangle := { t.mRectangle with h := h } }

def setRotation (t : TransformComponent) (rotation : ℚ) : TransformComponent :=
  { t with mRotation := rotation }

/-- TransformComponent::move: the player is kept inside the screen, every other
entity is placed at the requested position. -/
def move (t : TransformComponent) (x y : ℚ) : TransformComponent :=
  if t.isPlayer then
    let x1 := if x < 0 then 0 else x
    let x2 := if x1 + t.mRectangle.w > WINDOW_WIDTH then WINDOW_WIDTH - t.mRectangle.w else x1
    let y1 := if y < 0 then 0 else y
    let y2 := if y1 + t.mRectangle.h > WINDOW_HEIGHT then WINDOW_HEIGHT - t.mRectangle.h else y1
    { t with mRectangle := { t.mRectangle with x := x2, y := y2 } }
  else
    { t with mRectangle := { t.mRectangle with x := x, y := y } }

end TransformComponent

/-- Collision2DComponent: the hitbox rectangle and its two size modifiers. -/
structure Collision2DComponent where
  mRectangle : SDL_FRect
  mWidthModifier : ℚ
  mHeightModifier : ℚ
deriving DecidableEq

namespace Collision2DComponent

/-- The constructor: a zeroed rectangle, both modifiers at their default 1.0. -/
def new : Collision2DComponent :=
  { mRectangle := { x := 0, y := 0, w := 0, h := 0 }, mWidthModifier := 1, mHeightModifier := 1 }

def getRectangle (c : Collision2DComponent) : SDL_FRect := c.mRectangle

def setHitboxModifier (c : Collision2DComponent) (widthMod heightMod : ℚ) :
    Collision2DComponent :=
  { c with mWidthModifier := widthMod, mHeightModifier := heightMod }

/-- Collision2DComponent::update: recompute the rectangle from the transform of
the owning entity (`owner`), shrunk by the modifiers and centred; nothing
happens when the owner has no transform. Every operation is one on `float`
and is rounded. -/
def update (c : Collision2DComponent) (owner : Option TransformComponent) :
    Collision2DComponent :=
  match owner with
  | none => c
  | some transform =>
    let fullWidth := transform.getWidth
    let fullHeight := transform.getHeight
    let reducedWidth := f32 (fullWidth * c.mWidthModifier)
    let reducedHeight := f32 (fullHeight * c.mHeightModifier)
    { c with mRectangle :=
        { x := f32 (transform.getX + f32 (f32 (fullWidth - reducedWidth) / 2))
          y := f32 (transform.getY + f32 (f32 (fullHeight - reducedHeight) / 2))
          w := reducedWidth
          h := reducedHeight } }

end Collision2DComponent

/-! ## GameEntity -/

/-- GameEntity: the component map (transform and hitbox entries), the base
speed, the horizontal direction flag and the renderable flag. -/
structure GameEntity where
  transform : Option TransformComponent
  hitbox : Option Collision2DComponent
  speed : ℚ
  xPositiveDirection : Bool
  mRenderable : Bool
deriving DecidableEq

namespace GameEntity

/-- The loop `for (auto& component : mComponents) component.second -> update(dt)`:
only the hitbox has a non-empty update, and it reads the transform of its owner. -/
def updateComponents (e : GameEntity) : GameEntity :=
  { e with hitbox := e.hitbox.map (fun c => c.update e.transform) }

/-- GameEntity::TestCollision: false when either hitbox is missing, otherwise
the negation of the four separating-side tests. -/
def TestCollision (self entity : GameEntity) : Bool :=
  match self.hitbox, entity.hitbox with
  | some thisHitBox, some otherHitBox =>
    let thisRect := thisHitBox.getRectangle
    let otherRect := otherHitBox.getRectangle
    !(decide (otherRect.x + otherRect.w ≤ thisRect.x) ||
      decide (thisRect.x + thisRect.w ≤ otherRect.x) ||
      decide (otherRect.y + otherRect.h ≤ thisRect.y) ||
      decide (thisRect.y + thisRect.h ≤ otherRect.y))
  | _, _ => false

end GameEntity

/-- A point lies strictly inside a rectangle (on neither edge). -/
def SDL_FRect.strictlyInside (r : SDL_FRect) (px py : ℚ) : Prop :=
  r.x < px ∧ px < r.x + r.w ∧ r.y < py ∧ py < r.y + r.h

/-- The hitbox modifiers the program sets: the default 1.0, the player 0.5f,
boss, angled and tracking projectiles 0.6f. -/
def programModifier (m : ℚ) : Prop := m = 1 ∨ m = 1 / 2 ∨ m = f32 (3 / 5)

/-! ## Projectile -/

/-- The three motion kinds of a projectile. -/
inductive ProjectileMovementType where
  | UpDown
  | Angle
  | Tracking
deriving DecidableEq

/-- Values of the members that the Projectile constructor leaves uninitialised:
the base-class speed (read from `mSpeed` before it is assigned) and the two
ultimate-size members. -/
structure Uninit where
  speed : ℚ
  ultimateWidth : ℚ
  ultimateHeight : ℚ

/-- Projectile: a GameEntity with the members of Projectile.hpp. The static
`lastTimeLaunch` is threaded through `Projectile.Launch` explicitly. -/
structure Projectile extends GameEntity where
  mIsFiring : Bool
  mYDirectionUp : Bool
  mSpeed : ℚ
  isPlayerProjectile : Bool
  isBossProjectile : Bool
  ownerWidth : ℚ
  mVelocityX : ℚ
  mVelocityY : ℚ
  mMovementType : ProjectileMovementType
  isUltimateProjectile : Bool
  mUltimateProjectileWidth : ℚ
  mUltimateProjectileHeight : ℚ
deriving DecidableEq

/-- The default of the `minLaunchTime` parameter of Launch (Projectile.hpp). -/
def defaultMinLaunchTime : ℚ := 1000

/-- What a call of Launch leaves behind: the returned flag, the projectile and
the static `Projectile::lastTimeLaunch`. -/
structure LaunchResult where
  fired : Bool
  projectile : Projectile
  lastTimeLaunch : ℕ
deriving DecidableEq

namespace Projectile

/-- The constructor: no components yet, speed 350, not renderable, and the member
initialisers of Projectile.hpp. -/
def new (u : Uninit) : Projectile :=
  { transform := none
    hitbox := none
    speed := u.speed
    xPositiveDirection := true
    mRenderable := false
    mIsFiring := false
    mYDirectionUp := true
    mSpeed := 350
    isPlayerProjectile := false
    isBossProjectile := false
    ownerWidth := 0
    mVelocityX := 0
    mVelocityY := 0
    mMovementType := ProjectileMovementType.UpDown
    isUltimateProjectile := false
    mUltimateProjectileWidth := u.ultimateWidth
    mUltimateProjectileHeight := u.ultimateHeight }

/-- Projectile::init: attach a default transform and a fresh hitbox. -/
def init (p : Projectile) : Projectile :=
  { p with transform := some TransformComponent.new, hitbox := some Collision2DComponent.new }

def setIsPlayerProjectile (p : Projectile) (value : Bool) : Projectile :=
  { p with isPlayerProjectile := value }

def setIsBossProjectile (p : Projectile) (value : Bool) : Projectile :=
  { p with isBossProjectile := value }

def setProjectileSpeed (p : Projectile) (speed : ℚ) : Projectile :=
  { p with mSpeed := speed }

def setOwnerWidth (p : Projectile) (width : ℚ) : Projectile :=
  { p with ownerWidth := width }

def setProjectileMovementType (p : Projectile) (type : ProjectileMovementType) : Projectile :=
  { p with mMovementType := type }

/-- Projectile::Launch. `lastTimeLaunch` is the static member on entry and
`currentTime` the value of `SDL_GetTicks()`. The player and the enemy branch
dereference the transform pointer without a check, so they give `none` when the
projectile has no transform; the boss branch does not touch the transform. -/
def Launch (p : Projectile) (lastTimeLaunch currentTime : ℕ) (x y : ℚ) (direction : Bool)
    (minLaunchTime : ℚ) : Option LaunchResult :=
  if p.isPlayerProjectile ∧ ((uint64Sub currentTime lastTimeLaunch : ℕ) : ℚ) ≥ minLaunchTime then
    match p.transform with
    | none => none
    | some ref =>
      let ref1 := (ref.setWidth 15).setHeight 40
      let projectileX := (p.ownerWidth / 2) - (ref1.getWidth / 2)
      some { fired := true
             projectile := { p with mIsFiring := true, mRenderable := true,
                                    mYDirectionUp := direction,
                                    transform := some (ref1.move (x + projectileX) (y - 10)) }
             lastTimeLaunch := currentTime }
  else if !p.isPlayerProjectile && p.isBossProjectile then
    some { fired := true
           projectile := { p with mIsFiring := true, mRenderable := true,
                                  mYDirectionUp := direction,
                                  hitbox := p.hitbox.map
                                    (fun c => c.setHitboxModifier (f32 (3 / 5)) (f32 (3 / 5))) }
           lastTimeLaunch := lastTimeLaunch }
  else if !p.isPlayerProjectile then
    match p.transform with
    | none => none
    | some ref =>
      let ref1 := ((ref.setWidth 8).setHeight 26).setRotation 180
      let projectileX := (p.ownerWidth / 2) - (ref1.getWidth / 2)
      some { fired := true
             projectile := { p with mIsFiring := true, mRenderable := true,
                                    mYDirectionUp := direction,
                                    transform := some (ref1.move (x + projectileX) (y + 10)) }
             lastTimeLaunch := lastTimeLaunch }
  else
    some { fired := false, projectile := p, lastTimeLaunch := lastTimeLaunch }

/-- The transform after the motion-kind switch of Projectile::update. -/
def moved (p : Projectile) (ref : TransformComponent) (deltaTime : ℚ) : TransformComponent :=
  let projectileMovement := p.mSpeed * deltaTime
  let newX := ref.getX + p.mVelocityX * deltaTime
  let newY := ref.getY + p.mVelocityY * deltaTime
  let rotationSpeed : ℚ := 180
  match p.mMovementType with
  | ProjectileMovementType.UpDown =>
    if p.mYDirectionUp then ref.move ref.getX (ref.getY - projectileMovement)
    else ref.move ref.getX (ref.getY + projectileMovement)
  | ProjectileMovementType.Angle => ref.move newX newY
  | ProjectileMovementType.Tracking =>
    (ref.setRotation (ref.getRotation + rotationSpeed * deltaTime)).move newX newY

/-- Projectile::LaunchWithAngle: nothing without a transform; otherwise place the
projectile, set the hitbox modifiers to 0.6, and set the velocity from the
angle. `cosF` and `sinF` stand for `std::cos` and `std::sin`. The direction
flag `mYDirectionUp` is not assigned. -/
def LaunchWithAngle (p : Projectile) (cosF sinF : ℚ → ℚ) (x y angleDegree : ℚ) : Projectile :=
  match p.transform with
  | none => p
  | some ref =>
    let radians := angleDegree * (3.14159265 / 180)
    { p with transform := some (ref.move x y)
             hitbox := p.hitbox.map
               (fun c => c.setHitboxModifier (f32 (3 / 5)) (f32 (3 / 5)))
             mVelocityX := cosF radians * p.mSpeed
             mVelocityY := sinF radians * p.mSpeed
             mRenderable := true
             mIsFiring := true }

/-- Projectile::update: nothing without a transform or while not firing;
otherwise the move of the motion kind, then the rebound test
(`isBossProjectile && mYDirectionUp && y <= 0`), else the expiry test
(`y < 0 || y > WINDOW_HEIGHT`), and finally the component pass. -/
def update (p : Projectile) (deltaTime : ℚ) : Projectile :=
  match p.transform with
  | none => p
  | some ref0 =>
    if !p.mIsFiring then p
    else
      let ref := p.moved ref0 deltaTime
      let p1 : Projectile :=
        if p.isBossProjectile && p.mYDirectionUp && decide (ref.getY ≤ 0) then
          { p with mYDirectionUp := false, mSpeed := p.mSpeed * (3 / 2),
                   transform := some (ref.setRotation 0) }
        else if decide (ref.getY < 0) || decide (ref.getY > WINDOW_HEIGHT) then
          { p with transform := some ref, mIsFiring := false, mRenderable := false }
        else
          { p with transform := some ref }
      { p1 with toGameEntity := p1.toGameEntity.updateComponents }

end Projectile

/-! ## Enemy and the shared formation state -/

/-- The static members of Enemy, shared by the whole formation. -/
structure EnemyShared where
  totalEnemyMovement : ℚ
  enemyMovingRight : Bool
  movementThreshold : ℚ
  movement : ℚ
deriving DecidableEq

/-- Enemy: a GameEntity with the members of Enemy.hpp. -/
structure Enemy extends GameEntity where
  exceedsMovement : ℚ
  minLaunchTime : ℚ
  lastFireTime : ℕ
  mProjectiles : List Projectile
deriving DecidableEq

namespace Enemy

/-- The constructor. `minLaunchTime` is the random draw from [2000, 5000];
`lastFireTime` has no initialiser in the source and is a parameter. -/
def new (spd minLaunchTime : ℚ) (lastFireTime : ℕ) : Enemy :=
  { transform := none
    hitbox := none
    speed := spd
    xPositiveDirection := true
    mRenderable := true
    exceedsMovement := 0
    minLaunchTime := minLaunchTime
    lastFireTime := lastFireTime
    mProjectiles := [] }

/-- Enemy::init: a default transform resized to 70x70 and a fresh hitbox. -/
def init (e : Enemy) : Enemy :=
  { e with transform := some ((TransformComponent.new.setWidth 70).setHeight 70)
           hitbox := some Collision2DComponent.new }

/-- The projectile an enemy builds when its cooldown has lapsed, before Launch. -/
def newProjectile (u : Uninit) (ref : TransformComponent) : Projectile :=
  ((((Projectile.new u).setIsPlayerProjectile false).init).setProjectileMovementType
    ProjectileMovementType.UpDown).setOwnerWidth ref.getWidth

/-- The flip test of Enemy::update on the shared statics: when the cumulative
displacement has reached the threshold, the direction is reversed and the excess
over the threshold becomes the new cumulative displacement. -/
def flip (s : EnemyShared) : EnemyShared :=
  if s.totalEnemyMovement ≥ s.movementThreshold then
    { s with enemyMovingRight := !s.enemyMovingRight
             totalEnemyMovement := s.totalEnemyMovement - s.movementThreshold }
  else s

/-- The two safeguards of Enemy::update: the shared step `movement` is cut down
when it would take the cumulative displacement past the threshold (the right
and the left branch as written in the source). -/
def clampMovement (s : EnemyShared) : EnemyShared :=
  if s.enemyMovingRight then
    if s.totalEnemyMovement + s.movement > s.movementThreshold then
      { s with movement := s.movementThreshold - s.totalEnemyMovement }
    else s
  else
    if -s.totalEnemyMovement - s.movement < -s.movementThreshold then
      { s with movement := -s.totalEnemyMovement + s.movementThreshold }
    else s

/-- The firing block of Enemy::update: when the enemy is renderable and its
cooldown has lapsed it builds a projectile, launches it downward from the
position of its transform `ref`, and on success keeps it and records the time.
`lastTimeLaunch` is the static of Projectile, which the launch of an enemy
projectile neither reads nor writes. -/
def fireIfReady (e : Enemy) (ref : TransformComponent) (lastTimeLaunch currentTime : ℕ)
    (u : Uninit) : Option Enemy :=
  if e.mRenderable ∧ ((uint64Sub currentTime e.lastFireTime : ℕ) : ℚ) ≥ e.minLaunchTime then
    match (newProjectile u ref).Launch lastTimeLaunch currentTime ref.getX ref.getY false
        e.minLaunchTime with
    | none => none
    | some r =>
      if r.fired then
        some { e with mProjectiles := e.mProjectiles ++ [r.projectile]
                      lastFireTime := currentTime }
      else some e
  else some e

/-- The last two loops of Enemy::update: every owned projectile is updated, then
those that are no longer renderable are erased. -/
def updateProjectiles (e : Enemy) (deltaTime : ℚ) : Enemy :=
  let updated := e.mProjectiles.map (fun q => q.update deltaTime)
  { e with mProjectiles := updated.filter (fun q => q.mRenderable) }

/-- The member assignment inside the flip block of Enemy::update:
`exceedsMovement = totalEnemyMovement - movementThreshold`, with the statics `s`
as they are on entry. -/
def keepExcess (e : Enemy) (s : EnemyShared) : Enemy :=
  if s.totalEnemyMovement ≥ s.movementThreshold then
    { e with exceedsMovement := s.totalEnemyMovement - s.movementThreshold }
  else e

/-- The move of Enemy::update: by the shared step to the right or to the left. -/
def moveStep (ref : TransformComponent) (s : EnemyShared) : TransformComponent :=
  if s.enemyMovingRight then ref.move (ref.getX + s.movement) ref.getY
  else ref.move (ref.getX - s.movement) ref.getY

/-- Enemy::update. In source order: the component pass; return when there is no
transform; the flip test on the shared statics; the clamped move in the current
direction; the firing block; the update and clean-up of the owned projectiles. -/
def update (e : Enemy) (s : EnemyShared) (lastTimeLaunch currentTime : ℕ) (deltaTime : ℚ)
    (u : Uninit) : Option (Enemy × EnemyShared) :=
  let e1 : Enemy := { e with toGameEntity := e.toGameEntity.updateComponents }
  match e1.transform with
  | none => some (e1, s)
  | some ref =>
    let s2 := clampMovement (flip s)
    let ref1 := moveStep ref s2
    let e3 : Enemy := { keepExcess e1 s with transform := some ref1 }
    match fireIfReady e3 ref1 lastTimeLaunch currentTime u with
    | none => none
    | some e4 => some (updateProjectiles e4 deltaTime, s2)

end Enemy

/-! ## The formation bookkeeping of Scene::update -/

/-- The C function `std::round`: nearest integer, halves away from zero. -/
def roundHalfAway (q : ℚ) : ℤ := if 0 ≤ q then ⌊q + 1 / 2⌋ else ⌈q - 1 / 2⌉

namespace Scene

/-- Scene::resetSceneState on the statics of Enemy (`movement` is not reset). -/
def resetSceneState (s : EnemyShared) : EnemyShared :=
  { s with movementThreshold := 0, totalEnemyMovement := 0, enemyMovingRight := true }

/-- The loop `for (auto& enemy : enemies) enemy -> update(deltaTime)`. -/
def updateEnemies (enemies : List Enemy) (s : EnemyShared) (lastTimeLaunch currentTime : ℕ)
    (deltaTime : ℚ) (u : Uninit) : Option (List Enemy × EnemyShared) :=
  match enemies with
  | [] => some ([], s)
  | e :: rest =>
    match e.update s lastTimeLaunch currentTime deltaTime u with
    | none => none
    | some (e1, s1) =>
      match updateEnemies rest s1 lastTimeLaunch currentTime deltaTime u with
      | none => none
      | some (rest1, s2) => some (e1 :: rest1, s2)

/-- The block "Enemy movement calculations" of Scene::update: the step of the
frame is stored in `movement` and added to the cumulative displacement, which is
then rounded to three decimals. -/
def advanceFormation (s : EnemyShared) (deltaTime : ℚ) : EnemyShared :=
  let enemySpeed : ℚ := 100
  let total := s.totalEnemyMovement + enemySpeed * deltaTime
  { s with movement := enemySpeed * deltaTime
           totalEnemyMovement := (roundHalfAway (total * 1000) : ℚ) / 1000 }

/-- The statements of a Scene::update frame in state Playing that read or write
the statics of Enemy, in source order: the clamp of the delta time to 0.1, the
loop over the enemies, and the movement calculations. (The player, the bosses
and the collision phases between them do not touch these statics.) -/
def updateFormation (enemies : List Enemy) (s : EnemyShared) (lastTimeLaunch currentTime : ℕ)
    (deltaTime : ℚ) (u : Uninit) : Option (List Enemy × EnemyShared) :=
  let dt : ℚ := if deltaTime > 1 / 10 then 1 / 10 else deltaTime
  match updateEnemies enemies s lastTimeLaunch currentTime dt u with
  | none => none
  | some (enemies1, s1) => some (enemies1, advanceFormation s1 dt)

end Scene

/-- The states of the shared formation statics reachable from a stage start with
threshold `T` (resetSceneState followed by initEnemies storing `T`; `movement`
keeps whatever value `m` it had) by Scene::update frames, each of which updates a
list of enemies of which at least one has a transform. -/
inductive FormationReachable (T : ℚ) : EnemyShared → Prop where
  | start (m : ℚ) :
      FormationReachable T
        { totalEnemyMovement := 0, enemyMovingRight := true, movementThreshold := T, movement := m }
  | frame (s s1 : EnemyShared) (enemies enemies1 : List Enemy) (lastTimeLaunch currentTime : ℕ)
      (deltaTime : ℚ) (u : Uninit) :
      FormationReachable T s →
      (∃ e ∈ enemies, e.transform ≠ none) →
      Scene.updateFormation enemies s lastTimeLaunch currentTime deltaTime u = some (enemies1, s1) →
      FormationReachable T s1

/-! ## Example entities -/

/-- Example entities for C2: two 10x10 hitboxes, the second shifted by (5, 5). -/
def exampleBoxA : GameEntity :=
  { transform := none
    hitbox := some { mRectangle := { x := 0, y := 0, w := 10, h := 10 },
                     mWidthModifier := 1, mHeightModifier := 1 }
    speed := 0, xPositiveDirection := true, mRenderable := true }

/-- The second example entity of C2. -/
def exampleBoxB : GameEntity :=
  { transform := none
    hitbox := some { mRectangle := { x := 5, y := 5, w := 10, h := 10 },
                     mWidthModifier := 1, mHeightModifier := 1 }
    speed := 0, xPositiveDirection := true, mRenderable := true }

/-- The player as Player::init leaves it: a 100x160 player-flagged transform and
a hitbox with both modifiers 0.5 (placed at the default position). -/
def examplePlayer : GameEntity :=
  { transform := some { mRectangle := { x := 40, y := 40, w := 100, h := 160 },
                        mRotation := 0, isPlayer := true }
    hitbox := some { mRectangle := { x := 0, y := 0, w := 0, h := 0 },
                     mWidthModifier := 1 / 2, mHeightModifier := 1 / 2 }
    speed := 400, xPositiveDirection := true, mRenderable := true }

/-- The arrow InputComponent::input builds for a player of width 100, before
Launch. -/
def playerArrow : Projectile :=
  (((((Projectile.new { speed := 0, ultimateWidth := 0, ultimateHeight := 0 }).init
    ).setProjectileMovementType ProjectileMovementType.UpDown).setIsPlayerProjectile true
    ).setOwnerWidth 100).setProjectileSpeed 1000

/-- A rain projectile as Boss::fireStraightRain launches it (60x60, rotated by
180 degrees, boss-owned, oscillating, launched upward), here 5 pixels below the
top edge. -/
def rainProjectile : Projectile :=
  { transform := some { mRectangle := { x := 300, y := 5, w := 60, h := 60 },
                        mRotation := 180, isPlayer := false }
    hitbox := some { mRectangle := { x := 0, y := 0, w := 0, h := 0 },
                     mWidthModifier := f32 (3 / 5), mHeightModifier := f32 (3 / 5) }
    speed := 0
    xPositiveDirection := true
    mRenderable := true
    mIsFiring := true
    mYDirectionUp := true
    mSpeed := 350
    isPlayerProjectile := false
    isBossProjectile := true
    ownerWidth := 0
    mVelocityX := 0
    mVelocityY := 0
    mMovementType := ProjectileMovementType.UpDown
    isUltimateProjectile := false
    mUltimateProjectileWidth := 0
    mUltimateProjectileHeight := 0 }

/-- A boss-owned angled projectile built the way Boss::fireSpreadShot builds one
(speed 200, size 100x100) and launched by LaunchWithAngle from (500, 5) at
-90 degrees, i.e. straight up; the cosine and sine passed in are the values at
that angle, 0 and -1. -/
def angledBossProjectile : Projectile :=
  let p0 := ((((Projectile.new { speed := 0, ultimateWidth := 0, ultimateHeight := 0 }
    ).setIsPlayerProjectile false).setIsBossProjectile true).init).setProjectileMovementType
      ProjectileMovementType.Angle
  let p1 := p0.setProjectileSpeed 200
  let p2 : Projectile :=
    { p1 with transform := p1.transform.map (fun t => (t.setWidth 100).setHeight 100) }
  p2.LaunchWithAngle (fun _ => 0) (fun _ => -1) 500 5 (-90)

/-- An enemy as Scene::initEnemies builds the first one of the grid: constructed
with speed 100, initialised, and moved to (96, 180); its fire interval is 3000. -/
def formationEnemy : Enemy :=
  let e := (Enemy.new 100 3000 0).init
  { e with transform := e.transform.map (fun t => t.move 96 180) }

/-- The values used for uninitialised members in the examples. -/
def exampleUninit : Uninit := { speed := 0, ultimateWidth := 0, ultimateHeight := 0 }

/-! ## Boss: identity, hit points and configuration -/

/-- The identity tag of a boss (Boss.hpp). -/
inductive BossID where
  | Boss1
  | Boss2
  | Boss3
deriving DecidableEq

/-- The attack patterns of a boss (Boss.hpp). -/
inductive PatternType where
  | Rain
  | Spread
  | Ultimate
  | GhostFire
  | Slash
deriving DecidableEq

/-- Boss: an Enemy with the members of Boss.hpp. `hasPlayerReference` tells
whether `mPlayer` is set; the player it points to is the player of the scene and
is passed to the functions that read it. -/
structure Boss extends Enemy where
  mPatternList : List PatternType
  mMovement : ℚ
  mHP : ℤ
  mMaxHP : ℤ
  hasPlayerReference : Bool
  mTexturePath : String
  mRainCooldown : ℚ
  mSpreadCooldown : ℚ
  mUltimateCooldown : ℚ
  mGhostFireCooldown : ℚ
  mSlashCooldown : ℚ
  mRainFireRate : ℚ
  mSpreadFireRate : ℚ
  mGhostFireRate : ℚ
  mSlashFireRate : ℚ
  mUltimateTimer : ℚ
  mUltimateFireRate : ℚ
  mUltimateFirePeriodTimer : ℚ
  mUltimateFirePeriodDefault : ℚ
  mName : String
  mXDirection : ℚ
  mYDirection : ℚ
  mDirectionChangeTimer : ℚ
  mSpeed : ℚ
  mUltimateProjectileWidth : ℚ
  mUltimateProjectileHeight : ℚ
  mID : BossID
deriving DecidableEq

/-- Values of the members that the Boss constructor leaves uninitialised, and
the random fire interval drawn by the Enemy constructor. -/
structure BossUninit where
  minLaunchTime : ℚ
  lastFireTime : ℕ
  mMovement : ℚ
  mMaxHP : ℤ
  mID : BossID

/-- The exceptions `std::stoi` throws. -/
inductive LoadError where
  | invalid_argument
  | out_of_range
deriving DecidableEq

/-- The static helper `trim` of Boss.cpp: leading spaces are dropped (and only
leading ones, and only the space character). -/
def trim (str : List Char) : List Char := str.dropWhile (fun c => c == ' ')

/-- Repeated `std::getline(stream, piece, sep)`: the pieces between separators;
a final piece is delivered when at least one character follows the last
separator. `cur` holds the current piece reversed, `started` tells whether a
character was read since the last separator. -/
def getlines (sep : Char) (cur : List Char) (started : Bool) : List Char → List (List Char)
  | [] => if started then [cur.reverse] else []
  | c :: cs =>
    if c = sep then cur.reverse :: getlines sep [] false cs
    else getlines sep (c :: cur) true cs

/-- The characters `std::isspace` accepts in the C locale. -/
def isSpace (c : Char) : Bool :=
  c == ' ' || c == '\t' || c == '\n' || c == Char.ofNat 11 || c == Char.ofNat 12 || c == '\r'

/-- The value of a decimal digit. -/
def digitValue (c : Char) : ℕ := c.toNat - 48

/-- The call `std::stoi(value)`: leading white space is skipped, an optional sign
and the longest run of decimal digits are read and the rest is ignored;
`invalid_argument` without a digit, `out_of_range` outside the range of `int`. -/
def stoi (str : List Char) : Except LoadError ℤ :=
  let s1 := str.dropWhile isSpace
  let negative : Bool := match s1 with
    | '-' :: _ => true
    | _ => false
  let s2 : List Char := match s1 with
    | '-' :: rest => rest
    | '+' :: rest => rest
    | _ => s1
  let digits := s2.takeWhile (fun c => c.isDigit)
  if digits.isEmpty then Except.error LoadError.invalid_argument
  else
    let n : ℤ := (digits.foldl (fun acc c => 10 * acc + digitValue c) 0 : ℕ)
    let v : ℤ := if negative then -n else n
    if v < -2147483648 ∨ 2147483647 < v then Except.error LoadError.out_of_range
    else Except.ok v

namespace Boss

/-- The constructor: Enemy(100, renderer), no player reference, the fire rates,
cooldowns and timers of Boss.cpp and the member initialisers of Boss.hpp. -/
def new (u : BossUninit) : Boss :=
  { toEnemy := Enemy.new 100 u.minLaunchTime u.lastFireTime
    mPatternList := []
    mMovement := u.mMovement
    mHP := 10
    mMaxHP := u.mMaxHP
    hasPlayerReference := false
    mTexturePath := ""
    mRainCooldown := 0
    mSpreadCooldown := 0
    mUltimateCooldown := 15
    mGhostFireCooldown := 0
    mSlashCooldown := 4
    mRainFireRate := 3
    mSpreadFireRate := 3
    mGhostFireRate := 5
    mSlashFireRate := 7
    mUltimateTimer := 10
    mUltimateFireRate := 1 / 1000
    mUltimateFirePeriodTimer := 5
    mUltimateFirePeriodDefault := 5
    mName := "Unnamed Boss"
    mXDirection := 1
    mYDirection := 1
    mDirectionChangeTimer := 0
    mSpeed := 100
    mUltimateProjectileWidth := 24
    mUltimateProjectileHeight := 24
    mID := u.mID }

def setPlayerReference (b : Boss) : Boss := { b with hasPlayerReference := true }

/-- Boss::init: a default transform resized to 300x300 and a fresh hitbox. -/
def init (b : Boss) : Boss :=
  { b with transform := some ((TransformComponent.new.setWidth 300).setHeight 300)
           hitbox := some Collision2DComponent.new }

/-- Boss::onHit: one hit point less; at zero or below the boss is no longer
renderable. -/
def onHit (b : Boss) : Boss :=
  let b1 : Boss := { b with mHP := b.mHP - 1 }
  if b1.mHP ≤ 0 then { b1 with mRenderable := false } else b1

/-- The inner loop of the PatternList branch: each comma-separated token is
trimmed and, when it names a pattern, appended to the list; any other token is
reported and skipped. -/
def addPatterns (patterns : List PatternType) : List (List Char) → List PatternType
  | [] => patterns
  | token :: rest =>
    let pattern := trim token
    if pattern = "Rain".toList then addPatterns (patterns ++ [PatternType.Rain]) rest
    else if pattern = "Spread".toList then addPatterns (patterns ++ [PatternType.Spread]) rest
    else if pattern = "Ultimate".toList then addPatterns (patterns ++ [PatternType.Ultimate]) rest
    else if pattern = "Ghost".toList then addPatterns (patterns ++ [PatternType.GhostFire]) rest
    else if pattern = "Slash".toList then addPatterns (patterns ++ [PatternType.Slash]) rest
    else addPatterns patterns rest

/-- The body of the line loop of Boss::loadFromFile for one line. -/
def applyLine (b : Boss) (line : List Char) : Except LoadError Boss :=
  if ¬ (':' ∈ line) then Except.ok b
  else
    let key := trim (line.takeWhile (fun c => c != ':'))
    let value := trim ((line.dropWhile (fun c => c != ':')).drop 1)
    if key = "ID".toList then
      if value = "Boss1".toList then Except.ok { b with mID := BossID.Boss1 }
      else if value = "Boss2".toList then Except.ok { b with mID := BossID.Boss2 }
      else if value = "Boss3".toList then Except.ok { b with mID := BossID.Boss3 }
      else Except.ok b
    else if key = "Name".toList then Except.ok { b with mName := String.mk value }
    else if key = "HP".toList then
      match stoi value with
      | Except.error err => Except.error err
      | Except.ok hp => Except.ok { b with mHP := hp, mMaxHP := hp }
    else if key = "PatternList".toList then
      Except.ok { b with mPatternList := addPatterns b.mPatternList (getlines ',' [] false value) }
    else if key = "Texture".toList then Except.ok { b with mTexturePath := String.mk value }
    else Except.ok b

/-- The line loop of Boss::loadFromFile: an exception ends the loop. -/
def applyLines (b : Boss) : List (List Char) → Except LoadError Boss
  | [] => Except.ok b
  | line :: rest =>
    match applyLine b line with
    | Except.error err => Except.error err
    | Except.ok b1 => applyLines b1 rest

/-- Boss::loadFromFile. `file` is the content of the file at the given path, or
`none` when it cannot be opened (the call then returns with the boss unchanged).
The messages written to the error stream are not modelled. -/
def loadFromFile (b : Boss) (file : Option String) : Except LoadError Boss :=
  match file with
  | none => Except.ok b
  | some text => applyLines b (getlines '\n' [] false text.toList)

end Boss

/-- The configuration text of the scenario of C12. -/
def grimConfig : String :=
  "ID: Boss2\nName: Grim\nHP: 40\nPatternList: Rain, Spread, Unknown\nTexture: assets/grim.bmp"

/-- Spec table for C12: the pattern a trimmed PatternList token names, if any
(Rain, Spread, Ultimate, Ghost for GhostFire, Slash). -/
def recognisedPattern (token : List Char) : Option PatternType :=
  if token = "Rain".toList then some PatternType.Rain
  else if token = "Spread".toList then some PatternType.Spread
  else if token = "Ultimate".toList then some PatternType.Ultimate
  else if token = "Ghost".toList then some PatternType.GhostFire
  else if token = "Slash".toList then some PatternType.Slash
  else none

/-- A boss fresh from the constructor, used in the examples. -/
def exampleBoss : Boss :=
  Boss.new { minLaunchTime := 3000, lastFireTime := 0, mMovement := 0, mMaxHP := 0,
             mID := BossID.Boss1 }

/-! ## Player -/

/-- Player: a GameEntity with the projectiles it has fired. -/
structure Player extends GameEntity where
  mProjectiles : List Projectile
deriving DecidableEq

namespace Player

/-- The constructor: no components yet. -/
def new (spd : ℚ) : Player :=
  { transform := none, hitbox := none, speed := spd, xPositiveDirection := true
    mRenderable := true, mProjectiles := [] }

/-- Player::init: a default transform flagged as the player and resized to
100x160, and a hitbox with both modifiers 0.5. -/
def init (p : Player) : Player :=
  let transform : TransformComponent := { TransformComponent.new with isPlayer := true }
  { p with transform := some ((transform.setWidth 100).setHeight 160)
           hitbox := some (Collision2DComponent.new.setHitboxModifier (1 / 2) (1 / 2)) }

/-- Player::update: the component pass, the update of the owned projectiles and
the removal of those no longer renderable. -/
def update (p : Player) (deltaTime : ℚ) : Player :=
  let p1 : Player := { p with toGameEntity := p.toGameEntity.updateComponents }
  let updated := p1.mProjectiles.map (fun q => q.update deltaTime)
  { p1 with mProjectiles := updated.filter (fun q => q.mRenderable) }

end Player

/-! ## Boss: movement and attack patterns -/

/-- The library functions `std::cos`, `std::sin` and `atan2`. -/
structure MathEnv where
  cosF : ℚ → ℚ
  sinF : ℚ → ℚ
  atan2F : ℚ → ℚ → ℚ

/-- The random draws one Boss::update may make: the two `flipChance(gen)` draws
(0..99) and the `directionChangeInterval(gen)` draw (0.5..5). -/
structure BossDraws where
  flipChance1 : ℕ
  flipChance2 : ℕ
  directionChangeInterval : ℚ

namespace Projectile

def setIsUltimateProjectile (p : Projectile) (value : Bool) : Projectile :=
  { p with isUltimateProjectile := value }

def setUltimateProjectileSize (p : Projectile) (width height : ℚ) : Projectile :=
  { p with mUltimateProjectileWidth := width, mUltimateProjectileHeight := height }

/-- Projectile::LaunchWithTracking: the same statements as LaunchWithAngle. -/
def LaunchWithTracking (p : Projectile) (cosF sinF : ℚ → ℚ) (x y angleDegree : ℚ) : Projectile :=
  match p.transform with
  | none => p
  | some ref =>
    let radians := angleDegree * (3.14159265 / 180)
    { p with transform := some (ref.move x y)
             hitbox := p.hitbox.map
               (fun c => c.setHitboxModifier (f32 (3 / 5)) (f32 (3 / 5)))
             mVelocityX := cosF radians * p.mSpeed
             mVelocityY := sinF radians * p.mSpeed
             mRenderable := true
             mIsFiring := true }

/-- A new boss-owned projectile after `init`, as every attack pattern builds it. -/
def newBossProjectile (u : Uninit) : Projectile :=
  (((Projectile.new u).setIsPlayerProjectile false).setIsBossProjectile true).init

end Projectile

/-- The loop `for (float angle = start; angle <= stop; angle += step)` pushing
`angle - offset`; `fuel` bounds the number of iterations. -/
def angleLoop (offset stop step : ℚ) : ℕ → ℚ → List ℚ
  | 0, _ => []
  | fuel + 1, angle =>
    if angle ≤ stop then (angle - offset) :: angleLoop offset stop step fuel (angle + step)
    else []

namespace Boss

/-- The timer block of Boss::update: the timer runs down; when it has lapsed the
X direction is flipped if the first draw is below 50, else the Y direction if
the second draw is below 50, and the timer is redrawn. -/
def changeDirection (b : Boss) (deltaTime : ℚ) (d : BossDraws) : Boss :=
  let b1 : Boss := { b with mDirectionChangeTimer := b.mDirectionChangeTimer - deltaTime }
  if b1.mDirectionChangeTimer ≤ 0 then
    let b2 : Boss :=
      if d.flipChance1 < 50 then { b1 with mXDirection := b1.mXDirection * (-1) }
      else if d.flipChance2 < 50 then { b1 with mYDirection := b1.mYDirection * (-1) }
      else b1
    { b2 with mDirectionChangeTimer := d.directionChangeInterval }
  else b1

/-- The position block of Boss::update, from the position `ref` read at the start
of the update: the next position, the boundary checks on Y (Boss1 only) and on
X with their direction resets, and the move. -/
def moveWithinBounds (b : Boss) (ref : TransformComponent) : Boss :=
  let x := ref.getX
  let y := ref.getY
  let nextX := x + b.mMovement * b.mXDirection
  let isBoss1 : Bool := decide (b.mID = BossID.Boss1)
  let nextY0 := if isBoss1 then y + b.mMovement * b.mYDirection else y
  let tooLow : Bool := isBoss1 && decide (nextY0 > 200)
  let nextY1 := if tooLow then 200 else nextY0
  let yDirection1 := if tooLow then -1 else b.mYDirection
  let tooHigh : Bool := isBoss1 && decide (nextY1 < 0)
  let nextY2 := if tooHigh then 0 else nextY1
  let yDirection2 := if tooHigh then 1 else yDirection1
  let tooFarRight : Bool := decide (nextX > 1500)
  let nextX1 := if tooFarRight then 1500 else nextX
  let xDirection1 := if tooFarRight then -1 else b.mXDirection
  let tooFarLeft : Bool := decide (nextX1 < 400)
  let nextX2 := if tooFarLeft then 400 else nextX1
  let xDirection2 := if tooFarLeft then 1 else xDirection1
  { b with mXDirection := xDirection2, mYDirection := yDirection2
           transform := some (ref.move nextX2 nextY2) }

/-- The five cooldown decrements of Boss::update (`-=` on `float` members: each
difference is rounded). -/
def tickCooldowns (b : Boss) (deltaTime : ℚ) : Boss :=
  { b with mRainCooldown := f32 (b.mRainCooldown - deltaTime)
           mSpreadCooldown := f32 (b.mSpreadCooldown - deltaTime)
           mUltimateTimer := f32 (b.mUltimateTimer - deltaTime)
           mGhostFireCooldown := f32 (b.mGhostFireCooldown - deltaTime)
           mSlashCooldown := f32 (b.mSlashCooldown - deltaTime) }

/-- One projectile of fireStraightRain: 60x60, rotated by 180 degrees, placed at
(projX, y + 310) and launched upward. -/
def rainShot (u : Uninit) (lastTimeLaunch currentTime : ℕ) (projX y : ℚ) : Option Projectile :=
  let p1 := (Projectile.newBossProjectile u).setProjectileMovementType
    ProjectileMovementType.UpDown
  let place := fun (t : TransformComponent) =>
    (((t.setWidth 60).setHeight 60).setRotation 180).move projX (y + 310)
  let p2 : Projectile := { p1 with transform := p1.transform.map place }
  (p2.Launch lastTimeLaunch currentTime projX y true defaultMinLaunchTime).map
    (fun r => r.projectile)

/-- Boss::fireStraightRain: seven projectiles spread evenly over 800 pixels
centred on the boss. -/
def fireStraightRain (b : Boss) (u : Uninit) (lastTimeLaunch currentTime : ℕ) : Option Boss :=
  match b.transform with
  | none => some b
  | some transform =>
    let x := transform.getX
    let y := transform.getY
    let numProjectiles : ℕ := 7
    let totalAttackWidth : ℚ := 800
    let spacing : ℚ := totalAttackWidth / ((numProjectiles : ℚ) - 1)
    let startX := x + (transform.getWidth / 2) - (totalAttackWidth / 2)
    ((List.range numProjectiles).mapM
      (fun i => rainShot u lastTimeLaunch currentTime (startX + spacing * (i : ℚ)) y)).map
      (fun shots => { b with mProjectiles := b.mProjectiles ++ shots })

/-- One projectile of the two fan patterns: angled, with the given speed and
square size, launched from the centre of the boss. -/
def angledShot (u : Uninit) (env : MathEnv) (speed size centerX centerY angle : ℚ) :
    Projectile :=
  let p1 := ((Projectile.newBossProjectile u).setProjectileMovementType
    ProjectileMovementType.Angle).setProjectileSpeed speed
  let p2 : Projectile :=
    { p1 with transform := p1.transform.map (fun t => (t.setWidth size).setHeight size) }
  p2.LaunchWithAngle env.cosF env.sinF centerX centerY angle

/-- Boss::fireSpreadShot: one projectile per 15-degree step from -90 to 90
degrees (shifted by the offset -90), speed 200, size 100x100. -/
def fireSpreadShot (b : Boss) (u : Uninit) (env : MathEnv) : Boss :=
  match b.transform with
  | none => b
  | some transform =>
    let centerX := transform.getX + transform.getWidth / 2
    let centerY := transform.getY + transform.getHeight / 2
    let angles := angleLoop (-90) 90 15 100 (-90)
    { b with mProjectiles :=
              b.mProjectiles ++ angles.map (fun a => angledShot u env 200 100 centerX centerY a) }

/-- One projectile of dragonBreath: of the ultimate size, speed 400, placed at
(projX, y + 310) and launched downward. -/
def breathShot (b : Boss) (u : Uninit) (lastTimeLaunch currentTime : ℕ) (projX y : ℚ) :
    Option Projectile :=
  let p0 := ((((Projectile.new u).setIsPlayerProjectile false).setIsBossProjectile true
    ).setIsUltimateProjectile true).setUltimateProjectileSize b.mUltimateProjectileWidth
      b.mUltimateProjectileHeight
  let p1 := ((p0.init).setProjectileSpeed 400).setProjectileMovementType
    ProjectileMovementType.UpDown
  let place := fun (t : TransformComponent) =>
    ((t.setWidth b.mUltimateProjectileWidth).setHeight b.mUltimateProjectileHeight).move projX
      (y + 310)
  let p2 : Projectile := { p1 with transform := p1.transform.map place }
  (p2.Launch lastTimeLaunch currentTime projX y false defaultMinLaunchTime).map
    (fun r => r.projectile)

/-- The value of `static_cast<int>(width * 0.7 / mUltimateProjectileWidth)` in
Boss::dragonBreath for a quotient that is a number: the literal `0.7` is a
`double`, so the product and the quotient are computed and rounded in `double`;
the conversion truncates toward zero. -/
def breathCount (width ultimateWidth : ℚ) : ℤ :=
  let quotient : ℚ := f64 (f64 (width * f64 (7 / 10)) / ultimateWidth)
  if 0 ≤ quotient then ⌊quotient⌋ else ⌈quotient⌉

/-- Boss::dragonBreath: a row of `(int)(width * 0.7 / ultimateWidth)` projectiles
centred under the boss. The conversion to `int` is undefined (`none`) when the
quotient is not a number in the range of `int`. -/
def dragonBreath (b : Boss) (u : Uninit) (lastTimeLaunch currentTime : ℕ) : Option Boss :=
  match b.transform with
  | none => some b
  | some transform =>
    let x := transform.getX
    let y := transform.getY
    let width := transform.getWidth
    if b.mUltimateProjectileWidth = 0 then none
    else
      let numProjectiles : ℤ := breathCount width b.mUltimateProjectileWidth
      if numProjectiles < -2147483648 ∨ 2147483647 < numProjectiles then none
      else
        let totalProjectilesWidth : ℚ := b.mUltimateProjectileWidth * (numProjectiles : ℚ)
        let startX := x + (width - totalProjectilesWidth) / 2
        ((List.range numProjectiles.toNat).mapM
          (fun i => breathShot b u lastTimeLaunch currentTime
            (startX + b.mUltimateProjectileWidth * (i : ℚ)) y)).map
          (fun shots => { b with mProjectiles := b.mProjectiles ++ shots })

/-- Boss::fireLingeringGhostShot: one projectile per 20-degree step from -60 to
60 degrees (shifted by the offset -90), speed 100, size 80x80. -/
def fireLingeringGhostShot (b : Boss) (u : Uninit) (env : MathEnv) : Boss :=
  match b.transform with
  | none => b
  | some transform =>
    let centerX := transform.getX + transform.getWidth / 2
    let centerY := transform.getY + transform.getHeight / 2
    let angles := angleLoop (-90) 60 20 100 (-60)
    { b with mProjectiles :=
              b.mProjectiles ++ angles.map (fun a => angledShot u env 100 80 centerX centerY a) }

/-- Boss::slash: one tracking projectile (speed 450, 160x120) launched from the
position of the boss at the angle towards the player. The player pointer and the
transform of the player are dereferenced without a check. -/
def slash (b : Boss) (player : Player) (u : Uninit) (env : MathEnv) : Option Boss :=
  match b.transform with
  | none => some b
  | some transform =>
    let bossX := transform.getX
    let bossY := transform.getY
    if !b.hasPlayerReference then none
    else
      match player.transform with
      | none => none
      | some playerTransform =>
        let directionX := playerTransform.getX - transform.getX
        let directionY := playerTransform.getY - transform.getY
        let angleRadians := env.atan2F directionY directionX
        let angleDegrees := angleRadians * (180 / 3.14159265)
        let p1 := ((Projectile.newBossProjectile u).setProjectileMovementType
          ProjectileMovementType.Tracking).setProjectileSpeed 450
        let p2 : Projectile :=
          { p1 with transform := p1.transform.map (fun t => (t.setWidth 160).setHeight 120) }
        some { b with mProjectiles :=
                        b.mProjectiles ++
                          [p2.LaunchWithTracking env.cosF env.sinF bossX bossY angleDegrees] }

/-- One case of the pattern switch of Boss::update. -/
def patternStep (b : Boss) (pattern : PatternType) (player : Player) (deltaTime : ℚ)
    (env : MathEnv) (u : Uninit) (lastTimeLaunch currentTime : ℕ) : Option Boss :=
  match pattern with
  | PatternType.Rain =>
    if b.mRainCooldown ≤ 0 then
      (b.fireStraightRain u lastTimeLaunch currentTime).map
        (fun b1 => { b1 with mRainCooldown := b1.mRainFireRate })
    else some b
  | PatternType.Spread =>
    if b.mSpreadCooldown ≤ 0 then
      some { b.fireSpreadShot u env with mSpreadCooldown := b.mSpreadFireRate }
    else some b
  | PatternType.Ultimate =>
    if b.mUltimateTimer ≤ 0 then
      (b.dragonBreath u lastTimeLaunch currentTime).map
        (fun b1 =>
          let b2 : Boss :=
            { b1 with
                mUltimateFirePeriodTimer := f32 (b1.mUltimateFirePeriodTimer - deltaTime) }
          if b2.mUltimateFirePeriodTimer ≤ 0 then
            { b2 with mUltimateTimer := b2.mUltimateCooldown
                      mUltimateFirePeriodTimer := b2.mUltimateFirePeriodDefault }
          else b2)
    else some b
  | PatternType.GhostFire =>
    if b.mGhostFireCooldown ≤ 0 then
      some { b.fireLingeringGhostShot u env with mGhostFireCooldown := b.mGhostFireRate }
    else some b
  | PatternType.Slash =>
    if b.mSlashCooldown ≤ 0 then
      (b.slash player u env).map (fun b1 => { b1 with mSlashCooldown := b1.mSlashFireRate })
    else some b

/-- The loop over the pattern list of Boss::update. -/
def firePatterns (b : Boss) (player : Player) (deltaTime : ℚ) (env : MathEnv) (u : Uninit)
    (lastTimeLaunch currentTime : ℕ) : List PatternType → Option Boss
  | [] => some b
  | pattern :: rest =>
    match patternStep b pattern player deltaTime env u lastTimeLaunch currentTime with
    | none => none
    | some b1 => firePatterns b1 player deltaTime env u lastTimeLaunch currentTime rest

/-- Boss::update. In source order: the component pass; return when there is no
transform; the step `mMovement`; the timer block; the position block; the
cooldown decrements; return when the pattern list is empty; the pattern loop;
the update and clean-up of the owned projectiles. `player` is the player that
`mPlayer` points to when it is set. -/
def update (b : Boss) (player : Player) (deltaTime : ℚ) (env : MathEnv) (u : Uninit)
    (d : BossDraws) (lastTimeLaunch currentTime : ℕ) : Option Boss :=
  let b0 : Boss := { b with toGameEntity := b.toGameEntity.updateComponents }
  match b0.transform with
  | none => some b0
  | some ref =>
    let b1 : Boss := { b0 with mMovement := b0.mSpeed * deltaTime }
    let b2 := (b1.changeDirection deltaTime d).moveWithinBounds ref
    let b3 := b2.tickCooldowns deltaTime
    if b3.mPatternList.isEmpty then some b3
    else
      match firePatterns b3 player deltaTime env u lastTimeLaunch currentTime b3.mPatternList with
      | none => none
      | some b4 => some { b4 with toEnemy := b4.toEnemy.updateProjectiles deltaTime }

end Boss

/-- A boss of the first stage: Boss1, initialised, standing at (1495, 50), with
an empty pattern list. -/
def wanderingBoss : Boss :=
  let b := exampleBoss.init
  { b with transform := b.transform.map (fun t => t.move 1495 50) }

/-- Example draws: no direction flip, next direction change after 2 s. -/
def exampleDraws : BossDraws :=
  { flipChance1 := 70, flipChance2 := 70, directionChangeInterval := 2 }

/-- Example values for the library functions (constant functions). -/
def exampleMath : MathEnv :=
  { cosF := fun _ => 0, sinF := fun _ => 1, atan2F := fun _ _ => 0 }

/-- The player as constructed by Scene::initMainCharacter before it is placed. -/
def examplePlayerEntity : Player := (Player.new 400).init

/-! ## Scene -/

/-- The global game state (Application.hpp). -/
inductive GameState where
  | Dialogue
  | Playing
  | Defeat
  | Victory
deriving DecidableEq

/-- The stage a scene plays (Scene.hpp). -/
inductive SceneType where
  | Boss1
  | Boss2
  | Boss3
deriving DecidableEq

/-- The callbacks the program passes to the dialogue manager: none, the switch to
Playing, the end of the scene (`SetSceneStatus(false)`), and `exit(0)`. -/
inductive OnFinish where
  | nothing
  | startPlaying
  | endScene
  | exitProgram
deriving DecidableEq

/-- DialogueManager. `script` is the path given to the last
loadDialogueFromFile; it stands for the lines and the background, which are read
from that file. -/
structure DialogueManager where
  script : String
  mCurrentLineIndex : ℤ
  mIsActive : Bool
  mOnFinish : OnFinish
deriving DecidableEq

/-- DialogueManager::loadDialogueFromFile: the previous script is dropped, the
index reset, the manager activated and the callback stored. -/
def DialogueManager.loadDialogueFromFile (_dm : DialogueManager) (filePath : String)
    (onFinish : OnFinish) : DialogueManager :=
  { script := filePath, mCurrentLineIndex := 0, mIsActive := true, mOnFinish := onFinish }

/-- The global variables and class statics a scene reads and writes:
`currentState`, `dialogueManager`, the statics of Enemy,
`Projectile::lastTimeLaunch` and `TimeManager::lastUpdateTime`. -/
structure Globals where
  currentState : GameState
  dialogueManager : DialogueManager
  enemyShared : EnemyShared
  lastTimeLaunch : ℕ
  lastUpdateTime : ℕ
deriving DecidableEq

/-- Scene: the members of Scene.hpp that carry game state. `mainCharacter` is
`none` while the pointer is null. -/
structure Scene where
  mSceneType : SceneType
  globalProjectiles : List Projectile
  enemies : List Enemy
  mBosses : List Boss
  mainCharacter : Option Player
  playerScore : ℤ
  mSceneIsActive : Bool
  movementThreshold : ℚ
  spawnedPhaseEnemies : Bool
deriving DecidableEq

/-- What one frame takes from outside the scene: the delta time, the clock
(`SDL_GetTicks()`), the library functions, the values of uninitialised members,
the random draws of the i-th boss, and for the i-th enemy a spawn creates its
random fire interval and the uninitialised `lastFireTime`. -/
structure FrameInput where
  deltaTime : ℚ
  currentTime : ℕ
  math : MathEnv
  uninit : Uninit
  bossDraws : ℕ → BossDraws
  spawnFireInterval : ℕ → ℚ
  spawnLastFireTime : ℕ → ℕ

/-- Enemy::onHit: a single hit makes the enemy non-renderable. -/
def Enemy.onHit (e : Enemy) : Enemy := { e with mRenderable := false }

namespace Scene

/-- The end-of-stage script of a stage. -/
def endScript : SceneType → String
  | SceneType.Boss1 => "Assets/SceneDialogue/Scene1End.txt"
  | SceneType.Boss2 => "Assets/SceneDialogue/Scene2End.txt"
  | SceneType.Boss3 => "Assets/SceneDialogue/Scene3End.txt"

/-- The first block of Scene::update: the non-renderable bosses are erased, and
when no boss is left the state becomes Dialogue and the end-of-stage script is
loaded. -/
def stageClear (s : Scene) (g : Globals) : Scene × Globals :=
  let s1 : Scene := { s with mBosses := s.mBosses.filter (fun boss => boss.mRenderable) }
  if s1.mBosses.isEmpty then
    (s1, { g with currentState := GameState.Dialogue
                  dialogueManager := g.dialogueManager.loadDialogueFromFile
                    (endScript s.mSceneType) OnFinish.endScene })
  else (s1, g)

/-- The loop `for (auto& boss : mBosses) boss -> update(deltaTime)`; `index`
counts the bosses for the random draws. -/
def updateBosses (player : Player) (deltaTime : ℚ) (inp : FrameInput) (lastTimeLaunch : ℕ) :
    List Boss → ℕ → Option (List Boss)
  | [], _ => some []
  | boss :: rest, index =>
    match boss.update player deltaTime inp.math inp.uninit (inp.bossDraws index) lastTimeLaunch
        inp.currentTime with
    | none => none
    | some boss1 =>
      match updateBosses player deltaTime inp lastTimeLaunch rest (index + 1) with
      | none => none
      | some rest1 => some (boss1 :: rest1)

/-- The inner loop of the two hit phases: the player projectiles are scanned in
list order, non-renderable ones are skipped, and the first one that collides
with `target` is made non-renderable and ends the scan. The result tells
whether there was a hit and gives the projectile list afterwards. -/
def firstHit (target : GameEntity) : List Projectile → Bool × List Projectile
  | [] => (false, [])
  | projectile :: rest =>
    if !projectile.mRenderable then
      ((firstHit target rest).1, projectile :: (firstHit target rest).2)
    else if target.TestCollision projectile.toGameEntity then
      (true, { projectile with mRenderable := false } :: rest)
    else ((firstHit target rest).1, projectile :: (firstHit target rest).2)

/-- What a boss becomes on a hit in Scene::update: `onHit()` followed by the
test `getHP() < 0`. -/
def bossAfterHit (boss : Boss) : Boss :=
  let b1 := boss.onHit
  if b1.mHP < 0 then { b1 with mRenderable := false } else b1

/-- The boss hit phase of Scene::update: every renderable boss in list order is
tested against the player projectiles; a hit costs the boss a hit point, uses up
the projectile and adds one to the score. -/
def hitBosses : List Boss → List Projectile → ℤ → List Boss × List Projectile × ℤ
  | [], projectiles, score => ([], projectiles, score)
  | boss :: rest, projectiles, score =>
    if !boss.mRenderable then
      (boss :: (hitBosses rest projectiles score).1, (hitBosses rest projectiles score).2)
    else
      let hit := firstHit boss.toGameEntity projectiles
      if hit.1 then
        (bossAfterHit boss :: (hitBosses rest hit.2 (score + 1)).1,
          (hitBosses rest hit.2 (score + 1)).2)
      else (boss :: (hitBosses rest hit.2 score).1, (hitBosses rest hit.2 score).2)

/-- The enemy hit phase of Scene::update, as the boss hit phase with
Enemy::onHit. -/
def hitEnemies : List Enemy → List Projectile → ℤ → List Enemy × List Projectile × ℤ
  | [], projectiles, score => ([], projectiles, score)
  | enemy :: rest, projectiles, score =>
    if !enemy.mRenderable then
      (enemy :: (hitEnemies rest projectiles score).1, (hitEnemies rest projectiles score).2)
    else
      let hit := firstHit enemy.toGameEntity projectiles
      if hit.1 then
        (enemy.onHit :: (hitEnemies rest hit.2 (score + 1)).1,
          (hitEnemies rest hit.2 (score + 1)).2)
      else (enemy :: (hitEnemies rest hit.2 score).1, (hitEnemies rest hit.2 score).2)

/-- The clean-up loop over the enemies: a non-renderable enemy hands its
projectiles to the orphan pool and is erased. The result is the enemies kept and
the pool afterwards. -/
def pruneEnemies : List Enemy → List Projectile → List Enemy × List Projectile
  | [], pool => ([], pool)
  | enemy :: rest, pool =>
    if !enemy.mRenderable then pruneEnemies rest (pool ++ enemy.mProjectiles)
    else (enemy :: (pruneEnemies rest pool).1, (pruneEnemies rest pool).2)

/-- The clean-up loop over the bosses, as the one over the enemies. -/
def pruneBosses : List Boss → List Projectile → List Boss × List Projectile
  | [], pool => ([], pool)
  | boss :: rest, pool =>
    if !boss.mRenderable then pruneBosses rest (pool ++ boss.mProjectiles)
    else (boss :: (pruneBosses rest pool).1, (pruneBosses rest pool).2)

/-- The cells (row i, column j) of the 2x18 grid in the order of the two loops. -/
def gridCells : List (ℕ × ℕ) :=
  (List.range 2).flatMap (fun i => (List.range 18).map (fun j => (i + 1, j + 1)))

/-- The enemy one iteration of Scene::initEnemies builds: constructed with
speed 100, initialised, and moved to (x, y). -/
def spawnEnemy (inp : FrameInput) (enemyIndex : ℕ) (x y : ℚ) : Enemy :=
  let enemy := (Enemy.new 100 (inp.spawnFireInterval enemyIndex)
    (inp.spawnLastFireTime enemyIndex)).init
  { enemy with transform := enemy.transform.map (fun t => t.move x y) }

/-- The double loop of Scene::initEnemies over the remaining cells: the enemies
built, and whether the loop was left by the `return` that fires when
`enemyIndex >= numTxComponents`. -/
def spawnLoop (inp : FrameInput) (numTxComponents : ℤ) (txComponentX txComponentY : ℚ) :
    List (ℕ × ℕ) → ℕ → List Enemy × Bool
  | [], _ => ([], false)
  | cell :: rest, enemyIndex =>
    if (enemyIndex : ℤ) ≥ numTxComponents then ([], true)
    else
      let enemy := spawnEnemy inp enemyIndex ((cell.2 : ℚ) * txComponentX)
        ((cell.1 : ℚ) * txComponentY)
      (enemy :: (spawnLoop inp numTxComponents txComponentX txComponentY rest
          (enemyIndex + 1)).1,
        (spawnLoop inp numTxComponents txComponentX txComponentY rest (enemyIndex + 1)).2)

/-- Scene::initEnemies. The spacings are the integer quotients 1920 / 20 and
1080 / 6. When the loop ends without its `return`, the threshold is reduced by
the width of the first enemy of the scene (whose transform is dereferenced
without a check) and stored in the static of Enemy. -/
def initEnemies (s : Scene) (g : Globals) (numTxComponents : ℤ) (inp : FrameInput) :
    Option (Scene × Globals) :=
  let txComponentX : ℚ := ((1920 / (18 + 2) : ℕ) : ℚ)
  let txComponentY : ℚ := ((1080 / 6 : ℕ) : ℚ)
  let built := spawnLoop inp numTxComponents txComponentX txComponentY gridCells 0
  let s1 : Scene := { s with movementThreshold := txComponentX, enemies := s.enemies ++ built.1 }
  if built.2 then some (s1, g)
  else
    match s1.enemies with
    | [] =>
      some (s1, { g with enemyShared :=
                          { g.enemyShared with movementThreshold := s1.movementThreshold } })
    | first :: _ =>
      match first.transform with
      | none => none
      | some transform =>
        let threshold := s1.movementThreshold - transform.getWidth
        some ({ s1 with movementThreshold := threshold },
              { g with enemyShared := { g.enemyShared with movementThreshold := threshold } })

/-- The phase-2 block of Scene::update: on the Boss3 stage, while the phase
enemies have not been spawned, the first boss of the collection is read (without
a check that there is one) and, when its HP is at most half its maximum
(integer division), the scene state is reset, 36 enemies are created and the
flag is set. -/
def phaseTwo (s : Scene) (g : Globals) (inp : FrameInput) : Option (Scene × Globals) :=
  if s.mSceneType = SceneType.Boss3 ∧ s.spawnedPhaseEnemies = false then
    match s.mBosses with
    | [] => none
    | boss :: _ =>
      if boss.mHP ≤ Int.tdiv boss.mMaxHP 2 then
        let g1 : Globals :=
          { g with lastUpdateTime := inp.currentTime
                   enemyShared := Scene.resetSceneState g.enemyShared }
        match initEnemies s g1 36 inp with
        | none => none
        | some r => some ({ r.1 with spawnedPhaseEnemies := true }, r.2)
      else some (s, g)
  else some (s, g)

/-- The three death scripts. -/
def deathByBosses : String := "Assets/SceneDialogue/Death_byBosses.txt"
def deathByMinion : String := "Assets/SceneDialogue/Death_byMinion.txt"
def deathByLingeringShot : String := "Assets/SceneDialogue/Death_LingeringShot.txt"

/-- The body of the three player-collision tests on a hit: the state becomes
Defeat and the death script is loaded, to end the program when it is over. -/
def defeat (g : Globals) (script : String) : Globals :=
  { g with currentState := GameState.Defeat
           dialogueManager := g.dialogueManager.loadDialogueFromFile script
             OnFinish.exitProgram }

/-- One loop over a collection of projectiles in the player-collision phase;
`test` is the collision test against the player. -/
def checkProjectiles (test : Projectile → Bool) (script : String) (g : Globals)
    (projectiles : List Projectile) : Globals :=
  projectiles.foldl (fun acc p => if p.mRenderable && test p then defeat acc script else acc) g

/-- The player-collision phase of Scene::update: the projectiles of the bosses
(tested as `projectile -> TestCollision(mainCharacter)`), those of the enemies
and those of the orphan pool (tested as `mainCharacter -> TestCollision(projectile)`). -/
def playerCollisions (s : Scene) (player : Player) (g : Globals) : Globals :=
  let g1 := s.mBosses.foldl
    (fun acc boss => checkProjectiles
      (fun p => p.toGameEntity.TestCollision player.toGameEntity) deathByBosses acc
      boss.mProjectiles) g
  let g2 := s.enemies.foldl
    (fun acc enemy => checkProjectiles
      (fun p => player.toGameEntity.TestCollision p.toGameEntity) deathByMinion acc
      enemy.mProjectiles) g1
  checkProjectiles (fun p => player.toGameEntity.TestCollision p.toGameEntity)
    deathByLingeringShot g2 s.globalProjectiles

/-- The delta time of a frame after the clamp to 0.1 s. -/
def clampDeltaTime (deltaTime : ℚ) : ℚ := if deltaTime > 1 / 10 then 1 / 10 else deltaTime

/-- The entity updates of a Playing frame: the player (dereferenced without a
check), the bosses and the enemies. -/
def updateEntities (s : Scene) (g : Globals) (inp : FrameInput) : Option (Scene × Globals) :=
  let deltaTime := clampDeltaTime inp.deltaTime
  match s.mainCharacter with
  | none => none
  | some player =>
    let player1 := player.update deltaTime
    match updateBosses player1 deltaTime inp g.lastTimeLaunch s.mBosses 0 with
    | none => none
    | some bosses1 =>
      match updateEnemies s.enemies g.enemyShared g.lastTimeLaunch inp.currentTime deltaTime
          inp.uninit with
      | none => none
      | some r =>
        some ({ s with mainCharacter := some player1, mBosses := bosses1, enemies := r.1 },
              { g with enemyShared := r.2 })

/-- The hit phases of a Playing frame on the updated entities: the boss hit
phase, the movement calculations of the formation, the enemy hit phase. -/
def resolveHits (s : Scene) (g : Globals) (inp : FrameInput) : Option (Scene × Globals) :=
  match s.mainCharacter with
  | none => none
  | some player =>
    let bossPhase := hitBosses s.mBosses player.mProjectiles s.playerScore
    let g1 : Globals :=
      { g with enemyShared := advanceFormation g.enemyShared (clampDeltaTime inp.deltaTime) }
    let enemyPhase := hitEnemies s.enemies bossPhase.2.1 bossPhase.2.2
    some ({ s with mainCharacter := some { player with mProjectiles := enemyPhase.2.1 }
                   mBosses := bossPhase.1
                   enemies := enemyPhase.1
                   playerScore := enemyPhase.2.2 }, g1)

/-- The two clean-up loops of a Playing frame, enemies first. -/
def pruneDead (s : Scene) : Scene :=
  let enemyPass := pruneEnemies s.enemies s.globalProjectiles
  let bossPass := pruneBosses s.mBosses enemyPass.2
  { s with enemies := enemyPass.1, mBosses := bossPass.1, globalProjectiles := bossPass.2 }

/-- A Playing frame up to and including the phase-2 block. -/
def frameUntilSpawn (s : Scene) (g : Globals) (inp : FrameInput) : Option (Scene × Globals) :=
  match updateEntities s g inp with
  | none => none
  | some r1 =>
    match resolveHits r1.1 r1.2 inp with
    | none => none
    | some r2 => phaseTwo (pruneDead r2.1) r2.2 inp

/-- The end of a Playing frame: the player-collision phase, then the update and
clean-up of the orphan pool. -/
def finishFrame (s : Scene) (g : Globals) (inp : FrameInput) : Option (Scene × Globals) :=
  match s.mainCharacter with
  | none => none
  | some player =>
    let g1 := playerCollisions s player g
    let updated := s.globalProjectiles.map (fun p => p.update (clampDeltaTime inp.deltaTime))
    some ({ s with globalProjectiles := updated.filter (fun p => p.mRenderable) }, g1)

/-- Scene::update: the stage-clear block; return unless the state is Playing;
then the Playing frame. -/
def update (s : Scene) (g : Globals) (inp : FrameInput) : Option (Scene × Globals) :=
  let cleared := stageClear s g
  if cleared.2.currentState ≠ GameState.Playing then some cleared
  else
    match frameUntilSpawn cleared.1 cleared.2 inp with
    | none => none
    | some r => finishFrame r.1 r.2 inp

end Scene

/-! ## Example scenes -/

/-- Globals of a running battle: state Playing, no script loaded, the formation
at rest with threshold 26. -/
def exampleGlobals : Globals :=
  { currentState := GameState.Playing
    dialogueManager := { script := "", mCurrentLineIndex := 0, mIsActive := false,
                         mOnFinish := OnFinish.nothing }
    enemyShared := { totalEnemyMovement := 0, enemyMovingRight := true,
                     movementThreshold := 26, movement := 0 }
    lastTimeLaunch := 0
    lastUpdateTime := 0 }

/-- A frame of 16 ms at clock 1000. -/
def exampleInput : FrameInput :=
  { deltaTime := 2 / 125
    currentTime := 1000
    math := exampleMath
    uninit := exampleUninit
    bossDraws := fun _ => exampleDraws
    spawnFireInterval := fun _ => 3000
    spawnLastFireTime := fun _ => 0 }

/-- A Boss1 stage whose only boss is dead while one enemy of the formation is
still alive. -/
def clearedScene : Scene :=
  { mSceneType := SceneType.Boss1
    globalProjectiles := [rainProjectile]
    enemies := [formationEnemy]
    mBosses := [{ exampleBoss with mRenderable := false }]
    mainCharacter := some examplePlayerEntity
    playerScore := 7
    mSceneIsActive := true
    movementThreshold := 26
    spawnedPhaseEnemies := false }

/-- A player arrow in flight whose hitbox is the given rectangle. -/
def arrowAt (x y : ℚ) : Projectile :=
  { playerArrow with
      mIsFiring := true, mRenderable := true
      transform := some { mRectangle := { x := x, y := y, w := 15, h := 40 },
                          mRotation := 0, isPlayer := false }
      hitbox := some { mRectangle := { x := x, y := y, w := 15, h := 40 },
                       mWidthModifier := 1, mHeightModifier := 1 } }

/-- A boss of 10 hit points at (1495, 50) with its hitbox in place. -/
def duelBoss : Boss :=
  { wanderingBoss with
      hitbox := some { mRectangle := { x := 1495, y := 50, w := 300, h := 300 },
                       mWidthModifier := 1, mHeightModifier := 1 } }

/-- A Boss2 stage in which two arrows of the player overlap the only boss, and a
third one is far from it. -/
def duelScene : Scene :=
  { mSceneType := SceneType.Boss2
    globalProjectiles := []
    enemies := []
    mBosses := [duelBoss]
    mainCharacter := some { examplePlayerEntity with
      mProjectiles := [arrowAt 100 700, arrowAt 1600 100, arrowAt 1610 120] }
    playerScore := 0
    mSceneIsActive := true
    movementThreshold := 26
    spawnedPhaseEnemies := false }

/-- An orphaned projectile at (60, 80), over the spot (40, 40) where the player
stands before it is placed. -/
def lingeringShot : Projectile :=
  { rainProjectile with
      transform := some { mRectangle := { x := 60, y := 80, w := 60, h := 60 },
                          mRotation := 180, isPlayer := false }
      hitbox := some { mRectangle := { x := 72, y := 92, w := 36, h := 36 },
                       mWidthModifier := f32 (3 / 5), mHeightModifier := f32 (3 / 5) } }

/-- A Boss2 stage in which an orphaned projectile overlaps the player while the
boss and the enemy hold no projectile. -/
def ambushScene : Scene :=
  { mSceneType := SceneType.Boss2
    globalProjectiles := [lingeringShot]
    enemies := [formationEnemy]
    mBosses := [duelBoss]
    mainCharacter := some examplePlayerEntity
    playerScore := 0
    mSceneIsActive := true
    movementThreshold := 26
    spawnedPhaseEnemies := false }

/-- The boss of the third stage at half its hit points: 5 of 10. -/
def phaseBoss : Boss := { duelBoss with mHP := 5, mMaxHP := 10, mID := BossID.Boss3 }

/-- The third stage with its boss at half its hit points, no enemy, no
projectile in flight, and the phase-2 enemies not yet spawned. -/
def phaseScene : Scene :=
  { mSceneType := SceneType.Boss3
    globalProjectiles := []
    enemies := []
    mBosses := [phaseBoss]
    mainCharacter := some examplePlayerEntity
    playerScore := 5
    mSceneIsActive := true
    movementThreshold := 26
    spawnedPhaseEnemies := false }

/-! ## Examples for the per-frame updates -/

/-- The formation statics in mid-sweep: moving right, threshold 26, a step of
1.6 pixels (100 pixels per second over 16 ms). -/
def marchingShared : EnemyShared :=
  { totalEnemyMovement := 0, enemyMovingRight := true, movementThreshold := 26,
    movement := 8 / 5 }

/-- The boss of the third stage as loaded with `HP: 3`: 3 of 3 hit points. -/
def freshBoss : Boss := { duelBoss with mHP := 3, mMaxHP := 3, mID := BossID.Boss3 }

/-- The third stage at its start, with two arrows of the player overlapping the
boss: no enemy, no orphaned projectile, the phase-2 enemies not yet spawned. -/
def finalStageStart : Scene :=
  { mSceneType := SceneType.Boss3
    globalProjectiles := []
    enemies := []
    mBosses := [freshBoss]
    mainCharacter := some { examplePlayerEntity with
      mProjectiles := [arrowAt 100 700, arrowAt 1600 100, arrowAt 1610 120] }
    playerScore := 0
    mSceneIsActive := true
    movementThreshold := 26
    spawnedPhaseEnemies := false }

/-! ## Examples for the Ultimate pattern -/

/-- A boss as the constructor and `init` leave it (ultimate timer 10 s, burst
timer 5 s, cooldown 15 s, ultimate width 24, 300 wide), standing at (1495, 50),
after the configuration line `PatternList: Ultimate`. -/
def breathBoss : Boss := { duelBoss with mPatternList := [PatternType.Ultimate] }

/-- A projectile of an enemy in flight: 8x26, rotated by 180 degrees, moving
downward at 350 pixels per second, at (300, 300). -/
def minionShot : Projectile :=
  { rainProjectile with
      isBossProjectile := false
      mYDirectionUp := false
      transform := some { mRectangle := { x := 300, y := 300, w := 8, h := 26 },
                          mRotation := 180, isPlayer := false }
      hitbox := some { mRectangle := { x := 300, y := 300, w := 8, h := 26 },
                       mWidthModifier := 1, mHeightModifier := 1 } }

/-- A projectile of the same kind at (500, 300), orphaned in an earlier frame. -/
def strayShot : Projectile :=
  { minionShot with
      transform := some { mRectangle := { x := 500, y := 300, w := 8, h := 26 },
                          mRotation := 180, isPlayer := false }
      hitbox := some { mRectangle := { x := 500, y := 300, w := 8, h := 26 },
                       mWidthModifier := 1, mHeightModifier := 1 } }

/-- The first enemy of the grid, at (96, 180), holding the projectile `minionShot`. -/
def armedEnemy : Enemy := { formationEnemy with mProjectiles := [minionShot] }

/-- A Boss2 stage: the boss alive, one orphaned projectile in the pool, one enemy
that holds a projectile in flight, and an arrow of the player at (120, 220),
16 pixels (one frame of 16 ms at 1000 pixels per second) below a position inside
the hitbox of that enemy. -/
def raidScene : Scene :=
  { mSceneType := SceneType.Boss2
    globalProjectiles := [strayShot]
    enemies := [armedEnemy]
    mBosses := [duelBoss]
    mainCharacter := some { examplePlayerEntity with mProjectiles := [arrowAt 120 220] }
    playerScore := 0
    mSceneIsActive := true
    movementThreshold := 26
    spawnedPhaseEnemies := false }

/-! ## Vocabulary for the gating of the Ultimate pattern -/

/-- The update from `b` to `b1` with delta time `dt` spawned no ultimate
projectile: the ultimate projectiles of `b1` are those of `b`, updated and
pruned. -/
def Boss.noUltimateSpawned (b b1 : Boss) (dt : ℚ) : Prop :=
  b1.mProjectiles.filter (fun p => p.isUltimateProjectile) =
    ((b.mProjectiles.filter (fun p => p.isUltimateProjectile)).map
      (fun q => q.update dt)).filter (fun q => q.mRenderable)

/-- The update from `b` to `b1` with delta time `dt` spawned one row of `count`
ultimate projectiles: the ultimate projectiles of `b1` are those of `b` and the
row, updated and pruned. -/
def Boss.rowSpawned (b b1 : Boss) (dt : ℚ) (count : ℕ) : Prop :=
  ∃ row : List Projectile,
    (∀ p ∈ row, p.isUltimateProjectile = true) ∧ row.length = count ∧
    b1.mProjectiles.filter (fun p => p.isUltimateProjectile) =
      (((b.mProjectiles.filter (fun p => p.isUltimateProjectile)) ++ row).map
        (fun q => q.update dt)).filter (fun q => q.mRenderable)

/-! ## Vocabulary and example for the hitbox placement -/

/-- The hitbox `c` fits the transform `t`: it is no wider and no taller, and its
centre is the centre of the transform up to the rounding of the `float`
operations that place it, at most `(|x| + w) / 2^23` on the X axis and
`(|y| + h) / 2^23` on the Y axis. -/
def hitboxFits (c : Collision2DComponent) (t : TransformComponent) : Prop :=
  c.mRectangle.w ≤ t.getWidth ∧ c.mRectangle.h ≤ t.getHeight ∧
  |c.mRectangle.x + c.mRectangle.w / 2 - (t.getX + t.getWidth / 2)| ≤
    (|t.getX| + t.getWidth) / 2 ^ 23 ∧
  |c.mRectangle.y + c.mRectangle.h / 2 - (t.getY + t.getHeight / 2)| ≤
    (|t.getY| + t.getHeight) / 2 ^ 23

/-- A projectile of the spread pattern (speed 200, 100x100, hitbox modifiers
0.6f), launched from (1645, 200) and flying straight down. -/
def spreadShot : Projectile :=
  Boss.angledShot exampleUninit exampleMath 200 100 1645 200 0

/-- A transform and a hitbox as the program builds them: both modifiers are
among those the program sets, and the size of the transform is non-negative and
made of `float` values. -/
def programBuilt (t : TransformComponent) (c : Collision2DComponent) : Prop :=
  programModifier c.mWidthModifier ∧ programModifier c.mHeightModifier ∧
  0 ≤ t.getWidth ∧ 0 ≤ t.getHeight ∧
  f32 t.getWidth = t.getWidth ∧ f32 t.getHeight = t.getHeight

/-! ## Vocabulary and example for the hit phases -/

/-- The list `after` is the list `before` with its first renderable projectile
that collides with `target`, in list order, made non-renderable. -/
def Scene.usesFirstMatch (target : GameEntity) (before after : List Projectile) : Prop :=
  ∃ front p back, before = front ++ p :: back ∧
    (∀ q ∈ front, ¬ (q.mRenderable = true ∧ target.TestCollision q.toGameEntity = true)) ∧
    p.mRenderable = true ∧ target.TestCollision p.toGameEntity = true ∧
    after = front ++ { p with mRenderable := false } :: back

/-- An enemy whose hitbox, the 70x70 rectangle at (1590, 90), overlaps the
second and the third arrow of the duel scene. -/
def sentryEnemy : Enemy :=
  { formationEnemy with
      hitbox := some { mRectangle := { x := 1590, y := 90, w := 70, h := 70 },
                       mWidthModifier := 1, mHeightModifier := 1 } }

/-- The duel scene with the sentry enemy added: the second arrow overlaps the
boss and the enemy, the third arrow overlaps both as well, the first neither. -/
def skirmishScene : Scene := { duelScene with enemies := [sentryEnemy] }

/-! # Theorems -/

/-! ## Binary floating-point rounding -/

theorem roundHalfEven_err (q : ℚ) : |(roundHalfEven q : ℚ) - q| ≤ 1 / 2 := by
  have h1 : (⌊q⌋ : ℚ) ≤ q := Int.floor_le q
  have h2 : q < (⌊q⌋ : ℚ) + 1 := Int.lt_floor_add_one q
  unfold roundHalfEven
  split_ifs with a b c
  · rw [abs_le]; constructor <;> linarith
  · push_cast; rw [abs_le]; constructor <;> linarith
  · rw [abs_le]; constructor <;> linarith
  · push_cast; rw [abs_le]; constructor <;> linarith

theorem roundHalfEven_eq (q : ℚ) (n : ℤ) (h : |q - n| < 1 / 2) : roundHalfEven q = n := by
  have h1 := roundHalfEven_err q
  rw [abs_lt] at h
  rw [abs_le] at h1
  have : |((roundHalfEven q : ℤ) : ℚ) - (n : ℚ)| < 1 := by
    rw [abs_lt]; constructor <;> linarith
  have h3 : |(roundHalfEven q - n : ℤ)| < 1 := by
    have : ((|(roundHalfEven q - n : ℤ)| : ℤ) : ℚ) < 1 := by
      push_cast
      exact this
    exact_mod_cast this
  have := Int.abs_lt_one_iff.mp h3
  omega

theorem roundHalfEven_intCast (n : ℤ) : roundHalfEven (n : ℚ) = n :=
  roundHalfEven_eq _ n (by simp)

/-- The relative error of the rounding is at most `2 ^ (-prec)`. -/
theorem roundBits_err (prec : ℕ) (q : ℚ) : |roundBits prec q - q| ≤ |q| / 2 ^ prec := by
  unfold roundBits
  split_ifs with h0
  · subst h0; simp
  · have hpos : 0 < |q| := abs_pos.mpr h0
    have hlog : (2 : ℚ) ^ Int.log 2 |q| ≤ |q| := by
      have := Int.zpow_log_le_self (b := 2) (by norm_num) hpos
      simpa using this
    simp only []
    set Q : ℚ := 2 ^ (Int.log 2 |q| - ((prec : ℤ) - 1)) with hQ
    have hQpos : 0 < Q := by rw [hQ]; positivity
    have herr := roundHalfEven_err (q / Q)
    have hmul : |(roundHalfEven (q / Q) : ℚ) * Q - q| =
        |(roundHalfEven (q / Q) : ℚ) - q / Q| * Q := by
      rw [← abs_of_pos hQpos, ← abs_mul, abs_of_pos hQpos]
      congr 1
      field_simp
    rw [hmul]
    have hQval : Q / 2 = 2 ^ Int.log 2 |q| / 2 ^ prec := by
      rw [hQ, zpow_sub₀ (by norm_num), zpow_sub₀ (by norm_num), zpow_natCast]
      field_simp
      ring
    calc |(roundHalfEven (q / Q) : ℚ) - q / Q| * Q ≤ 1 / 2 * Q :=
          mul_le_mul_of_nonneg_right herr hQpos.le
      _ = Q / 2 := by ring
      _ = 2 ^ Int.log 2 |q| / 2 ^ prec := hQval
      _ ≤ |q| / 2 ^ prec := by
          apply div_le_div_of_nonneg_right hlog
          positivity

theorem roundBits_zero (prec : ℕ) : roundBits prec 0 = 0 := by
  simp [roundBits]

/-- With at least one significant bit the rounding keeps the sign. -/
theorem roundBits_pos (prec : ℕ) (hp : 1 ≤ prec) (q : ℚ) (hq : 0 < q) : 0 < roundBits prec q := by
  have h := roundBits_err prec q
  rw [abs_of_pos hq, abs_le] at h
  have h2 : (2 : ℚ) ≤ 2 ^ prec := by
    calc (2 : ℚ) = 2 ^ 1 := by norm_num
      _ ≤ 2 ^ prec := pow_le_pow_right₀ (by norm_num) hp
  have h3 : q / 2 ^ prec ≤ q / 2 := by
    apply div_le_div_of_nonneg_left hq.le (by norm_num) h2
  linarith [h.1]

theorem roundBits_neg (prec : ℕ) (hp : 1 ≤ prec) (q : ℚ) (hq : q < 0) : roundBits prec q < 0 := by
  have h := roundBits_err prec q
  rw [abs_of_neg hq, abs_le] at h
  have h2 : (2 : ℚ) ≤ 2 ^ prec := by
    calc (2 : ℚ) = 2 ^ 1 := by norm_num
      _ ≤ 2 ^ prec := pow_le_pow_right₀ (by norm_num) hp
  have h3 : -q / 2 ^ prec ≤ -q / 2 := by
    apply div_le_div_of_nonneg_left (by linarith) (by norm_num) h2
  linarith [h.2]

theorem roundBits_nonpos_iff (prec : ℕ) (hp : 1 ≤ prec) (q : ℚ) :
    roundBits prec q ≤ 0 ↔ q ≤ 0 := by
  constructor
  · intro h
    by_contra hq
    exact absurd h (not_le.mpr (roundBits_pos prec hp q (not_le.mp hq)))
  · intro h
    rcases h.lt_or_eq with h | h
    · exact (roundBits_neg prec hp q h).le
    · rw [h, roundBits_zero]

/-- The rounding evaluated in a known binade. -/
theorem roundBits_of_bounds (prec : ℕ) (q : ℚ) (e : ℤ) (h1 : (2 : ℚ) ^ e ≤ |q|)
    (h2 : |q| < (2 : ℚ) ^ (e + 1)) :
    roundBits prec q =
      (roundHalfEven (q / 2 ^ (e - ((prec : ℤ) - 1))) : ℚ) * 2 ^ (e - ((prec : ℤ) - 1)) := by
  have hpos : 0 < |q| := lt_of_lt_of_le (by positivity) h1
  have hq : q ≠ 0 := abs_pos.mp hpos
  have hlog : Int.log 2 |q| = e := by
    have a : e ≤ Int.log 2 |q| :=
      (Int.zpow_le_iff_le_log (b := 2) (by norm_num) hpos).mp (by simpa using h1)
    have b : Int.log 2 |q| < e + 1 :=
      (Int.lt_zpow_iff_log_lt (b := 2) (by norm_num) hpos).mp (by simpa using h2)
    omega
  unfold roundBits
  rw [if_neg hq, hlog]

/-- A number `m * 2 ^ k` with `|m| < 2 ^ prec` is stored exactly. -/
theorem roundBits_exact (prec : ℕ) (m k : ℤ) (hm : |m| < 2 ^ prec) :
    roundBits prec ((m : ℚ) * 2 ^ k) = (m : ℚ) * 2 ^ k := by
  by_cases h0 : m = 0
  · subst h0; simp [roundBits]
  · have h2k : (0 : ℚ) < 2 ^ k := by positivity
    have hq : (m : ℚ) * 2 ^ k ≠ 0 := mul_ne_zero (by exact_mod_cast h0) h2k.ne'
    have hpos : 0 < |(m : ℚ) * 2 ^ k| := abs_pos.mpr hq
    -- the exponent of the binade is below prec + k
    have hlt : |(m : ℚ) * 2 ^ k| < (2 : ℚ) ^ ((prec : ℤ) + k) := by
      rw [abs_mul, abs_of_pos h2k, zpow_add₀ (by norm_num), zpow_natCast]
      apply mul_lt_mul_of_pos_right _ h2k
      have : ((|m| : ℤ) : ℚ) < ((2 ^ prec : ℤ) : ℚ) := by exact_mod_cast hm
      simpa using this
    have hlog : Int.log 2 |(m : ℚ) * 2 ^ k| < (prec : ℤ) + k :=
      (Int.lt_zpow_iff_log_lt (b := 2) (by norm_num) hpos).mp (by simpa using hlt)
    unfold roundBits
    rw [if_neg hq]
    simp only []
    obtain ⟨d, hd⟩ : ∃ d : ℕ, k - (Int.log 2 |(m : ℚ) * 2 ^ k| - ((prec : ℤ) - 1)) = d :=
      ⟨(k - (Int.log 2 |(m : ℚ) * 2 ^ k| - ((prec : ℤ) - 1))).toNat, by
        rw [Int.toNat_of_nonneg]; omega⟩
    have hdiv : (m : ℚ) * 2 ^ k / 2 ^ (Int.log 2 |(m : ℚ) * 2 ^ k| - ((prec : ℤ) - 1)) =
        ((m * 2 ^ d : ℤ) : ℚ) := by
      rw [mul_div_assoc, ← zpow_sub₀ (by norm_num), hd]
      push_cast
      rw [zpow_natCast]
    rw [hdiv, roundHalfEven_intCast, ← hdiv]
    field_simp

theorem f32_intCast (z : ℤ) (h : |z| < 16777216) : f32 (z : ℚ) = z := by
  have := roundBits_exact 24 z 0 (by norm_num; exact h)
  simpa [f32] using this

theorem f32_natCast (n : ℕ) (h : n < 16777216) : f32 (n : ℚ) = n := by
  have := f32_intCast (n : ℤ) (by rw [abs_of_nonneg (by positivity)]; exact_mod_cast h)
  simpa using this

theorem f32_ofNat (n : ℕ) [n.AtLeastTwo] (h : n < 16777216) :
    f32 (no_index (OfNat.ofNat n) : ℚ) = OfNat.ofNat n := by
  have := f32_natCast n h
  rwa [← Nat.cast_ofNat (R := ℚ)]

theorem f32_zero : f32 0 = 0 := roundBits_zero 24

theorem f32_one : f32 1 = 1 := by
  have := f32_natCast 1 (by norm_num)
  simpa using this

theorem f32_pos_iff (q : ℚ) : 0 < f32 q ↔ 0 < q := by
  rw [← not_le, ← not_le]
  exact not_congr (roundBits_nonpos_iff 24 (by norm_num) q)

theorem f32_err (q : ℚ) : |f32 q - q| ≤ |q| / 2 ^ 24 := roundBits_err 24 q

/-- Evaluation of a rounding: when `2 ^ e ≤ |q| < 2 ^ (e + 1)` and `q` is less
than half a spacing away from `n` spacings, the rounded value is `n` spacings. -/
theorem roundBits_eval (prec : ℕ) (q : ℚ) (e n : ℤ) (h1 : (2 : ℚ) ^ e ≤ |q|)
    (h2 : |q| < (2 : ℚ) ^ (e + 1))
    (h3 : |q / 2 ^ (e - ((prec : ℤ) - 1)) - n| < 1 / 2) :
    roundBits prec q = (n : ℚ) * 2 ^ (e - ((prec : ℤ) - 1)) := by
  rw [roundBits_of_bounds prec q e h1 h2, roundHalfEven_eq _ n h3]

theorem f32_nonneg (q : ℚ) (hq : 0 ≤ q) : 0 ≤ f32 q := by
  rcases hq.eq_or_lt with h | h
  · rw [← h, f32_zero]
  · exact ((f32_pos_iff q).mpr h).le

/-- The `float` nearest to 0.6. -/
theorem f32_three_fifths : f32 (3 / 5) = 10066330 / 16777216 := by
  have h := roundBits_eval 24 (3 / 5) (-1) 10066330
    (by norm_num [abs_of_pos]) (by norm_num [abs_of_pos])
    (by norm_num [abs_lt])
  rw [f32, h]
  norm_num

/-! ## Collision test -/

/-- C1: TestCollision is symmetric for every pair of entities, with any hitbox
rectangles and also when a hitbox is missing on either side. -/
theorem TestCollision_symmetric (A B : GameEntity) :
    A.TestCollision B = B.TestCollision A := by
  unfold GameEntity.TestCollision
  cases hA : A.hitbox <;> cases hB : B.hitbox <;> simp only []
  rw [Bool.eq_iff_iff]
  simp only [Collision2DComponent.getRectangle, Bool.not_eq_true', Bool.or_eq_false_iff,
    decide_eq_false_iff_not]
  tauto

/-- C2: for two entities that both have a hitbox, TestCollision is true exactly
when the rectangles strictly overlap on both axes; for rectangles of positive
width and height that is the existence of a point strictly inside both;
rectangles that only touch along an edge or at a corner do not collide; and
the result is false when either entity has no hitbox. -/
theorem TestCollision_iff_strict_overlap (A B : GameEntity) :
    (∀ a b : Collision2DComponent, A.hitbox = some a → B.hitbox = some b →
      (A.TestCollision B = true ↔
        (a.mRectangle.x < b.mRectangle.x + b.mRectangle.w ∧
         b.mRectangle.x < a.mRectangle.x + a.mRectangle.w ∧
         a.mRectangle.y < b.mRectangle.y + b.mRectangle.h ∧
         b.mRectangle.y < a.mRectangle.y + a.mRectangle.h)) ∧
      (0 < a.mRectangle.w → 0 < a.mRectangle.h → 0 < b.mRectangle.w → 0 < b.mRectangle.h →
        (A.TestCollision B = true ↔
          ∃ px py : ℚ, a.mRectangle.strictlyInside px py ∧ b.mRectangle.strictlyInside px py)) ∧
      (a.mRectangle.x + a.mRectangle.w = b.mRectangle.x ∨
       b.mRectangle.x + b.mRectangle.w = a.mRectangle.x ∨
       a.mRectangle.y + a.mRectangle.h = b.mRectangle.y ∨
       b.mRectangle.y + b.mRectangle.h = a.mRectangle.y → A.TestCollision B = false)) ∧
    (A.hitbox = none ∨ B.hitbox = none → A.TestCollision B = false) := by
  constructor
  · intro a b hA hB
    have key : A.TestCollision B = true ↔
        (a.mRectangle.x < b.mRectangle.x + b.mRectangle.w ∧
         b.mRectangle.x < a.mRectangle.x + a.mRectangle.w ∧
         a.mRectangle.y < b.mRectangle.y + b.mRectangle.h ∧
         b.mRectangle.y < a.mRectangle.y + a.mRectangle.h) := by
      unfold GameEntity.TestCollision
      rw [hA, hB]
      simp only [Collision2DComponent.getRectangle, Bool.not_eq_true', Bool.or_eq_false_iff,
        decide_eq_false_iff_not, not_le]
      tauto
    refine ⟨key, ?_, ?_⟩
    · intro haw hah hbw hbh
      rw [key]
      constructor
      · rintro ⟨h1, h2, h3, h4⟩
        refine ⟨(max a.mRectangle.x b.mRectangle.x +
                  min (a.mRectangle.x + a.mRectangle.w) (b.mRectangle.x + b.mRectangle.w)) / 2,
                (max a.mRectangle.y b.mRectangle.y +
                  min (a.mRectangle.y + a.mRectangle.h) (b.mRectangle.y + b.mRectangle.h)) / 2,
                ?_, ?_⟩
        · unfold SDL_FRect.strictlyInside
          have hx : max a.mRectangle.x b.mRectangle.x <
              min (a.mRectangle.x + a.mRectangle.w) (b.mRectangle.x + b.mRectangle.w) := by
            rw [max_lt_iff, lt_min_iff, lt_min_iff]
            exact ⟨⟨by linarith, h1⟩, ⟨h2, by linarith⟩⟩
          have hy : max a.mRectangle.y b.mRectangle.y <
              min (a.mRectangle.y + a.mRectangle.h) (b.mRectangle.y + b.mRectangle.h) := by
            rw [max_lt_iff, lt_min_iff, lt_min_iff]
            exact ⟨⟨by linarith, h3⟩, ⟨h4, by linarith⟩⟩
          have e1 := le_max_left a.mRectangle.x b.mRectangle.x
          have e2 := min_le_left (a.mRectangle.x + a.mRectangle.w) (b.mRectangle.x + b.mRectangle.w)
          have e3 := le_max_left a.mRectangle.y b.mRectangle.y
          have e4 := min_le_left (a.mRectangle.y + a.mRectangle.h) (b.mRectangle.y + b.mRectangle.h)
          refine ⟨by linarith, by linarith, by linarith, by linarith⟩
        · unfold SDL_FRect.strictlyInside
          have hx : max a.mRectangle.x b.mRectangle.x <
              min (a.mRectangle.x + a.mRectangle.w) (b.mRectangle.x + b.mRectangle.w) := by
            rw [max_lt_iff, lt_min_iff, lt_min_iff]
            exact ⟨⟨by linarith, h1⟩, ⟨h2, by linarith⟩⟩
          have hy : max a.mRectangle.y b.mRectangle.y <
              min (a.mRectangle.y + a.mRectangle.h) (b.mRectangle.y + b.mRectangle.h) := by
            rw [max_lt_iff, lt_min_iff, lt_min_iff]
            exact ⟨⟨by linarith, h3⟩, ⟨h4, by linarith⟩⟩
          have e1 := le_max_right a.mRectangle.x b.mRectangle.x
          have e2 := min_le_right (a.mRectangle.x + a.mRectangle.w) (b.mRectangle.x + b.mRectangle.w)
          have e3 := le_max_right a.mRectangle.y b.mRectangle.y
          have e4 := min_le_right (a.mRectangle.y + a.mRectangle.h) (b.mRectangle.y + b.mRectangle.h)
          refine ⟨by linarith, by linarith, by linarith, by linarith⟩
      · rintro ⟨px, py, ⟨a1, a2, a3, a4⟩, ⟨b1, b2, b3, b4⟩⟩
        exact ⟨by linarith, by linarith, by linarith, by linarith⟩
    · intro htouch
      rw [← Bool.not_eq_true, key]
      rintro ⟨h1, h2, h3, h4⟩
      rcases htouch with h | h | h | h <;> linarith
  · intro hnone
    unfold GameEntity.TestCollision
    rcases hnone with h | h
    · rw [h]
    · rw [h]
      cases A.hitbox <;> rfl

/-- Witness of C2: the two example hitboxes overlap, so the entities collide. -/
theorem TestCollision_iff_strict_overlap_witness :
    exampleBoxA.TestCollision exampleBoxB = true :=
  (((TestCollision_iff_strict_overlap exampleBoxA exampleBoxB).1
      { mRectangle := { x := 0, y := 0, w := 10, h := 10 },
        mWidthModifier := 1, mHeightModifier := 1 }
      { mRectangle := { x := 5, y := 5, w := 10, h := 10 },
        mWidthModifier := 1, mHeightModifier := 1 } rfl rfl).2.1
    (by norm_num) (by norm_num) (by norm_num) (by norm_num)).2
    ⟨7, 7, by unfold SDL_FRect.strictlyInside; norm_num,
           by unfold SDL_FRect.strictlyInside; norm_num⟩

/-! ## Launch gate and placement -/

/-- With a monotone clock below `2^64` the wrapped difference is the difference. -/
theorem uint64Sub_eq (a b : ℕ) (hba : b ≤ a) (ha : a < 2 ^ 64) : uint64Sub a b = a - b := by
  unfold uint64Sub
  omega

theorem uint64Sub_cast (a b : ℕ) (hba : b ≤ a) (ha : a < 2 ^ 64) :
    ((uint64Sub a b : ℕ) : ℚ) = (a : ℚ) - (b : ℚ) := by
  rw [uint64Sub_eq a b hba ha, Nat.cast_sub hba]

/-- Launch of a player-owned projectile that has a transform: it fires exactly
when the gate is open, and then stores the current time in the static. -/
theorem Launch_player (p : Projectile) (ref : TransformComponent) (L t : ℕ) (x y : ℚ)
    (d : Bool) (m : ℚ) (hp : p.isPlayerProjectile = true) (htr : p.transform = some ref)
    (hLt : L ≤ t) (ht : t < 2 ^ 64) :
    ∃ r : LaunchResult, p.Launch L t x y d m = some r ∧
      (r.fired = true ↔ m ≤ (t : ℚ) - (L : ℚ)) ∧
      (r.fired = true → r.lastTimeLaunch = t) ∧
      (r.fired = false → r.lastTimeLaunch = L) ∧
      r.projectile.isPlayerProjectile = true ∧
      r.projectile.transform ≠ none := by
  by_cases hg : m ≤ (t : ℚ) - (L : ℚ)
  · have h : p.Launch L t x y d m = some
        { fired := true
          projectile := { p with mIsFiring := true, mRenderable := true, mYDirectionUp := d,
                                 transform := some ((((ref.setWidth 15).setHeight 40)).move
                                   (x + ((p.ownerWidth / 2) - (((ref.setWidth 15).setHeight 40).getWidth / 2)))
                                   (y - 10)) }
          lastTimeLaunch := t } := by
      unfold Projectile.Launch
      rw [if_pos ⟨hp, by rw [uint64Sub_cast t L hLt ht]; exact hg⟩, htr]
    exact ⟨_, h, by simp [hg, hp]⟩
  · have h : p.Launch L t x y d m = some { fired := false, projectile := p, lastTimeLaunch := L } := by
      unfold Projectile.Launch
      rw [if_neg (by rw [uint64Sub_cast t L hLt ht]; exact fun h => hg h.2)]
      simp only [hp, Bool.not_true, Bool.false_and, Bool.false_eq_true, if_false]
    exact ⟨_, h, by simp [hg, hp, htr]⟩

/-- C4 (as stated, refuted): with the static at its initial value 0 and the
default interval 1000, two player launches at times 100 and 200 are less than
the interval apart and neither succeeds; and at times 100 and 1200, at least
the interval apart, the first still fails. -/
theorem player_launch_gate_counterexample :
    ((200 : ℚ) - 100 < defaultMinLaunchTime ∧
      playerArrow.Launch 0 100 500 900 true defaultMinLaunchTime =
        some { fired := false, projectile := playerArrow, lastTimeLaunch := 0 } ∧
      playerArrow.Launch 0 200 500 900 true defaultMinLaunchTime =
        some { fired := false, projectile := playerArrow, lastTimeLaunch := 0 }) ∧
    ((1200 : ℚ) - 100 ≥ defaultMinLaunchTime ∧
      playerArrow.Launch 0 100 500 900 true defaultMinLaunchTime =
        some { fired := false, projectile := playerArrow, lastTimeLaunch := 0 }) := by
  refine ⟨⟨by norm_num [defaultMinLaunchTime], by decide, by decide⟩,
    ⟨by norm_num [defaultMinLaunchTime], by decide⟩⟩

/-- C4 (amended): two Launch calls on player-owned projectiles that have a
transform, at clock times `t1 ≤ t2` with the same interval, the static holding
an earlier time `L ≤ t1`. The first call succeeds exactly when the gate is open
at `t1`. If it succeeds, then the second call fails when `t2 - t1` is below the
interval (exactly one success) and succeeds otherwise (both succeed). Whatever
the first call does, at most one of the two succeeds when `t2 - t1` is below the
interval, and the second succeeds when it is not. The second call may be on
another instance (`r2`) or on the instance of the first call (`r2s`). -/
theorem player_launch_gate (p1 p2 : Projectile) (L t1 t2 : ℕ) (x1 y1 x2 y2 : ℚ)
    (d1 d2 : Bool) (minInterval : ℚ)
    (hp1 : p1.isPlayerProjectile = true) (hp2 : p2.isPlayerProjectile = true)
    (ht1 : p1.transform ≠ none) (ht2 : p2.transform ≠ none)
    (hL : L ≤ t1) (h12 : t1 ≤ t2) (hmax : t2 < 2 ^ 64) :
    ∃ r1 r2 r2s : LaunchResult,
      p1.Launch L t1 x1 y1 d1 minInterval = some r1 ∧
      p2.Launch r1.lastTimeLaunch t2 x2 y2 d2 minInterval = some r2 ∧
      r1.projectile.Launch r1.lastTimeLaunch t2 x2 y2 d2 minInterval = some r2s ∧
      r2s.fired = r2.fired ∧
      (r1.fired = true ↔ minInterval ≤ (t1 : ℚ) - (L : ℚ)) ∧
      (r1.fired = true →
        ((t2 : ℚ) - (t1 : ℚ) < minInterval → r2.fired = false) ∧
        (minInterval ≤ (t2 : ℚ) - (t1 : ℚ) → r2.fired = true)) ∧
      ((t2 : ℚ) - (t1 : ℚ) < minInterval → ¬ (r1.fired = true ∧ r2.fired = true)) ∧
      (minInterval ≤ (t2 : ℚ) - (t1 : ℚ) → r2.fired = true) := by
  obtain ⟨ref1, href1⟩ := Option.ne_none_iff_exists'.mp ht1
  obtain ⟨ref2, href2⟩ := Option.ne_none_iff_exists'.mp ht2
  obtain ⟨r1, hr1, hf1, hlt1, hlf1, hpl1, htr1⟩ :=
    Launch_player p1 ref1 L t1 x1 y1 d1 minInterval hp1 href1 hL (lt_of_le_of_lt h12 hmax)
  have hlast : r1.lastTimeLaunch ≤ t2 ∧
      (r1.fired = true → r1.lastTimeLaunch = t1) ∧ (r1.lastTimeLaunch ≤ t1) := by
    cases hfd : r1.fired
    · have := hlf1 hfd
      exact ⟨by omega, by simp, by omega⟩
    · have := hlt1 hfd
      exact ⟨by omega, fun _ => this, by omega⟩
  obtain ⟨ref3, href3⟩ := Option.ne_none_iff_exists'.mp htr1
  obtain ⟨r2, hr2, hf2, -, -, -, -⟩ :=
    Launch_player p2 ref2 r1.lastTimeLaunch t2 x2 y2 d2 minInterval hp2 href2 hlast.1 hmax
  obtain ⟨r2s, hr2s, hf2s, -, -, -, -⟩ :=
    Launch_player r1.projectile ref3 r1.lastTimeLaunch t2 x2 y2 d2 minInterval hpl1 href3
      hlast.1 hmax
  have hle : ((r1.lastTimeLaunch : ℕ) : ℚ) ≤ (t1 : ℚ) := by exact_mod_cast hlast.2.2
  refine ⟨r1, r2, r2s, hr1, hr2, hr2s, ?_, hf1, ?_, ?_, ?_⟩
  · rw [Bool.eq_iff_iff, hf2s, hf2]
  · intro hfired
    have hEq : r1.lastTimeLaunch = t1 := hlast.2.1 hfired
    rw [hEq] at hf2
    constructor
    · intro hlt
      rw [← Bool.not_eq_true, hf2]
      exact not_le.mpr hlt
    · intro hge
      exact hf2.mpr hge
  · rintro hlt ⟨hfired, hsecond⟩
    have hEq : r1.lastTimeLaunch = t1 := hlast.2.1 hfired
    rw [hEq] at hf2
    exact absurd (hf2.mp hsecond) (not_le.mpr hlt)
  · intro hge
    exact hf2.mpr (by linarith)

/-- Witness of C4: the gate is open at time 1000, so launches at 1000 and 1400
give exactly one success and launches at 1000 and 2000 would both succeed. -/
theorem player_launch_gate_witness :
    ∃ r1 r2 r2s : LaunchResult,
      playerArrow.Launch 0 1000 500 900 true 1000 = some r1 ∧
      playerArrow.Launch r1.lastTimeLaunch 1400 500 900 true 1000 = some r2 ∧
      r1.projectile.Launch r1.lastTimeLaunch 1400 500 900 true 1000 = some r2s ∧
      r2s.fired = r2.fired ∧
      (r1.fired = true ↔ (1000 : ℚ) ≤ ((1000 : ℕ) : ℚ) - ((0 : ℕ) : ℚ)) ∧
      (r1.fired = true →
        (((1400 : ℕ) : ℚ) - ((1000 : ℕ) : ℚ) < 1000 → r2.fired = false) ∧
        ((1000 : ℚ) ≤ ((1400 : ℕ) : ℚ) - ((1000 : ℕ) : ℚ) → r2.fired = true)) ∧
      (((1400 : ℕ) : ℚ) - ((1000 : ℕ) : ℚ) < 1000 → ¬ (r1.fired = true ∧ r2.fired = true)) ∧
      ((1000 : ℚ) ≤ ((1400 : ℕ) : ℚ) - ((1000 : ℕ) : ℚ) → r2.fired = true) :=
  player_launch_gate playerArrow playerArrow 0 1000 1400 500 900 500 900 true true 1000
    rfl rfl (by decide) (by decide) (by decide) (by decide) (by norm_num)

/-- C6: for a firing boss-owned oscillating projectile moving upward, an update
whose move brings y to 0 or above the top edge sets the direction to downward,
multiplies the speed by exactly 1.5, resets the rotation to 0 and keeps the
projectile at the moved position, firing, with its renderable flag untouched
(so a renderable projectile stays renderable: it is not expired). -/
theorem rebound_rule (p : Projectile) (ref0 : TransformComponent) (deltaTime : ℚ)
    (href : p.transform = some ref0) (hfiring : p.mIsFiring = true)
    (hboss : p.isBossProjectile = true)
    (hkind : p.mMovementType = ProjectileMovementType.UpDown)
    (hup : p.mYDirectionUp = true)
    (hy : (ref0.move ref0.getX (ref0.getY - p.mSpeed * deltaTime)).getY ≤ 0) :
    (p.update deltaTime).mYDirectionUp = false ∧
    (p.update deltaTime).mSpeed = p.mSpeed * 1.5 ∧
    (∃ t : TransformComponent, (p.update deltaTime).transform = some t ∧
      t.getRotation = 0 ∧
      t.mRectangle = (ref0.move ref0.getX (ref0.getY - p.mSpeed * deltaTime)).mRectangle) ∧
    (p.update deltaTime).mIsFiring = true ∧
    (p.update deltaTime).mRenderable = p.mRenderable ∧
    (p.mRenderable = true → (p.update deltaTime).mRenderable = true) := by
  have hmoved : p.moved ref0 deltaTime =
      ref0.move ref0.getX (ref0.getY - p.mSpeed * deltaTime) := by
    simp [Projectile.moved, hkind, hup]
  have hc : (p.isBossProjectile && p.mYDirectionUp &&
      decide ((p.moved ref0 deltaTime).getY ≤ 0)) = true := by
    rw [hmoved]
    simp [hboss, hup, hy]
  have hupd : p.update deltaTime =
      { p with mYDirectionUp := false, mSpeed := p.mSpeed * (3 / 2)
               transform := some ((p.moved ref0 deltaTime).setRotation 0)
               hitbox := p.hitbox.map
                 (fun c => c.update (some ((p.moved ref0 deltaTime).setRotation 0))) } := by
    simp only [Projectile.update, href, hfiring, Bool.not_true, Bool.false_eq_true, if_false,
      hc, if_true, GameEntity.updateComponents]
  rw [hupd, hmoved]
  refine ⟨rfl, ?_, ⟨_, rfl, rfl, rfl⟩, hfiring, rfl, fun h => h⟩
  show p.mSpeed * (3 / 2) = p.mSpeed * 1.5
  norm_num

/-- Witness of C6: a rain projectile 5 pixels below the top edge, one frame of
0.1 s at speed 350. -/
theorem rebound_rule_witness :
    (rainProjectile.update (1 / 10)).mYDirectionUp = false ∧
    (rainProjectile.update (1 / 10)).mSpeed = rainProjectile.mSpeed * 1.5 ∧
    (∃ t : TransformComponent, (rainProjectile.update (1 / 10)).transform = some t ∧
      t.getRotation = 0 ∧
      t.mRectangle =
        (TransformComponent.move
          { mRectangle := { x := 300, y := 5, w := 60, h := 60 }, mRotation := 180,
            isPlayer := false }
          (TransformComponent.getX
            { mRectangle := { x := 300, y := 5, w := 60, h := 60 }, mRotation := 180,
              isPlayer := false })
          (TransformComponent.getY
            { mRectangle := { x := 300, y := 5, w := 60, h := 60 }, mRotation := 180,
              isPlayer := false } - rainProjectile.mSpeed * (1 / 10))).mRectangle) ∧
    (rainProjectile.update (1 / 10)).mIsFiring = true ∧
    (rainProjectile.update (1 / 10)).mRenderable = rainProjectile.mRenderable ∧
    (rainProjectile.mRenderable = true → (rainProjectile.update (1 / 10)).mRenderable = true) :=
  rebound_rule rainProjectile
    { mRectangle := { x := 300, y := 5, w := 60, h := 60 }, mRotation := 180, isPlayer := false }
    (1 / 10) rfl rfl rfl rfl rfl
    (by norm_num [TransformComponent.move, TransformComponent.getY, rainProjectile])

/-- C7 (the code at the failing input): a boss-owned angled projectile launched
straight up by LaunchWithAngle still carries the default direction flag
`mYDirectionUp = true`. The update that takes it from y = 5 to y = -15, above
the top edge, does not expire it: it stays firing and renderable, and the
rebound is applied instead (flag cleared, speed 200 multiplied to 300,
rotation reset). -/
theorem angled_boss_projectile_not_expired_at_top :
    angledBossProjectile.mMovementType = ProjectileMovementType.Angle ∧
    angledBossProjectile.isBossProjectile = true ∧
    angledBossProjectile.mIsFiring = true ∧
    angledBossProjectile.mYDirectionUp = true ∧
    angledBossProjectile.mSpeed = 200 ∧
    (angledBossProjectile.update (1 / 10)).transform =
      some { mRectangle := { x := 500, y := -15, w := 100, h := 100 },
             mRotation := 0, isPlayer := false } ∧
    (angledBossProjectile.update (1 / 10)).mIsFiring = true ∧
    (angledBossProjectile.update (1 / 10)).mRenderable = true ∧
    (angledBossProjectile.update (1 / 10)).mSpeed = 300 ∧
    (angledBossProjectile.update (1 / 10)).mYDirectionUp = false := by
  have hp : angledBossProjectile =
      { transform := some { mRectangle := { x := 500, y := 5, w := 100, h := 100 },
                            mRotation := 0, isPlayer := false }
        hitbox := some { mRectangle := { x := 0, y := 0, w := 0, h := 0 },
                         mWidthModifier := f32 (3 / 5), mHeightModifier := f32 (3 / 5) }
        speed := 0, xPositiveDirection := true, mRenderable := true, mIsFiring := true
        mYDirectionUp := true, mSpeed := 200, isPlayerProjectile := false
        isBossProjectile := true, ownerWidth := 0, mVelocityX := 0, mVelocityY := -200
        mMovementType := ProjectileMovementType.Angle, isUltimateProjectile := false
        mUltimateProjectileWidth := 0, mUltimateProjectileHeight := 0 } := by
    simp [angledBossProjectile, Projectile.LaunchWithAngle, Projectile.setProjectileSpeed,
      Projectile.setProjectileMovementType, Projectile.init, Projectile.setIsBossProjectile,
      Projectile.setIsPlayerProjectile, Projectile.new, TransformComponent.new,
      TransformComponent.move, TransformComponent.setWidth, TransformComponent.setHeight,
      Collision2DComponent.new, Collision2DComponent.setHitboxModifier]
  rw [hp]
  refine ⟨rfl, rfl, rfl, rfl, rfl, ?_, ?_, ?_, ?_, ?_⟩ <;>
    norm_num [Projectile.update, Projectile.moved, TransformComponent.move,
      TransformComponent.getX, TransformComponent.getY, TransformComponent.setRotation,
      GameEntity.updateComponents, WINDOW_HEIGHT]

/-- The part of the expiry rule that the code does implement: a firing
projectile of any motion kind and owner whose move ends outside
[0, WINDOW_HEIGHT] expires in that update unless it is boss-owned with the
direction flag still set. -/
theorem expiry_without_rebound_flag (p : Projectile) (ref0 : TransformComponent)
    (deltaTime : ℚ) (href : p.transform = some ref0) (hfiring : p.mIsFiring = true)
    (hflag : ¬ (p.isBossProjectile = true ∧ p.mYDirectionUp = true))
    (hout : (p.moved ref0 deltaTime).getY < 0 ∨ WINDOW_HEIGHT < (p.moved ref0 deltaTime).getY) :
    (p.update deltaTime).mIsFiring = false ∧ (p.update deltaTime).mRenderable = false := by
  have hc1 : (p.isBossProjectile && p.mYDirectionUp &&
      decide ((p.moved ref0 deltaTime).getY ≤ 0)) = false := by
    cases hb : p.isBossProjectile <;> cases hu : p.mYDirectionUp <;> simp_all
  have hc2 : (decide ((p.moved ref0 deltaTime).getY < 0) ||
      decide ((p.moved ref0 deltaTime).getY > WINDOW_HEIGHT)) = true := by
    rcases hout with h | h <;> simp [h]
  simp [Projectile.update, href, hfiring, hc1, hc2, GameEntity.updateComponents]

/-! ## Enemy formation -/

theorem Launch_newProjectile (u : Uninit) (ref : TransformComponent) (L now : ℕ) (x y m : ℚ) :
    ∃ r : LaunchResult,
      (Enemy.newProjectile u ref).Launch L now x y false m = some r ∧ r.fired = true := by
  simp [Projectile.Launch, Enemy.newProjectile, Projectile.setOwnerWidth,
    Projectile.setProjectileMovementType, Projectile.init, Projectile.setIsPlayerProjectile,
    Projectile.new]

theorem Enemy.fireIfReady_some (e : Enemy) (ref : TransformComponent) (L now : ℕ) (u : Uninit) :
    ∃ e1 : Enemy, e.fireIfReady ref L now u = some e1 ∧ e1.toGameEntity = e.toGameEntity := by
  unfold Enemy.fireIfReady
  obtain ⟨r, hr, hf⟩ := Launch_newProjectile u ref L now ref.getX ref.getY e.minLaunchTime
  split_ifs with h
  · rw [hr]
    simp [hf]
  · exact ⟨e, rfl, rfl⟩

theorem Enemy.flip_spec (s : EnemyShared) :
    (Enemy.flip s).movementThreshold = s.movementThreshold ∧
    (Enemy.flip s).movement = s.movement ∧
    (Enemy.flip s).totalEnemyMovement =
      (if s.movementThreshold ≤ s.totalEnemyMovement
        then s.totalEnemyMovement - s.movementThreshold else s.totalEnemyMovement) ∧
    (Enemy.flip s).enemyMovingRight =
      (if s.movementThreshold ≤ s.totalEnemyMovement
        then !s.enemyMovingRight else s.enemyMovingRight) := by
  unfold Enemy.flip
  split_ifs <;> simp

theorem Enemy.clampMovement_spec (s : EnemyShared) :
    (Enemy.clampMovement s).movementThreshold = s.movementThreshold ∧
    (Enemy.clampMovement s).totalEnemyMovement = s.totalEnemyMovement ∧
    (Enemy.clampMovement s).enemyMovingRight = s.enemyMovingRight ∧
    (Enemy.clampMovement s).movement =
      min s.movement (s.movementThreshold - s.totalEnemyMovement) := by
  unfold Enemy.clampMovement
  split_ifs with h1 h2 h2
  · refine ⟨rfl, rfl, rfl, ?_⟩
    simp only []
    rw [min_eq_right]
    linarith
  · refine ⟨rfl, rfl, rfl, ?_⟩
    rw [min_eq_left]
    linarith
  · refine ⟨rfl, rfl, rfl, ?_⟩
    simp only []
    rw [min_eq_right]
    · ring
    · linarith
  · refine ⟨rfl, rfl, rfl, ?_⟩
    rw [min_eq_left]
    linarith

theorem Enemy.fireIfReady_ne_none (e : Enemy) (ref : TransformComponent) (L now : ℕ)
    (u : Uninit) : e.fireIfReady ref L now u ≠ none := by
  obtain ⟨e1, h, -⟩ := Enemy.fireIfReady_some e ref L now u
  rw [h]
  exact Option.some_ne_none e1

theorem Enemy.fireIfReady_entity (e e1 : Enemy) (ref : TransformComponent) (L now : ℕ)
    (u : Uninit) (h : e.fireIfReady ref L now u = some e1) :
    e1.toGameEntity = e.toGameEntity := by
  obtain ⟨e2, h2, hsame⟩ := Enemy.fireIfReady_some e ref L now u
  rw [h2] at h
  cases h
  exact hsame

theorem Enemy.update_ne_none (e : Enemy) (s : EnemyShared) (L now : ℕ) (dt : ℚ) (u : Uninit) :
    e.update s L now dt u ≠ none := by
  simp only [Enemy.update]
  split
  · simp
  · split
    · rename_i heq
      exact absurd heq (Enemy.fireIfReady_ne_none _ _ _ _ _)
    · simp

theorem Enemy.update_result (e : Enemy) (s : EnemyShared) (L now : ℕ) (dt : ℚ) (u : Uninit)
    (ref : TransformComponent) (href : e.transform = some ref) (r : Enemy × EnemyShared)
    (hr : e.update s L now dt u = some r) :
    r.2 = Enemy.clampMovement (Enemy.flip s) ∧
    r.1.transform = some (Enemy.moveStep ref (Enemy.clampMovement (Enemy.flip s))) := by
  simp only [Enemy.update] at hr
  split at hr
  · rename_i heq
    simp [GameEntity.updateComponents, href] at heq
  · rename_i ref0 heq
    have hre : ref0 = ref := by
      simp [GameEntity.updateComponents, href] at heq
      exact heq.symm
    subst hre
    split at hr
    · exact absurd hr (by simp)
    · rename_i e4 hfire
      have hsame := Enemy.fireIfReady_entity _ _ _ _ _ _ hfire
      simp only [Option.some.injEq] at hr
      subst hr
      refine ⟨rfl, ?_⟩
      have : e4.transform = e4.toGameEntity.transform := rfl
      simp only [Enemy.updateProjectiles]
      rw [this, hsame]

/-- The effect of Enemy::update on an enemy that has a transform. -/
theorem Enemy.update_spec (e : Enemy) (s : EnemyShared) (L now : ℕ) (dt : ℚ) (u : Uninit)
    (ref : TransformComponent) (href : e.transform = some ref) :
    ∃ e1 : Enemy, e.update s L now dt u = some (e1, Enemy.clampMovement (Enemy.flip s)) ∧
      e1.transform = some (Enemy.moveStep ref (Enemy.clampMovement (Enemy.flip s))) := by
  cases hr : e.update s L now dt u with
  | none => exact absurd hr (Enemy.update_ne_none e s L now dt u)
  | some r =>
    obtain ⟨h2, h1⟩ := Enemy.update_result e s L now dt u ref href r hr
    exact ⟨r.1, by rw [← h2], h1⟩

/-- Enemy::update leaves the statics alone when the enemy has no transform. -/
theorem Enemy.update_no_transform (e : Enemy) (s : EnemyShared) (L now : ℕ) (dt : ℚ)
    (u : Uninit) (href : e.transform = none) (r : Enemy × EnemyShared)
    (hr : e.update s L now dt u = some r) : r.2 = s := by
  simp only [Enemy.update] at hr
  split at hr
  · simp only [Option.some.injEq] at hr
    subst hr
    rfl
  · rename_i ref0 heq
    simp [GameEntity.updateComponents, href] at heq

/-- C8: whenever Enemy::update runs (on an enemy that has a transform, so that
the update reaches the flip test) with the cumulative displacement at or above
the threshold, the shared direction flag is toggled and the cumulative
displacement becomes exactly its old value minus the threshold; below the
threshold neither the direction nor the cumulative value changes. -/
theorem formation_flip_preserves_overflow (e : Enemy) (s : EnemyShared) (L now : ℕ) (dt : ℚ)
    (u : Uninit) (ref : TransformComponent) (href : e.transform = some ref) :
    ∃ (e1 : Enemy) (s1 : EnemyShared), e.update s L now dt u = some (e1, s1) ∧
      s1.movementThreshold = s.movementThreshold ∧
      (s.totalEnemyMovement ≥ s.movementThreshold →
        s1.enemyMovingRight = !s.enemyMovingRight ∧
        s1.totalEnemyMovement = s.totalEnemyMovement - s.movementThreshold) ∧
      (s.totalEnemyMovement < s.movementThreshold →
        s1.enemyMovingRight = s.enemyMovingRight ∧
        s1.totalEnemyMovement = s.totalEnemyMovement) := by
  obtain ⟨e1, he1, -⟩ := Enemy.update_spec e s L now dt u ref href
  obtain ⟨c1, c2, c3, -⟩ := Enemy.clampMovement_spec (Enemy.flip s)
  obtain ⟨f1, -, f3, f4⟩ := Enemy.flip_spec s
  refine ⟨e1, _, he1, by rw [c1, f1], ?_, ?_⟩
  · intro hge
    rw [c2, c3, f3, f4, if_pos hge, if_pos hge]
    exact ⟨rfl, rfl⟩
  · intro hlt
    rw [c2, c3, f3, f4, if_neg (not_le.mpr hlt), if_neg (not_le.mpr hlt)]
    exact ⟨rfl, rfl⟩

/-- Witness of C8: threshold 100, cumulative displacement 110, moving right. -/
theorem formation_flip_preserves_overflow_witness :
    ∃ (e1 : Enemy) (s1 : EnemyShared),
      formationEnemy.update
        { totalEnemyMovement := 110, enemyMovingRight := true, movementThreshold := 100,
          movement := 20 } 0 0 (1 / 10) exampleUninit = some (e1, s1) ∧
      s1.movementThreshold = 100 ∧
      ((110 : ℚ) ≥ 100 → s1.enemyMovingRight = !true ∧ s1.totalEnemyMovement = 110 - 100) ∧
      ((110 : ℚ) < 100 → s1.enemyMovingRight = true ∧ s1.totalEnemyMovement = 110) :=
  formation_flip_preserves_overflow formationEnemy
    { totalEnemyMovement := 110, enemyMovingRight := true, movementThreshold := 100,
      movement := 20 } 0 0 (1 / 10) exampleUninit
    { mRectangle := { x := 96, y := 180, w := 70, h := 70 }, mRotation := 0, isPlayer := false }
    (by decide)

theorem Scene.updateEnemies_ne_none (enemies : List Enemy) (s : EnemyShared) (L now : ℕ)
    (dt : ℚ) (u : Uninit) : Scene.updateEnemies enemies s L now dt u ≠ none := by
  induction enemies generalizing s with
  | nil => simp [Scene.updateEnemies]
  | cons e rest ih =>
    unfold Scene.updateEnemies
    cases h1 : e.update s L now dt u with
    | none => exact absurd h1 (Enemy.update_ne_none e s L now dt u)
    | some r1 =>
      obtain ⟨e1, s1⟩ := r1
      simp only []
      cases h2 : Scene.updateEnemies rest s1 L now dt u with
      | none => exact absurd h2 (ih s1)
      | some r2 => simp

/-- One Enemy::update on the statics, with threshold `T > 0`: the threshold is kept;
a cumulative displacement below `T` or below `2T` stays so; and an enemy that has
a transform brings a displacement below `2T` below `T`. -/
theorem Enemy.update_bounds (e : Enemy) (s : EnemyShared) (L now : ℕ) (dt : ℚ) (u : Uninit)
    (r : Enemy × EnemyShared) (hr : e.update s L now dt u = some r) (hT : 0 < s.movementThreshold) :
    r.2.movementThreshold = s.movementThreshold ∧
    (s.totalEnemyMovement < s.movementThreshold →
      r.2.totalEnemyMovement < s.movementThreshold) ∧
    (s.totalEnemyMovement < 2 * s.movementThreshold →
      r.2.totalEnemyMovement < 2 * s.movementThreshold) ∧
    (e.transform ≠ none → s.totalEnemyMovement < 2 * s.movementThreshold →
      r.2.totalEnemyMovement < s.movementThreshold) := by
  cases htr : e.transform with
  | none =>
    have h := Enemy.update_no_transform e s L now dt u htr r hr
    rw [h]
    exact ⟨rfl, fun h => h, fun h => h, fun h => absurd rfl h⟩
  | some ref =>
    obtain ⟨h2, -⟩ := Enemy.update_result e s L now dt u ref htr r hr
    obtain ⟨c1, c2, -, -⟩ := Enemy.clampMovement_spec (Enemy.flip s)
    obtain ⟨f1, -, f3, -⟩ := Enemy.flip_spec s
    rw [h2, c1, c2, f1, f3]
    refine ⟨rfl, ?_, ?_, ?_⟩
    · intro h
      rw [if_neg (not_le.mpr h)]
      exact h
    · intro h
      split_ifs <;> linarith
    · intro _ h
      split_ifs with hge
      · linarith
      · exact not_le.mp hge

theorem Scene.updateEnemies_bounds (enemies : List Enemy) (s : EnemyShared) (L now : ℕ)
    (dt : ℚ) (u : Uninit) (r : List Enemy × EnemyShared)
    (hr : Scene.updateEnemies enemies s L now dt u = some r) (hT : 0 < s.movementThreshold) :
    r.2.movementThreshold = s.movementThreshold ∧
    (s.totalEnemyMovement < s.movementThreshold →
      r.2.totalEnemyMovement < s.movementThreshold) ∧
    (s.totalEnemyMovement < 2 * s.movementThreshold →
      r.2.totalEnemyMovement < 2 * s.movementThreshold) ∧
    ((∃ e ∈ enemies, e.transform ≠ none) → s.totalEnemyMovement < 2 * s.movementThreshold →
      r.2.totalEnemyMovement < s.movementThreshold) := by
  induction enemies generalizing s r with
  | nil =>
    simp only [Scene.updateEnemies, Option.some.injEq] at hr
    subst hr
    exact ⟨rfl, fun h => h, fun h => h, fun h => by simp at h⟩
  | cons e rest ih =>
    unfold Scene.updateEnemies at hr
    cases h1 : e.update s L now dt u with
    | none => exact absurd h1 (Enemy.update_ne_none e s L now dt u)
    | some r1 =>
      obtain ⟨e1, s1⟩ := r1
      rw [h1] at hr
      simp only [] at hr
      cases h2 : Scene.updateEnemies rest s1 L now dt u with
      | none => exact absurd h2 (Scene.updateEnemies_ne_none rest s1 L now dt u)
      | some r2 =>
        obtain ⟨rest1, s2⟩ := r2
        rw [h2] at hr
        simp only [Option.some.injEq] at hr
        subst hr
        obtain ⟨a1, a2, a3, a4⟩ := Enemy.update_bounds e s L now dt u (e1, s1) h1 hT
        simp only [] at a1 a2 a3 a4
        have hT1 : 0 < s1.movementThreshold := by rw [a1]; exact hT
        obtain ⟨b1, b2, b3, b4⟩ := ih s1 (rest1, s2) h2 hT1
        simp only [] at b1 b2 b3 b4
        rw [a1] at b1 b2 b3 b4
        refine ⟨b1, fun h => b2 (a2 h), fun h => b3 (a3 h), ?_⟩
        rintro ⟨x, hx, hxt⟩ h
        rcases List.mem_cons.mp hx with hxe | hxr
        · subst hxe
          exact b2 (a4 hxt h)
        · exact b4 ⟨x, hxr, hxt⟩ (a3 h)

theorem roundHalfAway_le (q : ℚ) : ((roundHalfAway q : ℤ) : ℚ) ≤ q + 1 / 2 := by
  unfold roundHalfAway
  split_ifs with h
  · exact Int.floor_le (q + 1 / 2)
  · have := Int.ceil_lt_add_one (q - 1 / 2)
    linarith

theorem Scene.advanceFormation_bounds (s : EnemyShared) (dt : ℚ) :
    (Scene.advanceFormation s dt).movementThreshold = s.movementThreshold ∧
    (Scene.advanceFormation s dt).totalEnemyMovement ≤
      s.totalEnemyMovement + 100 * dt + 1 / 2000 := by
  refine ⟨rfl, ?_⟩
  simp only [Scene.advanceFormation]
  have := roundHalfAway_le ((s.totalEnemyMovement + 100 * dt) * 1000)
  rw [div_le_iff₀ (by norm_num)]
  linarith

/-- One frame on the statics. -/
theorem Scene.updateFormation_bounds (enemies : List Enemy) (s : EnemyShared) (L now : ℕ)
    (dt : ℚ) (u : Uninit) (r : List Enemy × EnemyShared)
    (hr : Scene.updateFormation enemies s L now dt u = some r)
    (hT : 10 + 1 / 2000 ≤ s.movementThreshold)
    (hsome : ∃ e ∈ enemies, e.transform ≠ none)
    (hs : s.totalEnemyMovement < s.movementThreshold + (10 + 1 / 2000)) :
    r.2.movementThreshold = s.movementThreshold ∧
    r.2.totalEnemyMovement < s.movementThreshold + (10 + 1 / 2000) := by
  simp only [Scene.updateFormation] at hr
  split at hr
  · exact absurd hr (by simp)
  · rename_i enemies1 s1 heq
    simp only [Option.some.injEq] at hr
    subst hr
    have hT0 : 0 < s.movementThreshold := by linarith
    obtain ⟨a1, -, -, a4⟩ := Scene.updateEnemies_bounds enemies s L now _ u (enemies1, s1) heq hT0
    simp only [] at a1 a4
    have hmid := a4 hsome (by linarith)
    obtain ⟨b1, b2⟩ := Scene.advanceFormation_bounds s1 (if dt > 1 / 10 then 1 / 10 else dt)
    refine ⟨by rw [b1, a1], ?_⟩
    have hdt : (if dt > 1 / 10 then (1 / 10 : ℚ) else dt) ≤ 1 / 10 := by
      split_ifs with h
      · exact le_refl _
      · exact not_lt.mp h
    simp only [] 
    linarith

/-- A single enemy with a transform: the frame acts on the statics by the flip
test, the clamp and the movement calculations. -/
theorem Scene.updateFormation_single (e : Enemy) (s : EnemyShared) (L now : ℕ) (dt : ℚ)
    (u : Uninit) (ref : TransformComponent) (href : e.transform = some ref) :
    ∃ e1 : Enemy, e1.transform ≠ none ∧
      Scene.updateFormation [e] s L now dt u =
        some ([e1], Scene.advanceFormation (Enemy.clampMovement (Enemy.flip s))
          (if dt > 1 / 10 then 1 / 10 else dt)) := by
  obtain ⟨e1, he1, htr⟩ := Enemy.update_spec e s L now (if dt > 1 / 10 then 1 / 10 else dt) u
    ref href
  refine ⟨e1, by rw [htr]; exact Option.some_ne_none _, ?_⟩
  simp only [Scene.updateFormation, Scene.updateEnemies, he1]

/-- Three frames of 0.1 s with one enemy from the stage start with the threshold 26
of the stage (1920 / 20 - 70) lead to the cumulative displacement 30. -/
theorem reachable_thirty :
    FormationReachable 26
      { totalEnemyMovement := 30, enemyMovingRight := true, movementThreshold := 26,
        movement := 10 } := by
  have h0 := @FormationReachable.start 26 0
  obtain ⟨e1, ht1, hf1⟩ := Scene.updateFormation_single formationEnemy
    { totalEnemyMovement := 0, enemyMovingRight := true, movementThreshold := 26, movement := 0 }
    0 0 (1 / 10) exampleUninit _ rfl
  have hs1 : Scene.advanceFormation (Enemy.clampMovement (Enemy.flip
      { totalEnemyMovement := 0, enemyMovingRight := true, movementThreshold := 26,
        movement := 0 })) (if (1 / 10 : ℚ) > 1 / 10 then 1 / 10 else 1 / 10) =
      { totalEnemyMovement := 10, enemyMovingRight := true, movementThreshold := 26,
        movement := 10 } := by
    norm_num [Scene.advanceFormation, roundHalfAway, Enemy.clampMovement, Enemy.flip]
  rw [hs1] at hf1
  have h1 := FormationReachable.frame _ _ _ _ _ _ _ _ h0
    ⟨formationEnemy, List.mem_singleton.mpr rfl, by decide⟩ hf1
  obtain ⟨ref1, href1⟩ := Option.ne_none_iff_exists'.mp ht1
  obtain ⟨e2, ht2, hf2⟩ := Scene.updateFormation_single e1
    { totalEnemyMovement := 10, enemyMovingRight := true, movementThreshold := 26,
      movement := 10 } 0 100 (1 / 10) exampleUninit ref1 href1
  have hs2 : Scene.advanceFormation (Enemy.clampMovement (Enemy.flip
      { totalEnemyMovement := 10, enemyMovingRight := true, movementThreshold := 26,
        movement := 10 })) (if (1 / 10 : ℚ) > 1 / 10 then 1 / 10 else 1 / 10) =
      { totalEnemyMovement := 20, enemyMovingRight := true, movementThreshold := 26,
        movement := 10 } := by
    norm_num [Scene.advanceFormation, roundHalfAway, Enemy.clampMovement, Enemy.flip]
  rw [hs2] at hf2
  have h2 := FormationReachable.frame _ _ _ _ _ _ _ _ h1
    ⟨e1, List.mem_singleton.mpr rfl, ht1⟩ hf2
  obtain ⟨ref2, href2⟩ := Option.ne_none_iff_exists'.mp ht2
  obtain ⟨e3, -, hf3⟩ := Scene.updateFormation_single e2
    { totalEnemyMovement := 20, enemyMovingRight := true, movementThreshold := 26,
      movement := 10 } 0 200 (1 / 10) exampleUninit ref2 href2
  have hs3 : Scene.advanceFormation (Enemy.clampMovement (Enemy.flip
      { totalEnemyMovement := 20, enemyMovingRight := true, movementThreshold := 26,
        movement := 10 })) (if (1 / 10 : ℚ) > 1 / 10 then 1 / 10 else 1 / 10) =
      { totalEnemyMovement := 30, enemyMovingRight := true, movementThreshold := 26,
        movement := 10 } := by
    norm_num [Scene.advanceFormation, roundHalfAway, Enemy.clampMovement, Enemy.flip]
  rw [hs3] at hf3
  exact FormationReachable.frame _ _ _ _ _ _ _ _ h2
    ⟨e2, List.mem_singleton.mpr rfl, ht2⟩ hf3

/-- C9 (as stated, refuted): with the threshold 26 of the stage, the state after
three frames of 0.1 s with one enemy is reachable and its cumulative
displacement 30 exceeds the threshold. -/
theorem formation_displacement_counterexample :
    ∃ s : EnemyShared, FormationReachable 26 s ∧ (0 : ℚ) < s.movementThreshold ∧
      ¬ (s.totalEnemyMovement ≤ s.movementThreshold) :=
  ⟨_, reachable_thirty, by norm_num, by norm_num⟩

/-- C9 (amended): in every state reachable from a stage start by Scene::update
frames that each update at least one enemy with a transform, for any per-frame
delta times and any number of further enemies, with a threshold of at least
10.0005 (the largest step of a frame, 100 * 0.1, plus the rounding to three
decimals), the threshold is unchanged and the cumulative displacement stays
below threshold + 10.0005: it passes the threshold by at most the step of the
latest frame, the excess the next flip carries over. -/
theorem formation_displacement_bounded (T : ℚ) (hT : 10 + 1 / 2000 ≤ T) (s : EnemyShared)
    (h : FormationReachable T s) :
    s.movementThreshold = T ∧ s.totalEnemyMovement < T + (10 + 1 / 2000) := by
  induction h with
  | start m => exact ⟨rfl, by simp only []; linarith⟩
  | frame s s1 enemies enemies1 L now dt u _ hsome hframe ih =>
    obtain ⟨ih1, ih2⟩ := ih
    obtain ⟨a1, a2⟩ := Scene.updateFormation_bounds enemies s L now dt u (enemies1, s1) hframe
      (by rw [ih1]; exact hT) hsome (by rw [ih1]; exact ih2)
    simp only [] at a1 a2
    rw [ih1] at a1 a2
    exact ⟨a1, a2⟩

/-- Witness of C9 (amended) at the reachable state with cumulative displacement 30. -/
theorem formation_displacement_bounded_witness :
    (26 : ℚ) = 26 ∧ (30 : ℚ) < 26 + (10 + 1 / 2000) :=
  formation_displacement_bounded 26 (by norm_num)
    { totalEnemyMovement := 30, enemyMovingRight := true, movementThreshold := 26,
      movement := 10 } reachable_thirty

theorem Boss.onHit_mHP (b : Boss) : b.onHit.mHP = b.mHP - 1 := by
  simp only [Boss.onHit]
  split_ifs <;> rfl

theorem Boss.onHit_mRenderable (b : Boss) :
    b.onHit.mRenderable = (if b.mHP - 1 ≤ 0 then false else b.mRenderable) := by
  simp only [Boss.onHit]
  split_ifs <;> rfl

theorem Boss.onHit_iterate (b : Boss) (n : ℕ) (hp : b.mHP = (n : ℤ))
    (hr : b.mRenderable = true) (k : ℕ) (hk : k ≤ n) :
    (Nat.iterate Boss.onHit k b).mHP = (n : ℤ) - (k : ℤ) ∧
    ((Nat.iterate Boss.onHit k b).mRenderable = true ↔ k < n ∨ k = 0) := by
  induction k with
  | zero => simp [hp, hr]
  | succ j ih =>
    obtain ⟨ih1, ih2⟩ := ih (by omega)
    rw [Function.iterate_succ_apply']
    have hj : (Nat.iterate Boss.onHit j b).mRenderable = true := ih2.mpr (Or.inl (by omega))
    rw [Boss.onHit_mHP, Boss.onHit_mRenderable, ih1, hj]
    refine ⟨by push_cast; ring, ?_⟩
    by_cases h : (n : ℤ) - (j : ℤ) - 1 ≤ 0
    · rw [if_pos h]
      simp only [Bool.false_eq_true, false_iff]
      omega
    · rw [if_neg h]
      simp only [true_iff]
      omega

/-- C11: for a renderable boss with HP = n > 0, after k < n calls of onHit the boss
is still renderable with HP = n - k, and after exactly n calls HP = 0 and the boss
is not renderable; with n = 10 the boss stops being renderable on the 10th hit
and not before. -/
theorem boss_onHit_count (b : Boss) (n : ℕ) (hn : 0 < n) (hp : b.mHP = (n : ℤ))
    (hr : b.mRenderable = true) :
    (∀ k : ℕ, k < n →
      (Nat.iterate Boss.onHit k b).mRenderable = true ∧
      (Nat.iterate Boss.onHit k b).mHP = (n : ℤ) - (k : ℤ)) ∧
    (Nat.iterate Boss.onHit n b).mHP = 0 ∧
    (Nat.iterate Boss.onHit n b).mRenderable = false ∧
    (n = 10 →
      (∀ k : ℕ, k < 10 → (Nat.iterate Boss.onHit k b).mRenderable = true) ∧
      (Nat.iterate Boss.onHit 10 b).mRenderable = false ∧
      (Nat.iterate Boss.onHit 10 b).mHP = 0) := by
  have key := Boss.onHit_iterate b n hp hr
  have hlast : (Nat.iterate Boss.onHit n b).mHP = 0 ∧
      (Nat.iterate Boss.onHit n b).mRenderable = false := by
    obtain ⟨h1, h2⟩ := key n (le_refl n)
    refine ⟨by rw [h1]; ring, ?_⟩
    rw [← Bool.not_eq_true, h2]
    omega
  refine ⟨?_, hlast.1, hlast.2, ?_⟩
  · intro k hk
    obtain ⟨h1, h2⟩ := key k (le_of_lt hk)
    exact ⟨h2.mpr (Or.inl hk), h1⟩
  · intro h10
    subst h10
    refine ⟨?_, hlast.2, hlast.1⟩
    intro k hk
    exact ((key k (le_of_lt hk)).2).mpr (Or.inl hk)

/-- Witness of C11: the boss as constructed has HP 10 and is renderable. -/
theorem boss_onHit_count_witness :
    (∀ k : ℕ, k < 10 →
      (Nat.iterate Boss.onHit k exampleBoss).mRenderable = true ∧
      (Nat.iterate Boss.onHit k exampleBoss).mHP = ((10 : ℕ) : ℤ) - (k : ℤ)) ∧
    (Nat.iterate Boss.onHit 10 exampleBoss).mHP = 0 ∧
    (Nat.iterate Boss.onHit 10 exampleBoss).mRenderable = false ∧
    (10 = 10 →
      (∀ k : ℕ, k < 10 → (Nat.iterate Boss.onHit k exampleBoss).mRenderable = true) ∧
      (Nat.iterate Boss.onHit 10 exampleBoss).mRenderable = false ∧
      (Nat.iterate Boss.onHit 10 exampleBoss).mHP = 0) :=
  boss_onHit_count exampleBoss 10 (by decide) rfl rfl

/-! ## Transform move -/

/-- C15: move on a player transform no larger than the screen puts the position
at (clamp(x, 0, WINDOW_WIDTH - w), clamp(y, 0, WINDOW_HEIGHT - h)), inside the
screen; on any other transform the position is exactly (x, y); width, height,
rotation and the player flag are unchanged in both cases. -/
theorem move_clamps_player_only (t : TransformComponent) (x y : ℚ) :
    (t.isPlayer = true → t.getWidth ≤ WINDOW_WIDTH → t.getHeight ≤ WINDOW_HEIGHT →
      (t.move x y).getX = max 0 (min x (WINDOW_WIDTH - t.getWidth)) ∧
      (t.move x y).getY = max 0 (min y (WINDOW_HEIGHT - t.getHeight)) ∧
      0 ≤ (t.move x y).getX ∧ (t.move x y).getX + t.getWidth ≤ WINDOW_WIDTH ∧
      0 ≤ (t.move x y).getY ∧ (t.move x y).getY + t.getHeight ≤ WINDOW_HEIGHT) ∧
    (t.isPlayer = false → (t.move x y).getX = x ∧ (t.move x y).getY = y) ∧
    (t.move x y).getWidth = t.getWidth ∧ (t.move x y).getHeight = t.getHeight ∧
    (t.move x y).getRotation = t.getRotation ∧ (t.move x y).isPlayer = t.isPlayer := by
  refine ⟨?_, ?_, ?_, ?_, ?_, ?_⟩
  · intro hp hw hh
    simp only [TransformComponent.getWidth, TransformComponent.getHeight] at hw hh
    have hx : (t.move x y).getX = max 0 (min x (WINDOW_WIDTH - t.getWidth)) := by
      simp only [TransformComponent.move, hp, if_true, TransformComponent.getX,
        TransformComponent.getWidth]
      split_ifs with h1 h2 h2
      · linarith
      · rw [min_eq_left (by linarith), max_eq_left (by linarith)]
      · rw [min_eq_right (by linarith), max_eq_right (by linarith)]
      · rw [min_eq_left (by linarith), max_eq_right (by linarith)]
    have hy : (t.move x y).getY = max 0 (min y (WINDOW_HEIGHT - t.getHeight)) := by
      simp only [TransformComponent.move, hp, if_true, TransformComponent.getY,
        TransformComponent.getHeight]
      split_ifs with h1 h2 h2
      · linarith
      · rw [min_eq_left (by linarith), max_eq_left (by linarith)]
      · rw [min_eq_right (by linarith), max_eq_right (by linarith)]
      · rw [min_eq_left (by linarith), max_eq_right (by linarith)]
    refine ⟨hx, hy, ?_, ?_, ?_, ?_⟩
    · rw [hx]; exact le_max_left _ _
    · rw [hx]
      have := min_le_right x (WINDOW_WIDTH - t.getWidth)
      simp only [TransformComponent.getWidth] at this ⊢
      rcases max_cases 0 (min x (WINDOW_WIDTH - t.mRectangle.w)) with ⟨h, _⟩ | ⟨h, _⟩ <;>
        rw [h] <;> linarith
    · rw [hy]; exact le_max_left _ _
    · rw [hy]
      have := min_le_right y (WINDOW_HEIGHT - t.getHeight)
      simp only [TransformComponent.getHeight] at this ⊢
      rcases max_cases 0 (min y (WINDOW_HEIGHT - t.mRectangle.h)) with ⟨h, _⟩ | ⟨h, _⟩ <;>
        rw [h] <;> linarith
  · intro hp
    simp [TransformComponent.move, hp, TransformComponent.getX, TransformComponent.getY]
  · unfold TransformComponent.move TransformComponent.getWidth
    split_ifs <;> rfl
  · unfold TransformComponent.move TransformComponent.getHeight
    split_ifs <;> rfl
  · unfold TransformComponent.move TransformComponent.getRotation
    split_ifs <;> rfl
  · unfold TransformComponent.move
    split_ifs <;> rfl

/-- Witness of C15: the player transform (100x160) asked to move to (-5, 2000). -/
theorem move_clamps_player_only_witness :
    (TransformComponent.move
        { mRectangle := { x := 40, y := 40, w := 100, h := 160 }, mRotation := 0, isPlayer := true }
        (-5) 2000).getX = max 0 (min (-5) (WINDOW_WIDTH - 100)) ∧
    (TransformComponent.move
        { mRectangle := { x := 40, y := 40, w := 100, h := 160 }, mRotation := 0, isPlayer := true }
        (-5) 2000).getY = max 0 (min 2000 (WINDOW_HEIGHT - 160)) :=
  let h := (move_clamps_player_only
    { mRectangle := { x := 40, y := 40, w := 100, h := 160 }, mRotation := 0, isPlayer := true }
    (-5) 2000).1 rfl
    (by norm_num [TransformComponent.getWidth, WINDOW_WIDTH])
    (by norm_num [TransformComponent.getHeight, WINDOW_HEIGHT])
  ⟨h.1, h.2.1⟩

/-! ## Boss configuration -/

theorem takeWhile_colon (key rest : List Char) (hkey : ':' ∉ key) :
    (key ++ ':' :: rest).takeWhile (fun c => c != ':') = key ∧
    (key ++ ':' :: rest).dropWhile (fun c => c != ':') = ':' :: rest := by
  induction key with
  | nil => simp
  | cons c cs ih =>
    have hc : c ≠ ':' := fun h => hkey (by rw [h]; exact List.mem_cons_self _ _)
    have hcs : ':' ∉ cs := fun h => hkey (List.mem_cons_of_mem _ h)
    obtain ⟨h1, h2⟩ := ih hcs
    have hb : (c != ':') = true := by simpa using hc
    simp only [List.cons_append, List.takeWhile, List.dropWhile, hb]
    exact ⟨congrArg (List.cons c) h1, h2⟩

/-- The token loop of the PatternList branch appends the recognised tokens in
order. -/
theorem Boss.addPatterns_eq (patterns : List PatternType) (tokens : List (List Char)) :
    Boss.addPatterns patterns tokens =
      patterns ++ tokens.filterMap (fun t => recognisedPattern (trim t)) := by
  induction tokens generalizing patterns with
  | nil => simp [Boss.addPatterns]
  | cons t rest ih =>
    have hrec : recognisedPattern (trim t) =
        (if trim t = "Rain".toList then some PatternType.Rain
         else if trim t = "Spread".toList then some PatternType.Spread
         else if trim t = "Ultimate".toList then some PatternType.Ultimate
         else if trim t = "Ghost".toList then some PatternType.GhostFire
         else if trim t = "Slash".toList then some PatternType.Slash
         else none) := rfl
    simp only [Boss.addPatterns, List.filterMap_cons, hrec]
    split_ifs <;> simp only [ih, List.append_assoc, List.singleton_append]

/-- The line loop body on a line `key:rawValue` whose key has no colon. -/
theorem Boss.applyLine_keyed (b : Boss) (key rawValue : List Char) (hkey : ':' ∉ key) :
    Boss.applyLine b (key ++ ':' :: rawValue) =
      (if trim key = "ID".toList then
        if trim rawValue = "Boss1".toList then Except.ok { b with mID := BossID.Boss1 }
        else if trim rawValue = "Boss2".toList then Except.ok { b with mID := BossID.Boss2 }
        else if trim rawValue = "Boss3".toList then Except.ok { b with mID := BossID.Boss3 }
        else Except.ok b
      else if trim key = "Name".toList then Except.ok { b with mName := String.mk (trim rawValue) }
      else if trim key = "HP".toList then
        match stoi (trim rawValue) with
        | Except.error err => Except.error err
        | Except.ok hp => Except.ok { b with mHP := hp, mMaxHP := hp }
      else if trim key = "PatternList".toList then
        Except.ok
          { b with
            mPatternList := Boss.addPatterns b.mPatternList (getlines ',' [] false (trim rawValue)) }
      else if trim key = "Texture".toList then
        Except.ok { b with mTexturePath := String.mk (trim rawValue) }
      else Except.ok b) := by
  obtain ⟨h1, h2⟩ := takeWhile_colon key rawValue hkey
  have hmem : ':' ∈ key ++ ':' :: rawValue := by simp
  simp only [Boss.applyLine, hmem, not_true_eq_false, if_false, h1, h2, List.drop_one,
    List.tail_cons]
/-- C12: the effect of one well-formed configuration line `key:value` (key
without a colon, key and value read after their leading spaces): ID sets the
identity, Name the name, HP sets HP and maxHP to the integer read, PatternList
appends exactly the recognised tokens in their order, Texture sets the texture
path; loadFromFile applies the lines of the text in order; and the scenario
text gives identity Boss2, name Grim, HP = maxHP = 40, the patterns Rain and
Spread appended (Unknown skipped) and the texture path assets/grim.bmp. -/
theorem loadFromFile_well_formed (b : Boss) (key rawValue : List Char) (hkey : ':' ∉ key) :
    (trim key = "ID".toList →
      (trim rawValue = "Boss1".toList →
        Boss.applyLine b (key ++ ':' :: rawValue) = Except.ok { b with mID := BossID.Boss1 }) ∧
      (trim rawValue = "Boss2".toList →
        Boss.applyLine b (key ++ ':' :: rawValue) = Except.ok { b with mID := BossID.Boss2 }) ∧
      (trim rawValue = "Boss3".toList →
        Boss.applyLine b (key ++ ':' :: rawValue) = Except.ok { b with mID := BossID.Boss3 })) ∧
    (trim key = "Name".toList →
      Boss.applyLine b (key ++ ':' :: rawValue) =
        Except.ok { b with mName := String.mk (trim rawValue) }) ∧
    (trim key = "HP".toList → ∀ hp : ℤ, stoi (trim rawValue) = Except.ok hp →
      Boss.applyLine b (key ++ ':' :: rawValue) = Except.ok { b with mHP := hp, mMaxHP := hp }) ∧
    (trim key = "PatternList".toList →
      Boss.applyLine b (key ++ ':' :: rawValue) =
        Except.ok
          { b with
            mPatternList := b.mPatternList ++
              (getlines ',' [] false (trim rawValue)).filterMap
                (fun t => recognisedPattern (trim t)) }) ∧
    (trim key = "Texture".toList →
      Boss.applyLine b (key ++ ':' :: rawValue) =
        Except.ok { b with mTexturePath := String.mk (trim rawValue) }) ∧
    (∀ text : String,
      b.loadFromFile (some text) = Boss.applyLines b (getlines '\n' [] false text.toList)) ∧
    b.loadFromFile (some grimConfig) =
      Except.ok
        { b with
          mID := BossID.Boss2, mName := "Grim", mHP := 40, mMaxHP := 40
          mPatternList := b.mPatternList ++ [PatternType.Rain, PatternType.Spread]
          mTexturePath := "assets/grim.bmp" } ∧
    (b.mPatternList = [] →
      ∃ b1 : Boss, b.loadFromFile (some grimConfig) = Except.ok b1 ∧
        b1.mHP = 40 ∧ b1.mMaxHP = 40 ∧
        b1.mPatternList = [PatternType.Rain, PatternType.Spread] ∧
        b1.mTexturePath = "assets/grim.bmp") := by
  have hline := Boss.applyLine_keyed b key rawValue hkey
  have hscenario : b.loadFromFile (some grimConfig) =
      Except.ok
        { b with
          mID := BossID.Boss2, mName := "Grim", mHP := 40, mMaxHP := 40
          mPatternList := b.mPatternList ++ [PatternType.Rain, PatternType.Spread]
          mTexturePath := "assets/grim.bmp" } := by
    have hlines : getlines '\n' [] false grimConfig.toList =
        ["ID".toList ++ ':' :: " Boss2".toList, "Name".toList ++ ':' :: " Grim".toList,
         "HP".toList ++ ':' :: " 40".toList,
         "PatternList".toList ++ ':' :: " Rain, Spread, Unknown".toList,
         "Texture".toList ++ ':' :: " assets/grim.bmp".toList] := by decide
    have l1 : ∀ c : Boss, Boss.applyLine c ("ID".toList ++ ':' :: " Boss2".toList) =
        Except.ok { c with mID := BossID.Boss2 } := by
      intro c
      rw [Boss.applyLine_keyed c _ _ (by decide), if_pos (by decide), if_neg (by decide),
        if_pos (by decide)]
    have l2 : ∀ c : Boss, Boss.applyLine c ("Name".toList ++ ':' :: " Grim".toList) =
        Except.ok { c with mName := "Grim" } := by
      intro c
      rw [Boss.applyLine_keyed c _ _ (by decide), if_neg (by decide), if_pos (by decide)]
      rfl
    have l3 : ∀ c : Boss, Boss.applyLine c ("HP".toList ++ ':' :: " 40".toList) =
        Except.ok { c with mHP := 40, mMaxHP := 40 } := by
      intro c
      rw [Boss.applyLine_keyed c _ _ (by decide), if_neg (by decide), if_neg (by decide),
        if_pos (by decide)]
      have : stoi (trim " 40".toList) = Except.ok 40 := by rfl
      rw [this]
    have l4 : ∀ c : Boss,
        Boss.applyLine c ("PatternList".toList ++ ':' :: " Rain, Spread, Unknown".toList) =
        Except.ok
          { c with mPatternList := c.mPatternList ++ [PatternType.Rain, PatternType.Spread] } := by
      intro c
      rw [Boss.applyLine_keyed c _ _ (by decide), if_neg (by decide), if_neg (by decide),
        if_neg (by decide), if_pos (by decide), Boss.addPatterns_eq]
      have : (getlines ',' [] false (trim " Rain, Spread, Unknown".toList)).filterMap
          (fun t => recognisedPattern (trim t)) = [PatternType.Rain, PatternType.Spread] := by
        decide
      rw [this]
    have l5 : ∀ c : Boss,
        Boss.applyLine c ("Texture".toList ++ ':' :: " assets/grim.bmp".toList) =
        Except.ok { c with mTexturePath := "assets/grim.bmp" } := by
      intro c
      rw [Boss.applyLine_keyed c _ _ (by decide), if_neg (by decide), if_neg (by decide),
        if_neg (by decide), if_neg (by decide), if_pos (by decide)]
      rfl
    show Boss.applyLines b (getlines '\n' [] false grimConfig.toList) = _
    rw [hlines]
    simp only [Boss.applyLines, l1, l2, l3, l4, l5]
  refine ⟨?_, ?_, ?_, ?_, ?_, fun _ => rfl, hscenario, ?_⟩
  · intro hk
    rw [if_pos hk] at hline
    refine ⟨fun hv => ?_, fun hv => ?_, fun hv => ?_⟩
    · rw [hline, if_pos hv]
    · rw [hline, if_neg (by rw [hv]; decide), if_pos hv]
    · rw [hline, if_neg (by rw [hv]; decide), if_neg (by rw [hv]; decide), if_pos hv]
  · intro hk
    rw [hline, if_neg (by rw [hk]; decide), if_pos hk]
  · intro hk hp hstoi
    rw [hline, if_neg (by rw [hk]; decide), if_neg (by rw [hk]; decide), if_pos hk, hstoi]
  · intro hk
    rw [hline, if_neg (by rw [hk]; decide), if_neg (by rw [hk]; decide),
      if_neg (by rw [hk]; decide), if_pos hk, Boss.addPatterns_eq]
  · intro hk
    rw [hline, if_neg (by rw [hk]; decide), if_neg (by rw [hk]; decide),
      if_neg (by rw [hk]; decide), if_neg (by rw [hk]; decide), if_pos hk]
  · intro hempty
    refine ⟨_, hscenario, rfl, rfl, ?_, rfl⟩
    simp only [hempty, List.nil_append]

/-- Witness of C12: the line `HP: 40` applied to a boss fresh from the constructor. -/
theorem loadFromFile_well_formed_witness :
    Boss.applyLine exampleBoss ("HP".toList ++ ':' :: " 40".toList) =
      Except.ok { exampleBoss with mHP := 40, mMaxHP := 40 } :=
  (loadFromFile_well_formed exampleBoss "HP".toList " 40".toList (by decide)).2.2.1
    (by decide) 40 (by rfl)

/-- C13 (the code at the failing input): a configuration whose HP line has no
number makes `std::stoi` throw `invalid_argument`, which loadFromFile does not
catch: the load is aborted and the following Name line is never applied, although
that line alone is applied, and although a line without a colon and a line with
an unknown key are skipped as the claim says. -/
theorem loadFromFile_aborts_on_unparsable_HP :
    exampleBoss.loadFromFile (some "HP: abc\nName: Grim") =
      Except.error LoadError.invalid_argument ∧
    exampleBoss.loadFromFile (some "Name: Grim") =
      Except.ok { exampleBoss with mName := "Grim" } ∧
    exampleBoss.loadFromFile (some "no separator here\nColour: red\nName: Grim") =
      Except.ok { exampleBoss with mName := "Grim" } ∧
    exampleBoss.loadFromFile (some "HP: 99999999999\nName: Grim") =
      Except.error LoadError.out_of_range := by
  refine ⟨by rfl, by rfl, by rfl, by rfl⟩

/-! ## Boss movement -/

/-- The fields of a boss that the attack patterns and the projectile update
leave alone. -/
theorem Boss.patternStep_keeps (b b1 : Boss) (pattern : PatternType) (player : Player)
    (dt : ℚ) (env : MathEnv) (u : Uninit) (L now : ℕ)
    (h : b.patternStep pattern player dt env u L now = some b1) :
    b1.toGameEntity = b.toGameEntity ∧ b1.mXDirection = b.mXDirection ∧
    b1.mYDirection = b.mYDirection ∧ b1.mID = b.mID ∧ b1.mHP = b.mHP ∧
    b1.mMaxHP = b.mMaxHP ∧ b1.mPatternList = b.mPatternList := by
  cases pattern
  · simp only [Boss.patternStep] at h
    split_ifs at h
    · simp only [Boss.fireStraightRain] at h
      split at h
      · simp only [Option.map_some', Option.some.injEq] at h
        subst h
        exact ⟨rfl, rfl, rfl, rfl, rfl, rfl, rfl⟩
      · simp only [Option.map_map, Option.map_eq_some'] at h
        obtain ⟨shots, -, hs⟩ := h
        subst hs
        exact ⟨rfl, rfl, rfl, rfl, rfl, rfl, rfl⟩
    · simp only [Option.some.injEq] at h
      subst h
      exact ⟨rfl, rfl, rfl, rfl, rfl, rfl, rfl⟩
  · simp only [Boss.patternStep] at h
    split_ifs at h
    · simp only [Option.some.injEq] at h
      subst h
      simp only [Boss.fireSpreadShot]
      split <;> exact ⟨rfl, rfl, rfl, rfl, rfl, rfl, rfl⟩
    · simp only [Option.some.injEq] at h
      subst h
      exact ⟨rfl, rfl, rfl, rfl, rfl, rfl, rfl⟩
  · simp only [Boss.patternStep] at h
    split_ifs at h
    · simp only [Boss.dragonBreath] at h
      split at h
      · simp only [Option.map_some', Option.some.injEq] at h
        subst h
        split_ifs <;> exact ⟨rfl, rfl, rfl, rfl, rfl, rfl, rfl⟩
      · split_ifs at h
        all_goals first
          | (simp only [Option.map_none', reduceCtorEq] at h)
          | (simp only [Option.map_map, Option.map_eq_some'] at h
             obtain ⟨shots, -, hs⟩ := h
             subst hs
             simp only [Function.comp]
             split_ifs <;> exact ⟨rfl, rfl, rfl, rfl, rfl, rfl, rfl⟩)
    · simp only [Option.some.injEq] at h
      subst h
      exact ⟨rfl, rfl, rfl, rfl, rfl, rfl, rfl⟩
  · simp only [Boss.patternStep] at h
    split_ifs at h
    · simp only [Option.some.injEq] at h
      subst h
      simp only [Boss.fireLingeringGhostShot]
      split <;> exact ⟨rfl, rfl, rfl, rfl, rfl, rfl, rfl⟩
    · simp only [Option.some.injEq] at h
      subst h
      exact ⟨rfl, rfl, rfl, rfl, rfl, rfl, rfl⟩
  · simp only [Boss.patternStep] at h
    split_ifs at h
    · simp only [Boss.slash] at h
      split at h
      · simp only [Option.map_some', Option.some.injEq] at h
        subst h
        exact ⟨rfl, rfl, rfl, rfl, rfl, rfl, rfl⟩
      · split_ifs at h
        · simp at h
        · split at h
          · simp at h
          · simp only [Option.map_some', Option.some.injEq] at h
            subst h
            exact ⟨rfl, rfl, rfl, rfl, rfl, rfl, rfl⟩
    · simp only [Option.some.injEq] at h
      subst h
      exact ⟨rfl, rfl, rfl, rfl, rfl, rfl, rfl⟩

theorem Boss.firePatterns_keeps (patterns : List PatternType) (b b1 : Boss) (player : Player)
    (dt : ℚ) (env : MathEnv) (u : Uninit) (L now : ℕ)
    (h : b.firePatterns player dt env u L now patterns = some b1) :
    b1.toGameEntity = b.toGameEntity ∧ b1.mXDirection = b.mXDirection ∧
    b1.mYDirection = b.mYDirection ∧ b1.mID = b.mID ∧ b1.mHP = b.mHP ∧
    b1.mMaxHP = b.mMaxHP ∧ b1.mPatternList = b.mPatternList := by
  induction patterns generalizing b with
  | nil =>
    simp only [Boss.firePatterns, Option.some.injEq] at h
    subst h
    exact ⟨rfl, rfl, rfl, rfl, rfl, rfl, rfl⟩
  | cons p rest ih =>
    simp only [Boss.firePatterns] at h
    split at h
    · simp at h
    · rename_i b2 hstep
      obtain ⟨a1, a2, a3, a4, a5, a6, a7⟩ := Boss.patternStep_keeps _ _ _ _ _ _ _ _ _ hstep
      obtain ⟨c1, c2, c3, c4, c5, c6, c7⟩ := ih b2 h
      exact ⟨c1.trans a1, c2.trans a2, c3.trans a3, c4.trans a4, c5.trans a5, c6.trans a6,
        c7.trans a7⟩

/-- Boss::update on a boss with a transform: the transform and the directions
after the update are those the position block leaves. -/
theorem Boss.update_outcome (b b1 : Boss) (player : Player) (dt : ℚ) (env : MathEnv)
    (u : Uninit) (d : BossDraws) (L now : ℕ) (ref : TransformComponent)
    (href : b.transform = some ref) (h : b.update player dt env u d L now = some b1) :
    b1.transform = (Boss.moveWithinBounds
      (Boss.changeDirection { b with mMovement := b.mSpeed * dt } dt d) ref).transform ∧
    b1.mXDirection = (Boss.moveWithinBounds
      (Boss.changeDirection { b with mMovement := b.mSpeed * dt } dt d) ref).mXDirection ∧
    b1.mYDirection = (Boss.moveWithinBounds
      (Boss.changeDirection { b with mMovement := b.mSpeed * dt } dt d) ref).mYDirection ∧
    b1.mID = b.mID ∧ b1.mHP = b.mHP ∧ b1.mMaxHP = b.mMaxHP := by
  simp only [Boss.update] at h
  split at h
  · rename_i heq
    simp [GameEntity.updateComponents, href] at heq
  · rename_i ref0 heq
    have hre : ref0 = ref := by
      simp [GameEntity.updateComponents, href] at heq
      exact heq.symm
    subst hre
    have hcd : Boss.changeDirection
        { ({ b with toGameEntity := b.toGameEntity.updateComponents } : Boss) with
          mMovement := b.mSpeed * dt } dt d =
        { Boss.changeDirection { b with mMovement := b.mSpeed * dt } dt d with
          toGameEntity := b.toGameEntity.updateComponents } := by
      simp only [Boss.changeDirection]
      split_ifs <;> rfl
    have hmw : ∀ c : Boss, ∀ g : GameEntity,
        (Boss.moveWithinBounds { c with toGameEntity := g } ref0).transform =
          (Boss.moveWithinBounds c ref0).transform ∧
        (Boss.moveWithinBounds { c with toGameEntity := g } ref0).mXDirection =
          (Boss.moveWithinBounds c ref0).mXDirection ∧
        (Boss.moveWithinBounds { c with toGameEntity := g } ref0).mYDirection =
          (Boss.moveWithinBounds c ref0).mYDirection ∧
        (Boss.moveWithinBounds { c with toGameEntity := g } ref0).mID = c.mID ∧
        (Boss.moveWithinBounds { c with toGameEntity := g } ref0).mHP = c.mHP ∧
        (Boss.moveWithinBounds { c with toGameEntity := g } ref0).mMaxHP = c.mMaxHP := by
      intro c g
      exact ⟨rfl, rfl, rfl, rfl, rfl, rfl⟩
    have hcdk : (Boss.changeDirection { b with mMovement := b.mSpeed * dt } dt d).mID = b.mID ∧
        (Boss.changeDirection { b with mMovement := b.mSpeed * dt } dt d).mHP = b.mHP ∧
        (Boss.changeDirection { b with mMovement := b.mSpeed * dt } dt d).mMaxHP = b.mMaxHP := by
      simp only [Boss.changeDirection]
      split_ifs <;> exact ⟨rfl, rfl, rfl⟩
    rw [hcd] at h
    obtain ⟨m1, m2, m3, m4, m5, m6⟩ :=
      hmw (Boss.changeDirection { b with mMovement := b.mSpeed * dt } dt d)
        b.toGameEntity.updateComponents
    split_ifs at h
    · simp only [Option.some.injEq] at h
      subst h
      exact ⟨m1, m2, m3, m4.trans hcdk.1, m5.trans hcdk.2.1, m6.trans hcdk.2.2⟩
    · split at h
      · simp at h
      · rename_i b4 hfire
        simp only [Option.some.injEq] at h
        subst h
        obtain ⟨k1, k2, k3, k4, k5, k6, -⟩ := Boss.firePatterns_keeps _ _ _ _ _ _ _ _ _ hfire
        have ht : b4.transform = b4.toGameEntity.transform := rfl
        refine ⟨?_, k2.trans m2, k3.trans m3, k4.trans (m4.trans hcdk.1),
          k5.trans (m5.trans hcdk.2.1), k6.trans (m6.trans hcdk.2.2)⟩
        show b4.toGameEntity.transform = _
        rw [k1]
        exact m1

/-- The position block keeps a boss inside its rectangle. -/
theorem Boss.moveWithinBounds_spec (b : Boss) (ref : TransformComponent)
    (hflag : ref.isPlayer = false) :
    ∃ t : TransformComponent, (b.moveWithinBounds ref).transform = some t ∧
      400 ≤ t.getX ∧ t.getX ≤ 1500 ∧
      (b.mID = BossID.Boss1 → 0 ≤ t.getY ∧ t.getY ≤ 200) ∧
      (b.mID ≠ BossID.Boss1 → t.getY = ref.getY ∧
        (b.moveWithinBounds ref).mYDirection = b.mYDirection) ∧
      (ref.getX + b.mMovement * b.mXDirection > 1500 →
        t.getX = 1500 ∧ (b.moveWithinBounds ref).mXDirection = -1) ∧
      (ref.getX + b.mMovement * b.mXDirection < 400 →
        t.getX = 400 ∧ (b.moveWithinBounds ref).mXDirection = 1) ∧
      (400 ≤ ref.getX + b.mMovement * b.mXDirection →
        ref.getX + b.mMovement * b.mXDirection ≤ 1500 →
        t.getX = ref.getX + b.mMovement * b.mXDirection ∧
        (b.moveWithinBounds ref).mXDirection = b.mXDirection) ∧
      (b.mID = BossID.Boss1 →
        (ref.getY + b.mMovement * b.mYDirection > 200 →
          t.getY = 200 ∧ (b.moveWithinBounds ref).mYDirection = -1) ∧
        (ref.getY + b.mMovement * b.mYDirection < 0 →
          t.getY = 0 ∧ (b.moveWithinBounds ref).mYDirection = 1) ∧
        (0 ≤ ref.getY + b.mMovement * b.mYDirection →
          ref.getY + b.mMovement * b.mYDirection ≤ 200 →
          t.getY = ref.getY + b.mMovement * b.mYDirection ∧
          (b.moveWithinBounds ref).mYDirection = b.mYDirection)) ∧
      ((b.mXDirection = 1 ∨ b.mXDirection = -1) →
        ((b.moveWithinBounds ref).mXDirection = 1 ∨ (b.moveWithinBounds ref).mXDirection = -1)) ∧
      ((b.mYDirection = 1 ∨ b.mYDirection = -1) →
        ((b.moveWithinBounds ref).mYDirection = 1 ∨
          (b.moveWithinBounds ref).mYDirection = -1)) := by
  refine ⟨_, rfl, ?_⟩
  simp only [TransformComponent.move, hflag, Bool.false_eq_true, if_false,
    TransformComponent.getX, TransformComponent.getY, Boss.moveWithinBounds]
  by_cases hid : b.mID = BossID.Boss1
  · simp only [hid, decide_True, Bool.true_and, if_true, decide_eq_true_eq, ne_eq,
      not_true_eq_false, false_implies, true_implies, true_and]
    refine ⟨?_, ?_, ?_, ?_, ?_, ?_, ?_, ?_, ?_⟩ <;> (try split_ifs) <;>
      (try simp only [decide_eq_true_eq, not_lt, not_le, gt_iff_lt] at *) <;>
      first
      | linarith
      | exact id
      | (intro _; first | exact Or.inl rfl | exact Or.inr rfl | exact Or.inr trivial)
      | (intros; first | (exfalso; linarith) | (constructor <;> first | linarith | rfl | trivial))
      | (refine ⟨?_, ?_, ?_⟩ <;> intros <;>
          first | (exfalso; linarith) | (constructor <;> first | linarith | rfl | trivial))
  · simp only [hid, decide_False, Bool.false_and, Bool.false_eq_true, if_false, ne_eq,
      not_false_eq_true, false_implies, true_implies, and_true, true_and]
    refine ⟨?_, ?_, ?_, ?_, ?_, ?_, ?_⟩ <;> (try split_ifs) <;>
      (try simp only [decide_eq_true_eq, not_lt, not_le, gt_iff_lt] at *) <;>
      first
      | linarith
      | exact id
      | trivial
      | (intro _; first | exact Or.inl rfl | exact Or.inr rfl | exact Or.inr trivial)
      | (intros; first | (exfalso; linarith) | (constructor <;> first | linarith | rfl | trivial))
theorem Boss.changeDirection_spec (b : Boss) (dt : ℚ) (d : BossDraws) :
    (b.changeDirection dt d).mMovement = b.mMovement ∧
    (b.changeDirection dt d).mID = b.mID ∧
    ((b.mXDirection = 1 ∨ b.mXDirection = -1) →
      ((b.changeDirection dt d).mXDirection = 1 ∨ (b.changeDirection dt d).mXDirection = -1)) ∧
    ((b.mYDirection = 1 ∨ b.mYDirection = -1) →
      ((b.changeDirection dt d).mYDirection = 1 ∨
        (b.changeDirection dt d).mYDirection = -1)) := by
  simp only [Boss.changeDirection]
  refine ⟨?_, ?_, ?_, ?_⟩
  · split_ifs <;> rfl
  · split_ifs <;> rfl
  · intro h
    split_ifs
    · rcases h with h | h <;> simp only [h] <;> norm_num
    · exact h
    · exact h
    · exact h
  · intro h
    split_ifs
    · exact h
    · rcases h with h | h <;> simp only [h] <;> norm_num
    · exact h
    · exact h

/-- C18: after every Boss::update of a boss that has a (non-player) transform,
for every previous position, delta time and random draws, 400 <= x <= 1500; for
Boss1 also 0 <= y <= 200, and for every other identity y is unchanged. Whenever
the next position (computed with the directions `b2` left by the coin toss of
this update) passed a bound, the coordinate is that bound and the direction on
that axis points back into the range. Directions that are +1 or -1 before the
update are +1 or -1 after it. -/
theorem boss_stays_in_bounds (b b1 : Boss) (player : Player) (dt : ℚ) (env : MathEnv)
    (u : Uninit) (d : BossDraws) (L now : ℕ) (ref : TransformComponent)
    (href : b.transform = some ref) (hflag : ref.isPlayer = false)
    (h : b.update player dt env u d L now = some b1) :
    ∃ (t : TransformComponent) (b2 : Boss),
      b2 = Boss.changeDirection { b with mMovement := b.mSpeed * dt } dt d ∧
      b1.transform = some t ∧
      400 ≤ t.getX ∧ t.getX ≤ 1500 ∧
      (b.mID = BossID.Boss1 → 0 ≤ t.getY ∧ t.getY ≤ 200) ∧
      (b.mID ≠ BossID.Boss1 → t.getY = ref.getY) ∧
      (ref.getX + b.mSpeed * dt * b2.mXDirection > 1500 →
        t.getX = 1500 ∧ b1.mXDirection = -1) ∧
      (ref.getX + b.mSpeed * dt * b2.mXDirection < 400 →
        t.getX = 400 ∧ b1.mXDirection = 1) ∧
      (b.mID = BossID.Boss1 →
        (ref.getY + b.mSpeed * dt * b2.mYDirection > 200 →
          t.getY = 200 ∧ b1.mYDirection = -1) ∧
        (ref.getY + b.mSpeed * dt * b2.mYDirection < 0 →
          t.getY = 0 ∧ b1.mYDirection = 1)) ∧
      ((b.mXDirection = 1 ∨ b.mXDirection = -1) →
        (b1.mXDirection = 1 ∨ b1.mXDirection = -1)) ∧
      ((b.mYDirection = 1 ∨ b.mYDirection = -1) →
        (b1.mYDirection = 1 ∨ b1.mYDirection = -1)) := by
  obtain ⟨r1, r2, r3, -, -, -⟩ := Boss.update_outcome b b1 player dt env u d L now ref href h
  obtain ⟨c1, c2, c3, c4⟩ :=
    Boss.changeDirection_spec { b with mMovement := b.mSpeed * dt } dt d
  obtain ⟨t, ht, m1, m2, m3, m4, m5, m6, -, m8, m9, m10⟩ :=
    Boss.moveWithinBounds_spec
      (Boss.changeDirection { b with mMovement := b.mSpeed * dt } dt d) ref hflag
  rw [c1] at m5 m6 m8
  rw [c2] at m3 m4 m8
  refine ⟨t, _, rfl, r1.trans ht, m1, m2, m3, fun hne => (m4 hne).1, ?_, ?_, ?_, ?_, ?_⟩
  · intro hx
    rw [r2]
    exact m5 hx
  · intro hx
    rw [r2]
    exact m6 hx
  · intro hid
    obtain ⟨y1, y2, -⟩ := m8 hid
    rw [r3]
    exact ⟨y1, y2⟩
  · intro hx
    rw [r2]
    exact m9 (c3 hx)
  · intro hy
    rw [r3]
    exact m10 (c4 hy)
/-- Boss::update returns when the pattern list is empty. -/
theorem Boss.update_empty_patterns (b : Boss) (player : Player) (dt : ℚ) (env : MathEnv)
    (u : Uninit) (d : BossDraws) (L now : ℕ) (hp : b.mPatternList = []) :
    ∃ b1 : Boss, b.update player dt env u d L now = some b1 := by
  simp only [Boss.update]
  split
  · exact ⟨_, rfl⟩
  · have hlist : ∀ c : Boss, ∀ r : TransformComponent,
        (((c.changeDirection dt d).moveWithinBounds r).tickCooldowns dt).mPatternList =
          c.mPatternList := by
      intro c r
      simp only [Boss.tickCooldowns, Boss.moveWithinBounds, Boss.changeDirection]
      split_ifs <;> rfl
    rw [hlist]
    simp only [hp, List.isEmpty_nil, if_true]
    exact ⟨_, rfl⟩

/-- Witness of C18: a Boss1 at x = 1495 moving right for 0.1 s at speed 100 is
held at the right bound. -/
theorem boss_stays_in_bounds_witness :
    ∃ (b1 : Boss) (t : TransformComponent),
      wanderingBoss.update examplePlayerEntity (1 / 10) exampleMath exampleUninit exampleDraws
        0 0 = some b1 ∧
      b1.transform = some t ∧ 400 ≤ t.getX ∧ t.getX ≤ 1500 := by
  obtain ⟨b1, h⟩ := Boss.update_empty_patterns wanderingBoss examplePlayerEntity (1 / 10)
    exampleMath exampleUninit exampleDraws 0 0 rfl
  obtain ⟨t, -, -, ht, h1, h2, -⟩ := boss_stays_in_bounds wanderingBoss b1 examplePlayerEntity
    (1 / 10) exampleMath exampleUninit exampleDraws 0 0
    { mRectangle := { x := 1495, y := 50, w := 300, h := 300 }, mRotation := 0,
      isPlayer := false } (by decide) rfl h
  exact ⟨b1, t, h, ht, h1, h2⟩

/-! ## Orphan migration -/

theorem Scene.pruneEnemies_eq (enemies : List Enemy) (pool : List Projectile) :
    Scene.pruneEnemies enemies pool =
      (enemies.filter (fun e => e.mRenderable),
       pool ++ (enemies.filter (fun e => !e.mRenderable)).flatMap (fun e => e.mProjectiles)) := by
  induction enemies generalizing pool with
  | nil => simp [Scene.pruneEnemies]
  | cons e rest ih =>
    simp only [Scene.pruneEnemies]
    cases hr : e.mRenderable
    · simp [ih, hr, List.filter_cons]
    · simp [ih, hr, List.filter_cons]

theorem Scene.pruneBosses_eq (bosses : List Boss) (pool : List Projectile) :
    Scene.pruneBosses bosses pool =
      (bosses.filter (fun b => b.mRenderable),
       pool ++ (bosses.filter (fun b => !b.mRenderable)).flatMap (fun b => b.mProjectiles)) := by
  induction bosses generalizing pool with
  | nil => simp [Scene.pruneBosses]
  | cons b rest ih =>
    simp only [Scene.pruneBosses]
    cases hr : b.mRenderable
    · simp [ih, hr, List.filter_cons]
    · simp [ih, hr, List.filter_cons]

/-- Splitting a collection of owners into the live and the dead ones keeps every
projectile exactly once. -/
theorem flatMap_filter_perm {α : Type} (owners : List α) (live : α → Bool)
    (held : α → List Projectile) :
    List.Perm ((owners.filter live).flatMap held ++
      (owners.filter (fun o => !live o)).flatMap held) (owners.flatMap held) := by
  induction owners with
  | nil => simp
  | cons o rest ih =>
    cases hl : live o
    · simp only [List.filter_cons, hl, Bool.false_eq_true, if_false, Bool.not_false, if_true,
        List.flatMap_cons]
      refine List.Perm.trans ?_ (List.Perm.append_left (held o) ih)
      rw [List.perm_iff_count]
      intro p
      simp only [List.count_append]
      omega
    · simp only [List.filter_cons, hl, if_true, Bool.not_true, Bool.false_eq_true, if_false,
        List.flatMap_cons, List.append_assoc]
      exact List.Perm.append_left (held o) ih

/-- C14: the two clean-up loops of Scene::update. The enemies and bosses kept
are exactly the renderable ones, unchanged and in order (so with their
collections untouched); the orphan pool afterwards is the pool before followed
by the collections of the dead enemies and then of the dead bosses, element by
element as they were (position, velocity, flags and owner tags included);
every projectile value therefore occurs in the pool and the owners' collections
together exactly as often as before (nothing duplicated, nothing lost); and the
rest of the scene is untouched. -/
theorem orphan_migration_is_a_move (s : Scene) :
    (Scene.pruneDead s).enemies = s.enemies.filter (fun e => e.mRenderable) ∧
    (Scene.pruneDead s).mBosses = s.mBosses.filter (fun b => b.mRenderable) ∧
    (Scene.pruneDead s).globalProjectiles =
      s.globalProjectiles ++
        (s.enemies.filter (fun e => !e.mRenderable)).flatMap (fun e => e.mProjectiles) ++
        (s.mBosses.filter (fun b => !b.mRenderable)).flatMap (fun b => b.mProjectiles) ∧
    List.Perm
      ((Scene.pruneDead s).globalProjectiles ++
        ((Scene.pruneDead s).enemies.flatMap (fun e => e.mProjectiles) ++
         (Scene.pruneDead s).mBosses.flatMap (fun b => b.mProjectiles)))
      (s.globalProjectiles ++
        (s.enemies.flatMap (fun e => e.mProjectiles) ++
         s.mBosses.flatMap (fun b => b.mProjectiles))) ∧
    (∀ p : Projectile,
      (Scene.pruneDead s).globalProjectiles.count p +
        (((Scene.pruneDead s).enemies.flatMap (fun e => e.mProjectiles)).count p +
         ((Scene.pruneDead s).mBosses.flatMap (fun b => b.mProjectiles)).count p) =
      s.globalProjectiles.count p +
        ((s.enemies.flatMap (fun e => e.mProjectiles)).count p +
         (s.mBosses.flatMap (fun b => b.mProjectiles)).count p)) ∧
    (Scene.pruneDead s).mainCharacter = s.mainCharacter ∧
    (Scene.pruneDead s).playerScore = s.playerScore ∧
    (Scene.pruneDead s).mSceneType = s.mSceneType ∧
    (Scene.pruneDead s).spawnedPhaseEnemies = s.spawnedPhaseEnemies := by
  have he : (Scene.pruneDead s).enemies = s.enemies.filter (fun e => e.mRenderable) := by
    simp only [Scene.pruneDead, Scene.pruneEnemies_eq]
  have hb : (Scene.pruneDead s).mBosses = s.mBosses.filter (fun b => b.mRenderable) := by
    simp only [Scene.pruneDead, Scene.pruneBosses_eq]
  have hp : (Scene.pruneDead s).globalProjectiles =
      s.globalProjectiles ++
        (s.enemies.filter (fun e => !e.mRenderable)).flatMap (fun e => e.mProjectiles) ++
        (s.mBosses.filter (fun b => !b.mRenderable)).flatMap (fun b => b.mProjectiles) := by
    simp only [Scene.pruneDead, Scene.pruneEnemies_eq, Scene.pruneBosses_eq]
  have hperm : List.Perm
      ((Scene.pruneDead s).globalProjectiles ++
        ((Scene.pruneDead s).enemies.flatMap (fun e => e.mProjectiles) ++
         (Scene.pruneDead s).mBosses.flatMap (fun b => b.mProjectiles)))
      (s.globalProjectiles ++
        (s.enemies.flatMap (fun e => e.mProjectiles) ++
         s.mBosses.flatMap (fun b => b.mProjectiles))) := by
    rw [he, hb, hp, List.append_assoc, List.append_assoc]
    refine List.Perm.append_left _ ?_
    have h1 := flatMap_filter_perm s.enemies (fun e => e.mRenderable) (fun e => e.mProjectiles)
    have h2 := flatMap_filter_perm s.mBosses (fun b => b.mRenderable) (fun b => b.mProjectiles)
    refine List.Perm.trans ?_ (List.Perm.append h1 h2)
    -- dead enemies ++ (dead bosses ++ (live enemies ++ live bosses))
    --   ~ (live enemies ++ dead enemies) ++ (live bosses ++ dead bosses)
    rw [List.perm_iff_count]
    intro p
    simp only [List.count_append]
    omega
  refine ⟨he, hb, hp, hperm, ?_, rfl, rfl, rfl, rfl⟩
  intro p
  have := List.Perm.count_eq hperm p
  simpa only [List.count_append] using this

/-! ## Stage clear and freeze -/

theorem Scene.stageClear_scene (s : Scene) (g : Globals) :
    (Scene.stageClear s g).1 =
      { s with mBosses := s.mBosses.filter (fun boss => boss.mRenderable) } := by
  simp only [Scene.stageClear]
  split_ifs <;> rfl

theorem Scene.stageClear_globals (s : Scene) (g : Globals) :
    (Scene.stageClear s g).2 =
      if (s.mBosses.filter (fun boss => boss.mRenderable)).isEmpty then
        { g with currentState := GameState.Dialogue
                 dialogueManager := g.dialogueManager.loadDialogueFromFile
                   (Scene.endScript s.mSceneType) OnFinish.endScene }
      else g := by
  simp only [Scene.stageClear]
  split_ifs <;> rfl

/-- C16: the first block of Scene::update and the freeze. The dead bosses are
removed first and nothing else of the scene is touched by that step; when no
live boss is left the state after the step is Dialogue, whatever the enemies
are, and otherwise the state is kept; and when the state after the step is not
Playing, the update returns right there: its result is the result of that
step, so the player, the enemies, the remaining bosses, every projectile
collection, the score and the formation state (the statics of Enemy) are as
before. -/
theorem stage_clear_and_freeze (s : Scene) (g : Globals) (inp : FrameInput)
    (hfrozen : (Scene.stageClear s g).2.currentState ≠ GameState.Playing) :
    (Scene.stageClear s g).1 =
      { s with mBosses := s.mBosses.filter (fun boss => boss.mRenderable) } ∧
    (Scene.stageClear s g).2.currentState =
      (if s.mBosses.all (fun boss => !boss.mRenderable) then GameState.Dialogue
       else g.currentState) ∧
    Scene.update s g inp = some (Scene.stageClear s g) ∧
    (∃ r, Scene.update s g inp = some r ∧
      r.1.mainCharacter = s.mainCharacter ∧
      r.1.enemies = s.enemies ∧
      r.1.mBosses = s.mBosses.filter (fun boss => boss.mRenderable) ∧
      r.1.globalProjectiles = s.globalProjectiles ∧
      r.1.playerScore = s.playerScore ∧
      r.1.movementThreshold = s.movementThreshold ∧
      r.1.spawnedPhaseEnemies = s.spawnedPhaseEnemies ∧
      r.2.enemyShared = g.enemyShared ∧
      r.2.lastTimeLaunch = g.lastTimeLaunch ∧
      r.2.lastUpdateTime = g.lastUpdateTime) := by
  have hs := Scene.stageClear_scene s g
  have hg := Scene.stageClear_globals s g
  have hu : Scene.update s g inp = some (Scene.stageClear s g) := by
    simp only [Scene.update]
    rw [if_pos hfrozen]
  refine ⟨hs, ?_, hu, Scene.stageClear s g, hu, ?_⟩
  · rw [hg]
    by_cases hall : s.mBosses.all (fun boss => !boss.mRenderable) = true
    · have hempty : (s.mBosses.filter (fun boss => boss.mRenderable)).isEmpty = true := by
        rw [List.isEmpty_iff, List.filter_eq_nil_iff]
        intro b hb
        have := List.all_eq_true.mp hall b hb
        simpa using this
      rw [if_pos hall, if_pos hempty]
    · have hempty : ¬ (s.mBosses.filter (fun boss => boss.mRenderable)).isEmpty = true := by
        rw [List.isEmpty_iff, List.filter_eq_nil_iff]
        intro hno
        apply hall
        rw [List.all_eq_true]
        intro b hb
        have := hno b hb
        simpa using this
      rw [if_neg hall, if_neg hempty]
  · rw [hs, hg]
    split_ifs <;> simp

/-- The frozen frame of a Boss1 stage whose only boss is dead while an enemy is
alive: the state becomes Dialogue and nothing but the boss list changes. -/
theorem stage_clear_and_freeze_witness :
    (Scene.stageClear clearedScene exampleGlobals).2.currentState = GameState.Dialogue ∧
    Scene.update clearedScene exampleGlobals exampleInput =
      some (Scene.stageClear clearedScene exampleGlobals) ∧
    (Scene.stageClear clearedScene exampleGlobals).1 = { clearedScene with mBosses := [] } :=
  have hstate : (Scene.stageClear clearedScene exampleGlobals).2.currentState =
      GameState.Dialogue := by
    simp [Scene.stageClear, clearedScene]
  have h := stage_clear_and_freeze clearedScene exampleGlobals exampleInput
    (by rw [hstate]; decide)
  ⟨hstate, h.2.2.1, by rw [h.1]; simp [clearedScene]⟩

/-! ## The hit phases -/

theorem Scene.firstHit_rel (target : GameEntity) (ps : List Projectile) :
    List.Forall₂
      (fun p q : Projectile =>
        q = p ∨ (p.mRenderable = true ∧ q = { p with mRenderable := false }))
      ps (Scene.firstHit target ps).2 := by
  induction ps with
  | nil => simp [Scene.firstHit]
  | cons p rest ih =>
    simp only [Scene.firstHit]
    split_ifs with h1 h2
    · exact List.Forall₂.cons (Or.inl rfl) ih
    · refine List.Forall₂.cons (Or.inr ⟨by simpa using h1, rfl⟩) ?_
      exact List.forall₂_same.mpr (fun _ _ => Or.inl rfl)
    · exact List.Forall₂.cons (Or.inl rfl) ih

theorem Scene.firstHit_spec (target : GameEntity) (ps : List Projectile) :
    ((Scene.firstHit target ps).1 = true →
      ∃ pre p post, ps = pre ++ p :: post ∧
        (∀ q ∈ pre, ¬ (q.mRenderable = true ∧ target.TestCollision q.toGameEntity = true)) ∧
        p.mRenderable = true ∧ target.TestCollision p.toGameEntity = true ∧
        (Scene.firstHit target ps).2 = pre ++ { p with mRenderable := false } :: post) ∧
    ((Scene.firstHit target ps).1 = false →
      (Scene.firstHit target ps).2 = ps ∧
      ∀ q ∈ ps, ¬ (q.mRenderable = true ∧ target.TestCollision q.toGameEntity = true)) := by
  induction ps with
  | nil => simp [Scene.firstHit]
  | cons p rest ih =>
    simp only [Scene.firstHit]
    split_ifs with h1 h2
    · have hp : p.mRenderable = false := by simpa using h1
      refine ⟨fun h => ?_, fun h => ?_⟩
      · obtain ⟨pre, p0, post, e, hpre, hr, hc, hres⟩ := ih.1 h
        refine ⟨p :: pre, p0, post, by simp [e], ?_, hr, hc, by simp [hres]⟩
        intro q hq
        rcases List.mem_cons.mp hq with rfl | hq
        · simp [hp]
        · exact hpre q hq
      · obtain ⟨e, hall⟩ := ih.2 h
        refine ⟨by simp [e], ?_⟩
        intro q hq
        rcases List.mem_cons.mp hq with rfl | hq
        · simp [hp]
        · exact hall q hq
    · have hp : p.mRenderable = true := by simpa using h1
      refine ⟨fun _ => ⟨[], p, rest, rfl, by simp, hp, h2, rfl⟩, fun h => ?_⟩
      simp at h
    · have hp : p.mRenderable = true := by simpa using h1
      refine ⟨fun h => ?_, fun h => ?_⟩
      · obtain ⟨pre, p0, post, e, hpre, hr, hc, hres⟩ := ih.1 h
        refine ⟨p :: pre, p0, post, by simp [e], ?_, hr, hc, by simp [hres]⟩
        intro q hq
        rcases List.mem_cons.mp hq with rfl | hq
        · simp [h2]
        · exact hpre q hq
      · obtain ⟨e, hall⟩ := ih.2 h
        refine ⟨by simp [e], ?_⟩
        intro q hq
        rcases List.mem_cons.mp hq with rfl | hq
        · simp [h2]
        · exact hall q hq

theorem Scene.firstHit_count (target : GameEntity) (ps : List Projectile) :
    (((Scene.firstHit target ps).2.countP (fun p => p.mRenderable) : ℕ) : ℤ) =
      ((ps.countP (fun p => p.mRenderable) : ℕ) : ℤ) -
        (if (Scene.firstHit target ps).1 = true then 1 else 0) := by
  induction ps with
  | nil => simp [Scene.firstHit]
  | cons p rest ih =>
    simp only [Scene.firstHit]
    split_ifs with h1 h2 h3 h4
    all_goals first
      | (have hp : p.mRenderable = false := by simpa using h1
         simp only [List.countP_cons, hp, Bool.false_eq_true, if_false, Nat.add_zero] at ih ⊢
         simp_all)
      | (have hp : p.mRenderable = true := by simpa using h1
         simp only [List.countP_cons, hp, if_true] at ih ⊢
         simp_all)

/-- A projectile still renderable after some hits is one of the original list. -/
theorem renderable_mem_of_rel (ps qs : List Projectile)
    (h : List.Forall₂
      (fun p q : Projectile =>
        q = p ∨ (p.mRenderable = true ∧ q = { p with mRenderable := false })) ps qs)
    (q : Projectile) (hq : q ∈ qs) (hr : q.mRenderable = true) : q ∈ ps := by
  induction h with
  | nil => simp at hq
  | cons hpq _ ih =>
    rcases List.mem_cons.mp hq with rfl | hq
    · rcases hpq with e | ⟨_, e⟩
      · simp [e]
      · rw [e] at hr; simp at hr
    · exact List.mem_cons_of_mem _ (ih hq)

theorem rel_trans (ps qs rs : List Projectile)
    (h1 : List.Forall₂
      (fun p q : Projectile =>
        q = p ∨ (p.mRenderable = true ∧ q = { p with mRenderable := false })) ps qs)
    (h2 : List.Forall₂
      (fun p q : Projectile =>
        q = p ∨ (p.mRenderable = true ∧ q = { p with mRenderable := false })) qs rs) :
    List.Forall₂
      (fun p q : Projectile =>
        q = p ∨ (p.mRenderable = true ∧ q = { p with mRenderable := false })) ps rs := by
  induction h1 generalizing rs with
  | nil => cases h2; exact List.Forall₂.nil
  | cons hpq _ ih =>
    cases h2 with
    | cons hqr hrest =>
      refine List.Forall₂.cons ?_ (ih _ hrest)
      rcases hpq with e1 | ⟨hr1, e1⟩
      · rcases hqr with e2 | ⟨hr2, e2⟩
        · exact Or.inl (by rw [e2, e1])
        · exact Or.inr ⟨by rw [← e1]; exact hr2, by rw [e2, e1]⟩
      · rcases hqr with e2 | ⟨hr2, _⟩
        · exact Or.inr ⟨hr1, by rw [e2, e1]⟩
        · rw [e1] at hr2; simp at hr2
theorem Scene.bossAfterHit_mHP (boss : Boss) : (Scene.bossAfterHit boss).mHP = boss.mHP - 1 := by
  simp only [Scene.bossAfterHit]
  split_ifs <;> simp [Boss.onHit_mHP]

theorem Scene.hitBosses_spec (bosses : List Boss) (ps : List Projectile) (score : ℤ) :
    List.Forall₂
      (fun b c : Boss =>
        c = b ∨ (b.mRenderable = true ∧ c = Scene.bossAfterHit b ∧ c.mHP = b.mHP - 1 ∧
          ∃ p ∈ ps, p.mRenderable = true ∧
            b.toGameEntity.TestCollision p.toGameEntity = true))
      bosses (Scene.hitBosses bosses ps score).1 ∧
    List.Forall₂
      (fun p q : Projectile =>
        q = p ∨ (p.mRenderable = true ∧ q = { p with mRenderable := false }))
      ps (Scene.hitBosses bosses ps score).2.1 ∧
    (Scene.hitBosses bosses ps score).2.2 =
      score + ((bosses.map (fun b => b.mHP)).sum -
        ((Scene.hitBosses bosses ps score).1.map (fun b => b.mHP)).sum) ∧
    (Scene.hitBosses bosses ps score).2.2 =
      score + (((ps.countP (fun p => p.mRenderable) : ℕ) : ℤ) -
        (((Scene.hitBosses bosses ps score).2.1.countP (fun p => p.mRenderable) : ℕ) : ℤ)) := by
  induction bosses generalizing ps score with
  | nil =>
    simp only [Scene.hitBosses]
    exact ⟨List.Forall₂.nil, List.forall₂_same.mpr (fun _ _ => Or.inl rfl), by simp, by simp⟩
  | cons boss rest ih =>
    simp only [Scene.hitBosses]
    split_ifs with h1 h2
    · obtain ⟨a, b, c, d⟩ := ih ps score
      exact ⟨List.Forall₂.cons (Or.inl rfl) a, b, by simp only [List.map_cons, List.sum_cons]; rw [c]; ring, d⟩
    · have hrel := Scene.firstHit_rel boss.toGameEntity ps
      have hcnt := Scene.firstHit_count boss.toGameEntity ps
      obtain ⟨pre, p0, post, e, _, hr, hc, _⟩ := (Scene.firstHit_spec boss.toGameEntity ps).1 h2
      obtain ⟨a, b, c, d⟩ := ih (Scene.firstHit boss.toGameEntity ps).2 (score + 1)
      refine ⟨List.Forall₂.cons (Or.inr ⟨by simpa using h1, rfl, Scene.bossAfterHit_mHP boss,
          p0, by simp [e], hr, hc⟩) ?_, rel_trans _ _ _ hrel b, ?_, ?_⟩
      · refine List.Forall₂.imp ?_ a
        intro x y hxy
        rcases hxy with h | ⟨h3, h4, h5, q, hq, hq1, hq2⟩
        · exact Or.inl h
        · exact Or.inr ⟨h3, h4, h5, q, renderable_mem_of_rel _ _ hrel q hq hq1, hq1, hq2⟩
      · simp only [List.map_cons, List.sum_cons, Scene.bossAfterHit_mHP]
        rw [c]; ring
      · rw [d, hcnt, if_pos h2]; ring
    · have hrel := Scene.firstHit_rel boss.toGameEntity ps
      have hcnt := Scene.firstHit_count boss.toGameEntity ps
      obtain ⟨a, b, c, d⟩ := ih (Scene.firstHit boss.toGameEntity ps).2 score
      refine ⟨List.Forall₂.cons (Or.inl rfl) ?_, rel_trans _ _ _ hrel b, ?_, ?_⟩
      · refine List.Forall₂.imp ?_ a
        intro x y hxy
        rcases hxy with h | ⟨h3, h4, h5, q, hq, hq1, hq2⟩
        · exact Or.inl h
        · exact Or.inr ⟨h3, h4, h5, q, renderable_mem_of_rel _ _ hrel q hq hq1, hq1, hq2⟩
      · simp only [List.map_cons, List.sum_cons]
        rw [c]; ring
      · rw [d, hcnt, if_neg h2]; ring

theorem Scene.hitEnemies_spec (enemies : List Enemy) (ps : List Projectile) (score : ℤ) :
    List.Forall₂
      (fun e f : Enemy =>
        f = e ∨ (e.mRenderable = true ∧ f = e.onHit ∧ f.mRenderable = false ∧
          ∃ p ∈ ps, p.mRenderable = true ∧
            e.toGameEntity.TestCollision p.toGameEntity = true))
      enemies (Scene.hitEnemies enemies ps score).1 ∧
    List.Forall₂
      (fun p q : Projectile =>
        q = p ∨ (p.mRenderable = true ∧ q = { p with mRenderable := false }))
      ps (Scene.hitEnemies enemies ps score).2.1 ∧
    (Scene.hitEnemies enemies ps score).2.2 =
      score + (((enemies.countP (fun e => e.mRenderable) : ℕ) : ℤ) -
        (((Scene.hitEnemies enemies ps score).1.countP (fun e => e.mRenderable) : ℕ) : ℤ)) ∧
    (Scene.hitEnemies enemies ps score).2.2 =
      score + (((ps.countP (fun p => p.mRenderable) : ℕ) : ℤ) -
        (((Scene.hitEnemies enemies ps score).2.1.countP (fun p => p.mRenderable) : ℕ) : ℤ)) := by
  induction enemies generalizing ps score with
  | nil =>
    simp only [Scene.hitEnemies]
    exact ⟨List.Forall₂.nil, List.forall₂_same.mpr (fun _ _ => Or.inl rfl), by simp, by simp⟩
  | cons enemy rest ih =>
    simp only [Scene.hitEnemies]
    split_ifs with h1 h2
    · have hr : enemy.mRenderable = false := by simpa using h1
      obtain ⟨a, b, c, d⟩ := ih ps score
      refine ⟨List.Forall₂.cons (Or.inl rfl) a, b, ?_, d⟩
      simp only [List.countP_cons, hr, Bool.false_eq_true, if_false, Nat.add_zero]
      exact c
    · have hr : enemy.mRenderable = true := by simpa using h1
      have hrel := Scene.firstHit_rel enemy.toGameEntity ps
      have hcnt := Scene.firstHit_count enemy.toGameEntity ps
      obtain ⟨pre, p0, post, e, _, hpr, hc, _⟩ := (Scene.firstHit_spec enemy.toGameEntity ps).1 h2
      obtain ⟨a, b, c, d⟩ := ih (Scene.firstHit enemy.toGameEntity ps).2 (score + 1)
      refine ⟨List.Forall₂.cons (Or.inr ⟨hr, rfl, rfl, p0, by simp [e], hpr, hc⟩) ?_,
        rel_trans _ _ _ hrel b, ?_, ?_⟩
      · refine List.Forall₂.imp ?_ a
        intro x y hxy
        rcases hxy with h | ⟨h3, h4, h5, q, hq, hq1, hq2⟩
        · exact Or.inl h
        · exact Or.inr ⟨h3, h4, h5, q, renderable_mem_of_rel _ _ hrel q hq hq1, hq1, hq2⟩
      · have hoff : enemy.onHit.mRenderable = false := rfl
        simp only [List.countP_cons, hr, hoff, Bool.false_eq_true, if_false, if_true,
          Nat.add_zero]
        rw [c]; push_cast; ring
      · rw [d, hcnt, if_pos h2]; ring
    · have hr : enemy.mRenderable = true := by simpa using h1
      have hrel := Scene.firstHit_rel enemy.toGameEntity ps
      have hcnt := Scene.firstHit_count enemy.toGameEntity ps
      obtain ⟨a, b, c, d⟩ := ih (Scene.firstHit enemy.toGameEntity ps).2 score
      refine ⟨List.Forall₂.cons (Or.inl rfl) ?_, rel_trans _ _ _ hrel b, ?_, ?_⟩
      · refine List.Forall₂.imp ?_ a
        intro x y hxy
        rcases hxy with h | ⟨h3, h4, h5, q, hq, hq1, hq2⟩
        · exact Or.inl h
        · exact Or.inr ⟨h3, h4, h5, q, renderable_mem_of_rel _ _ hrel q hq hq1, hq1, hq2⟩
      · simp only [List.countP_cons, hr, if_true]
        rw [c]; push_cast; ring
      · rw [d, hcnt, if_neg h2]; ring
/-- A projectile that is non-renderable before a first-match step is the same
projectile at the same position after it. -/
theorem Scene.usesFirstMatch_keeps (target : GameEntity) (before after : List Projectile)
    (h : Scene.usesFirstMatch target before after) (n : ℕ) (p : Projectile)
    (hn : before[n]? = some p) (hp : p.mRenderable = false) : after[n]? = some p := by
  obtain ⟨front, p0, back, e, -, hr, -, ea⟩ := h
  subst e
  subst ea
  rcases Nat.lt_trichotomy n front.length with hlt | heq | hgt
  · rw [List.getElem?_append_left hlt] at hn
    rw [List.getElem?_append_left hlt]
    exact hn
  · subst heq
    rw [List.getElem?_append_right (le_refl _), Nat.sub_self, List.getElem?_cons_zero] at hn
    have : p0 = p := Option.some.inj hn
    subst this
    rw [hr] at hp
    cases hp
  · obtain ⟨k, hk⟩ : ∃ k, n - front.length = k + 1 := ⟨n - front.length - 1, by omega⟩
    rw [List.getElem?_append_right (by omega), hk, List.getElem?_cons_succ] at hn
    rw [List.getElem?_append_right (by omega), hk, List.getElem?_cons_succ]
    exact hn

/-- The boss hit phase, target by target. There is a sequence of projectile
lists, `tb i` being the list when the boss at position `i` has its turn, that
starts with the given list and ends with the list the phase returns. A
renderable boss for which `tb i` holds a renderable colliding projectile comes
out hit, and the next list is `tb i` with the first such projectile made
non-renderable; every other boss comes out as it was and the list stays. -/
theorem Scene.hitBosses_trace (bosses : List Boss) (ps : List Projectile) (score : ℤ) :
    ∃ tb : ℕ → List Projectile, tb 0 = ps ∧
      tb bosses.length = (Scene.hitBosses bosses ps score).2.1 ∧
      ∀ i b, bosses[i]? = some b →
        ((b.mRenderable = true ∧ ∃ p ∈ tb i, p.mRenderable = true ∧
            b.toGameEntity.TestCollision p.toGameEntity = true) →
          (Scene.hitBosses bosses ps score).1[i]? = some (Scene.bossAfterHit b) ∧
          Scene.usesFirstMatch b.toGameEntity (tb i) (tb (i + 1))) ∧
        (¬ (b.mRenderable = true ∧ ∃ p ∈ tb i, p.mRenderable = true ∧
            b.toGameEntity.TestCollision p.toGameEntity = true) →
          (Scene.hitBosses bosses ps score).1[i]? = some b ∧ tb (i + 1) = tb i) := by
  induction bosses generalizing ps score with
  | nil =>
    refine ⟨fun _ => ps, rfl, rfl, ?_⟩
    intro i b hb
    simp at hb
  | cons boss rest ih =>
    obtain ⟨s1, s2⟩ := Scene.firstHit_spec boss.toGameEntity ps
    by_cases hlive : boss.mRenderable = true
    · cases hhit : (Scene.firstHit boss.toGameEntity ps).1 with
      | true =>
        obtain ⟨front, p, back, e, hfront, hr, hc, hres⟩ := s1 hhit
        obtain ⟨tb, t0, tn, tstep⟩ := ih (Scene.firstHit boss.toGameEntity ps).2 (score + 1)
        have hval : Scene.hitBosses (boss :: rest) ps score =
            (Scene.bossAfterHit boss ::
              (Scene.hitBosses rest (Scene.firstHit boss.toGameEntity ps).2 (score + 1)).1,
             (Scene.hitBosses rest (Scene.firstHit boss.toGameEntity ps).2 (score + 1)).2) := by
          simp only [Scene.hitBosses, hlive, hhit, Bool.not_true, Bool.false_eq_true, if_false,
            if_true]
        refine ⟨fun i => match i with
          | 0 => ps
          | i + 1 => tb i, rfl, ?_, ?_⟩
        · show tb rest.length = _
          rw [tn, hval]
        · intro i b hb
          cases i with
          | zero =>
            simp only [List.getElem?_cons_zero, Option.some.injEq] at hb
            subst hb
            refine ⟨fun _ => ⟨by simp only [hval, List.getElem?_cons_zero], ?_⟩, fun hno => ?_⟩
            · show Scene.usesFirstMatch boss.toGameEntity ps (tb 0)
              rw [t0]
              exact ⟨front, p, back, e, hfront, hr, hc, hres⟩
            · exfalso
              exact hno ⟨hlive, p, by rw [e]; simp, hr, hc⟩
          | succ i =>
            simp only [List.getElem?_cons_succ] at hb
            simp only [hval, List.getElem?_cons_succ]
            exact tstep i b hb
      | false =>
        obtain ⟨hsame, hnone⟩ := s2 hhit
        obtain ⟨tb, t0, tn, tstep⟩ := ih (Scene.firstHit boss.toGameEntity ps).2 score
        have hval : Scene.hitBosses (boss :: rest) ps score =
            (boss :: (Scene.hitBosses rest (Scene.firstHit boss.toGameEntity ps).2 score).1,
             (Scene.hitBosses rest (Scene.firstHit boss.toGameEntity ps).2 score).2) := by
          simp only [Scene.hitBosses, hlive, hhit, Bool.not_true, Bool.false_eq_true, if_false]
        refine ⟨fun i => match i with
          | 0 => ps
          | i + 1 => tb i, rfl, ?_, ?_⟩
        · show tb rest.length = _
          rw [tn, hval]
        · intro i b hb
          cases i with
          | zero =>
            simp only [List.getElem?_cons_zero, Option.some.injEq] at hb
            subst hb
            refine ⟨fun hyes => ?_, fun _ => ⟨by simp only [hval, List.getElem?_cons_zero], ?_⟩⟩
            · exfalso
              obtain ⟨-, q, hq, hqr, hqc⟩ := hyes
              exact hnone q hq ⟨hqr, hqc⟩
            · show tb 0 = ps
              rw [t0, hsame]
          | succ i =>
            simp only [List.getElem?_cons_succ] at hb
            simp only [hval, List.getElem?_cons_succ]
            exact tstep i b hb
    · obtain ⟨tb, t0, tn, tstep⟩ := ih ps score
      have hdead : boss.mRenderable = false := by simpa using hlive
      have hval : Scene.hitBosses (boss :: rest) ps score =
          (boss :: (Scene.hitBosses rest ps score).1, (Scene.hitBosses rest ps score).2) := by
        simp only [Scene.hitBosses, hdead, Bool.not_false, if_true]
      refine ⟨fun i => match i with
        | 0 => ps
        | i + 1 => tb i, rfl, ?_, ?_⟩
      · show tb rest.length = _
        rw [tn, hval]
      · intro i b hb
        cases i with
        | zero =>
          simp only [List.getElem?_cons_zero, Option.some.injEq] at hb
          subst hb
          refine ⟨fun hyes => absurd hyes.1 hlive, fun _ => ⟨by simp only [hval, List.getElem?_cons_zero], ?_⟩⟩
          show tb 0 = ps
          exact t0
        | succ i =>
          simp only [List.getElem?_cons_succ] at hb
          simp only [hval, List.getElem?_cons_succ]
          exact tstep i b hb

/-- The enemy hit phase, target by target, as the boss hit phase. -/
theorem Scene.hitEnemies_trace (enemies : List Enemy) (ps : List Projectile) (score : ℤ) :
    ∃ tb : ℕ → List Projectile, tb 0 = ps ∧
      tb enemies.length = (Scene.hitEnemies enemies ps score).2.1 ∧
      ∀ i b, enemies[i]? = some b →
        ((b.mRenderable = true ∧ ∃ p ∈ tb i, p.mRenderable = true ∧
            b.toGameEntity.TestCollision p.toGameEntity = true) →
          (Scene.hitEnemies enemies ps score).1[i]? = some (b.onHit) ∧
          Scene.usesFirstMatch b.toGameEntity (tb i) (tb (i + 1))) ∧
        (¬ (b.mRenderable = true ∧ ∃ p ∈ tb i, p.mRenderable = true ∧
            b.toGameEntity.TestCollision p.toGameEntity = true) →
          (Scene.hitEnemies enemies ps score).1[i]? = some b ∧ tb (i + 1) = tb i) := by
  induction enemies generalizing ps score with
  | nil =>
    refine ⟨fun _ => ps, rfl, rfl, ?_⟩
    intro i b hb
    simp at hb
  | cons enemy rest ih =>
    obtain ⟨s1, s2⟩ := Scene.firstHit_spec enemy.toGameEntity ps
    by_cases hlive : enemy.mRenderable = true
    · cases hhit : (Scene.firstHit enemy.toGameEntity ps).1 with
      | true =>
        obtain ⟨front, p, back, e, hfront, hr, hc, hres⟩ := s1 hhit
        obtain ⟨tb, t0, tn, tstep⟩ := ih (Scene.firstHit enemy.toGameEntity ps).2 (score + 1)
        have hval : Scene.hitEnemies (enemy :: rest) ps score =
            (enemy.onHit ::
              (Scene.hitEnemies rest (Scene.firstHit enemy.toGameEntity ps).2 (score + 1)).1,
             (Scene.hitEnemies rest (Scene.firstHit enemy.toGameEntity ps).2 (score + 1)).2) := by
          simp only [Scene.hitEnemies, hlive, hhit, Bool.not_true, Bool.false_eq_true, if_false,
            if_true]
        refine ⟨fun i => match i with
          | 0 => ps
          | i + 1 => tb i, rfl, ?_, ?_⟩
        · show tb rest.length = _
          rw [tn, hval]
        · intro i b hb
          cases i with
          | zero =>
            simp only [List.getElem?_cons_zero, Option.some.injEq] at hb
            subst hb
            refine ⟨fun _ => ⟨by simp only [hval, List.getElem?_cons_zero], ?_⟩, fun hno => ?_⟩
            · show Scene.usesFirstMatch enemy.toGameEntity ps (tb 0)
              rw [t0]
              exact ⟨front, p, back, e, hfront, hr, hc, hres⟩
            · exfalso
              exact hno ⟨hlive, p, by rw [e]; simp, hr, hc⟩
          | succ i =>
            simp only [List.getElem?_cons_succ] at hb
            simp only [hval, List.getElem?_cons_succ]
            exact tstep i b hb
      | false =>
        obtain ⟨hsame, hnone⟩ := s2 hhit
        obtain ⟨tb, t0, tn, tstep⟩ := ih (Scene.firstHit enemy.toGameEntity ps).2 score
        have hval : Scene.hitEnemies (enemy :: rest) ps score =
            (enemy :: (Scene.hitEnemies rest (Scene.firstHit enemy.toGameEntity ps).2 score).1,
             (Scene.hitEnemies rest (Scene.firstHit enemy.toGameEntity ps).2 score).2) := by
          simp only [Scene.hitEnemies, hlive, hhit, Bool.not_true, Bool.false_eq_true, if_false]
        refine ⟨fun i => match i with
          | 0 => ps
          | i + 1 => tb i, rfl, ?_, ?_⟩
        · show tb rest.length = _
          rw [tn, hval]
        · intro i b hb
          cases i with
          | zero =>
            simp only [List.getElem?_cons_zero, Option.some.injEq] at hb
            subst hb
            refine ⟨fun hyes => ?_, fun _ => ⟨by simp only [hval, List.getElem?_cons_zero], ?_⟩⟩
            · exfalso
              obtain ⟨-, q, hq, hqr, hqc⟩ := hyes
              exact hnone q hq ⟨hqr, hqc⟩
            · show tb 0 = ps
              rw [t0, hsame]
          | succ i =>
            simp only [List.getElem?_cons_succ] at hb
            simp only [hval, List.getElem?_cons_succ]
            exact tstep i b hb
    · obtain ⟨tb, t0, tn, tstep⟩ := ih ps score
      have hdead : enemy.mRenderable = false := by simpa using hlive
      have hval : Scene.hitEnemies (enemy :: rest) ps score =
          (enemy :: (Scene.hitEnemies rest ps score).1, (Scene.hitEnemies rest ps score).2) := by
        simp only [Scene.hitEnemies, hdead, Bool.not_false, if_true]
      refine ⟨fun i => match i with
        | 0 => ps
        | i + 1 => tb i, rfl, ?_, ?_⟩
      · show tb rest.length = _
        rw [tn, hval]
      · intro i b hb
        cases i with
        | zero =>
          simp only [List.getElem?_cons_zero, Option.some.injEq] at hb
          subst hb
          refine ⟨fun hyes => absurd hyes.1 hlive, fun _ => ⟨by simp only [hval, List.getElem?_cons_zero], ?_⟩⟩
          show tb 0 = ps
          exact t0
        | succ i =>
          simp only [List.getElem?_cons_succ] at hb
          simp only [hval, List.getElem?_cons_succ]
          exact tstep i b hb

/-- C19. Let the scene have a player. (1) One scan of the projectile list for a
target either finds the first renderable colliding projectile in list order,
makes exactly that one non-renderable and leaves the rest of the list as it
was, or finds none and changes nothing. (2) The hit phases handle the bosses in
list order and then the enemies in list order; `tb i` is the projectile list
when the boss at position `i` has its turn (`tb 0` is the list of the player)
and `te j` the list when the enemy at position `j` has its turn (`te 0` is the
list the bosses leave, and the list after the last enemy is the list of the
player afterwards). A renderable boss for which its list holds a renderable
colliding projectile is hit: it comes out as after `onHit`, its HP one less,
and the next list is its list with the first renderable colliding projectile,
in list order, made non-renderable. Every other boss comes out unchanged and
leaves the list unchanged. Likewise a renderable enemy with a renderable
colliding projectile comes out killed by Enemy::onHit and uses up the first
such projectile, and every other enemy and its list stay. A projectile that
is non-renderable when a target has its turn is the same projectile at the same
position for the next target, so a projectile that was used is picked by no
later boss or enemy.
(3) Every boss is afterwards unchanged or hit once, every enemy unchanged or
killed, every player projectile unchanged or switched from renderable to
non-renderable. (4) The score grows by the HP the bosses lost plus the number
of enemies killed, and this is exactly the number of projectiles that became
non-renderable: each hit uses up one projectile and no projectile serves two
hits. -/
theorem first_match_wins (s : Scene) (g : Globals) (inp : FrameInput) (player : Player)
    (hplayer : s.mainCharacter = some player) :
    (∀ (target : GameEntity) (ps : List Projectile),
      ((Scene.firstHit target ps).1 = true →
        ∃ pre p post, ps = pre ++ p :: post ∧
          (∀ q ∈ pre, ¬ (q.mRenderable = true ∧ target.TestCollision q.toGameEntity = true)) ∧
          p.mRenderable = true ∧ target.TestCollision p.toGameEntity = true ∧
          (Scene.firstHit target ps).2 = pre ++ { p with mRenderable := false } :: post) ∧
      ((Scene.firstHit target ps).1 = false →
        (Scene.firstHit target ps).2 = ps ∧
        ∀ q ∈ ps, ¬ (q.mRenderable = true ∧ target.TestCollision q.toGameEntity = true))) ∧
    ∃ r after, Scene.resolveHits s g inp = some r ∧
      r.1.mainCharacter = some { player with mProjectiles := after } ∧
      (∃ tb te : ℕ → List Projectile,
        tb 0 = player.mProjectiles ∧ te 0 = tb s.mBosses.length ∧
        after = te s.enemies.length ∧
        (∀ i b, s.mBosses[i]? = some b →
          ((b.mRenderable = true ∧ ∃ p ∈ tb i, p.mRenderable = true ∧
              b.toGameEntity.TestCollision p.toGameEntity = true) →
            r.1.mBosses[i]? = some (Scene.bossAfterHit b) ∧
            (Scene.bossAfterHit b).mHP = b.mHP - 1 ∧
            Scene.usesFirstMatch b.toGameEntity (tb i) (tb (i + 1))) ∧
          (¬ (b.mRenderable = true ∧ ∃ p ∈ tb i, p.mRenderable = true ∧
              b.toGameEntity.TestCollision p.toGameEntity = true) →
            r.1.mBosses[i]? = some b ∧ tb (i + 1) = tb i)) ∧
        (∀ j e, s.enemies[j]? = some e →
          ((e.mRenderable = true ∧ ∃ p ∈ te j, p.mRenderable = true ∧
              e.toGameEntity.TestCollision p.toGameEntity = true) →
            r.1.enemies[j]? = some e.onHit ∧ e.onHit.mRenderable = false ∧
            Scene.usesFirstMatch e.toGameEntity (te j) (te (j + 1))) ∧
          (¬ (e.mRenderable = true ∧ ∃ p ∈ te j, p.mRenderable = true ∧
              e.toGameEntity.TestCollision p.toGameEntity = true) →
            r.1.enemies[j]? = some e ∧ te (j + 1) = te j)) ∧
        (∀ i b, s.mBosses[i]? = some b →
          ∀ (n : ℕ) (p : Projectile), (tb i)[n]? = some p → p.mRenderable = false →
            (tb (i + 1))[n]? = some p) ∧
        (∀ j e, s.enemies[j]? = some e →
          ∀ (n : ℕ) (p : Projectile), (te j)[n]? = some p → p.mRenderable = false →
            (te (j + 1))[n]? = some p)) ∧
      List.Forall₂
        (fun b c : Boss =>
          c = b ∨ (b.mRenderable = true ∧ c = Scene.bossAfterHit b ∧ c.mHP = b.mHP - 1 ∧
            ∃ p ∈ player.mProjectiles, p.mRenderable = true ∧
              b.toGameEntity.TestCollision p.toGameEntity = true))
        s.mBosses r.1.mBosses ∧
      List.Forall₂
        (fun e f : Enemy =>
          f = e ∨ (e.mRenderable = true ∧ f = e.onHit ∧ f.mRenderable = false ∧
            ∃ p ∈ player.mProjectiles, p.mRenderable = true ∧
              e.toGameEntity.TestCollision p.toGameEntity = true))
        s.enemies r.1.enemies ∧
      List.Forall₂
        (fun p q : Projectile =>
          q = p ∨ (p.mRenderable = true ∧ q = { p with mRenderable := false }))
        player.mProjectiles after ∧
      r.1.playerScore = s.playerScore +
        ((s.mBosses.map (fun b => b.mHP)).sum - (r.1.mBosses.map (fun b => b.mHP)).sum) +
        (((s.enemies.countP (fun e => e.mRenderable) : ℕ) : ℤ) -
          ((r.1.enemies.countP (fun e => e.mRenderable) : ℕ) : ℤ)) ∧
      r.1.playerScore = s.playerScore +
        (((player.mProjectiles.countP (fun p => p.mRenderable) : ℕ) : ℤ) -
          ((after.countP (fun p => p.mRenderable) : ℕ) : ℤ)) := by
  refine ⟨fun target ps => Scene.firstHit_spec target ps, ?_⟩
  obtain ⟨b1, b2, b3, b4⟩ := Scene.hitBosses_spec s.mBosses player.mProjectiles s.playerScore
  obtain ⟨e1, e2, e3, e4⟩ := Scene.hitEnemies_spec s.enemies
    (Scene.hitBosses s.mBosses player.mProjectiles s.playerScore).2.1
    (Scene.hitBosses s.mBosses player.mProjectiles s.playerScore).2.2
  obtain ⟨tb, tb0, tbn, tbstep⟩ :=
    Scene.hitBosses_trace s.mBosses player.mProjectiles s.playerScore
  obtain ⟨te, te0, ten, testep⟩ := Scene.hitEnemies_trace s.enemies
    (Scene.hitBosses s.mBosses player.mProjectiles s.playerScore).2.1
    (Scene.hitBosses s.mBosses player.mProjectiles s.playerScore).2.2
  have hres : Scene.resolveHits s g inp =
      some ({ s with
                mainCharacter := some { player with
                  mProjectiles := (Scene.hitEnemies s.enemies
                    (Scene.hitBosses s.mBosses player.mProjectiles s.playerScore).2.1
                    (Scene.hitBosses s.mBosses player.mProjectiles s.playerScore).2.2).2.1 }
                mBosses := (Scene.hitBosses s.mBosses player.mProjectiles s.playerScore).1
                enemies := (Scene.hitEnemies s.enemies
                    (Scene.hitBosses s.mBosses player.mProjectiles s.playerScore).2.1
                    (Scene.hitBosses s.mBosses player.mProjectiles s.playerScore).2.2).1
                playerScore := (Scene.hitEnemies s.enemies
                    (Scene.hitBosses s.mBosses player.mProjectiles s.playerScore).2.1
                    (Scene.hitBosses s.mBosses player.mProjectiles s.playerScore).2.2).2.2 },
            { g with enemyShared :=
                Scene.advanceFormation g.enemyShared (Scene.clampDeltaTime inp.deltaTime) }) := by
    simp only [Scene.resolveHits, hplayer]
  refine ⟨_, _, hres, rfl, ?_, b1, ?_, rel_trans _ _ _ b2 e2, ?_, ?_⟩
  · refine ⟨tb, te, tb0, by rw [te0, tbn], ten.symm, ?_, ?_, ?_, ?_⟩
    · intro i b hb
      obtain ⟨h1, h2⟩ := tbstep i b hb
      exact ⟨fun hc => ⟨(h1 hc).1, Scene.bossAfterHit_mHP b, (h1 hc).2⟩, h2⟩
    · intro j e he
      obtain ⟨h1, h2⟩ := testep j e he
      exact ⟨fun hc => ⟨(h1 hc).1, by simp [Enemy.onHit], (h1 hc).2⟩, h2⟩
    · intro i b hb n p hn hp
      obtain ⟨h1, h2⟩ := tbstep i b hb
      by_cases hc : b.mRenderable = true ∧ ∃ p ∈ tb i, p.mRenderable = true ∧
          b.toGameEntity.TestCollision p.toGameEntity = true
      · exact Scene.usesFirstMatch_keeps _ _ _ (h1 hc).2 n p hn hp
      · rw [(h2 hc).2]
        exact hn
    · intro j e he n p hn hp
      obtain ⟨h1, h2⟩ := testep j e he
      by_cases hc : e.mRenderable = true ∧ ∃ p ∈ te j, p.mRenderable = true ∧
          e.toGameEntity.TestCollision p.toGameEntity = true
      · exact Scene.usesFirstMatch_keeps _ _ _ (h1 hc).2 n p hn hp
      · rw [(h2 hc).2]
        exact hn
  · refine List.Forall₂.imp ?_ e1
    intro x y hxy
    rcases hxy with h | ⟨h3, h4, h5, q, hq, hq1, hq2⟩
    · exact Or.inl h
    · exact Or.inr ⟨h3, h4, h5, q, renderable_mem_of_rel _ _ b2 q hq hq1, hq1, hq2⟩
  · show (Scene.hitEnemies _ _ _).2.2 = _
    rw [e3, b3]
  · show (Scene.hitEnemies _ _ _).2.2 = _
    rw [e4, b4]; ring

theorem skirmishScene_resolveHits :
    Scene.resolveHits skirmishScene exampleGlobals exampleInput =
      some ({ skirmishScene with
                mBosses := [{ duelBoss with mHP := 9 }]
                enemies := [sentryEnemy.onHit]
                mainCharacter := some { examplePlayerEntity with
                  mProjectiles := [arrowAt 100 700,
                    { arrowAt 1600 100 with mRenderable := false },
                    { arrowAt 1610 120 with mRenderable := false }] }
                playerScore := 2 },
            { exampleGlobals with
                enemyShared := Scene.advanceFormation exampleGlobals.enemyShared
                  (Scene.clampDeltaTime exampleInput.deltaTime) }) := by
  have h1 : duelBoss.toGameEntity.TestCollision (arrowAt 100 700).toGameEntity = false := by
    norm_num [GameEntity.TestCollision, duelBoss, arrowAt, Collision2DComponent.getRectangle]
  have h2 : duelBoss.toGameEntity.TestCollision (arrowAt 1600 100).toGameEntity = true := by
    norm_num [GameEntity.TestCollision, duelBoss, arrowAt, Collision2DComponent.getRectangle]
  have h3 : sentryEnemy.toGameEntity.TestCollision (arrowAt 100 700).toGameEntity = false := by
    norm_num [GameEntity.TestCollision, sentryEnemy, arrowAt,
      Collision2DComponent.getRectangle]
  have h4 : sentryEnemy.toGameEntity.TestCollision (arrowAt 1610 120).toGameEntity = true := by
    norm_num [GameEntity.TestCollision, sentryEnemy, arrowAt,
      Collision2DComponent.getRectangle]
  have hb : Scene.bossAfterHit duelBoss = { duelBoss with mHP := 9 } := by
    simp [Scene.bossAfterHit, Boss.onHit, duelBoss, wanderingBoss, exampleBoss, Boss.new,
      Boss.init]
  have hr1 : (arrowAt 100 700).mRenderable = true := rfl
  have hr2 : (arrowAt 1600 100).mRenderable = true := rfl
  have hr3 : (arrowAt 1610 120).mRenderable = true := rfl
  have hbr : duelBoss.mRenderable = true := rfl
  have her : sentryEnemy.mRenderable = true := rfl
  simp only [Scene.resolveHits, skirmishScene, duelScene, Scene.hitBosses, Scene.hitEnemies,
    Scene.firstHit, h1, h2, h3, h4, hb, hr1, hr2, hr3, hbr, her]
  simp

/-- The theorem on the skirmish scene. The second and the third arrow overlap
the boss and the enemy. The boss is hit by the second arrow, the first
renderable colliding one in list order, and loses one hit point. The second
arrow is then non-renderable, so the enemy is killed by the third arrow. The
score becomes 2, the number of arrows used up. -/
theorem first_match_wins_witness :
    ∃ r after, Scene.resolveHits skirmishScene exampleGlobals exampleInput = some r ∧
      r.1.mainCharacter = some { examplePlayerEntity with mProjectiles := after } ∧
      r.1.mBosses = [{ duelBoss with mHP := 9 }] ∧
      r.1.enemies = [sentryEnemy.onHit] ∧
      after = [arrowAt 100 700, { arrowAt 1600 100 with mRenderable := false },
        { arrowAt 1610 120 with mRenderable := false }] ∧
      r.1.playerScore = 2 ∧
      r.1.playerScore = skirmishScene.playerScore +
        (((([arrowAt 100 700, arrowAt 1600 100, arrowAt 1610 120] : List Projectile).countP
            (fun p => p.mRenderable) : ℕ) : ℤ) -
          ((after.countP (fun p => p.mRenderable) : ℕ) : ℤ)) := by
  obtain ⟨r, after, hr, hp, _, _, _, _, _, hscore⟩ :=
    (first_match_wins skirmishScene exampleGlobals exampleInput
      { examplePlayerEntity with
        mProjectiles := [arrowAt 100 700, arrowAt 1600 100, arrowAt 1610 120] } rfl).2
  have hr2 := skirmishScene_resolveHits
  rw [hr] at hr2
  have hr3 := Option.some.inj hr2
  have hafter : after = [arrowAt 100 700, { arrowAt 1600 100 with mRenderable := false },
      { arrowAt 1610 120 with mRenderable := false }] := by
    rw [hr3] at hp
    have := Option.some.inj hp
    exact (congrArg Player.mProjectiles this).symm
  refine ⟨r, after, hr, hp, by rw [hr3], by rw [hr3], hafter, by rw [hr3], hscore⟩

/-! ## The stages of a Playing frame -/

theorem Boss.update_keeps_life (b b1 : Boss) (player : Player) (dt : ℚ) (env : MathEnv)
    (u : Uninit) (d : BossDraws) (L now : ℕ) (h : b.update player dt env u d L now = some b1) :
    b1.mHP = b.mHP ∧ b1.mMaxHP = b.mMaxHP ∧ b1.mRenderable = b.mRenderable ∧
    b1.mPatternList = b.mPatternList := by
  have hk : ∀ c : Boss, ∀ r : TransformComponent,
      (((c.changeDirection dt d).moveWithinBounds r).tickCooldowns dt).mHP = c.mHP ∧
      (((c.changeDirection dt d).moveWithinBounds r).tickCooldowns dt).mMaxHP = c.mMaxHP ∧
      (((c.changeDirection dt d).moveWithinBounds r).tickCooldowns dt).mRenderable =
        c.mRenderable ∧
      (((c.changeDirection dt d).moveWithinBounds r).tickCooldowns dt).mPatternList =
        c.mPatternList := by
    intro c r
    simp only [Boss.tickCooldowns, Boss.moveWithinBounds, Boss.changeDirection]
    split_ifs <;> exact ⟨rfl, rfl, rfl, rfl⟩
  simp only [Boss.update] at h
  split at h
  · simp only [Option.some.injEq] at h
    subst h
    exact ⟨rfl, rfl, rfl, rfl⟩
  · rename_i ref heq
    split_ifs at h
    · simp only [Option.some.injEq] at h
      subst h
      exact hk _ ref
    · split at h
      · simp at h
      · rename_i b4 hfire
        simp only [Option.some.injEq] at h
        subst h
        obtain ⟨k1, -, -, -, k5, k6, k7⟩ := Boss.firePatterns_keeps _ _ _ _ _ _ _ _ _ hfire
        obtain ⟨m1, m2, m3, m4⟩ := hk
          { ({ b with toGameEntity := b.toGameEntity.updateComponents } : Boss) with
            mMovement := b.mSpeed * dt } ref
        refine ⟨k5.trans m1, k6.trans m2, ?_, k7.trans m4⟩
        show b4.toGameEntity.mRenderable = _
        rw [k1]
        exact m3

theorem Scene.updateBosses_keeps (player : Player) (dt : ℚ) (inp : FrameInput) (L : ℕ)
    (bosses : List Boss) (index : ℕ) (bs : List Boss)
    (h : Scene.updateBosses player dt inp L bosses index = some bs) :
    List.Forall₂
      (fun b c : Boss => c.mHP = b.mHP ∧ c.mMaxHP = b.mMaxHP ∧ c.mRenderable = b.mRenderable ∧
        c.mPatternList = b.mPatternList)
      bosses bs := by
  induction bosses generalizing index bs with
  | nil =>
    simp only [Scene.updateBosses, Option.some.injEq] at h
    subst h
    exact List.Forall₂.nil
  | cons b rest ih =>
    simp only [Scene.updateBosses] at h
    split at h
    · simp at h
    · rename_i b1 hb
      split at h
      · simp at h
      · rename_i rest1 hrest
        simp only [Option.some.injEq] at h
        subst h
        exact List.Forall₂.cons (Boss.update_keeps_life _ _ _ _ _ _ _ _ _ hb) (ih _ _ hrest)

theorem Scene.updateEnemies_length (enemies : List Enemy) (s : EnemyShared) (L now : ℕ)
    (dt : ℚ) (u : Uninit) (r : List Enemy × EnemyShared)
    (h : Scene.updateEnemies enemies s L now dt u = some r) : r.1.length = enemies.length := by
  induction enemies generalizing s r with
  | nil =>
    simp only [Scene.updateEnemies, Option.some.injEq] at h
    subst h
    rfl
  | cons e rest ih =>
    unfold Scene.updateEnemies at h
    cases h1 : e.update s L now dt u with
    | none => simp [h1] at h
    | some r1 =>
      obtain ⟨e1, s1⟩ := r1
      simp only [h1] at h
      cases h2 : Scene.updateEnemies rest s1 L now dt u with
      | none => simp [h2] at h
      | some r2 =>
        obtain ⟨rest1, s2⟩ := r2
        simp only [h2, Option.some.injEq] at h
        subst h
        have := ih s1 _ h2
        simp only [List.length_cons]
        simpa using this

theorem Scene.updateEntities_spec (s : Scene) (g : Globals) (inp : FrameInput)
    (r : Scene × Globals) (h : Scene.updateEntities s g inp = some r) :
    (∃ player, s.mainCharacter = some player ∧
      r.1.mainCharacter = some (player.update (Scene.clampDeltaTime inp.deltaTime))) ∧
    List.Forall₂
      (fun b c : Boss => c.mHP = b.mHP ∧ c.mMaxHP = b.mMaxHP ∧ c.mRenderable = b.mRenderable ∧
        c.mPatternList = b.mPatternList)
      s.mBosses r.1.mBosses ∧
    r.1.enemies.length = s.enemies.length ∧
    r.1.mSceneType = s.mSceneType ∧
    r.1.spawnedPhaseEnemies = s.spawnedPhaseEnemies ∧
    r.1.globalProjectiles = s.globalProjectiles ∧
    r.1.playerScore = s.playerScore ∧
    r.2.currentState = g.currentState ∧
    r.2.dialogueManager = g.dialogueManager := by
  simp only [Scene.updateEntities] at h
  split at h
  · simp at h
  · rename_i player hplayer
    split at h
    · simp at h
    · rename_i bosses1 hb
      split at h
      · simp at h
      · rename_i r1 he
        simp only [Option.some.injEq] at h
        subst h
        exact ⟨⟨player, hplayer, rfl⟩, Scene.updateBosses_keeps _ _ _ _ _ _ _ hb,
          Scene.updateEnemies_length _ _ _ _ _ _ _ he, rfl, rfl, rfl, rfl, rfl, rfl⟩

theorem Scene.resolveHits_spec (s : Scene) (g : Globals) (inp : FrameInput)
    (r : Scene × Globals) (h : Scene.resolveHits s g inp = some r) :
    (∃ player, s.mainCharacter = some player ∧
      r.1.mBosses = (Scene.hitBosses s.mBosses player.mProjectiles s.playerScore).1 ∧
      ∃ after, r.1.mainCharacter = some { player with mProjectiles := after }) ∧
    r.1.enemies.length = s.enemies.length ∧
    r.1.mSceneType = s.mSceneType ∧
    r.1.spawnedPhaseEnemies = s.spawnedPhaseEnemies ∧
    r.1.globalProjectiles = s.globalProjectiles ∧
    r.2.currentState = g.currentState ∧
    r.2.dialogueManager = g.dialogueManager := by
  simp only [Scene.resolveHits] at h
  split at h
  · simp at h
  · rename_i player hplayer
    simp only [Option.some.injEq] at h
    subst h
    refine ⟨⟨player, hplayer, rfl, _, rfl⟩, ?_, rfl, rfl, rfl, rfl, rfl⟩
    exact (List.Forall₂.length_eq (Scene.hitEnemies_spec _ _ _).1).symm

theorem Scene.spawnLoop_length (inp : FrameInput) (n : ℤ) (tx ty : ℚ) (cells : List (ℕ × ℕ))
    (index : ℕ) (hroom : ((index + cells.length : ℕ) : ℤ) ≤ n) :
    (Scene.spawnLoop inp n tx ty cells index).1.length = cells.length ∧
    (Scene.spawnLoop inp n tx ty cells index).2 = false ∧
    (∀ e ∈ (Scene.spawnLoop inp n tx ty cells index).1,
      e.mRenderable = true ∧ e.mProjectiles = [] ∧ e.transform ≠ none) := by
  induction cells generalizing index with
  | nil => simp [Scene.spawnLoop]
  | cons cell rest ih =>
    simp only [List.length_cons] at hroom
    have hlt : ¬ ((index : ℤ) ≥ n) := by push_cast at hroom; omega
    have hroom1 : (((index + 1) + rest.length : ℕ) : ℤ) ≤ n := by push_cast at hroom ⊢; omega
    obtain ⟨a, b, c⟩ := ih (index + 1) hroom1
    simp only [Scene.spawnLoop, if_neg hlt, List.length_cons, a, b, true_and]
    intro e he
    rcases List.mem_cons.mp he with rfl | he
    · exact ⟨rfl, rfl, by simp [Scene.spawnEnemy, Enemy.init]⟩
    · exact c e he

theorem Scene.initEnemies_spec (s : Scene) (g : Globals) (inp : FrameInput) :
    (∀ r, Scene.initEnemies s g 36 inp = some r →
      r.1.enemies = s.enemies ++ (Scene.spawnLoop inp 36 96 180 Scene.gridCells 0).1 ∧
      r.1.mBosses = s.mBosses ∧ r.1.mainCharacter = s.mainCharacter ∧
      r.1.globalProjectiles = s.globalProjectiles ∧ r.1.mSceneType = s.mSceneType ∧
      r.1.playerScore = s.playerScore ∧
      r.1.spawnedPhaseEnemies = s.spawnedPhaseEnemies ∧
      r.2.currentState = g.currentState ∧ r.2.dialogueManager = g.dialogueManager) ∧
    ((∀ e ∈ s.enemies.head?, e.transform ≠ none) →
      ∃ r, Scene.initEnemies s g 36 inp = some r) := by
  have hx : (((1920 / (18 + 2) : ℕ)) : ℚ) = 96 := by norm_num
  have hy : (((1080 / 6 : ℕ)) : ℚ) = 180 := by norm_num
  obtain ⟨hlen, hflag, hall⟩ := Scene.spawnLoop_length inp 36 96 180 Scene.gridCells 0
    (by decide)
  have hcells : Scene.gridCells.length = 36 := by decide
  constructor
  · intro r h
    simp only [Scene.initEnemies, hx, hy, hflag, Bool.false_eq_true, if_false] at h
    split at h
    · simp only [Option.some.injEq] at h
      subst h
      exact ⟨rfl, rfl, rfl, rfl, rfl, rfl, rfl, rfl, rfl⟩
    · split at h
      · simp at h
      · simp only [Option.some.injEq] at h
        subst h
        exact ⟨rfl, rfl, rfl, rfl, rfl, rfl, rfl, rfl, rfl⟩
  · intro hhead
    simp only [Scene.initEnemies, hx, hy, hflag, Bool.false_eq_true, if_false]
    split
    · exact ⟨_, rfl⟩
    · rename_i first rest heq
      have hfirst : first.transform ≠ none := by
        cases hs : s.enemies with
        | nil =>
          rw [hs] at heq
          simp only [List.nil_append] at heq
          exact (hall first (by rw [heq]; simp)).2.2
        | cons e es =>
          rw [hs] at heq
          simp only [List.cons_append, List.cons.injEq] at heq
          apply hhead
          rw [hs, ← heq.1]
          simp
      split
      · rename_i hnone
        exact absurd hnone hfirst
      · exact ⟨_, rfl⟩

/-! ## The player-collision phase -/

theorem GameEntity.TestCollision_comm (A B : GameEntity) :
    A.TestCollision B = B.TestCollision A := by
  unfold GameEntity.TestCollision
  cases hA : A.hitbox <;> cases hB : B.hitbox <;> simp only []
  rw [Bool.eq_iff_iff]
  simp only [Collision2DComponent.getRectangle, Bool.not_eq_true', Bool.or_eq_false_iff,
    decide_eq_false_iff_not]
  tauto

theorem Scene.defeat_defeat (g : Globals) (first second : String) :
    Scene.defeat (Scene.defeat g first) second = Scene.defeat g second := rfl

theorem Scene.checkProjectiles_eq (test : Projectile → Bool) (script : String) (g : Globals)
    (ps : List Projectile) :
    Scene.checkProjectiles test script g ps =
      if ps.any (fun p => p.mRenderable && test p) = true then Scene.defeat g script else g := by
  induction ps generalizing g with
  | nil => simp [Scene.checkProjectiles]
  | cons p rest ih =>
    have hstep : Scene.checkProjectiles test script g (p :: rest) =
        Scene.checkProjectiles test script
          (if (p.mRenderable && test p) = true then Scene.defeat g script else g) rest := rfl
    rw [hstep, ih]
    by_cases hp : (p.mRenderable && test p) = true
    · simp only [hp, if_true, List.any_cons, Bool.true_or, Scene.defeat_defeat]
      split_ifs <;> rfl
    · have hpf : (p.mRenderable && test p) = false := by simpa using hp
      simp only [hpf, Bool.false_eq_true, if_false, List.any_cons, Bool.false_or]

theorem Scene.checkOwners_eq {α : Type} (held : α → List Projectile) (test : Projectile → Bool)
    (script : String) (g : Globals) (owners : List α) :
    owners.foldl (fun acc o => Scene.checkProjectiles test script acc (held o)) g =
      if owners.any (fun o => (held o).any (fun p => p.mRenderable && test p)) = true then
        Scene.defeat g script
      else g := by
  induction owners generalizing g with
  | nil => simp
  | cons o rest ih =>
    rw [List.foldl_cons, ih, Scene.checkProjectiles_eq]
    by_cases ho : (held o).any (fun p => p.mRenderable && test p) = true
    · simp only [ho, if_true, List.any_cons, Bool.true_or, Scene.defeat_defeat]
      split_ifs <;> rfl
    · have hof : (held o).any (fun p => p.mRenderable && test p) = false := by simpa using ho
      simp only [hof, Bool.false_eq_true, if_false, List.any_cons, Bool.false_or]

theorem Scene.playerCollisions_eq (s : Scene) (player : Player) (g : Globals) :
    Scene.playerCollisions s player g =
      if s.globalProjectiles.any (fun p => p.mRenderable &&
          player.toGameEntity.TestCollision p.toGameEntity) = true then
        Scene.defeat g Scene.deathByLingeringShot
      else if s.enemies.any (fun e => e.mProjectiles.any (fun p => p.mRenderable &&
          player.toGameEntity.TestCollision p.toGameEntity)) = true then
        Scene.defeat g Scene.deathByMinion
      else if s.mBosses.any (fun b => b.mProjectiles.any (fun p => p.mRenderable &&
          player.toGameEntity.TestCollision p.toGameEntity)) = true then
        Scene.defeat g Scene.deathByBosses
      else g := by
  have hsym : (fun p : Projectile => p.mRenderable &&
        p.toGameEntity.TestCollision player.toGameEntity) =
      (fun p : Projectile => p.mRenderable &&
        player.toGameEntity.TestCollision p.toGameEntity) := by
    funext p
    rw [GameEntity.TestCollision_comm]
  have hb := Scene.checkOwners_eq (fun b : Boss => b.mProjectiles)
    (fun p => p.toGameEntity.TestCollision player.toGameEntity) Scene.deathByBosses g s.mBosses
  simp only [Scene.playerCollisions]
  rw [hb, Scene.checkOwners_eq (fun e : Enemy => e.mProjectiles), Scene.checkProjectiles_eq,
    hsym]
  split_ifs <;> rfl

/-! ## The phase-2 block and the frame around it -/

theorem Scene.pruneDead_spec (s : Scene) :
    (Scene.pruneDead s).enemies = s.enemies.filter (fun e => e.mRenderable) ∧
    (Scene.pruneDead s).mBosses = s.mBosses.filter (fun b => b.mRenderable) ∧
    (Scene.pruneDead s).globalProjectiles =
      s.globalProjectiles ++
        (s.enemies.filter (fun e => !e.mRenderable)).flatMap (fun e => e.mProjectiles) ++
        (s.mBosses.filter (fun b => !b.mRenderable)).flatMap (fun b => b.mProjectiles) ∧
    (Scene.pruneDead s).mainCharacter = s.mainCharacter ∧
    (Scene.pruneDead s).mSceneType = s.mSceneType ∧
    (Scene.pruneDead s).spawnedPhaseEnemies = s.spawnedPhaseEnemies := by
  refine ⟨?_, ?_, ?_, rfl, rfl, rfl⟩ <;>
    simp only [Scene.pruneDead, Scene.pruneEnemies_eq, Scene.pruneBosses_eq]

theorem Scene.phaseTwo_skip (s : Scene) (g : Globals) (inp : FrameInput)
    (h : s.mSceneType ≠ SceneType.Boss3 ∨ s.spawnedPhaseEnemies = true) :
    Scene.phaseTwo s g inp = some (s, g) := by
  simp only [Scene.phaseTwo]
  rw [if_neg]
  rintro ⟨h1, h2⟩
  rcases h with h | h
  · exact h h1
  · rw [h] at h2
    simp at h2

theorem Scene.phaseTwo_armed (s : Scene) (g : Globals) (inp : FrameInput) (boss : Boss)
    (rest : List Boss) (hstage : s.mSceneType = SceneType.Boss3)
    (hflag : s.spawnedPhaseEnemies = false) (hb : s.mBosses = boss :: rest) :
    Scene.phaseTwo s g inp =
      if boss.mHP ≤ Int.tdiv boss.mMaxHP 2 then
        match Scene.initEnemies s
            { g with lastUpdateTime := inp.currentTime
                     enemyShared := Scene.resetSceneState g.enemyShared } 36 inp with
        | none => none
        | some r => some ({ r.1 with spawnedPhaseEnemies := true }, r.2)
      else some (s, g) := by
  simp only [Scene.phaseTwo, hstage, hflag, hb, and_self, if_true]

theorem Scene.phaseTwo_spec (s : Scene) (g : Globals) (inp : FrameInput) (r : Scene × Globals)
    (h : Scene.phaseTwo s g inp = some r) :
    r.1.mBosses = s.mBosses ∧ r.1.mainCharacter = s.mainCharacter ∧
    r.1.globalProjectiles = s.globalProjectiles ∧ r.1.mSceneType = s.mSceneType ∧
    r.1.playerScore = s.playerScore ∧
    r.2.currentState = g.currentState ∧ r.2.dialogueManager = g.dialogueManager ∧
    ((s.mSceneType ≠ SceneType.Boss3 ∨ s.spawnedPhaseEnemies = true) → r = (s, g)) ∧
    (s.mSceneType = SceneType.Boss3 → s.spawnedPhaseEnemies = false →
      ∃ boss rest, s.mBosses = boss :: rest ∧
        (boss.mHP ≤ Int.tdiv boss.mMaxHP 2 →
          r.1.spawnedPhaseEnemies = true ∧
          r.1.enemies = s.enemies ++ (Scene.spawnLoop inp 36 96 180 Scene.gridCells 0).1) ∧
        (¬ boss.mHP ≤ Int.tdiv boss.mMaxHP 2 → r = (s, g))) := by
  by_cases hskip : s.mSceneType ≠ SceneType.Boss3 ∨ s.spawnedPhaseEnemies = true
  · rw [Scene.phaseTwo_skip s g inp hskip, Option.some.injEq] at h
    subst h
    refine ⟨rfl, rfl, rfl, rfl, rfl, rfl, rfl, fun _ => rfl, ?_⟩
    intro h1 h2
    rcases hskip with h3 | h3
    · exact absurd h1 h3
    · rw [h2] at h3
      simp at h3
  · have hstage : s.mSceneType = SceneType.Boss3 := by
      by_contra hne
      exact hskip (Or.inl hne)
    have hflag : s.spawnedPhaseEnemies = false := by
      cases hf : s.spawnedPhaseEnemies
      · rfl
      · exact absurd (Or.inr hf) hskip
    cases hb : s.mBosses with
    | nil =>
      simp only [Scene.phaseTwo, hstage, hflag, hb, and_self, if_true] at h
      simp at h
    | cons boss rest =>
      rw [Scene.phaseTwo_armed s g inp boss rest hstage hflag hb] at h
      by_cases hc : boss.mHP ≤ Int.tdiv boss.mMaxHP 2
      · rw [if_pos hc] at h
        split at h
        · simp at h
        · rename_i r0 hinit
          simp only [Option.some.injEq] at h
          subst h
          obtain ⟨a1, a2, a3, a4, a5, a6, a7, a8, a9⟩ :=
            (Scene.initEnemies_spec s _ inp).1 r0 hinit
          refine ⟨a2.trans hb, a3, a4, a5, a6, a8, a9, fun hs => absurd hs hskip, ?_⟩
          intro _ _
          exact ⟨boss, rest, rfl, fun _ => ⟨rfl, a1⟩, fun hn => absurd hc hn⟩
      · rw [if_neg hc, Option.some.injEq] at h
        subst h
        refine ⟨hb, rfl, rfl, rfl, rfl, rfl, rfl, fun _ => rfl, ?_⟩
        intro _ _
        exact ⟨boss, rest, rfl, fun hn => absurd hn hc, fun _ => rfl⟩

theorem Scene.frameUntilSpawn_spec (s : Scene) (g : Globals) (inp : FrameInput)
    (mid : Scene × Globals) (h : Scene.frameUntilSpawn s g inp = some mid) :
    ∃ r1 r2, Scene.updateEntities s g inp = some r1 ∧
      Scene.resolveHits r1.1 r1.2 inp = some r2 ∧
      Scene.phaseTwo (Scene.pruneDead r2.1) r2.2 inp = some mid := by
  simp only [Scene.frameUntilSpawn] at h
  split at h
  · simp at h
  · rename_i r1 h1
    split at h
    · simp at h
    · rename_i r2 h2
      exact ⟨r1, r2, h1, h2, h⟩

theorem Scene.finishFrame_spec (s : Scene) (g : Globals) (inp : FrameInput)
    (r : Scene × Globals) (h : Scene.finishFrame s g inp = some r) :
    (∃ player, s.mainCharacter = some player ∧ r.2 = Scene.playerCollisions s player g) ∧
    r.1.enemies = s.enemies ∧ r.1.mBosses = s.mBosses ∧
    r.1.spawnedPhaseEnemies = s.spawnedPhaseEnemies ∧ r.1.mSceneType = s.mSceneType ∧
    r.1.mainCharacter = s.mainCharacter ∧ r.1.playerScore = s.playerScore := by
  simp only [Scene.finishFrame] at h
  split at h
  · simp at h
  · rename_i player hplayer
    simp only [Option.some.injEq] at h
    subst h
    exact ⟨⟨player, hplayer, rfl⟩, rfl, rfl, rfl, rfl, rfl, rfl⟩

/-- What a Playing frame has done when it reaches the player-collision phase. -/
theorem Scene.frameUntilSpawn_frame (s : Scene) (g : Globals) (inp : FrameInput)
    (mid : Scene × Globals) (h : Scene.frameUntilSpawn s g inp = some mid) :
    mid.2.currentState = g.currentState ∧
    mid.2.dialogueManager = g.dialogueManager ∧
    (∃ before after, s.mainCharacter = some before ∧
      mid.1.mainCharacter =
        some { before.update (Scene.clampDeltaTime inp.deltaTime) with mProjectiles := after }) ∧
    (∀ b ∈ mid.1.mBosses, b.mRenderable = true) ∧
    ((∀ e ∈ mid.1.enemies, e.mRenderable = true)) ∧
    (∀ p ∈ s.globalProjectiles, p ∈ mid.1.globalProjectiles) ∧
    mid.1.mSceneType = s.mSceneType ∧
    (s.spawnedPhaseEnemies = true →
      mid.1.spawnedPhaseEnemies = true ∧ mid.1.enemies.length ≤ s.enemies.length) ∧
    (s.mSceneType ≠ SceneType.Boss3 →
      mid.1.spawnedPhaseEnemies = s.spawnedPhaseEnemies ∧
      mid.1.enemies.length ≤ s.enemies.length) := by
  obtain ⟨r1, r2, h1, h2, h3⟩ := Scene.frameUntilSpawn_spec s g inp mid h
  obtain ⟨⟨before, hbefore, hp1⟩, -, u3, u4, u5, u6, -, u8, u9⟩ :=
    Scene.updateEntities_spec s g inp r1 h1
  obtain ⟨⟨player, hplayer, -, after, hafter⟩, v2, v3, v4, v5, v6, v7⟩ :=
    Scene.resolveHits_spec r1.1 r1.2 inp r2 h2
  obtain ⟨w1, w2, w3, w4, -, w6, w7, w8, w9⟩ := Scene.phaseTwo_spec _ _ inp mid h3
  obtain ⟨p1, p2, p3, p6, p8, p9⟩ := Scene.pruneDead_spec r2.1
  have hpl : player = before.update (Scene.clampDeltaTime inp.deltaTime) := by
    rw [hp1] at hplayer
    exact (Option.some.inj hplayer).symm
  have hlen : (Scene.pruneDead r2.1).enemies.length ≤ s.enemies.length := by
    rw [p1, ← u3, ← v2]
    exact List.length_filter_le _ _
  have hbosses : ∀ b ∈ mid.1.mBosses, b.mRenderable = true := by
    intro b hb
    rw [w1, p2] at hb
    exact (List.mem_filter.mp hb).2
  have hpruned : ∀ e ∈ (Scene.pruneDead r2.1).enemies, e.mRenderable = true := by
    intro e he
    rw [p1] at he
    exact (List.mem_filter.mp he).2
  have henemies : ∀ e ∈ mid.1.enemies, e.mRenderable = true := by
    by_cases hskip : (Scene.pruneDead r2.1).mSceneType ≠ SceneType.Boss3 ∨
        (Scene.pruneDead r2.1).spawnedPhaseEnemies = true
    · rw [w8 hskip]
      exact hpruned
    · have hstage : (Scene.pruneDead r2.1).mSceneType = SceneType.Boss3 := by
        by_contra hne
        exact hskip (Or.inl hne)
      have hflag : (Scene.pruneDead r2.1).spawnedPhaseEnemies = false := by
        cases hf : (Scene.pruneDead r2.1).spawnedPhaseEnemies
        · rfl
        · exact absurd (Or.inr hf) hskip
      obtain ⟨boss, rest, -, hyes, hno⟩ := w9 hstage hflag
      by_cases hc : boss.mHP ≤ Int.tdiv boss.mMaxHP 2
      · intro e he
        rw [(hyes hc).2] at he
        rcases List.mem_append.mp he with he | he
        · exact hpruned e he
        · exact ((Scene.spawnLoop_length inp 36 96 180 Scene.gridCells 0 (by decide)).2.2
            e he).1
      · rw [hno hc]
        exact hpruned
  refine ⟨w6.trans (v6.trans u8), w7.trans (v7.trans u9), ⟨before, after, hbefore, ?_⟩,
    hbosses, henemies, ?_, w4.trans (p8.trans (v3.trans u4)), ?_, ?_⟩
  · rw [w2, p6, hafter, hpl]
  · intro p hp
    rw [w3, p3, v5, u6]
    simp only [List.append_assoc, List.mem_append]
    exact Or.inl hp
  · intro hset
    have hskip : (Scene.pruneDead r2.1).mSceneType ≠ SceneType.Boss3 ∨
        (Scene.pruneDead r2.1).spawnedPhaseEnemies = true :=
      Or.inr (by rw [p9, v4, u5]; exact hset)
    rw [w8 hskip]
    exact ⟨by rw [p9, v4, u5]; exact hset, hlen⟩
  · intro hstage
    have hskip : (Scene.pruneDead r2.1).mSceneType ≠ SceneType.Boss3 ∨
        (Scene.pruneDead r2.1).spawnedPhaseEnemies = true :=
      Or.inl (by rw [p8, v3, u4]; exact hstage)
    rw [w8 hskip]
    exact ⟨by rw [p9, v4, u5], hlen⟩

/-! ## Frames that return -/

theorem Scene.updateBosses_returns (player : Player) (dt : ℚ) (inp : FrameInput) (L : ℕ)
    (bosses : List Boss) (index : ℕ) (hpat : ∀ b ∈ bosses, b.mPatternList = []) :
    ∃ bs, Scene.updateBosses player dt inp L bosses index = some bs := by
  induction bosses generalizing index with
  | nil => exact ⟨[], rfl⟩
  | cons b rest ih =>
    obtain ⟨b1, hb1⟩ := Boss.update_empty_patterns b player dt inp.math inp.uninit
      (inp.bossDraws index) L inp.currentTime (hpat b (List.mem_cons_self _ _))
    obtain ⟨rest1, hrest1⟩ := ih (index + 1) (fun c hc => hpat c (List.mem_cons_of_mem _ hc))
    exact ⟨b1 :: rest1, by simp only [Scene.updateBosses, hb1, hrest1]⟩

theorem Scene.updateEntities_returns (s : Scene) (g : Globals) (inp : FrameInput)
    (player : Player) (hplayer : s.mainCharacter = some player)
    (hpat : ∀ b ∈ s.mBosses, b.mPatternList = []) :
    ∃ r, Scene.updateEntities s g inp = some r := by
  obtain ⟨bs, hbs⟩ := Scene.updateBosses_returns
    (player.update (Scene.clampDeltaTime inp.deltaTime)) (Scene.clampDeltaTime inp.deltaTime)
    inp g.lastTimeLaunch s.mBosses 0 hpat
  cases he : Scene.updateEnemies s.enemies g.enemyShared g.lastTimeLaunch inp.currentTime
      (Scene.clampDeltaTime inp.deltaTime) inp.uninit with
  | none => exact absurd he (Scene.updateEnemies_ne_none _ _ _ _ _ _)
  | some r => exact ⟨_, by simp only [Scene.updateEntities, hplayer, hbs, he]; rfl⟩

/-- A frame returns when the player is present, no boss has a pattern to fire and
the phase-2 block is not armed. -/
theorem Scene.update_returns (s : Scene) (g : Globals) (inp : FrameInput) (player : Player)
    (hplayer : s.mainCharacter = some player)
    (hpat : ∀ b ∈ s.mBosses, b.mPatternList = [])
    (hskip : s.mSceneType ≠ SceneType.Boss3 ∨ s.spawnedPhaseEnemies = true) :
    ∃ r, Scene.update s g inp = some r := by
  simp only [Scene.update]
  split_ifs with hfrozen
  · exact ⟨_, rfl⟩
  · have hsc := Scene.stageClear_scene s g
    have hplayer1 : (Scene.stageClear s g).1.mainCharacter = some player := by
      rw [hsc]; exact hplayer
    have hpat1 : ∀ b ∈ (Scene.stageClear s g).1.mBosses, b.mPatternList = [] := by
      intro b hb
      rw [hsc] at hb
      exact hpat b (List.mem_filter.mp hb).1
    obtain ⟨r1, h1⟩ := Scene.updateEntities_returns _ (Scene.stageClear s g).2 inp player
      hplayer1 hpat1
    obtain ⟨⟨p1, -, hp1⟩, -, -, u4, u5, -⟩ := Scene.updateEntities_spec _ _ _ _ h1
    have h2 : ∃ r2, Scene.resolveHits r1.1 r1.2 inp = some r2 :=
      ⟨_, by simp only [Scene.resolveHits, hp1]; rfl⟩
    obtain ⟨r2, h2⟩ := h2
    obtain ⟨⟨p2, -, -, after, hp2⟩, -, v3, v4, -⟩ := Scene.resolveHits_spec _ _ _ _ h2
    obtain ⟨-, -, -, q4, q5, q6⟩ := Scene.pruneDead_spec r2.1
    have hskip2 : (Scene.pruneDead r2.1).mSceneType ≠ SceneType.Boss3 ∨
        (Scene.pruneDead r2.1).spawnedPhaseEnemies = true := by
      rw [q5, q6, v3, v4, u4, u5, hsc]
      exact hskip
    have h3 := Scene.phaseTwo_skip (Scene.pruneDead r2.1) r2.2 inp hskip2
    have hmid : Scene.frameUntilSpawn (Scene.stageClear s g).1 (Scene.stageClear s g).2 inp =
        some (Scene.pruneDead r2.1, r2.2) := by
      simp only [Scene.frameUntilSpawn, h1, h2, h3]
    have hpl : (Scene.pruneDead r2.1).mainCharacter =
        some { p2 with mProjectiles := after } := by rw [q4, hp2]
    rw [hmid]
    exact ⟨_, by simp only [Scene.finishFrame, hpl]; rfl⟩

/-! ## Defeat on hit -/

/-- C17: a Scene::update whose state is Playing after the stage-clear block, and
which returns. It reaches the player-collision phase with a scene `mid` (all of
whose bosses and enemies are renderable, the dead ones having been erased) and
the state still Playing; the globals after the frame are those the phase
leaves. The state is then Defeat exactly when some renderable projectile of a
boss, of an enemy or of the orphan pool collides with the player; without such a
projectile the globals are untouched; and the script loaded is the
lingering-shot one when an orphan hits, else the minion one when an enemy
projectile hits, else the boss one, so a hit from one source only schedules
that source's script. -/
theorem defeat_on_hit (s : Scene) (g : Globals) (inp : FrameInput) (r : Scene × Globals)
    (hplaying : (Scene.stageClear s g).2.currentState = GameState.Playing)
    (hr : Scene.update s g inp = some r) :
    ∃ mid player,
      Scene.frameUntilSpawn (Scene.stageClear s g).1 (Scene.stageClear s g).2 inp = some mid ∧
      mid.1.mainCharacter = some player ∧
      mid.2.currentState = GameState.Playing ∧
      (∀ b ∈ mid.1.mBosses, b.mRenderable = true) ∧
      (∀ e ∈ mid.1.enemies, e.mRenderable = true) ∧
      r.2 = Scene.playerCollisions mid.1 player mid.2 ∧
      (r.2.currentState = GameState.Defeat ↔
        ((∃ b ∈ mid.1.mBosses, ∃ p ∈ b.mProjectiles, p.mRenderable = true ∧
            player.toGameEntity.TestCollision p.toGameEntity = true) ∨
         (∃ e ∈ mid.1.enemies, ∃ p ∈ e.mProjectiles, p.mRenderable = true ∧
            player.toGameEntity.TestCollision p.toGameEntity = true) ∨
         (∃ p ∈ mid.1.globalProjectiles, p.mRenderable = true ∧
            player.toGameEntity.TestCollision p.toGameEntity = true))) ∧
      (r.2.currentState ≠ GameState.Defeat → r.2 = mid.2) ∧
      ((∃ p ∈ mid.1.globalProjectiles, p.mRenderable = true ∧
          player.toGameEntity.TestCollision p.toGameEntity = true) →
        r.2 = Scene.defeat mid.2 Scene.deathByLingeringShot) ∧
      ((¬ ∃ p ∈ mid.1.globalProjectiles, p.mRenderable = true ∧
          player.toGameEntity.TestCollision p.toGameEntity = true) →
        (∃ e ∈ mid.1.enemies, ∃ p ∈ e.mProjectiles, p.mRenderable = true ∧
          player.toGameEntity.TestCollision p.toGameEntity = true) →
        r.2 = Scene.defeat mid.2 Scene.deathByMinion) ∧
      ((¬ ∃ p ∈ mid.1.globalProjectiles, p.mRenderable = true ∧
          player.toGameEntity.TestCollision p.toGameEntity = true) →
        (¬ ∃ e ∈ mid.1.enemies, ∃ p ∈ e.mProjectiles, p.mRenderable = true ∧
          player.toGameEntity.TestCollision p.toGameEntity = true) →
        (∃ b ∈ mid.1.mBosses, ∃ p ∈ b.mProjectiles, p.mRenderable = true ∧
          player.toGameEntity.TestCollision p.toGameEntity = true) →
        r.2 = Scene.defeat mid.2 Scene.deathByBosses) := by
  simp only [Scene.update] at hr
  rw [if_neg (by rw [hplaying]; simp)] at hr
  split at hr
  · simp at hr
  · rename_i mid hmid
    obtain ⟨f1, -, -, f4, f5, -⟩ := Scene.frameUntilSpawn_frame _ _ inp mid hmid
    obtain ⟨⟨player, hplayer, hres⟩, -⟩ := Scene.finishFrame_spec _ _ inp r hr
    have hstate : mid.2.currentState = GameState.Playing := f1.trans hplaying
    have hpool : (mid.1.globalProjectiles.any (fun p => p.mRenderable &&
          player.toGameEntity.TestCollision p.toGameEntity) = true) ↔
        ∃ p ∈ mid.1.globalProjectiles, p.mRenderable = true ∧
          player.toGameEntity.TestCollision p.toGameEntity = true := by
      simp only [List.any_eq_true, Bool.and_eq_true]
    have henemy : (mid.1.enemies.any (fun e => e.mProjectiles.any (fun p => p.mRenderable &&
          player.toGameEntity.TestCollision p.toGameEntity)) = true) ↔
        ∃ e ∈ mid.1.enemies, ∃ p ∈ e.mProjectiles, p.mRenderable = true ∧
          player.toGameEntity.TestCollision p.toGameEntity = true := by
      simp only [List.any_eq_true, Bool.and_eq_true]
    have hboss : (mid.1.mBosses.any (fun b => b.mProjectiles.any (fun p => p.mRenderable &&
          player.toGameEntity.TestCollision p.toGameEntity)) = true) ↔
        ∃ b ∈ mid.1.mBosses, ∃ p ∈ b.mProjectiles, p.mRenderable = true ∧
          player.toGameEntity.TestCollision p.toGameEntity = true := by
      simp only [List.any_eq_true, Bool.and_eq_true]
    have heq := Scene.playerCollisions_eq mid.1 player mid.2
    rw [← hres] at heq
    have hd : ∀ script, (Scene.defeat mid.2 script).currentState = GameState.Defeat :=
      fun _ => rfl
    have hnd : mid.2.currentState ≠ GameState.Defeat := by rw [hstate]; decide
    refine ⟨mid, player, hmid, hplayer, hstate, f4, f5, hres, ?_, ?_, ?_, ?_, ?_⟩
    · rw [← hpool, ← henemy, ← hboss, heq]
      split_ifs with h1 h2 h3
      · simp [hd, h1]
      · simp [hd, h2]
      · simp [hd, h3]
      · simp [hnd, h1, h2, h3]
    · intro hne
      rw [heq] at hne ⊢
      split_ifs at hne ⊢ with h1 h2 h3
      · exact absurd (hd _) hne
      · exact absurd (hd _) hne
      · exact absurd (hd _) hne
      · rfl
    · intro h
      rw [heq, if_pos (hpool.mpr h)]
    · intro h1 h2
      rw [heq, if_neg (fun h => h1 (hpool.mp h)), if_pos (henemy.mpr h2)]
    · intro h1 h2 h3
      rw [heq, if_neg (fun h => h1 (hpool.mp h)), if_neg (fun h => h2 (henemy.mp h)),
        if_pos (hboss.mpr h3)]

/-- A frame of the ambush scene: the orphaned projectile overlaps the player, so
the frame ends in Defeat with the lingering-shot script, to exit when over. -/
theorem defeat_on_hit_witness :
    ∃ r, Scene.update ambushScene exampleGlobals exampleInput = some r ∧
      r.2.currentState = GameState.Defeat ∧
      r.2.dialogueManager.script = Scene.deathByLingeringShot ∧
      r.2.dialogueManager.mOnFinish = OnFinish.exitProgram := by
  obtain ⟨r, hr⟩ := Scene.update_returns ambushScene exampleGlobals exampleInput
    examplePlayerEntity rfl (by intro b hb; simp [ambushScene] at hb; subst hb; rfl)
    (Or.inl (by decide))
  have hplaying : (Scene.stageClear ambushScene exampleGlobals).2.currentState =
      GameState.Playing := by
    decide
  obtain ⟨mid, player, hmid, hplayer, -, -, -, -, -, -, hpool, -⟩ :=
    defeat_on_hit ambushScene exampleGlobals exampleInput r hplaying hr
  obtain ⟨-, -, ⟨before, after, hbefore, hafter⟩, -, -, hsub, -⟩ :=
    Scene.frameUntilSpawn_frame _ _ _ _ hmid
  have hb : before = examplePlayerEntity := by
    rw [Scene.stageClear_scene] at hbefore
    exact (Option.some.inj hbefore).symm
  have hpl : player.toGameEntity = examplePlayerEntity.toGameEntity.updateComponents := by
    rw [hafter, hb] at hplayer
    rw [← Option.some.inj hplayer]
    rfl
  have hin : lingeringShot ∈ mid.1.globalProjectiles := by
    apply hsub
    rw [Scene.stageClear_scene]
    simp [ambushScene]
  have hhit : player.toGameEntity.TestCollision lingeringShot.toGameEntity = true := by
    rw [hpl]
    norm_num [GameEntity.TestCollision, GameEntity.updateComponents, examplePlayerEntity,
      Player.init, Player.new, lingeringShot, Collision2DComponent.getRectangle,
      Collision2DComponent.update, f32_ofNat, f32_zero, f32_one, Collision2DComponent.new,
      Collision2DComponent.setHitboxModifier, TransformComponent.new,
      TransformComponent.setWidth, TransformComponent.setHeight, TransformComponent.getX,
      TransformComponent.getY, TransformComponent.getWidth, TransformComponent.getHeight]
  have hres := hpool ⟨lingeringShot, hin, rfl, hhit⟩
  exact ⟨r, hr, by rw [hres]; rfl, by rw [hres]; rfl, by rw [hres]; rfl⟩

/-! ## The phase-2 spawn over the frames of a stage -/

theorem tdiv_half (hp maxHP : ℤ) (h : 0 ≤ maxHP) :
    hp ≤ Int.tdiv maxHP 2 ↔ 2 * hp ≤ maxHP := by
  rw [Int.tdiv_eq_ediv h (by decide)]
  omega

/-- What one returning frame does to the phase-2 flag and to the number of
enemies. -/
theorem Scene.update_phase_frame (s : Scene) (g : Globals) (inp : FrameInput)
    (r : Scene × Globals) (hr : Scene.update s g inp = some r) :
    r.1.mSceneType = s.mSceneType ∧
    (s.spawnedPhaseEnemies = true →
      r.1.spawnedPhaseEnemies = true ∧ r.1.enemies.length ≤ s.enemies.length) ∧
    (s.mSceneType ≠ SceneType.Boss3 →
      r.1.spawnedPhaseEnemies = s.spawnedPhaseEnemies ∧
      r.1.enemies.length ≤ s.enemies.length) ∧
    ((Scene.stageClear s g).2.currentState ≠ GameState.Playing →
      r.1.spawnedPhaseEnemies = s.spawnedPhaseEnemies ∧ r.1.enemies = s.enemies) ∧
    (s.mSceneType = SceneType.Boss3 → s.spawnedPhaseEnemies = false →
      (Scene.stageClear s g).2.currentState = GameState.Playing →
      ∃ r1 r2 boss rest,
        Scene.updateEntities (Scene.stageClear s g).1 (Scene.stageClear s g).2 inp = some r1 ∧
        Scene.resolveHits r1.1 r1.2 inp = some r2 ∧
        (Scene.pruneDead r2.1).mBosses = boss :: rest ∧
        (Scene.pruneDead r2.1).enemies.length ≤ s.enemies.length ∧
        (0 ≤ boss.mMaxHP →
          (boss.mHP ≤ Int.tdiv boss.mMaxHP 2 ↔ 2 * boss.mHP ≤ boss.mMaxHP)) ∧
        (boss.mHP ≤ Int.tdiv boss.mMaxHP 2 →
          r.1.spawnedPhaseEnemies = true ∧
          r.1.enemies = (Scene.pruneDead r2.1).enemies ++
            (Scene.spawnLoop inp 36 96 180 Scene.gridCells 0).1 ∧
          (Scene.spawnLoop inp 36 96 180 Scene.gridCells 0).1.length = 36 ∧
          r.1.enemies.length = (Scene.pruneDead r2.1).enemies.length + 36) ∧
        (¬ boss.mHP ≤ Int.tdiv boss.mMaxHP 2 →
          r.1.spawnedPhaseEnemies = false ∧ r.1.enemies = (Scene.pruneDead r2.1).enemies)) := by
  have hsc := Scene.stageClear_scene s g
  by_cases hfrozen : (Scene.stageClear s g).2.currentState ≠ GameState.Playing
  · simp only [Scene.update] at hr
    rw [if_pos hfrozen, Option.some.injEq] at hr
    subst hr
    rw [hsc]
    refine ⟨rfl, fun h => ⟨h, le_refl _⟩, fun _ => ⟨rfl, le_refl _⟩, fun _ => ⟨rfl, rfl⟩, ?_⟩
    intro _ _ hplay
    exact absurd hplay hfrozen
  · have hplay : (Scene.stageClear s g).2.currentState = GameState.Playing := by
      by_contra hne
      exact hfrozen hne
    simp only [Scene.update] at hr
    rw [if_neg hfrozen] at hr
    split at hr
    · simp at hr
    · rename_i mid hmid
      obtain ⟨-, -, -, -, -, -, f7, f8, f9⟩ := Scene.frameUntilSpawn_frame _ _ inp mid hmid
      obtain ⟨-, e1, -, e3, e4, -⟩ := Scene.finishFrame_spec _ _ inp r hr
      have hstage : (Scene.stageClear s g).1.mSceneType = s.mSceneType := by rw [hsc]
      have hflag : (Scene.stageClear s g).1.spawnedPhaseEnemies = s.spawnedPhaseEnemies := by
        rw [hsc]
      have hen : (Scene.stageClear s g).1.enemies = s.enemies := by rw [hsc]
      rw [hstage] at f7 f9
      rw [hflag] at f8 f9
      rw [hen] at f8 f9
      refine ⟨e4.trans f7, ?_, ?_, fun h => absurd hplay h, ?_⟩
      · intro h
        rw [e3, e1]
        exact f8 h
      · intro h
        rw [e3, e1]
        exact f9 h
      · intro h3 hclear _
        obtain ⟨r1, r2, h1, h2, hphase⟩ := Scene.frameUntilSpawn_spec _ _ inp mid hmid
        obtain ⟨-, -, u3, u4, u5, -⟩ := Scene.updateEntities_spec _ _ inp r1 h1
        obtain ⟨-, v2, v3, v4, -⟩ := Scene.resolveHits_spec _ _ inp r2 h2
        obtain ⟨p1, -, -, -, p5, p6⟩ := Scene.pruneDead_spec r2.1
        have hs3 : (Scene.pruneDead r2.1).mSceneType = SceneType.Boss3 := by
          rw [p5, v3, u4, hstage]
          exact h3
        have hf3 : (Scene.pruneDead r2.1).spawnedPhaseEnemies = false := by
          rw [p6, v4, u5, hflag]
          exact hclear
        obtain ⟨-, -, -, -, -, -, -, -, w9⟩ := Scene.phaseTwo_spec _ _ inp mid hphase
        obtain ⟨boss, rest, hb, hyes, hno⟩ := w9 hs3 hf3
        have hlen : (Scene.pruneDead r2.1).enemies.length ≤ s.enemies.length := by
          rw [p1, ← hen, ← u3, ← v2]
          exact List.length_filter_le _ _
        have h36 := (Scene.spawnLoop_length inp 36 96 180 Scene.gridCells 0 (by decide)).1
        have hcells : Scene.gridCells.length = 36 := by decide
        refine ⟨r1, r2, boss, rest, h1, h2, hb, hlen, tdiv_half _ _, ?_, ?_⟩
        · intro hc
          obtain ⟨y1, y2⟩ := hyes hc
          refine ⟨by rw [e3]; exact y1, by rw [e1]; exact y2, by rw [h36, hcells], ?_⟩
          rw [e1, y2, List.length_append, h36, hcells]
        · intro hc
          have := hno hc
          rw [e3, e1, this]
          exact ⟨hf3, rfl⟩

/-- Over consecutive frames, between which the flag and the stage are left
alone: once the flag is set it stays set and no frame creates an enemy, and on a
stage other than Boss3 the flag never changes and no frame creates an enemy. -/
theorem Scene.spawn_trace (n : ℕ) (sc : ℕ → Scene) (gl : ℕ → Globals) (inp : ℕ → FrameInput)
    (res : ℕ → Scene × Globals)
    (hframe : ∀ i, i < n → Scene.update (sc i) (gl i) (inp i) = some (res i))
    (hnext : ∀ i, i + 1 < n →
      (sc (i + 1)).spawnedPhaseEnemies = (res i).1.spawnedPhaseEnemies ∧
      (sc (i + 1)).mSceneType = (res i).1.mSceneType) :
    (∀ i j, i < j → j < n → (res i).1.spawnedPhaseEnemies = true →
      (sc j).spawnedPhaseEnemies = true ∧ (res j).1.spawnedPhaseEnemies = true ∧
      (res j).1.enemies.length ≤ (sc j).enemies.length) ∧
    ((sc 0).mSceneType ≠ SceneType.Boss3 → ∀ i, i < n →
      (res i).1.spawnedPhaseEnemies = (sc 0).spawnedPhaseEnemies ∧
      (res i).1.enemies.length ≤ (sc i).enemies.length) := by
  constructor
  · intro i j hij
    induction j, hij using Nat.le_induction with
    | base =>
      intro hj hset
      have hs : (sc (i + 1)).spawnedPhaseEnemies = true := by
        rw [(hnext i hj).1]
        exact hset
      obtain ⟨-, b, -⟩ := Scene.update_phase_frame _ _ _ _ (hframe (i + 1) hj)
      exact ⟨hs, b hs⟩
    | succ k hk ih =>
      intro hj hset
      obtain ⟨-, hprev, -⟩ := ih (by omega) hset
      have hs : (sc (k + 1)).spawnedPhaseEnemies = true := by
        rw [(hnext k hj).1]
        exact hprev
      obtain ⟨-, b, -⟩ := Scene.update_phase_frame _ _ _ _ (hframe (k + 1) hj)
      exact ⟨hs, b hs⟩
  · intro hstage
    have key : ∀ i, i < n → (sc i).mSceneType = (sc 0).mSceneType ∧
        (sc i).spawnedPhaseEnemies = (sc 0).spawnedPhaseEnemies := by
      intro i
      induction i with
      | zero => intro _; exact ⟨rfl, rfl⟩
      | succ k ih =>
        intro hk
        obtain ⟨i1, i2⟩ := ih (by omega)
        obtain ⟨a, -, c, -⟩ := Scene.update_phase_frame _ _ _ _ (hframe k (by omega))
        obtain ⟨n1, n2⟩ := hnext k hk
        refine ⟨by rw [n2, a, i1], ?_⟩
        rw [n1, (c (by rw [i1]; exact hstage)).1, i2]
    intro i hi
    obtain ⟨i1, i2⟩ := key i hi
    obtain ⟨-, -, c, -⟩ := Scene.update_phase_frame _ _ _ _ (hframe i hi)
    obtain ⟨c1, c2⟩ := c (by rw [i1]; exact hstage)
    exact ⟨by rw [c1, i2], c2⟩

theorem Scene.hitBosses_no_projectiles (bosses : List Boss) (score : ℤ) :
    Scene.hitBosses bosses [] score = (bosses, [], score) := by
  induction bosses generalizing score with
  | nil => rfl
  | cons b rest ih =>
    simp only [Scene.hitBosses, Scene.firstHit, ih, Bool.false_eq_true, if_false]
    split_ifs <;> rfl

/-- The first two frames of the example third stage: both return, and the first
one sets the flag and leaves 36 enemies. -/
theorem phaseScene_two_frames :
    ∃ r0 r1, Scene.update phaseScene exampleGlobals exampleInput = some r0 ∧
      Scene.update r0.1 r0.2 exampleInput = some r1 ∧
      r0.1.spawnedPhaseEnemies = true ∧ r0.1.enemies.length = 36 := by
  have hclear : Scene.stageClear phaseScene exampleGlobals = (phaseScene, exampleGlobals) := rfl
  have hplay : ¬ (Scene.stageClear phaseScene exampleGlobals).2.currentState ≠
      GameState.Playing := by
    rw [hclear]
    decide
  obtain ⟨r1, h1⟩ := Scene.updateEntities_returns phaseScene exampleGlobals exampleInput
    examplePlayerEntity rfl (by intro b hb; simp [phaseScene] at hb; subst hb; rfl)
  obtain ⟨⟨before, hbefore, hp1⟩, u2, u3, u4, u5, -⟩ := Scene.updateEntities_spec _ _ _ _ h1
  have hbefore1 : before = examplePlayerEntity := (Option.some.inj hbefore).symm
  have hproj : (before.update (Scene.clampDeltaTime exampleInput.deltaTime)).mProjectiles =
      [] := by
    rw [hbefore1]
    rfl
  have hbosses : ∃ c : Boss, r1.1.mBosses = [c] ∧ c.mHP = 5 ∧ c.mMaxHP = 10 ∧
      c.mRenderable = true ∧ c.mPatternList = [] := by
    have hb : phaseScene.mBosses = [phaseBoss] := rfl
    rw [hb] at u2
    obtain ⟨c, l, hcl, hl, heq⟩ := List.forall₂_cons_left_iff.mp u2
    rw [List.forall₂_nil_left_iff.mp hl] at heq
    exact ⟨c, heq, hcl.1, hcl.2.1, hcl.2.2.1, hcl.2.2.2⟩
  obtain ⟨c, hc, c1, c2, c3, c4⟩ := hbosses
  have h2 : ∃ r2, Scene.resolveHits r1.1 r1.2 exampleInput = some r2 :=
    ⟨_, by simp only [Scene.resolveHits, hp1]; rfl⟩
  obtain ⟨r2, h2⟩ := h2
  obtain ⟨⟨player, hplayer, v1, after, hafter⟩, v2, v3, v4, -⟩ :=
    Scene.resolveHits_spec _ _ _ _ h2
  have hpl : player = before.update (Scene.clampDeltaTime exampleInput.deltaTime) := by
    rw [hp1] at hplayer
    exact (Option.some.inj hplayer).symm
  rw [hpl, hproj, Scene.hitBosses_no_projectiles, hc] at v1
  obtain ⟨p1, p2, -, p4, p5, p6⟩ := Scene.pruneDead_spec r2.1
  have hpb : (Scene.pruneDead r2.1).mBosses = [c] := by
    rw [p2, v1]
    simp [c3]
  have hpe : (Scene.pruneDead r2.1).enemies = [] := by
    have hlen : r2.1.enemies.length = 0 := by rw [v2, u3]; rfl
    rw [p1, List.length_eq_zero.mp hlen]
    rfl
  have hs3 : (Scene.pruneDead r2.1).mSceneType = SceneType.Boss3 := by
    rw [p5, v3, u4]
    rfl
  have hf3 : (Scene.pruneDead r2.1).spawnedPhaseEnemies = false := by
    rw [p6, v4, u5]
    rfl
  have hcond : c.mHP ≤ Int.tdiv c.mMaxHP 2 := by
    rw [c1, c2]
    decide
  obtain ⟨q, hq⟩ := (Scene.initEnemies_spec (Scene.pruneDead r2.1)
    { r2.2 with lastUpdateTime := exampleInput.currentTime
                enemyShared := Scene.resetSceneState r2.2.enemyShared } exampleInput).2
    (by rw [hpe]; simp)
  obtain ⟨q1, q2, q3, -⟩ := (Scene.initEnemies_spec _ _ _).1 q hq
  have hphase : Scene.phaseTwo (Scene.pruneDead r2.1) r2.2 exampleInput =
      some ({ q.1 with spawnedPhaseEnemies := true }, q.2) := by
    rw [Scene.phaseTwo_armed _ _ _ c [] hs3 hf3 hpb, if_pos hcond, hq]
  have hmid : Scene.frameUntilSpawn phaseScene exampleGlobals exampleInput =
      some ({ q.1 with spawnedPhaseEnemies := true }, q.2) := by
    simp only [Scene.frameUntilSpawn, h1, h2, hphase]
  have hq3 : q.1.mainCharacter = some { player with mProjectiles := after } := by
    rw [q3, p4, hafter]
  have h0 : ∃ r0, Scene.update phaseScene exampleGlobals exampleInput = some r0 := by
    simp only [Scene.update]
    rw [if_neg hplay, hclear]
    simp only [hmid]
    exact ⟨_, by simp only [Scene.finishFrame, hq3]; rfl⟩
  obtain ⟨r0, hr0⟩ := h0
  have hfin : Scene.finishFrame { q.1 with spawnedPhaseEnemies := true } q.2 exampleInput =
      some r0 := by
    simp only [Scene.update] at hr0
    rw [if_neg hplay, hclear] at hr0
    simp only [hmid] at hr0
    exact hr0
  obtain ⟨-, e1, e2, e3, e4, e5, -⟩ := Scene.finishFrame_spec _ _ _ _ hfin
  have hflag : r0.1.spawnedPhaseEnemies = true := by rw [e3]
  have hlen : r0.1.enemies.length = 36 := by
    rw [e1]
    show q.1.enemies.length = 36
    rw [q1, hpe, List.nil_append,
      (Scene.spawnLoop_length exampleInput 36 96 180 Scene.gridCells 0 (by decide)).1]
    decide
  obtain ⟨r1b, hr1b⟩ := Scene.update_returns r0.1 r0.2 exampleInput
    { player with mProjectiles := after } (by rw [e5]; exact hq3)
    (by
      intro b hb
      rw [e2] at hb
      have hb2 : b ∈ q.1.mBosses := hb
      rw [q2, hpb] at hb2
      rw [List.mem_singleton.mp hb2]
      exact c4)
    (Or.inr hflag)
  exact ⟨r0, r1b, hr0, hr1b, hflag, hlen⟩

/-- C20: the phase-2 spawn over consecutive returning frames `0 .. n-1` of one
scene (`sc i`, `gl i` are the scene and the globals frame i starts from,
`res i` what it leaves; between two frames the flag and the stage are left
alone).
(1) Each frame keeps the stage; a frame frozen by the state check changes
neither the flag nor the enemies; and a Playing frame on Boss3 with the flag
clear reads the first boss left after the clean-up and spawns exactly when its
HP is at most half its maximum (integer division): then the flag is set and
exactly 36 enemies are appended to the enemies, otherwise flag and enemies
stay as they are.
(2) After a frame that leaves the flag set, every later frame starts and ends
with the flag set and creates no enemy.
(3) On a stage other than Boss3 the flag never changes and no frame creates an
enemy.
(4) For a non-negative maximum, `HP <= maxHP / 2` in integer division is the
same as `2 * HP <= maxHP`. -/
theorem phase_two_spawn_once (n : ℕ) (sc : ℕ → Scene) (gl : ℕ → Globals)
    (inp : ℕ → FrameInput) (res : ℕ → Scene × Globals)
    (hframe : ∀ i, i < n → Scene.update (sc i) (gl i) (inp i) = some (res i))
    (hnext : ∀ i, i + 1 < n →
      (sc (i + 1)).spawnedPhaseEnemies = (res i).1.spawnedPhaseEnemies ∧
      (sc (i + 1)).mSceneType = (res i).1.mSceneType) :
    (∀ i, i < n →
      (res i).1.mSceneType = (sc i).mSceneType ∧
      ((Scene.stageClear (sc i) (gl i)).2.currentState ≠ GameState.Playing →
        (res i).1.spawnedPhaseEnemies = (sc i).spawnedPhaseEnemies ∧
        (res i).1.enemies = (sc i).enemies) ∧
      ((sc i).mSceneType = SceneType.Boss3 → (sc i).spawnedPhaseEnemies = false →
        (Scene.stageClear (sc i) (gl i)).2.currentState = GameState.Playing →
        ∃ r1 r2 boss rest,
          Scene.updateEntities (Scene.stageClear (sc i) (gl i)).1
            (Scene.stageClear (sc i) (gl i)).2 (inp i) = some r1 ∧
          Scene.resolveHits r1.1 r1.2 (inp i) = some r2 ∧
          (Scene.pruneDead r2.1).mBosses = boss :: rest ∧
          (Scene.pruneDead r2.1).enemies.length ≤ (sc i).enemies.length ∧
          (0 ≤ boss.mMaxHP →
            (boss.mHP ≤ Int.tdiv boss.mMaxHP 2 ↔ 2 * boss.mHP ≤ boss.mMaxHP)) ∧
          (boss.mHP ≤ Int.tdiv boss.mMaxHP 2 →
            (res i).1.spawnedPhaseEnemies = true ∧
            (res i).1.enemies = (Scene.pruneDead r2.1).enemies ++
              (Scene.spawnLoop (inp i) 36 96 180 Scene.gridCells 0).1 ∧
            (Scene.spawnLoop (inp i) 36 96 180 Scene.gridCells 0).1.length = 36 ∧
            (res i).1.enemies.length = (Scene.pruneDead r2.1).enemies.length + 36) ∧
          (¬ boss.mHP ≤ Int.tdiv boss.mMaxHP 2 →
            (res i).1.spawnedPhaseEnemies = false ∧
            (res i).1.enemies = (Scene.pruneDead r2.1).enemies))) ∧
    (∀ i j, i < j → j < n → (res i).1.spawnedPhaseEnemies = true →
      (sc j).spawnedPhaseEnemies = true ∧ (res j).1.spawnedPhaseEnemies = true ∧
      (res j).1.enemies.length ≤ (sc j).enemies.length) ∧
    ((sc 0).mSceneType ≠ SceneType.Boss3 → ∀ i, i < n →
      (res i).1.spawnedPhaseEnemies = (sc 0).spawnedPhaseEnemies ∧
      (res i).1.enemies.length ≤ (sc i).enemies.length) ∧
    (∀ hp maxHP : ℤ, 0 ≤ maxHP → (hp ≤ Int.tdiv maxHP 2 ↔ 2 * hp ≤ maxHP)) := by
  obtain ⟨t1, t2⟩ := Scene.spawn_trace n sc gl inp res hframe hnext
  refine ⟨?_, t1, t2, tdiv_half⟩
  intro i hi
  obtain ⟨a, -, -, d, e⟩ := Scene.update_phase_frame _ _ _ _ (hframe i hi)
  exact ⟨a, d, e⟩

/-- Two consecutive frames of the example third stage, whose boss is at 5 of 10
hit points: the first frame spawns the 36 enemies and sets the flag, the second
keeps the flag and creates no enemy. -/
theorem phase_two_spawn_once_witness :
    ∃ r0 r1, Scene.update phaseScene exampleGlobals exampleInput = some r0 ∧
      Scene.update r0.1 r0.2 exampleInput = some r1 ∧
      r0.1.spawnedPhaseEnemies = true ∧ r0.1.enemies.length = 36 ∧
      r1.1.spawnedPhaseEnemies = true ∧ r1.1.enemies.length ≤ r0.1.enemies.length := by
  obtain ⟨r0, r1, h0, h1, hflag, hlen⟩ := phaseScene_two_frames
  have h := phase_two_spawn_once 2 (fun i => if i = 0 then phaseScene else r0.1)
    (fun i => if i = 0 then exampleGlobals else r0.2) (fun _ => exampleInput)
    (fun i => if i = 0 then r0 else r1)
    (by
      intro i hi
      interval_cases i
      · simpa using h0
      · simpa using h1)
    (by
      intro i hi
      have hi0 : i = 0 := by omega
      subst hi0
      simp)
  have hlater := h.2.1 0 1 (by decide) (by decide) (by simpa using hflag)
  simp only [Nat.one_ne_zero, if_false] at hlater
  exact ⟨r0, r1, h0, h1, hflag, hlen, hlater.2.1, hlater.2.2⟩

/-! ## An invariant of returning frames -/

/-- Every boss a returning frame leaves in the scene is renderable, so the erase
at the top of the next frame finds no dead boss. -/
theorem Scene.update_bosses_renderable (s : Scene) (g : Globals) (inp : FrameInput)
    (r : Scene × Globals) (hr : Scene.update s g inp = some r) :
    (∀ b ∈ r.1.mBosses, b.mRenderable = true) ∧
    r.1.mBosses.filter (fun boss => boss.mRenderable) = r.1.mBosses := by
  have hall : ∀ b ∈ r.1.mBosses, b.mRenderable = true := by
    simp only [Scene.update] at hr
    split_ifs at hr with hfrozen
    · simp only [Option.some.injEq] at hr
      subst hr
      intro b hb
      rw [Scene.stageClear_scene] at hb
      exact (List.mem_filter.mp hb).2
    · split at hr
      · simp at hr
      · rename_i mid hmid
        obtain ⟨-, -, -, f4, -⟩ := Scene.frameUntilSpawn_frame _ _ inp mid hmid
        obtain ⟨-, -, e2, -⟩ := Scene.finishFrame_spec _ _ inp r hr
        intro b hb
        rw [e2] at hb
        exact f4 b hb
  exact ⟨hall, List.filter_eq_self.mpr hall⟩

/-! ## Hitbox freshness -/

theorem GameEntity.updateComponents_idem (e : GameEntity) :
    e.updateComponents.updateComponents = e.updateComponents := by
  simp only [GameEntity.updateComponents]
  cases hh : e.hitbox with
  | none => rfl
  | some c =>
    cases ht : e.transform with
    | none => rfl
    | some t => rfl

/-- Projectile::update ends with the component pass: after an update that got
past its two guards the hitbox is the one derived from the transform. -/
theorem Projectile.update_fresh (p : Projectile) (ref0 : TransformComponent) (deltaTime : ℚ)
    (href : p.transform = some ref0) (hfiring : p.mIsFiring = true) :
    (p.update deltaTime).toGameEntity.updateComponents = (p.update deltaTime).toGameEntity := by
  simp only [Projectile.update, href, hfiring, Bool.not_true, Bool.false_eq_true, if_false]
  exact GameEntity.updateComponents_idem _

/-- Player::update moves nothing: the component pass is all it does to the
entity, so the hitbox is the one derived from the transform. -/
theorem Player.update_stays_fresh (p : Player) (deltaTime : ℚ) :
    (p.update deltaTime).toGameEntity.updateComponents = (p.update deltaTime).toGameEntity := by
  simp only [Player.update]
  exact GameEntity.updateComponents_idem _

/-- Enemy::update runs the component pass first: the hitbox it leaves is the one
derived from the transform the enemy had before the move. -/
theorem Enemy.update_hitbox (e : Enemy) (s : EnemyShared) (L now : ℕ) (dt : ℚ) (u : Uninit)
    (ref : TransformComponent) (href : e.transform = some ref) (r : Enemy × EnemyShared)
    (hr : e.update s L now dt u = some r) :
    r.1.hitbox = e.hitbox.map (fun c => c.update (some ref)) := by
  simp only [Enemy.update] at hr
  split at hr
  · rename_i heq
    simp [GameEntity.updateComponents, href] at heq
  · rename_i ref0 heq
    split at hr
    · exact absurd hr (by simp)
    · rename_i e4 hfire
      have hsame := Enemy.fireIfReady_entity _ _ _ _ _ _ hfire
      simp only [Option.some.injEq] at hr
      subst hr
      have h4 : e4.hitbox = e4.toGameEntity.hitbox := rfl
      simp only [Enemy.updateProjectiles]
      rw [h4, hsame]
      simp only [Enemy.keepExcess]
      split_ifs <;> simp [GameEntity.updateComponents, href]

/-- Boss::update runs the component pass first as well. -/
theorem Boss.update_hitbox_lags (b b1 : Boss) (player : Player) (dt : ℚ) (env : MathEnv)
    (u : Uninit) (d : BossDraws) (L now : ℕ) (ref : TransformComponent)
    (href : b.transform = some ref) (h : b.update player dt env u d L now = some b1) :
    b1.hitbox = b.hitbox.map (fun c => c.update (some ref)) := by
  have hk : ∀ c : Boss, ∀ r : TransformComponent,
      (((c.changeDirection dt d).moveWithinBounds r).tickCooldowns dt).hitbox = c.hitbox := by
    intro c r
    simp only [Boss.tickCooldowns, Boss.moveWithinBounds, Boss.changeDirection]
    split_ifs <;> rfl
  simp only [Boss.update] at h
  split at h
  · rename_i heq
    simp [GameEntity.updateComponents, href] at heq
  · rename_i ref0 heq
    split_ifs at h
    · simp only [Option.some.injEq] at h
      subst h
      rw [hk]
      simp [GameEntity.updateComponents, href]
    · split at h
      · simp at h
      · rename_i b4 hfire
        simp only [Option.some.injEq] at h
        subst h
        obtain ⟨k1, -⟩ := Boss.firePatterns_keeps _ _ _ _ _ _ _ _ _ hfire
        show b4.toGameEntity.hitbox = _
        rw [k1]
        show (((_ : Boss).changeDirection dt d).moveWithinBounds ref0 |>.tickCooldowns dt).hitbox = _
        rw [hk]
        simp [GameEntity.updateComponents, href]

/-- C21 at a concrete enemy: the first enemy of the grid, standing at (96, 180)
with the formation moving right by 1.6 pixels. After Enemy::update its transform
is at x = 97.6 while its hitbox is the 70x70 rectangle at x = 96, the place it
had before the move; a further component pass would change the hitbox (to the
rectangle at the `float` nearest to 97.6), so the hitbox is not the one derived
from the transform at the end of the update. -/
theorem enemy_hitbox_lags_one_frame :
    ∃ (e1 : Enemy) (s1 : EnemyShared),
      formationEnemy.update marchingShared 0 1000 (2 / 125) exampleUninit = some (e1, s1) ∧
      e1.transform = some { mRectangle := { x := 488 / 5, y := 180, w := 70, h := 70 },
                            mRotation := 0, isPlayer := false } ∧
      e1.hitbox = some { mRectangle := { x := 96, y := 180, w := 70, h := 70 },
                         mWidthModifier := 1, mHeightModifier := 1 } ∧
      e1.toGameEntity.updateComponents.hitbox =
        some { mRectangle := { x := f32 (488 / 5), y := 180, w := 70, h := 70 },
               mWidthModifier := 1, mHeightModifier := 1 } ∧
      e1.toGameEntity.updateComponents ≠ e1.toGameEntity := by
  have href : formationEnemy.transform =
      some { mRectangle := { x := 96, y := 180, w := 70, h := 70 }, mRotation := 0,
             isPlayer := false } := by
    simp [formationEnemy, Enemy.init, Enemy.new, TransformComponent.new,
      TransformComponent.setWidth, TransformComponent.setHeight, TransformComponent.move]
  obtain ⟨e1, h1, ht⟩ := Enemy.update_spec formationEnemy marchingShared 0 1000 (2 / 125)
    exampleUninit _ href
  have hh := Enemy.update_hitbox formationEnemy marchingShared 0 1000 (2 / 125) exampleUninit _
    href _ h1
  have ht2 : e1.transform =
      some { mRectangle := { x := 488 / 5, y := 180, w := 70, h := 70 }
             mRotation := 0
             isPlayer := false } := by
    rw [ht]
    norm_num [Enemy.moveStep, Enemy.clampMovement, Enemy.flip, marchingShared,
      TransformComponent.move, TransformComponent.getX, TransformComponent.getY]
  have hh2 : e1.hitbox =
      some { mRectangle := { x := 96, y := 180, w := 70, h := 70 }
             mWidthModifier := 1
             mHeightModifier := 1 } := by
    rw [hh]
    norm_num [formationEnemy, Enemy.init, Enemy.new, Collision2DComponent.new,
      Collision2DComponent.update, f32_ofNat, f32_zero, f32_one,
      TransformComponent.getX, TransformComponent.getY,
      TransformComponent.getWidth, TransformComponent.getHeight]
  have hfresh : e1.toGameEntity.updateComponents.hitbox =
      some { mRectangle := { x := f32 (488 / 5), y := 180, w := 70, h := 70 },
             mWidthModifier := 1, mHeightModifier := 1 } := by
    have h1t : e1.toGameEntity.transform = e1.transform := rfl
    have h1h : e1.toGameEntity.hitbox = e1.hitbox := rfl
    simp only [GameEntity.updateComponents, h1t, h1h, ht2, hh2]
    norm_num [Collision2DComponent.update, f32_ofNat, f32_zero, f32_one,
      TransformComponent.getX, TransformComponent.getY,
      TransformComponent.getWidth, TransformComponent.getHeight]
  refine ⟨e1, _, h1, ht2, hh2, hfresh, ?_⟩
  intro heq
  have hcontra : e1.toGameEntity.updateComponents.hitbox = e1.hitbox := by rw [heq]
  rw [hfresh, hh2] at hcontra
  have hx : f32 (488 / 5) = 96 := by
    have hrect := congrArg (fun c : Collision2DComponent => c.mRectangle.x)
      (Option.some.inj hcontra)
    exact hrect
  have herr := roundBits_err 24 (488 / 5)
  rw [show roundBits 24 (488 / 5) = f32 (488 / 5) from rfl, hx,
    abs_of_pos (by norm_num : (0 : ℚ) < 488 / 5)] at herr
  norm_num [abs_le] at herr

/-! ## Hitbox derived from the transform -/

/-- One axis of Collision2DComponent::update for a modifier the program sets and
an extent `W` that is a `float` value: the reduced extent is at most `W`, and
the centre of the hitbox differs from the centre of the transform by at most
`(|x| + W) / 2^23`. -/
theorem hitbox_axis (x W m : ℚ) (hm : programModifier m) (hW : 0 ≤ W) (hf : f32 W = W) :
    f32 (W * m) ≤ W ∧
    |f32 (x + f32 (f32 (W - f32 (W * m)) / 2)) + f32 (W * m) / 2 - (x + W / 2)| ≤
      (|x| + W) / 2 ^ 23 := by
  have hm0 : 0 ≤ W * m := by
    rcases hm with h | h | h
    · rw [h]; linarith
    · rw [h]; linarith
    · rw [h, f32_three_fifths]
      exact mul_nonneg hW (by norm_num)
  have hw0 : 0 ≤ f32 (W * m) := f32_nonneg _ hm0
  have hwW : f32 (W * m) ≤ W := by
    rcases hm with h | h | h
    · rw [h, mul_one, hf]
    · have e := f32_err (W * m)
      rw [abs_of_nonneg hm0, abs_le, h] at e
      rw [h]
      linarith [e.2]
    · have e := f32_err (W * m)
      rw [abs_of_nonneg hm0, abs_le, h, f32_three_fifths] at e
      rw [h, f32_three_fifths]
      linarith [e.2]
  refine ⟨hwW, ?_⟩
  have hd0 : 0 ≤ W - f32 (W * m) := by linarith
  have e1 := f32_err (W - f32 (W * m))
  rw [abs_of_nonneg hd0, abs_le] at e1
  have hd1 : 0 ≤ f32 (W - f32 (W * m)) := f32_nonneg _ hd0
  have e2 := f32_err (f32 (W - f32 (W * m)) / 2)
  rw [abs_of_nonneg (by linarith : 0 ≤ f32 (W - f32 (W * m)) / 2), abs_le] at e2
  have ho : 0 ≤ f32 (f32 (W - f32 (W * m)) / 2) := f32_nonneg _ (by linarith)
  have e3 := f32_err (x + f32 (f32 (W - f32 (W * m)) / 2))
  have habs : |x + f32 (f32 (W - f32 (W * m)) / 2)| ≤
      |x| + f32 (f32 (W - f32 (W * m)) / 2) := by
    calc |x + f32 (f32 (W - f32 (W * m)) / 2)|
        ≤ |x| + |f32 (f32 (W - f32 (W * m)) / 2)| := abs_add _ _
      _ = |x| + f32 (f32 (W - f32 (W * m)) / 2) := by rw [abs_of_nonneg ho]
  rw [abs_le] at e3
  have hx : 0 ≤ |x| := abs_nonneg x
  have h23 : ((2 : ℚ) ^ 23) = 8388608 := by norm_num
  have h24 : ((2 : ℚ) ^ 24) = 16777216 := by norm_num
  rw [h24] at e1 e2 e3
  rw [h23, abs_le]
  have hb : |x + f32 (f32 (W - f32 (W * m)) / 2)| / 16777216 ≤
      (|x| + f32 (f32 (W - f32 (W * m)) / 2)) / 16777216 :=
    div_le_div_of_nonneg_right habs (by norm_num)
  constructor
  · linarith [e1.1, e2.1, e3.1]
  · linarith [e1.2, e2.2, e3.2]

theorem Collision2DComponent.update_fits (c : Collision2DComponent) (t : TransformComponent)
    (hmw : programModifier c.mWidthModifier) (hmh : programModifier c.mHeightModifier)
    (hw : 0 ≤ t.getWidth) (hh : 0 ≤ t.getHeight)
    (hfw : f32 t.getWidth = t.getWidth) (hfh : f32 t.getHeight = t.getHeight) :
    hitboxFits (c.update (some t)) t := by
  obtain ⟨a1, a2⟩ := hitbox_axis t.getX t.getWidth c.mWidthModifier hmw hw hfw
  obtain ⟨b1, b2⟩ := hitbox_axis t.getY t.getHeight c.mHeightModifier hmh hh hfh
  exact ⟨a1, b1, a2, b2⟩

/-- C3 fails for the 0.6f modifier. A spread-shot projectile (100x100, hitbox
modifiers 0.6f) stands at (1645, 202) after an update of 0.01 s. The component
pass at the end of that update computes in `float`: 0.6f is 10066330 / 2^24,
the reduced extent `100 * 0.6f` rounds to 15728641 / 2^18 (60.0000038), and the
corner `1645 + (100 - 60.0000038) / 2` rounds to 1665. The centre of the hitbox
is at 1695.0000019 against the centre 1695 of the transform. -/
theorem spread_shot_hitbox_off_centre :
    (spreadShot.update (1 / 100)).transform =
      some { mRectangle := { x := 1645, y := 202, w := 100, h := 100 },
             mRotation := 0, isPlayer := false } ∧
    (spreadShot.update (1 / 100)).hitbox =
      some { mRectangle := { x := 1665, y := 222, w := 15728641 / 262144,
                             h := 15728641 / 262144 },
             mWidthModifier := f32 (3 / 5), mHeightModifier := f32 (3 / 5) } ∧
    f32 (3 / 5) = 10066330 / 16777216 ∧
    (1665 + 15728641 / 262144 / 2 : ℚ) ≠ 1645 + 100 / 2 := by
  have hw : f32 (125829125 / 2097152) = 15728641 / 262144 := by
    have h := roundBits_eval 24 (125829125 / 2097152) 5 15728641
      (by norm_num [abs_of_pos]) (by norm_num [abs_of_pos])
      (by norm_num [abs_lt])
    rw [f32, h]
    norm_num
  have hd : f32 (10485759 / 262144) = 10485759 / 262144 := by
    have h := roundBits_exact 24 10485759 (-18) (by norm_num)
    rw [f32]
    norm_num at h ⊢
    exact h
  have ho : f32 (10485759 / 524288) = 10485759 / 524288 := by
    have h := roundBits_exact 24 10485759 (-19) (by norm_num)
    rw [f32]
    norm_num at h ⊢
    exact h
  have hx : f32 (872939519 / 524288) = 1665 := by
    have h := roundBits_eval 24 (872939519 / 524288) 10 13639680
      (by norm_num [abs_of_pos]) (by norm_num [abs_of_pos])
      (by norm_num [abs_lt])
    rw [f32, h]
    norm_num
  have hy : f32 (116391935 / 524288) = 222 := by
    have h := roundBits_eval 24 (116391935 / 524288) 7 14548992
      (by norm_num [abs_of_pos]) (by norm_num [abs_of_pos])
      (by norm_num [abs_lt])
    rw [f32, h]
    norm_num
  refine ⟨?_, ?_, f32_three_fifths, by norm_num⟩
  · norm_num [spreadShot, Boss.angledShot, Projectile.update, Projectile.moved,
      Projectile.LaunchWithAngle, Projectile.newBossProjectile, Projectile.init,
      Projectile.new, Projectile.setIsPlayerProjectile, Projectile.setIsBossProjectile,
      Projectile.setProjectileMovementType, Projectile.setProjectileSpeed,
      TransformComponent.new, TransformComponent.setWidth, TransformComponent.setHeight,
      TransformComponent.move, TransformComponent.getX, TransformComponent.getY,
      TransformComponent.setRotation, GameEntity.updateComponents, exampleMath, WINDOW_HEIGHT]
  · norm_num [spreadShot, Boss.angledShot, Projectile.update, Projectile.moved,
      Projectile.LaunchWithAngle, Projectile.newBossProjectile, Projectile.init,
      Projectile.new, Projectile.setIsPlayerProjectile, Projectile.setIsBossProjectile,
      Projectile.setProjectileMovementType, Projectile.setProjectileSpeed,
      TransformComponent.new, TransformComponent.setWidth, TransformComponent.setHeight,
      TransformComponent.move, TransformComponent.getX, TransformComponent.getY,
      TransformComponent.getWidth, TransformComponent.getHeight,
      TransformComponent.setRotation, GameEntity.updateComponents, exampleMath, WINDOW_HEIGHT,
      Collision2DComponent.update, Collision2DComponent.new,
      Collision2DComponent.setHitboxModifier, f32_three_fifths, hw, hd, ho, hx, hy]

theorem move_keeps_size (t : TransformComponent) (x y : ℚ) :
    (t.move x y).getWidth = t.getWidth ∧ (t.move x y).getHeight = t.getHeight := by
  simp only [TransformComponent.move, TransformComponent.getWidth, TransformComponent.getHeight]
  split_ifs <;> exact ⟨rfl, rfl⟩

theorem Projectile.moved_size (p : Projectile) (t : TransformComponent) (dt : ℚ) :
    (p.moved t dt).getWidth = t.getWidth ∧ (p.moved t dt).getHeight = t.getHeight := by
  simp only [Projectile.moved]
  split
  · split_ifs <;> exact move_keeps_size _ _ _
  · exact move_keeps_size _ _ _
  · exact move_keeps_size _ _ _

theorem Enemy.moveStep_size (t : TransformComponent) (s : EnemyShared) :
    (Enemy.moveStep t s).getWidth = t.getWidth ∧
    (Enemy.moveStep t s).getHeight = t.getHeight := by
  simp only [Enemy.moveStep]
  split_ifs <;> exact move_keeps_size _ _ _

/-- Boss::update keeps the size of the transform. -/
theorem Boss.update_size (b b1 : Boss) (player : Player) (dt : ℚ) (env : MathEnv)
    (u : Uninit) (d : BossDraws) (L now : ℕ) (ref : TransformComponent)
    (href : b.transform = some ref) (h : b.update player dt env u d L now = some b1) :
    ∃ t1, b1.transform = some t1 ∧ t1.getWidth = ref.getWidth ∧
      t1.getHeight = ref.getHeight := by
  have hk : ∀ c : Boss, ∀ r : TransformComponent,
      ∃ t1, (((c.changeDirection dt d).moveWithinBounds r).tickCooldowns dt).transform =
        some t1 ∧ t1.getWidth = r.getWidth ∧ t1.getHeight = r.getHeight := by
    intro c r
    simp only [Boss.tickCooldowns, Boss.moveWithinBounds]
    exact ⟨_, rfl, move_keeps_size _ _ _⟩
  simp only [Boss.update] at h
  split at h
  · rename_i heq
    simp [GameEntity.updateComponents, href] at heq
  · rename_i ref0 heq
    have href0 : ref0 = ref := by
      simp [GameEntity.updateComponents, href] at heq
      exact heq.symm
    subst href0
    obtain ⟨t1, ht1, hsz⟩ := hk
      { ({ b with toGameEntity := b.toGameEntity.updateComponents } : Boss) with
        mMovement := b.mSpeed * dt } ref0
    split_ifs at h
    · simp only [Option.some.injEq] at h
      subst h
      exact ⟨t1, ht1, hsz⟩
    · split at h
      · simp at h
      · rename_i b4 hfire
        simp only [Option.some.injEq] at h
        subst h
        obtain ⟨k1, -⟩ := Boss.firePatterns_keeps _ _ _ _ _ _ _ _ _ hfire
        refine ⟨t1, ?_, hsz⟩
        show b4.toGameEntity.transform = _
        rw [k1]
        exact ht1

/-- C3, as the code has it. (1) The component pass on an entity with a
transform of non-negative `float` size and a hitbox whose modifiers are among
those the program sets (1.0, 0.5f, 0.6f) leaves a hitbox that is no wider and
no taller than the transform and whose centre is the centre of the transform up
to the rounding of the `float` arithmetic. (2) Projectile::update of a firing
projectile and (3) Player::update end with that pass, so their result has such
a hitbox for its transform. (4) Enemy::update and (5) Boss::update run the pass
before they move the transform: at the end of the update the hitbox is still no
wider and no taller than the transform. -/
theorem hitbox_within_transform_and_centred :
    (∀ (e : GameEntity) (t : TransformComponent) (c : Collision2DComponent),
      e.transform = some t → e.hitbox = some c → programBuilt t c →
      ∃ c1, e.updateComponents.transform = some t ∧ e.updateComponents.hitbox = some c1 ∧
        hitboxFits c1 t) ∧
    (∀ (p : Projectile) (dt : ℚ) (t : TransformComponent) (c : Collision2DComponent),
      p.transform = some t → p.hitbox = some c → p.mIsFiring = true → programBuilt t c →
      ∃ t1 c1, (p.update dt).transform = some t1 ∧ (p.update dt).hitbox = some c1 ∧
        hitboxFits c1 t1) ∧
    (∀ (p : Player) (dt : ℚ) (t : TransformComponent) (c : Collision2DComponent),
      p.transform = some t → p.hitbox = some c → programBuilt t c →
      ∃ c1, (p.update dt).transform = some t ∧ (p.update dt).hitbox = some c1 ∧
        hitboxFits c1 t) ∧
    (∀ (e : Enemy) (s : EnemyShared) (L now : ℕ) (dt : ℚ) (u : Uninit)
      (t : TransformComponent) (c : Collision2DComponent) (r : Enemy × EnemyShared),
      e.transform = some t → e.hitbox = some c → programBuilt t c →
      e.update s L now dt u = some r →
      ∃ t1 c1, r.1.transform = some t1 ∧ r.1.hitbox = some c1 ∧
        c1.mRectangle.w ≤ t1.getWidth ∧ c1.mRectangle.h ≤ t1.getHeight) ∧
    (∀ (b b1 : Boss) (player : Player) (dt : ℚ) (env : MathEnv) (u : Uninit) (d : BossDraws)
      (L now : ℕ) (t : TransformComponent) (c : Collision2DComponent),
      b.transform = some t → b.hitbox = some c → programBuilt t c →
      b.update player dt env u d L now = some b1 →
      ∃ t1 c1, b1.transform = some t1 ∧ b1.hitbox = some c1 ∧
        c1.mRectangle.w ≤ t1.getWidth ∧ c1.mRectangle.h ≤ t1.getHeight) := by
  have pass : ∀ (t : TransformComponent) (c : Collision2DComponent), programBuilt t c →
      hitboxFits (c.update (some t)) t :=
    fun t c h => Collision2DComponent.update_fits c t h.1 h.2.1 h.2.2.1 h.2.2.2.1
      h.2.2.2.2.1 h.2.2.2.2.2
  have resize : ∀ (t t1 : TransformComponent) (c : Collision2DComponent),
      t1.getWidth = t.getWidth → t1.getHeight = t.getHeight → programBuilt t c →
      programBuilt t1 c := by
    intro t t1 c hw hh h
    unfold programBuilt at h ⊢
    rw [hw, hh]
    exact h
  refine ⟨?_, ?_, ?_, ?_, ?_⟩
  · intro e t c ht hc hb
    exact ⟨c.update (some t), by simp [GameEntity.updateComponents, ht],
      by simp [GameEntity.updateComponents, hc, ht], pass t c hb⟩
  · intro p dt t c ht hc hfiring hb
    obtain ⟨mw, mh⟩ := Projectile.moved_size p t dt
    have hb1 : programBuilt (p.moved t dt) c := resize t _ c mw mh hb
    have hb2 : programBuilt ((p.moved t dt).setRotation 0) c := resize t _ c mw mh hb
    have hc1 : p.toGameEntity.hitbox = some c := hc
    simp only [Projectile.update, ht, hfiring, Bool.not_true, Bool.false_eq_true, if_false]
    split_ifs
    · exact ⟨_, c.update (some ((p.moved t dt).setRotation 0)), rfl,
        by simp [GameEntity.updateComponents, hc1], pass _ c hb2⟩
    · exact ⟨_, c.update (some (p.moved t dt)), rfl,
        by simp [GameEntity.updateComponents, hc1], pass _ c hb1⟩
    · exact ⟨_, c.update (some (p.moved t dt)), rfl,
        by simp [GameEntity.updateComponents, hc1], pass _ c hb1⟩
  · intro p dt t c ht hc hb
    have ht1 : p.toGameEntity.transform = some t := ht
    have hc1 : p.toGameEntity.hitbox = some c := hc
    refine ⟨c.update (some t), ?_, ?_, pass t c hb⟩
    · simp only [Player.update]
      exact ht
    · simp only [Player.update]
      simp [GameEntity.updateComponents, hc1, ht1]
  · intro e s L now dt u t c r ht hc hb hr
    have hh := Enemy.update_hitbox e s L now dt u t ht r hr
    obtain ⟨h2, h1⟩ := Enemy.update_result e s L now dt u t ht r hr
    obtain ⟨mw, mh⟩ := Enemy.moveStep_size t (Enemy.clampMovement (Enemy.flip s))
    obtain ⟨f1, f2, -, -⟩ := pass t c hb
    refine ⟨_, c.update (some t), h1, ?_, ?_, ?_⟩
    · rw [hh, hc]; rfl
    · rw [mw]; exact f1
    · rw [mh]; exact f2
  · intro b b1 player dt env u d L now t c ht hc hb h
    have hh := Boss.update_hitbox_lags b b1 player dt env u d L now t ht h
    obtain ⟨t1, ht1, mw, mh⟩ := Boss.update_size b b1 player dt env u d L now t ht h
    obtain ⟨f1, f2, -, -⟩ := pass t c hb
    refine ⟨t1, c.update (some t), ht1, ?_, ?_, ?_⟩
    · rw [hh, hc]; rfl
    · rw [mw]; exact f1
    · rw [mh]; exact f2

/-- Witness of C3 on the spread-shot projectile of the counterexample: after an
update of 0.01 s its hitbox fits its transform up to the rounding. -/
theorem hitbox_within_transform_and_centred_witness :
    ∃ t1 c1, (spreadShot.update (1 / 100)).transform = some t1 ∧
      (spreadShot.update (1 / 100)).hitbox = some c1 ∧ hitboxFits c1 t1 :=
  hitbox_within_transform_and_centred.2.1 spreadShot (1 / 100)
    { mRectangle := { x := 1645, y := 200, w := 100, h := 100 }, mRotation := 0,
      isPlayer := false }
    { mRectangle := { x := 0, y := 0, w := 0, h := 0 },
      mWidthModifier := f32 (3 / 5), mHeightModifier := f32 (3 / 5) }
    (by simp [spreadShot, Boss.angledShot, Projectile.LaunchWithAngle,
      Projectile.newBossProjectile, Projectile.init, Projectile.new,
      Projectile.setIsPlayerProjectile, Projectile.setIsBossProjectile,
      Projectile.setProjectileMovementType, Projectile.setProjectileSpeed,
      TransformComponent.new, TransformComponent.setWidth, TransformComponent.setHeight,
      TransformComponent.move])
    (by simp [spreadShot, Boss.angledShot, Projectile.LaunchWithAngle,
      Projectile.newBossProjectile, Projectile.init, Projectile.new,
      Projectile.setIsPlayerProjectile, Projectile.setIsBossProjectile,
      Projectile.setProjectileMovementType, Projectile.setProjectileSpeed,
      Collision2DComponent.new, Collision2DComponent.setHitboxModifier])
    rfl
    ⟨Or.inr (Or.inr rfl), Or.inr (Or.inr rfl),
      by norm_num [TransformComponent.getWidth], by norm_num [TransformComponent.getHeight],
      by norm_num [TransformComponent.getWidth, f32_ofNat],
      by norm_num [TransformComponent.getHeight, f32_ofNat]⟩

/-! ## Launch without a transform -/

/-- Launch on a projectile without a transform: the enemy branch and the player
branch (once the gate is open) dereference the missing transform. -/
theorem Projectile.Launch_no_transform (p : Projectile) (L now : ℕ) (x y : ℚ) (direction : Bool)
    (minLaunchTime : ℚ) (hnone : p.transform = none) :
    (p.isPlayerProjectile = false → p.isBossProjectile = false →
      p.Launch L now x y direction minLaunchTime = none) ∧
    (p.isPlayerProjectile = true → ((uint64Sub now L : ℕ) : ℚ) ≥ minLaunchTime →
      p.Launch L now x y direction minLaunchTime = none) ∧
    (p.isPlayerProjectile = true → ¬ ((uint64Sub now L : ℕ) : ℚ) ≥ minLaunchTime →
      p.Launch L now x y direction minLaunchTime =
        some { fired := false, projectile := p, lastTimeLaunch := L }) ∧
    (p.isPlayerProjectile = false → p.isBossProjectile = true →
      ∃ r, p.Launch L now x y direction minLaunchTime = some r ∧ r.fired = true ∧
        r.projectile.mIsFiring = true ∧ r.projectile.mRenderable = true) := by
  refine ⟨?_, ?_, ?_, ?_⟩
  · intro h1 h2
    simp [Projectile.Launch, h1, h2, hnone]
  · intro h1 h2
    simp only [Projectile.Launch, h1, true_and, if_pos h2, hnone]
  · intro h1 h2
    simp [Projectile.Launch, h1, h2]
  · intro h1 h2
    exact ⟨_, by simp only [Projectile.Launch, h1, h2]; simp; rfl, rfl, rfl, rfl⟩

/-- C22 at concrete projectiles that were constructed but never initialised (no
transform). Launch of the enemy-owned one and of the player-owned one (gate
open: 1000 ms since the last launch) dereference the null transform, which the
model reports as `none`; only the boss-owned one, whose branch does not touch
the transform, returns, and it fires rather than doing nothing. LaunchWithAngle
and LaunchWithTracking on the same projectiles return at their guard and change
nothing. -/
theorem launch_without_transform_fails :
    ((Projectile.new exampleUninit).setIsPlayerProjectile false).Launch 0 1000 100 200 false
        defaultMinLaunchTime = none ∧
    ((Projectile.new exampleUninit).setIsPlayerProjectile true).Launch 0 1000 100 200 true
        defaultMinLaunchTime = none ∧
    (∃ r, (((Projectile.new exampleUninit).setIsPlayerProjectile false).setIsBossProjectile
        true).Launch 0 1000 100 200 true defaultMinLaunchTime = some r ∧ r.fired = true ∧
        r.projectile.mIsFiring = true) ∧
    ((Projectile.new exampleUninit).setIsPlayerProjectile false).LaunchWithAngle
        exampleMath.cosF exampleMath.sinF 100 200 45 =
      (Projectile.new exampleUninit).setIsPlayerProjectile false ∧
    ((Projectile.new exampleUninit).setIsPlayerProjectile false).LaunchWithTracking
        exampleMath.cosF exampleMath.sinF 100 200 45 =
      (Projectile.new exampleUninit).setIsPlayerProjectile false := by
  have hgate : ((uint64Sub 1000 0 : ℕ) : ℚ) ≥ defaultMinLaunchTime := by
    norm_num [uint64Sub, defaultMinLaunchTime]
  refine ⟨?_, ?_, ?_, rfl, rfl⟩
  · exact (Projectile.Launch_no_transform _ 0 1000 100 200 false defaultMinLaunchTime rfl).1
      rfl rfl
  · exact (Projectile.Launch_no_transform _ 0 1000 100 200 true defaultMinLaunchTime rfl).2.1
      rfl hgate
  · obtain ⟨r, hr, h1, h2, -⟩ :=
      (Projectile.Launch_no_transform
        (((Projectile.new exampleUninit).setIsPlayerProjectile false).setIsBossProjectile true)
        0 1000 100 200 true defaultMinLaunchTime rfl).2.2.2 rfl rfl
    exact ⟨r, hr, h1, h2⟩

/-! ## The coin toss of the boss -/

theorem Boss.changeDirection_toss (b : Boss) (dt : ℚ) (d : BossDraws) :
    (b.mDirectionChangeTimer - dt ≤ 0 →
      (b.changeDirection dt d).mXDirection =
        (if d.flipChance1 < 50 then -b.mXDirection else b.mXDirection) ∧
      (b.changeDirection dt d).mYDirection =
        (if 50 ≤ d.flipChance1 ∧ d.flipChance2 < 50 then -b.mYDirection else b.mYDirection) ∧
      (b.changeDirection dt d).mDirectionChangeTimer = d.directionChangeInterval) ∧
    (¬ b.mDirectionChangeTimer - dt ≤ 0 →
      (b.changeDirection dt d).mXDirection = b.mXDirection ∧
      (b.changeDirection dt d).mYDirection = b.mYDirection ∧
      (b.changeDirection dt d).mDirectionChangeTimer = b.mDirectionChangeTimer - dt) := by
  constructor
  · intro h
    by_cases h1 : d.flipChance1 < 50
    · have h1n : ¬ (50 ≤ d.flipChance1 ∧ d.flipChance2 < 50) := fun hc => by omega
      simp [Boss.changeDirection, h, h1, h1n]
    · by_cases h2 : d.flipChance2 < 50
      · have h12 : 50 ≤ d.flipChance1 ∧ d.flipChance2 < 50 := ⟨by omega, h2⟩
        simp [Boss.changeDirection, h, h1, h2, h12]
      · have h12 : ¬ (50 ≤ d.flipChance1 ∧ d.flipChance2 < 50) := fun hc => h2 hc.2
        simp [Boss.changeDirection, h, h1, h2, h12]
  · intro h
    simp [Boss.changeDirection, h]

theorem card_draws_below (k : ℕ) (hk : k ≤ 100) :
    ((Finset.range 100).filter (fun n => n < k)).card = k := by
  have : (Finset.range 100).filter (fun n => n < k) = Finset.range k := by
    ext n
    simp only [Finset.mem_filter, Finset.mem_range]
    omega
  rw [this, Finset.card_range]

theorem card_draws_from (k : ℕ) (hk : k ≤ 100) :
    ((Finset.range 100).filter (fun n => k ≤ n)).card = 100 - k := by
  have hsplit : ((Finset.range 100).filter (fun n => n < k)).card +
      ((Finset.range 100).filter (fun n => ¬ n < k)).card = (Finset.range 100).card :=
    Finset.filter_card_add_filter_neg_card_eq_card (fun n => n < k)
  rw [card_draws_below k hk, Finset.card_range] at hsplit
  have : (Finset.range 100).filter (fun n => k ≤ n) =
      (Finset.range 100).filter (fun n => ¬ n < k) := by
    ext n
    simp only [Finset.mem_filter, Finset.mem_range, not_lt]
  rw [this]
  omega

/-- C23: the timer block of Boss::update with the two draws d1, d2 of
`flipChance` (0..99) and any redrawn interval. When the timer has lapsed, the X
direction is negated exactly when d1 < 50 and the Y direction exactly when
d1 >= 50 and d2 < 50, so never both; of the 10,000 pairs of draws exactly 5,000
negate a non-zero X direction and exactly 2,500 a non-zero Y direction. When the
timer has not lapsed, neither direction is changed, whatever the draws. -/
theorem boss_direction_flip (b : Boss) (dt interval : ℚ) :
    (b.mDirectionChangeTimer - dt ≤ 0 →
      (∀ d1 d2 : ℕ,
        (b.changeDirection dt ⟨d1, d2, interval⟩).mXDirection =
          (if d1 < 50 then -b.mXDirection else b.mXDirection) ∧
        (b.changeDirection dt ⟨d1, d2, interval⟩).mYDirection =
          (if 50 ≤ d1 ∧ d2 < 50 then -b.mYDirection else b.mYDirection) ∧
        ((b.changeDirection dt ⟨d1, d2, interval⟩).mXDirection = b.mXDirection ∨
          (b.changeDirection dt ⟨d1, d2, interval⟩).mYDirection = b.mYDirection)) ∧
      (b.mXDirection ≠ 0 →
        ((Finset.range 100 ×ˢ Finset.range 100).filter
          (fun p => (b.changeDirection dt ⟨p.1, p.2, interval⟩).mXDirection =
            -b.mXDirection)).card = 5000) ∧
      (b.mYDirection ≠ 0 →
        ((Finset.range 100 ×ˢ Finset.range 100).filter
          (fun p => (b.changeDirection dt ⟨p.1, p.2, interval⟩).mYDirection =
            -b.mYDirection)).card = 2500)) ∧
    (¬ b.mDirectionChangeTimer - dt ≤ 0 →
      ∀ d1 d2 : ℕ,
        (b.changeDirection dt ⟨d1, d2, interval⟩).mXDirection = b.mXDirection ∧
        (b.changeDirection dt ⟨d1, d2, interval⟩).mYDirection = b.mYDirection) := by
  constructor
  · intro hlapsed
    have htoss : ∀ d1 d2 : ℕ,
        (b.changeDirection dt ⟨d1, d2, interval⟩).mXDirection =
          (if d1 < 50 then -b.mXDirection else b.mXDirection) ∧
        (b.changeDirection dt ⟨d1, d2, interval⟩).mYDirection =
          (if 50 ≤ d1 ∧ d2 < 50 then -b.mYDirection else b.mYDirection) := by
      intro d1 d2
      obtain ⟨hx, hy, -⟩ := (Boss.changeDirection_toss b dt ⟨d1, d2, interval⟩).1 hlapsed
      exact ⟨hx, hy⟩
    refine ⟨?_, ?_, ?_⟩
    · intro d1 d2
      obtain ⟨hx, hy⟩ := htoss d1 d2
      refine ⟨hx, hy, ?_⟩
      rw [hx, hy]
      by_cases h1 : d1 < 50
      · right
        rw [if_neg (fun hc => by omega)]
      · left
        rw [if_neg h1]
    · intro hx0
      have hneg : -b.mXDirection ≠ b.mXDirection := by
        intro h
        apply hx0
        linarith
      have hset : (Finset.range 100 ×ˢ Finset.range 100).filter
          (fun p => (b.changeDirection dt ⟨p.1, p.2, interval⟩).mXDirection =
            -b.mXDirection) =
          ((Finset.range 100).filter (fun n => n < 50)) ×ˢ
            ((Finset.range 100).filter (fun n => n < 100)) := by
        ext p
        simp only [Finset.mem_filter, Finset.mem_product, Finset.mem_range, (htoss p.1 p.2).1]
        by_cases h1 : p.1 < 50
        · simp only [if_pos h1]
          constructor
          · rintro ⟨⟨a, c⟩, -⟩
            exact ⟨⟨a, h1⟩, c, c⟩
          · rintro ⟨⟨a, -⟩, c, -⟩
            exact ⟨⟨a, c⟩, trivial⟩
        · simp only [if_neg h1]
          constructor
          · rintro ⟨-, h⟩
            exact absurd h.symm hneg
          · rintro ⟨⟨-, a⟩, -⟩
            exact absurd a h1
      rw [hset, Finset.card_product, card_draws_below 50 (by decide),
        card_draws_below 100 (by decide)]
    · intro hy0
      have hneg : -b.mYDirection ≠ b.mYDirection := by
        intro h
        apply hy0
        linarith
      have hset : (Finset.range 100 ×ˢ Finset.range 100).filter
          (fun p => (b.changeDirection dt ⟨p.1, p.2, interval⟩).mYDirection =
            -b.mYDirection) =
          ((Finset.range 100).filter (fun n => 50 ≤ n)) ×ˢ
            ((Finset.range 100).filter (fun n => n < 50)) := by
        ext p
        simp only [Finset.mem_filter, Finset.mem_product, Finset.mem_range, (htoss p.1 p.2).2]
        by_cases h1 : 50 ≤ p.1 ∧ p.2 < 50
        · simp only [if_pos h1]
          constructor
          · rintro ⟨⟨a, c⟩, -⟩
            exact ⟨⟨a, h1.1⟩, c, h1.2⟩
          · rintro ⟨⟨a, -⟩, c, -⟩
            exact ⟨⟨a, c⟩, trivial⟩
        · simp only [if_neg h1]
          constructor
          · rintro ⟨-, h⟩
            exact absurd h.symm hneg
          · rintro ⟨⟨-, a⟩, -, c⟩
            exact absurd ⟨a, c⟩ h1
      rw [hset, Finset.card_product, card_draws_from 50 (by decide),
        card_draws_below 50 (by decide)]
  · intro hnot d1 d2
    obtain ⟨hx, hy, -⟩ := (Boss.changeDirection_toss b dt ⟨d1, d2, interval⟩).2 hnot
    exact ⟨hx, hy⟩

/-- The coin toss on the example boss, whose timer is 0 and whose directions are
both 1: 5,000 of the pairs of draws turn X to -1 and 2,500 turn Y to -1. -/
theorem boss_direction_flip_witness :
    ((Finset.range 100 ×ˢ Finset.range 100).filter
      (fun p => (wanderingBoss.changeDirection (2 / 125) ⟨p.1, p.2, 2⟩).mXDirection =
        -wanderingBoss.mXDirection)).card = 5000 ∧
    ((Finset.range 100 ×ˢ Finset.range 100).filter
      (fun p => (wanderingBoss.changeDirection (2 / 125) ⟨p.1, p.2, 2⟩).mYDirection =
        -wanderingBoss.mYDirection)).card = 2500 := by
  have hlapsed : wanderingBoss.mDirectionChangeTimer - 2 / 125 ≤ 0 := by
    norm_num [wanderingBoss, exampleBoss, Boss.init, Boss.new]
  have hx : wanderingBoss.mXDirection ≠ 0 := by
    norm_num [wanderingBoss, exampleBoss, Boss.init, Boss.new]
  have hy : wanderingBoss.mYDirection ≠ 0 := by
    norm_num [wanderingBoss, exampleBoss, Boss.init, Boss.new]
  obtain ⟨-, h1, h2⟩ := (boss_direction_flip wanderingBoss (2 / 125) 2).1 hlapsed
  exact ⟨h1 hx, h2 hy⟩

/-! ## The spread pattern -/

/-- The float loop of the fan patterns in closed form: when `n` is the number
of steps from `angle` that stay at or below `stop`, and the fuel is larger, the
loop pushes the `n` angles `angle + step * k - offset`. -/
theorem angleLoop_eq (offset stop step : ℚ) (n : ℕ) :
    ∀ (fuel : ℕ) (angle : ℚ), (∀ k : ℕ, k < n → angle + step * (k : ℚ) ≤ stop) →
      stop < angle + step * (n : ℚ) → n < fuel →
      angleLoop offset stop step fuel angle =
        (List.range n).map (fun k : ℕ => angle + step * (k : ℚ) - offset) := by
  induction n with
  | zero =>
    intro fuel angle _ hnext hfuel
    obtain ⟨f, rfl⟩ : ∃ f, fuel = f + 1 := ⟨fuel - 1, by omega⟩
    have hgt : ¬ angle ≤ stop := by
      simp only [Nat.cast_zero, mul_zero, add_zero] at hnext
      exact not_le.mpr hnext
    simp only [angleLoop, if_neg hgt, List.range_zero, List.map_nil]
  | succ m ih =>
    intro fuel angle hin hnext hfuel
    obtain ⟨f, rfl⟩ : ∃ f, fuel = f + 1 := ⟨fuel - 1, by omega⟩
    have hle : angle ≤ stop := by
      have := hin 0 (Nat.succ_pos m)
      simpa using this
    have hrec := ih f (angle + step)
      (by
        intro k hk
        have := hin (k + 1) (by omega)
        push_cast at this
        linarith)
      (by
        push_cast at hnext
        linarith)
      (by omega)
    simp only [angleLoop, if_pos hle, hrec, List.range_succ_eq_map, List.map_cons,
      List.map_map, Nat.cast_zero, mul_zero, add_zero]
    congr 1
    apply List.map_congr_left
    intro k _
    simp only [Function.comp, Nat.cast_succ]
    ring

theorem angleLoop_spread :
    angleLoop (-90) 90 15 100 (-90) =
      (List.range 13).map (fun k : ℕ => (-90 + 15 * (k : ℚ)) - (-90)) := by
  apply angleLoop_eq (-90) 90 15 13 100 (-90)
  · intro k hk
    have : (k : ℚ) ≤ 12 := by exact_mod_cast Nat.lt_succ_iff.mp hk
    linarith
  · norm_num
  · decide

theorem Boss.angledShot_spec (u : Uninit) (env : MathEnv) (speed size centerX centerY angle : ℚ) :
    (Boss.angledShot u env speed size centerX centerY angle).isBossProjectile = true ∧
    (Boss.angledShot u env speed size centerX centerY angle).isPlayerProjectile = false ∧
    (Boss.angledShot u env speed size centerX centerY angle).mMovementType =
      ProjectileMovementType.Angle ∧
    (Boss.angledShot u env speed size centerX centerY angle).mSpeed = speed ∧
    (Boss.angledShot u env speed size centerX centerY angle).mIsFiring = true ∧
    (Boss.angledShot u env speed size centerX centerY angle).mRenderable = true ∧
    (Boss.angledShot u env speed size centerX centerY angle).mVelocityX =
      env.cosF (angle * (3.14159265 / 180)) * speed ∧
    (Boss.angledShot u env speed size centerX centerY angle).mVelocityY =
      env.sinF (angle * (3.14159265 / 180)) * speed ∧
    (Boss.angledShot u env speed size centerX centerY angle).transform =
      some { mRectangle := { x := centerX, y := centerY, w := size, h := size }
             mRotation := 0
             isPlayer := false } := by
  simp [Boss.angledShot, Projectile.LaunchWithAngle, Projectile.newBossProjectile,
    Projectile.init, Projectile.new, Projectile.setIsPlayerProjectile,
    Projectile.setIsBossProjectile, Projectile.setProjectileMovementType,
    Projectile.setProjectileSpeed, TransformComponent.new, TransformComponent.setWidth,
    TransformComponent.setHeight, TransformComponent.move]

/-- C25: fireSpreadShot on a boss with a transform appends exactly 13
projectiles to the collection and changes nothing else of the collection: one
per 15-degree step k = 0..12 from -90 to +90 degrees, launched at the step angle
plus 90 degrees (0, 15, ..., 180) with its transform placed at the centre of the
boss; each is boss-owned, of motion kind Angle, has speed 200 and the velocity
of its angle, and is firing and renderable. -/
theorem spread_pattern (b : Boss) (u : Uninit) (env : MathEnv) (t : TransformComponent)
    (ht : b.transform = some t) :
    ∃ shots : List Projectile,
      (b.fireSpreadShot u env).mProjectiles = b.mProjectiles ++ shots ∧
      shots.length = 13 ∧
      shots = (List.range 13).map (fun k : ℕ =>
        Boss.angledShot u env 200 100 (t.getX + t.getWidth / 2) (t.getY + t.getHeight / 2)
          ((-90 + 15 * (k : ℚ)) + 90)) ∧
      (∀ k : ℕ, k < 13 → ∃ p, shots[k]? = some p ∧
        p.isBossProjectile = true ∧ p.isPlayerProjectile = false ∧
        p.mMovementType = ProjectileMovementType.Angle ∧ p.mSpeed = 200 ∧
        p.mIsFiring = true ∧ p.mRenderable = true ∧
        p.mVelocityX = env.cosF ((15 * (k : ℚ)) * (3.14159265 / 180)) * 200 ∧
        p.mVelocityY = env.sinF ((15 * (k : ℚ)) * (3.14159265 / 180)) * 200 ∧
        p.transform =
          some { mRectangle := { x := t.getX + t.getWidth / 2, y := t.getY + t.getHeight / 2,
                                 w := 100, h := 100 }
                 mRotation := 0
                 isPlayer := false }) := by
  refine ⟨(List.range 13).map (fun k : ℕ =>
      Boss.angledShot u env 200 100 (t.getX + t.getWidth / 2) (t.getY + t.getHeight / 2)
        ((-90 + 15 * (k : ℚ)) + 90)), ?_, by simp, rfl, ?_⟩
  · simp only [Boss.fireSpreadShot, ht, angleLoop_spread, List.map_map]
    congr 1
    apply List.map_congr_left
    intro k _
    simp only [Function.comp]
    congr 1
    ring
  · intro k hk
    refine ⟨Boss.angledShot u env 200 100 (t.getX + t.getWidth / 2) (t.getY + t.getHeight / 2)
      ((-90 + 15 * (k : ℚ)) + 90), ?_, ?_⟩
    · rw [List.getElem?_map, List.getElem?_range hk]
      rfl
    · obtain ⟨a1, a2, a3, a4, a5, a6, a7, a8, a9⟩ := Boss.angledShot_spec u env 200 100
        (t.getX + t.getWidth / 2) (t.getY + t.getHeight / 2) ((-90 + 15 * (k : ℚ)) + 90)
      have hang : (-90 + 15 * (k : ℚ)) + 90 = 15 * (k : ℚ) := by ring
      exact ⟨a1, a2, a3, a4, a5, a6, by rw [a7, hang], by rw [a8, hang], a9⟩

/-- The spread pattern of the example boss at (1495, 50), 300x300: 13
projectiles from its centre (1645, 200). -/
theorem spread_pattern_witness :
    ∃ shots : List Projectile,
      (wanderingBoss.fireSpreadShot exampleUninit exampleMath).mProjectiles =
        wanderingBoss.mProjectiles ++ shots ∧
      shots.length = 13 ∧
      ∀ k : ℕ, k < 13 → ∃ p, shots[k]? = some p ∧ p.mSpeed = 200 ∧
        p.transform =
          some { mRectangle := { x := 1645, y := 200, w := 100, h := 100 }
                 mRotation := 0
                 isPlayer := false } := by
  have ht : wanderingBoss.transform =
      some { mRectangle := { x := 1495, y := 50, w := 300, h := 300 }
             mRotation := 0
             isPlayer := false } := by
    simp [wanderingBoss, exampleBoss, Boss.init, Boss.new, Enemy.new, TransformComponent.new,
      TransformComponent.setWidth, TransformComponent.setHeight, TransformComponent.move]
  obtain ⟨shots, h1, h2, -, h4⟩ := spread_pattern wanderingBoss exampleUninit exampleMath _ ht
  refine ⟨shots, h1, h2, ?_⟩
  intro k hk
  obtain ⟨p, hp, -, -, -, hs, -, -, -, -, htr⟩ := h4 k hk
  refine ⟨p, hp, hs, ?_⟩
  rw [htr]
  norm_num [TransformComponent.getX, TransformComponent.getY, TransformComponent.getWidth,
    TransformComponent.getHeight]

/-! ## The rebound happens once -/

/-- One Projectile::update leaves the velocity alone, and either leaves speed
and direction flag alone too or, with the flag up, lowers the flag and
multiplies the speed by 1.5. -/
theorem Projectile.update_step (p : Projectile) (deltaTime : ℚ) :
    (p.update deltaTime).mVelocityX = p.mVelocityX ∧
    (p.update deltaTime).mVelocityY = p.mVelocityY ∧
    (((p.update deltaTime).mSpeed = p.mSpeed ∧
        (p.update deltaTime).mYDirectionUp = p.mYDirectionUp) ∨
      (p.mYDirectionUp = true ∧ p.isBossProjectile = true ∧
        (p.update deltaTime).mSpeed = p.mSpeed * (3 / 2) ∧
        (p.update deltaTime).mYDirectionUp = false)) := by
  simp only [Projectile.update]
  split
  · exact ⟨rfl, rfl, Or.inl ⟨rfl, rfl⟩⟩
  · split_ifs with h1 h2 h3
    · exact ⟨rfl, rfl, Or.inl ⟨rfl, rfl⟩⟩
    · simp only [Bool.and_eq_true] at h2
      exact ⟨rfl, rfl, Or.inr ⟨h2.1.2, h2.1.1, rfl, rfl⟩⟩
    · exact ⟨rfl, rfl, Or.inl ⟨rfl, rfl⟩⟩
    · exact ⟨rfl, rfl, Or.inl ⟨rfl, rfl⟩⟩

theorem Projectile.updates_flag_down (dts : List ℚ) (p : Projectile)
    (hdown : p.mYDirectionUp = false) :
    (dts.foldl (fun q dt => q.update dt) p).mSpeed = p.mSpeed ∧
    (dts.foldl (fun q dt => q.update dt) p).mYDirectionUp = false := by
  induction dts generalizing p with
  | nil => exact ⟨rfl, hdown⟩
  | cons dt rest ih =>
    obtain ⟨-, -, hstep⟩ := Projectile.update_step p dt
    rcases hstep with ⟨hs, hd⟩ | ⟨hup, -⟩
    · obtain ⟨a, b⟩ := ih (p.update dt) (hd.trans hdown)
      exact ⟨a.trans hs, b⟩
    · rw [hdown] at hup
      exact absurd hup (by simp)

theorem Projectile.updates_invariant (dts : List ℚ) (p : Projectile) :
    (dts.foldl (fun q dt => q.update dt) p).mVelocityX = p.mVelocityX ∧
    (dts.foldl (fun q dt => q.update dt) p).mVelocityY = p.mVelocityY ∧
    (((dts.foldl (fun q dt => q.update dt) p).mSpeed = p.mSpeed ∧
        (dts.foldl (fun q dt => q.update dt) p).mYDirectionUp = p.mYDirectionUp) ∨
      (p.mYDirectionUp = true ∧ p.isBossProjectile = true ∧
        (dts.foldl (fun q dt => q.update dt) p).mSpeed = p.mSpeed * (3 / 2) ∧
        (dts.foldl (fun q dt => q.update dt) p).mYDirectionUp = false)) := by
  induction dts generalizing p with
  | nil => exact ⟨rfl, rfl, Or.inl ⟨rfl, rfl⟩⟩
  | cons dt rest ih =>
    obtain ⟨vx, vy, hstep⟩ := Projectile.update_step p dt
    obtain ⟨wx, wy, hrest⟩ := ih (p.update dt)
    refine ⟨wx.trans vx, wy.trans vy, ?_⟩
    simp only [List.foldl_cons]
    rcases hstep with ⟨hs, hd⟩ | ⟨hup, hboss, hs, hd⟩
    · rcases hrest with ⟨rs, rd⟩ | ⟨rup, rboss, rs, rd⟩
      · exact Or.inl ⟨rs.trans hs, rd.trans hd⟩
      · have hb : (p.update dt).isBossProjectile = p.isBossProjectile := by
          simp only [Projectile.update]
          split
          · rfl
          · split_ifs <;> rfl
        exact Or.inr ⟨hd ▸ rup, hb ▸ rboss, by rw [rs, hs], rd⟩
    · obtain ⟨a, b⟩ := Projectile.updates_flag_down rest (p.update dt) hd
      exact Or.inr ⟨hup, hboss, a.trans hs, b⟩

/-- C28: along any sequence of Projectile::update calls (delta times `dts`,
no launch in between) starting from a projectile `p`: the velocity (vx, vy) is
never changed; the speed after the sequence is the speed of `p` or exactly 1.5
times it; and the multiplication is applied at most once, because it needs the
direction flag up and lowers it: from any point of the sequence at which the
flag is down, the speed stays what it is there for the rest of the sequence. -/
theorem rebound_at_most_once (p : Projectile) (dts : List ℚ) :
    (dts.foldl (fun q dt => q.update dt) p).mVelocityX = p.mVelocityX ∧
    (dts.foldl (fun q dt => q.update dt) p).mVelocityY = p.mVelocityY ∧
    ((dts.foldl (fun q dt => q.update dt) p).mSpeed = p.mSpeed ∨
      (dts.foldl (fun q dt => q.update dt) p).mSpeed = p.mSpeed * (3 / 2)) ∧
    ((dts.foldl (fun q dt => q.update dt) p).mSpeed ≠ p.mSpeed →
      p.mYDirectionUp = true ∧ p.isBossProjectile = true ∧
      (dts.foldl (fun q dt => q.update dt) p).mYDirectionUp = false) ∧
    (∀ before after : List ℚ, dts = before ++ after →
      (before.foldl (fun q dt => q.update dt) p).mYDirectionUp = false →
      (dts.foldl (fun q dt => q.update dt) p).mSpeed =
        (before.foldl (fun q dt => q.update dt) p).mSpeed ∧
      (dts.foldl (fun q dt => q.update dt) p).mYDirectionUp = false) := by
  obtain ⟨vx, vy, h⟩ := Projectile.updates_invariant dts p
  refine ⟨vx, vy, ?_, ?_, ?_⟩
  · rcases h with ⟨hs, -⟩ | ⟨-, -, hs, -⟩
    · exact Or.inl hs
    · exact Or.inr hs
  · intro hne
    rcases h with ⟨hs, -⟩ | ⟨hup, hboss, -, hd⟩
    · exact absurd hs hne
    · exact ⟨hup, hboss, hd⟩
  · intro before after hsplit hdown
    rw [hsplit, List.foldl_append]
    exact Projectile.updates_flag_down after _ hdown

/-- Three updates of 0.1 s of the rain projectile 5 pixels below the top edge:
the first one rebounds it (speed 350 to 525), the next two leave the speed at
525, and the velocity is untouched. -/
theorem rebound_at_most_once_witness :
    (rainProjectile.update (1 / 10)).mSpeed = 525 ∧
    (([1 / 10, 1 / 10, 1 / 10] : List ℚ).foldl (fun q dt => q.update dt) rainProjectile).mSpeed =
      525 ∧
    (([1 / 10, 1 / 10, 1 / 10] : List ℚ).foldl (fun q dt => q.update dt)
      rainProjectile).mVelocityY = rainProjectile.mVelocityY := by
  have hfirst : (rainProjectile.update (1 / 10)).mSpeed = 525 ∧
      (rainProjectile.update (1 / 10)).mYDirectionUp = false := by
    norm_num [Projectile.update, Projectile.moved, rainProjectile, TransformComponent.move,
      TransformComponent.getX, TransformComponent.getY, TransformComponent.setRotation]
  obtain ⟨-, vy, -, -, hlater⟩ := rebound_at_most_once rainProjectile [1 / 10, 1 / 10, 1 / 10]
  obtain ⟨hs, -⟩ := hlater [1 / 10] [1 / 10, 1 / 10] rfl hfirst.2
  exact ⟨hfirst.1, hs.trans hfirst.1, vy⟩

/-! ## The frame after a rebound -/

theorem Scene.bossAfterHit_alive (boss : Boss) (hlive : boss.mRenderable = true)
    (hhp : 2 ≤ boss.mHP) :
    (Scene.bossAfterHit boss).mRenderable = true ∧
    (Scene.bossAfterHit boss).mMaxHP = boss.mMaxHP ∧
    (Scene.bossAfterHit boss).mPatternList = boss.mPatternList := by
  have h1 : ¬ boss.mHP - 1 ≤ 0 := by omega
  have h2 : ¬ boss.mHP - 1 < 0 := by omega
  simp [Scene.bossAfterHit, Boss.onHit, h1, h2, hlive]

/-- A sole, live boss with at least 2 hit points is still the sole boss of the
scene when the frame reaches the phase-2 block: it has lost at most one hit
point and is renderable. -/
theorem Scene.sole_boss_survives (s : Scene) (g : Globals) (inp : FrameInput) (b : Boss)
    (r1 r2 : Scene × Globals) (hsole : s.mBosses = [b]) (hlive : b.mRenderable = true)
    (hhp : 2 ≤ b.mHP) (h1 : Scene.updateEntities s g inp = some r1)
    (h2 : Scene.resolveHits r1.1 r1.2 inp = some r2) :
    ∃ c : Boss, (Scene.pruneDead r2.1).mBosses = [c] ∧ c.mRenderable = true ∧
      c.mMaxHP = b.mMaxHP ∧ c.mPatternList = b.mPatternList ∧
      (c.mHP = b.mHP ∨ c.mHP = b.mHP - 1) := by
  obtain ⟨-, u2, -⟩ := Scene.updateEntities_spec s g inp r1 h1
  rw [hsole] at u2
  obtain ⟨c0, l0, hc0, hl0, heq0⟩ := List.forall₂_cons_left_iff.mp u2
  rw [List.forall₂_nil_left_iff.mp hl0] at heq0
  obtain ⟨k1, k2, k3, k4⟩ := hc0
  obtain ⟨⟨player, -, v1, -⟩, -⟩ := Scene.resolveHits_spec r1.1 r1.2 inp r2 h2
  have hspec := (Scene.hitBosses_spec r1.1.mBosses player.mProjectiles r1.1.playerScore).1
  rw [← v1, heq0] at hspec
  obtain ⟨c, l1, hc, hl1, heq1⟩ := List.forall₂_cons_left_iff.mp hspec
  rw [List.forall₂_nil_left_iff.mp hl1] at heq1
  obtain ⟨-, p2, -⟩ := Scene.pruneDead_spec r2.1
  have hfacts : c.mRenderable = true ∧ c.mMaxHP = b.mMaxHP ∧
      c.mPatternList = b.mPatternList ∧ (c.mHP = b.mHP ∨ c.mHP = b.mHP - 1) := by
    rcases hc with hsame | ⟨-, hhit, hhp1, -⟩
    · rw [hsame]
      exact ⟨k3.trans hlive, k2, k4, Or.inl k1⟩
    · obtain ⟨a1, a2, a3⟩ := Scene.bossAfterHit_alive c0 (k3.trans hlive) (by rw [k1]; exact hhp)
      rw [hhit]
      refine ⟨a1, a2.trans k2, a3.trans k4, Or.inr ?_⟩
      rw [← hhit, hhp1, k1]
  refine ⟨c, ?_, hfacts⟩
  rw [p2, heq1]
  simp [hfacts.1]

/-- A frame on a scene with the player present, a sole live boss with at least 2
hit points and no pattern to fire, and no enemy returns, whether the phase-2
block is armed or not. -/
theorem Scene.update_returns_armed (s : Scene) (g : Globals) (inp : FrameInput)
    (player : Player) (b : Boss) (hplayer : s.mainCharacter = some player)
    (hsole : s.mBosses = [b]) (hlive : b.mRenderable = true) (hhp : 2 ≤ b.mHP)
    (hpat : b.mPatternList = []) (hen : s.enemies = []) :
    ∃ r, Scene.update s g inp = some r := by
  simp only [Scene.update]
  split_ifs with hfrozen
  · exact ⟨_, rfl⟩
  · have hsc := Scene.stageClear_scene s g
    have hbosses : (Scene.stageClear s g).1.mBosses = [b] := by
      rw [hsc]
      show s.mBosses.filter _ = [b]
      rw [hsole]
      simp [hlive]
    have hplayer1 : (Scene.stageClear s g).1.mainCharacter = some player := by
      rw [hsc]
      exact hplayer
    have hen1 : (Scene.stageClear s g).1.enemies = [] := by
      rw [hsc]
      exact hen
    obtain ⟨r1, h1⟩ := Scene.updateEntities_returns _ (Scene.stageClear s g).2 inp player
      hplayer1 (by
        intro c hc
        rw [hbosses] at hc
        rw [List.mem_singleton.mp hc]
        exact hpat)
    obtain ⟨⟨p1, -, hp1⟩, -, u3, -⟩ := Scene.updateEntities_spec _ _ _ _ h1
    have h2 : ∃ r2, Scene.resolveHits r1.1 r1.2 inp = some r2 :=
      ⟨_, by simp only [Scene.resolveHits, hp1]; rfl⟩
    obtain ⟨r2, h2⟩ := h2
    obtain ⟨⟨p2, -, -, after, hp2⟩, v2, -⟩ := Scene.resolveHits_spec _ _ _ _ h2
    obtain ⟨c, hc, -⟩ := Scene.sole_boss_survives _ _ inp b r1 r2 hbosses hlive hhp h1 h2
    obtain ⟨q1, -, -, q4, -⟩ := Scene.pruneDead_spec r2.1
    have hpe : (Scene.pruneDead r2.1).enemies = [] := by
      have hlen : r2.1.enemies.length = 0 := by rw [v2, u3, hen1]; rfl
      rw [q1, List.length_eq_zero.mp hlen]
      rfl
    have hphase : ∃ mid, Scene.phaseTwo (Scene.pruneDead r2.1) r2.2 inp = some mid := by
      by_cases hskip : (Scene.pruneDead r2.1).mSceneType ≠ SceneType.Boss3 ∨
          (Scene.pruneDead r2.1).spawnedPhaseEnemies = true
      · exact ⟨_, Scene.phaseTwo_skip _ _ inp hskip⟩
      · have hstage : (Scene.pruneDead r2.1).mSceneType = SceneType.Boss3 := by
          by_contra hne
          exact hskip (Or.inl hne)
        have hflag : (Scene.pruneDead r2.1).spawnedPhaseEnemies = false := by
          cases hf : (Scene.pruneDead r2.1).spawnedPhaseEnemies
          · rfl
          · exact absurd (Or.inr hf) hskip
        rw [Scene.phaseTwo_armed _ _ inp c [] hstage hflag hc]
        split_ifs
        · obtain ⟨q, hq⟩ := (Scene.initEnemies_spec (Scene.pruneDead r2.1)
            { r2.2 with lastUpdateTime := inp.currentTime
                        enemyShared := Scene.resetSceneState r2.2.enemyShared } inp).2
            (by rw [hpe]; simp)
          rw [hq]
          exact ⟨_, rfl⟩
        · exact ⟨_, rfl⟩
    obtain ⟨mid, hmid⟩ := hphase
    obtain ⟨-, w2, -⟩ := Scene.phaseTwo_spec _ _ inp mid hmid
    have hfus : Scene.frameUntilSpawn (Scene.stageClear s g).1 (Scene.stageClear s g).2 inp =
        some mid := by
      simp only [Scene.frameUntilSpawn, h1, h2, hmid]
    have hpl : mid.1.mainCharacter = some { p2 with mProjectiles := after } := by
      rw [w2, q4, hp2]
    rw [hfus]
    exact ⟨_, by simp only [Scene.finishFrame, hpl]; rfl⟩

theorem tdiv_half_pos (M : ℤ) (hM : 2 ≤ M) : 1 ≤ Int.tdiv M 2 := by
  rw [Int.tdiv_eq_ediv (by omega) (by decide)]
  omega

/-- One returning frame of the third stage keeps this: while the phase-2 enemies
are not spawned, the scene has one boss, renderable, with more than half of its
maximum `M >= 2` left. -/
theorem Scene.lookup_invariant_step (s : Scene) (g : Globals) (inp : FrameInput)
    (r : Scene × Globals) (M : ℤ) (hM : 2 ≤ M) (hstage : s.mSceneType = SceneType.Boss3)
    (hinv : s.spawnedPhaseEnemies = false →
      ∃ b, s.mBosses = [b] ∧ b.mRenderable = true ∧ b.mMaxHP = M ∧ Int.tdiv M 2 < b.mHP)
    (hr : Scene.update s g inp = some r) :
    r.1.mSceneType = SceneType.Boss3 ∧
    (r.1.spawnedPhaseEnemies = false →
      ∃ b, r.1.mBosses = [b] ∧ b.mRenderable = true ∧ b.mMaxHP = M ∧ Int.tdiv M 2 < b.mHP) := by
  obtain ⟨a, bset, -⟩ := Scene.update_phase_frame s g inp r hr
  refine ⟨a.trans hstage, ?_⟩
  intro hrf
  have hsf : s.spawnedPhaseEnemies = false := by
    cases hf : s.spawnedPhaseEnemies
    · rfl
    · have := (bset hf).1
      rw [hrf] at this
      exact absurd this (by simp)
  obtain ⟨b, hsole, hlive, hmax, hhp⟩ := hinv hsf
  have hsc := Scene.stageClear_scene s g
  have hbosses : (Scene.stageClear s g).1.mBosses = [b] := by
    rw [hsc]
    show s.mBosses.filter _ = [b]
    rw [hsole]
    simp [hlive]
  simp only [Scene.update] at hr
  split_ifs at hr with hfrozen
  · simp only [Option.some.injEq] at hr
    subst hr
    exact ⟨b, hbosses, hlive, hmax, hhp⟩
  · split at hr
    · simp at hr
    · rename_i mid hmid
      obtain ⟨-, -, e2, e3, -⟩ := Scene.finishFrame_spec _ _ inp r hr
      obtain ⟨r1, r2, h1, h2, hphase⟩ := Scene.frameUntilSpawn_spec _ _ inp mid hmid
      have hhp2 : 2 ≤ b.mHP := by
        have := tdiv_half_pos M hM
        omega
      obtain ⟨c, hc, c1, c2, -, -⟩ :=
        Scene.sole_boss_survives _ _ inp b r1 r2 hbosses hlive hhp2 h1 h2
      obtain ⟨-, u2, u3, u4, u5, -⟩ := Scene.updateEntities_spec _ _ inp r1 h1
      obtain ⟨-, -, v3, v4, -⟩ := Scene.resolveHits_spec _ _ inp r2 h2
      obtain ⟨-, -, -, -, p5, p6⟩ := Scene.pruneDead_spec r2.1
      have hs3 : (Scene.pruneDead r2.1).mSceneType = SceneType.Boss3 := by
        rw [p5, v3, u4, hsc]
        exact hstage
      have hf3 : (Scene.pruneDead r2.1).spawnedPhaseEnemies = false := by
        rw [p6, v4, u5, hsc]
        exact hsf
      obtain ⟨w1, -, -, -, -, -, -, -, w9⟩ := Scene.phaseTwo_spec _ _ inp mid hphase
      obtain ⟨boss, rest, hb, hyes, -⟩ := w9 hs3 hf3
      have hboss : boss = c := by
        rw [hc] at hb
        exact (List.cons.inj hb).1.symm
      subst hboss
      refine ⟨boss, by rw [e2, w1, hc], c1, c2.trans hmax, ?_⟩
      by_contra hle
      have hcond : boss.mHP ≤ Int.tdiv boss.mMaxHP 2 := by
        rw [c2, hmax]
        exact not_lt.mp hle
      have := (hyes hcond).1
      rw [← e3, hrf] at this
      exact absurd this (by simp)

/-- C26: the third stage, started with one renderable boss whose HP equals its
maximum, at least 2. After any number
`n` of returning frames, between which the boss list, the flag and the stage are
left alone (`sc i`, `gl i` are what frame i starts from, `res i` what it
leaves): if the phase-2 enemies are still not spawned, the scene has exactly one
boss, renderable, with more than half of its maximum left; and when the next
frame reaches the phase-2 block, the boss list holds exactly that boss, still
renderable and with HP > 0 after the hit phase and the clean-up, so that the
read of the first boss is in range. A frame that kills the boss can only come
after the flag was set, and then the block is skipped. -/
theorem phase_two_lookup_in_range (n : ℕ) (sc : ℕ → Scene) (gl : ℕ → Globals)
    (inp : ℕ → FrameInput) (res : ℕ → Scene × Globals) (b0 : Boss)
    (hstage : (sc 0).mSceneType = SceneType.Boss3)
    (hsole : (sc 0).mBosses = [b0]) (hlive : b0.mRenderable = true)
    (hfull : b0.mHP = b0.mMaxHP) (hmax : 2 ≤ b0.mMaxHP)
    (hframe : ∀ i, i < n → Scene.update (sc i) (gl i) (inp i) = some (res i))
    (hnext : ∀ i, i < n →
      (sc (i + 1)).mBosses = (res i).1.mBosses ∧
      (sc (i + 1)).spawnedPhaseEnemies = (res i).1.spawnedPhaseEnemies ∧
      (sc (i + 1)).mSceneType = (res i).1.mSceneType) :
    (sc n).mSceneType = SceneType.Boss3 ∧
    ((sc n).spawnedPhaseEnemies = false →
      (∃ b, (sc n).mBosses = [b] ∧ b.mRenderable = true ∧ b.mMaxHP = b0.mMaxHP ∧
        Int.tdiv b0.mMaxHP 2 < b.mHP) ∧
      ∀ r1 r2,
        Scene.updateEntities (Scene.stageClear (sc n) (gl n)).1
          (Scene.stageClear (sc n) (gl n)).2 (inp n) = some r1 →
        Scene.resolveHits r1.1 r1.2 (inp n) = some r2 →
        ∃ b, (Scene.pruneDead r2.1).mBosses = [b] ∧ b.mRenderable = true ∧ 0 < b.mHP) := by
  have hhalf := tdiv_half_pos b0.mMaxHP hmax
  have hlt : Int.tdiv b0.mMaxHP 2 < b0.mMaxHP := by
    rw [Int.tdiv_eq_ediv (by omega) (by decide)]
    omega
  have hinv : ∀ k, k ≤ n → (sc k).mSceneType = SceneType.Boss3 ∧
      ((sc k).spawnedPhaseEnemies = false →
        ∃ b, (sc k).mBosses = [b] ∧ b.mRenderable = true ∧ b.mMaxHP = b0.mMaxHP ∧
          Int.tdiv b0.mMaxHP 2 < b.mHP) := by
    intro k
    induction k with
    | zero =>
      intro _
      exact ⟨hstage, fun _ => ⟨b0, hsole, hlive, rfl, by rw [hfull]; exact hlt⟩⟩
    | succ j ih =>
      intro hj
      obtain ⟨i1, i2⟩ := ih (by omega)
      obtain ⟨s1, s2⟩ := Scene.lookup_invariant_step _ _ _ _ b0.mMaxHP hmax i1 i2
        (hframe j (by omega))
      obtain ⟨n1, n2, n3⟩ := hnext j (by omega)
      refine ⟨n3.trans s1, ?_⟩
      intro hf
      obtain ⟨b, hb, rest⟩ := s2 (n2 ▸ hf)
      exact ⟨b, n1.trans hb, rest⟩
  obtain ⟨i1, i2⟩ := hinv n (le_refl n)
  refine ⟨i1, ?_⟩
  intro hf
  obtain ⟨b, hsole1, hlive1, hmax1, hhp1⟩ := i2 hf
  refine ⟨⟨b, hsole1, hlive1, hmax1, hhp1⟩, ?_⟩
  intro r1 r2 h1 h2
  have hbosses : (Scene.stageClear (sc n) (gl n)).1.mBosses = [b] := by
    rw [Scene.stageClear_scene]
    show (sc n).mBosses.filter _ = [b]
    rw [hsole1]
    simp [hlive1]
  obtain ⟨c, hc, c1, -, -, c5⟩ :=
    Scene.sole_boss_survives _ _ (inp n) b r1 r2 hbosses hlive1 (by omega) h1 h2
  refine ⟨c, hc, c1, ?_⟩
  rcases c5 with h | h <;> omega

/-- The third stage started with a boss of 3 of 3 hit points and two arrows of
the player overlapping it: the first frame returns; if it has not spawned the
phase-2 enemies, the scene still has its one boss with at least 2 hit points,
and the next frame finds exactly one boss at the phase-2 block. -/
theorem phase_two_lookup_in_range_witness :
    ∃ r0, Scene.update finalStageStart exampleGlobals exampleInput = some r0 ∧
      (r0.1.spawnedPhaseEnemies = false →
        (∃ b, r0.1.mBosses = [b] ∧ b.mRenderable = true ∧ b.mMaxHP = 3 ∧ 1 < b.mHP) ∧
        ∀ r1 r2,
          Scene.updateEntities (Scene.stageClear r0.1 r0.2).1 (Scene.stageClear r0.1 r0.2).2
            exampleInput = some r1 →
          Scene.resolveHits r1.1 r1.2 exampleInput = some r2 →
          ∃ b, (Scene.pruneDead r2.1).mBosses = [b] ∧ b.mRenderable = true ∧ 0 < b.mHP) := by
  obtain ⟨r0, hr0⟩ := Scene.update_returns_armed finalStageStart exampleGlobals exampleInput
    _ freshBoss rfl rfl rfl (by decide) rfl rfl
  have h := phase_two_lookup_in_range 1 (fun i => if i = 0 then finalStageStart else r0.1)
    (fun i => if i = 0 then exampleGlobals else r0.2) (fun _ => exampleInput)
    (fun _ => r0) freshBoss rfl rfl rfl rfl (by decide)
    (by
      intro i hi
      have hi0 : i = 0 := by omega
      subst hi0
      simpa using hr0)
    (by
      intro i hi
      have hi0 : i = 0 := by omega
      subst hi0
      simp)
  simp only [Nat.one_ne_zero, if_false] at h
  refine ⟨r0, hr0, ?_⟩
  intro hf
  obtain ⟨⟨b, h1, h2, h3, h4⟩, hnextframe⟩ := h.2 hf
  exact ⟨⟨b, h1, h2, h3, by simpa using h4⟩, hnextframe⟩

/-! ## What one attack pattern adds -/

theorem mapM_cons_option {α β : Type} (f : α → Option β) (a : α) (rest : List α) :
    (a :: rest).mapM f = (f a).bind (fun b => (rest.mapM f).map (fun bs => b :: bs)) := by
  rw [List.mapM_cons]
  cases f a with
  | none => rfl
  | some b =>
    cases List.mapM f rest with
    | none => rfl
    | some bs => rfl

theorem mapM_some_spec {α β : Type} (f : α → Option β) :
    ∀ (l : List α) (shots : List β), l.mapM f = some shots →
      shots.length = l.length ∧ ∀ p ∈ shots, ∃ i ∈ l, f i = some p := by
  intro l
  induction l with
  | nil =>
    intro shots h
    rw [List.mapM_nil] at h
    cases h
    exact ⟨rfl, fun p hp => by simp at hp⟩
  | cons a rest ih =>
    intro shots h
    rw [mapM_cons_option] at h
    cases hfa : f a with
    | none => rw [hfa] at h; cases h
    | some b =>
      rw [hfa] at h
      cases hrest : rest.mapM f with
      | none => rw [hrest] at h; cases h
      | some bs =>
        rw [hrest] at h
        cases h
        obtain ⟨hl, hm⟩ := ih bs hrest
        refine ⟨by simp [hl], ?_⟩
        intro p hp
        rcases List.mem_cons.mp hp with rfl | hp
        · exact ⟨a, List.mem_cons_self _ _, hfa⟩
        · obtain ⟨i, hi, hfi⟩ := hm p hp
          exact ⟨i, List.mem_cons_of_mem _ hi, hfi⟩

theorem mapM_total {α β : Type} (f : α → Option β) :
    ∀ l : List α, (∀ i ∈ l, ∃ p, f i = some p) → ∃ shots, l.mapM f = some shots := by
  intro l
  induction l with
  | nil => intro _; exact ⟨[], rfl⟩
  | cons a rest ih =>
    intro h
    obtain ⟨b, hb⟩ := h a (List.mem_cons_self _ _)
    obtain ⟨bs, hbs⟩ := ih (fun i hi => h i (List.mem_cons_of_mem _ hi))
    exact ⟨b :: bs, by rw [mapM_cons_option, hb, hbs]; rfl⟩

theorem Boss.rainShot_plain (u : Uninit) (L now : ℕ) (x y : ℚ) (p : Projectile)
    (h : Boss.rainShot u L now x y = some p) : p.isUltimateProjectile = false := by
  simp [Boss.rainShot, Projectile.Launch, Projectile.newBossProjectile, Projectile.init,
    Projectile.new, Projectile.setIsPlayerProjectile, Projectile.setIsBossProjectile,
    Projectile.setProjectileMovementType] at h
  rw [← h]

theorem Boss.breathShot_total (b : Boss) (u : Uninit) (L now : ℕ) (x y : ℚ) :
    ∃ p, b.breathShot u L now x y = some p := by
  simp [Boss.breathShot, Projectile.Launch, Projectile.init,
      Projectile.new, Projectile.setIsPlayerProjectile, Projectile.setIsBossProjectile,
      Projectile.setProjectileMovementType, Projectile.setIsUltimateProjectile,
      Projectile.setUltimateProjectileSize, Projectile.setProjectileSpeed]

theorem Boss.breathShot_ultimate (b : Boss) (u : Uninit) (L now : ℕ) (x y : ℚ) (p : Projectile)
    (h : b.breathShot u L now x y = some p) : p.isUltimateProjectile = true := by
  simp [Boss.breathShot, Projectile.Launch, Projectile.init,
      Projectile.new, Projectile.setIsPlayerProjectile, Projectile.setIsBossProjectile,
      Projectile.setProjectileMovementType, Projectile.setIsUltimateProjectile,
      Projectile.setUltimateProjectileSize, Projectile.setProjectileSpeed] at h
  rw [← h]

theorem Boss.angledShot_plain (u : Uninit) (env : MathEnv) (speed size cx cy angle : ℚ) :
    (Boss.angledShot u env speed size cx cy angle).isUltimateProjectile = false := by
  simp [Boss.angledShot, Projectile.LaunchWithAngle, Projectile.newBossProjectile,
    Projectile.init, Projectile.new, Projectile.setIsPlayerProjectile,
    Projectile.setIsBossProjectile, Projectile.setProjectileMovementType,
    Projectile.setProjectileSpeed]

theorem Boss.fireStraightRain_adds (b b1 : Boss) (u : Uninit) (L now : ℕ)
    (h : b.fireStraightRain u L now = some b1) :
    ∃ added, b1 = { b with mProjectiles := b.mProjectiles ++ added } ∧
      ∀ p ∈ added, p.isUltimateProjectile = false := by
  simp only [Boss.fireStraightRain] at h
  split at h
  · simp only [Option.some.injEq] at h
    subst h
    exact ⟨[], by simp, fun p hp => by simp at hp⟩
  · simp only [Option.map_eq_some'] at h
    obtain ⟨shots, hshots, hs⟩ := h
    refine ⟨shots, hs.symm, ?_⟩
    intro p hp
    obtain ⟨i, -, hi⟩ := (mapM_some_spec _ _ _ hshots).2 p hp
    exact Boss.rainShot_plain _ _ _ _ _ _ hi

theorem Boss.fireSpreadShot_adds (b : Boss) (u : Uninit) (env : MathEnv) :
    ∃ added, b.fireSpreadShot u env = { b with mProjectiles := b.mProjectiles ++ added } ∧
      ∀ p ∈ added, p.isUltimateProjectile = false := by
  simp only [Boss.fireSpreadShot]
  split
  · exact ⟨[], by simp, fun p hp => by simp at hp⟩
  · refine ⟨_, rfl, ?_⟩
    intro p hp
    obtain ⟨a, -, rfl⟩ := List.mem_map.mp hp
    exact Boss.angledShot_plain _ _ _ _ _ _ _

theorem Boss.fireLingeringGhostShot_adds (b : Boss) (u : Uninit) (env : MathEnv) :
    ∃ added, b.fireLingeringGhostShot u env =
        { b with mProjectiles := b.mProjectiles ++ added } ∧
      ∀ p ∈ added, p.isUltimateProjectile = false := by
  simp only [Boss.fireLingeringGhostShot]
  split
  · exact ⟨[], by simp, fun p hp => by simp at hp⟩
  · refine ⟨_, rfl, ?_⟩
    intro p hp
    obtain ⟨a, -, rfl⟩ := List.mem_map.mp hp
    exact Boss.angledShot_plain _ _ _ _ _ _ _

theorem Boss.slash_adds (b b1 : Boss) (player : Player) (u : Uninit) (env : MathEnv)
    (h : b.slash player u env = some b1) :
    ∃ added, b1 = { b with mProjectiles := b.mProjectiles ++ added } ∧
      ∀ p ∈ added, p.isUltimateProjectile = false := by
  simp only [Boss.slash] at h
  split at h
  · simp only [Option.some.injEq] at h
    subst h
    exact ⟨[], by simp, fun p hp => by simp at hp⟩
  · split_ifs at h
    split at h
    · cases h
    · simp only [Option.some.injEq] at h
      refine ⟨_, h.symm, ?_⟩
      intro p hp
      rw [List.mem_singleton] at hp
      subst hp
      simp [Projectile.LaunchWithTracking, Projectile.newBossProjectile,
        Projectile.init, Projectile.new, Projectile.setIsPlayerProjectile,
        Projectile.setIsBossProjectile, Projectile.setProjectileMovementType,
        Projectile.setProjectileSpeed]

/-- What dragonBreath adds: a row of ultimate projectiles, as many as the
truncated quotient of 70 % of the width of the boss by the ultimate width,
computed in `double`. -/
theorem Boss.dragonBreath_adds (b b1 : Boss) (u : Uninit) (L now : ℕ)
    (h : b.dragonBreath u L now = some b1) :
    ∃ row, b1 = { b with mProjectiles := b.mProjectiles ++ row } ∧
      (∀ p ∈ row, p.isUltimateProjectile = true) ∧
      ∀ t, b.transform = some t →
        row.length = (Boss.breathCount t.getWidth b.mUltimateProjectileWidth).toNat := by
  simp only [Boss.dragonBreath] at h
  split at h
  · rename_i hnone
    simp only [Option.some.injEq] at h
    subst h
    exact ⟨[], by simp, fun p hp => by simp at hp, fun t ht => by rw [hnone] at ht; cases ht⟩
  · rename_i t0 ht0
    have hcast : ∀ l : List ℕ, (do let a ← l; pure (a : ℚ) : List ℚ).length = l.length := by
      intro l
      induction l with
      | nil => rfl
      | cons a r ih =>
        simp only [List.bind_eq_flatMap, List.flatMap_cons, List.pure_def,
          List.singleton_append, List.length_cons, add_left_inj] at ih ⊢
        exact ih
    split_ifs at h
    simp only [Option.map_eq_some'] at h
    obtain ⟨shots, hshots, hs⟩ := h
    obtain ⟨hlen, hmem⟩ := mapM_some_spec _ _ _ hshots
    refine ⟨shots, hs.symm, ?_, ?_⟩
    · intro p hp
      obtain ⟨i, -, hi⟩ := hmem p hp
      exact Boss.breathShot_ultimate _ _ _ _ _ _ _ hi
    · intro t ht
      rw [ht0] at ht
      cases ht
      rw [hlen, hcast, List.length_range]

/-- When dragonBreath returns: the boss has no transform, or the ultimate width
is not zero and the projectile count is in the range of `int`. -/
theorem Boss.dragonBreath_returns (b : Boss) (u : Uninit) (L now : ℕ) (t : TransformComponent)
    (ht : b.transform = some t) (hw : b.mUltimateProjectileWidth ≠ 0)
    (hq0 : 0 ≤ Boss.breathCount t.getWidth b.mUltimateProjectileWidth)
    (hq1 : Boss.breathCount t.getWidth b.mUltimateProjectileWidth ≤ 2147483647) :
    ∃ b1, b.dragonBreath u L now = some b1 := by
  simp only [Boss.dragonBreath, ht, if_neg hw]
  rw [if_neg (by omega)]
  have key : ∀ (f : ℚ → Option Projectile) (l : List ℚ), (∀ x, ∃ p, f x = some p) →
      ∀ g : List Projectile → Boss, ∃ b1, (l.mapM f).map g = some b1 := by
    intro f l hf g
    obtain ⟨shots, hs⟩ := mapM_total f l (fun i _ => hf i)
    exact ⟨g shots, by rw [hs]; rfl⟩
  exact key _ _ (fun x => Boss.breathShot_total _ _ _ _ _ _) _

/-- What one case of the pattern switch does to the projectiles and to the
ultimate timers: it appends projectiles; a pattern other than Ultimate, or
Ultimate while the timer is positive, appends no ultimate projectile and leaves
both ultimate timers; Ultimate with a lapsed timer appends the dragon-breath row,
runs the burst timer down by the delta time, and when that has lapsed rearms the
ultimate timer with the cooldown and resets the burst timer. -/
theorem Boss.patternStep_adds (b b1 : Boss) (pattern : PatternType) (player : Player)
    (dt : ℚ) (env : MathEnv) (u : Uninit) (L now : ℕ)
    (h : b.patternStep pattern player dt env u L now = some b1) :
    ∃ added, b1.mProjectiles = b.mProjectiles ++ added ∧
      b1.mUltimateCooldown = b.mUltimateCooldown ∧
      b1.mUltimateFirePeriodDefault = b.mUltimateFirePeriodDefault ∧
      b1.mUltimateProjectileWidth = b.mUltimateProjectileWidth ∧
      ((pattern ≠ PatternType.Ultimate ∨ 0 < b.mUltimateTimer) →
        b1.mUltimateTimer = b.mUltimateTimer ∧
        b1.mUltimateFirePeriodTimer = b.mUltimateFirePeriodTimer ∧
        ∀ p ∈ added, p.isUltimateProjectile = false) ∧
      (pattern = PatternType.Ultimate → b.mUltimateTimer ≤ 0 →
        (∀ p ∈ added, p.isUltimateProjectile = true) ∧
        (∀ t, b.transform = some t →
          added.length = (Boss.breathCount t.getWidth b.mUltimateProjectileWidth).toNat) ∧
        b1.mUltimateTimer =
          (if f32 (b.mUltimateFirePeriodTimer - dt) ≤ 0 then b.mUltimateCooldown
            else b.mUltimateTimer) ∧
        b1.mUltimateFirePeriodTimer =
          (if f32 (b.mUltimateFirePeriodTimer - dt) ≤ 0 then b.mUltimateFirePeriodDefault
            else f32 (b.mUltimateFirePeriodTimer - dt))) := by
  have hstay : ∀ b0 : Boss, b0 = b →
      ∃ added, b0.mProjectiles = b.mProjectiles ++ added ∧
        b0.mUltimateCooldown = b.mUltimateCooldown ∧
        b0.mUltimateFirePeriodDefault = b.mUltimateFirePeriodDefault ∧
        b0.mUltimateProjectileWidth = b.mUltimateProjectileWidth ∧
        (b0.mUltimateTimer = b.mUltimateTimer ∧
          b0.mUltimateFirePeriodTimer = b.mUltimateFirePeriodTimer ∧
          ∀ p ∈ added, p.isUltimateProjectile = false) := by
    intro b0 hb0
    subst hb0
    exact ⟨[], by simp, rfl, rfl, rfl, rfl, rfl, fun p hp => by simp at hp⟩
  cases pattern
  · simp only [Boss.patternStep] at h
    split_ifs at h
    · simp only [Option.map_eq_some'] at h
      obtain ⟨b2, hb2, hs⟩ := h
      obtain ⟨added, hadd, hplain⟩ := Boss.fireStraightRain_adds _ _ _ _ _ hb2
      subst hadd
      subst hs
      exact ⟨added, rfl, rfl, rfl, rfl, fun _ => ⟨rfl, rfl, hplain⟩,
        fun hp => by cases hp⟩
    · simp only [Option.some.injEq] at h
      obtain ⟨added, h1, h2, h3, h4, h5⟩ := hstay b1 h.symm
      exact ⟨added, h1, h2, h3, h4, fun _ => h5, fun hp => by cases hp⟩
  · simp only [Boss.patternStep] at h
    split_ifs at h
    · simp only [Option.some.injEq] at h
      obtain ⟨added, hadd, hplain⟩ := Boss.fireSpreadShot_adds b u env
      rw [hadd] at h
      subst h
      exact ⟨added, rfl, rfl, rfl, rfl, fun _ => ⟨rfl, rfl, hplain⟩,
        fun hp => by cases hp⟩
    · simp only [Option.some.injEq] at h
      obtain ⟨added, h1, h2, h3, h4, h5⟩ := hstay b1 h.symm
      exact ⟨added, h1, h2, h3, h4, fun _ => h5, fun hp => by cases hp⟩
  · simp only [Boss.patternStep] at h
    split_ifs at h with hT
    · simp only [Option.map_eq_some'] at h
      obtain ⟨b2, hb2, hs⟩ := h
      obtain ⟨row, hadd, hult, hlen⟩ := Boss.dragonBreath_adds _ _ _ _ _ hb2
      subst hadd
      refine ⟨row, ?_, ?_, ?_, ?_, ?_, ?_⟩
      · rw [← hs]; split_ifs <;> rfl
      · rw [← hs]; split_ifs <;> rfl
      · rw [← hs]; split_ifs <;> rfl
      · rw [← hs]; split_ifs <;> rfl
      · intro hor
        rcases hor with hne | hpos
        · exact absurd rfl hne
        · exact absurd hT (not_le.mpr hpos)
      · intro _ _
        refine ⟨hult, hlen, ?_, ?_⟩
        · rw [← hs]; split_ifs <;> rfl
        · rw [← hs]; split_ifs <;> rfl
    · simp only [Option.some.injEq] at h
      obtain ⟨added, h1, h2, h3, h4, h5⟩ := hstay b1 h.symm
      exact ⟨added, h1, h2, h3, h4, fun _ => h5, fun _ hle => absurd hle hT⟩
  · simp only [Boss.patternStep] at h
    split_ifs at h
    · simp only [Option.some.injEq] at h
      obtain ⟨added, hadd, hplain⟩ := Boss.fireLingeringGhostShot_adds b u env
      rw [hadd] at h
      subst h
      exact ⟨added, rfl, rfl, rfl, rfl, fun _ => ⟨rfl, rfl, hplain⟩,
        fun hp => by cases hp⟩
    · simp only [Option.some.injEq] at h
      obtain ⟨added, h1, h2, h3, h4, h5⟩ := hstay b1 h.symm
      exact ⟨added, h1, h2, h3, h4, fun _ => h5, fun hp => by cases hp⟩
  · simp only [Boss.patternStep] at h
    split_ifs at h
    · simp only [Option.map_eq_some'] at h
      obtain ⟨b2, hb2, hs⟩ := h
      obtain ⟨added, hadd, hplain⟩ := Boss.slash_adds _ _ _ _ _ hb2
      subst hadd
      subst hs
      exact ⟨added, rfl, rfl, rfl, rfl, fun _ => ⟨rfl, rfl, hplain⟩,
        fun hp => by cases hp⟩
    · simp only [Option.some.injEq] at h
      obtain ⟨added, h1, h2, h3, h4, h5⟩ := hstay b1 h.symm
      exact ⟨added, h1, h2, h3, h4, fun _ => h5, fun hp => by cases hp⟩

/-- The pattern loop while no Ultimate can fire (the list has no Ultimate, or the
ultimate timer is positive): the ultimate timers stay and only projectiles that
are not ultimate are appended. -/
theorem Boss.firePatterns_quiet (player : Player) (dt : ℚ) (env : MathEnv) (u : Uninit)
    (L now : ℕ) :
    ∀ (patterns : List PatternType) (b b1 : Boss),
      Boss.firePatterns b player dt env u L now patterns = some b1 →
      (PatternType.Ultimate ∉ patterns ∨ 0 < b.mUltimateTimer) →
      b1.toGameEntity = b.toGameEntity ∧ b1.mPatternList = b.mPatternList ∧
      b1.mUltimateTimer = b.mUltimateTimer ∧
      b1.mUltimateFirePeriodTimer = b.mUltimateFirePeriodTimer ∧
      b1.mUltimateCooldown = b.mUltimateCooldown ∧
      b1.mUltimateFirePeriodDefault = b.mUltimateFirePeriodDefault ∧
      b1.mUltimateProjectileWidth = b.mUltimateProjectileWidth ∧
      ∃ added, b1.mProjectiles = b.mProjectiles ++ added ∧
        ∀ p ∈ added, p.isUltimateProjectile = false := by
  intro patterns
  induction patterns with
  | nil =>
    intro b b1 h _
    simp only [Boss.firePatterns, Option.some.injEq] at h
    subst h
    exact ⟨rfl, rfl, rfl, rfl, rfl, rfl, rfl, [], by simp, fun p hp => by simp at hp⟩
  | cons pattern rest ih =>
    intro b b1 h hq
    simp only [Boss.firePatterns] at h
    split at h
    · cases h
    · rename_i b2 hstep
      obtain ⟨hge, -, -, -, -, -, hpl⟩ := Boss.patternStep_keeps _ _ _ _ _ _ _ _ _ hstep
      obtain ⟨added, hadd, hC, hD, hW, hplain, -⟩ :=
        Boss.patternStep_adds _ _ _ _ _ _ _ _ _ hstep
      have hcase : pattern ≠ PatternType.Ultimate ∨ 0 < b.mUltimateTimer := by
        rcases hq with hq | hq
        · left
          intro heq
          exact hq (heq ▸ List.mem_cons_self _ _)
        · exact Or.inr hq
      obtain ⟨hT, hP, hno⟩ := hplain hcase
      have hq2 : PatternType.Ultimate ∉ rest ∨ 0 < b2.mUltimateTimer := by
        rcases hq with hq | hq
        · exact Or.inl (fun hm => hq (List.mem_cons_of_mem _ hm))
        · exact Or.inr (by rw [hT]; exact hq)
      obtain ⟨ge, pl, hT2, hP2, hC2, hD2, hW2, added2, hadd2, hno2⟩ := ih b2 b1 h hq2
      refine ⟨ge.trans hge, pl.trans hpl, hT2.trans hT, hP2.trans hP, hC2.trans hC,
        hD2.trans hD, hW2.trans hW, added ++ added2, ?_, ?_⟩
      · rw [hadd2, hadd, List.append_assoc]
      · intro p hp
        rcases List.mem_append.mp hp with hp | hp
        · exact hno p hp
        · exact hno2 p hp

/-- The pattern loop over a list that holds Ultimate exactly once, entered with
a lapsed ultimate timer: the ultimate projectiles appended are one dragon-breath
row, the burst timer runs down by the delta time once, and when it has lapsed
the ultimate timer is rearmed with the cooldown and the burst timer reset. -/
theorem Boss.firePatterns_once (player : Player) (dt : ℚ) (env : MathEnv) (u : Uninit)
    (L now : ℕ) :
    ∀ (patterns : List PatternType) (b b1 : Boss),
      Boss.firePatterns b player dt env u L now patterns = some b1 →
      patterns.count PatternType.Ultimate = 1 → b.mUltimateTimer ≤ 0 →
      b1.mUltimateCooldown = b.mUltimateCooldown ∧
      b1.mUltimateFirePeriodDefault = b.mUltimateFirePeriodDefault ∧
      b1.mUltimateProjectileWidth = b.mUltimateProjectileWidth ∧
      b1.mUltimateTimer =
        (if f32 (b.mUltimateFirePeriodTimer - dt) ≤ 0 then b.mUltimateCooldown
          else b.mUltimateTimer) ∧
      b1.mUltimateFirePeriodTimer =
        (if f32 (b.mUltimateFirePeriodTimer - dt) ≤ 0 then b.mUltimateFirePeriodDefault
          else f32 (b.mUltimateFirePeriodTimer - dt)) ∧
      ∃ added, b1.mProjectiles = b.mProjectiles ++ added ∧
        ∀ t, b.transform = some t →
          (added.filter (fun p => p.isUltimateProjectile)).length = (Boss.breathCount t.getWidth b.mUltimateProjectileWidth).toNat := by
  intro patterns
  induction patterns with
  | nil =>
    intro b b1 _ hcount _
    simp at hcount
  | cons pattern rest ih =>
    intro b b1 h hcount hT
    simp only [Boss.firePatterns] at h
    split at h
    · cases h
    · rename_i b2 hstep
      obtain ⟨hge, -, -, -, -, -, -⟩ := Boss.patternStep_keeps _ _ _ _ _ _ _ _ _ hstep
      obtain ⟨added, hadd, hC, hD, hW, hplain, hfire⟩ :=
        Boss.patternStep_adds _ _ _ _ _ _ _ _ _ hstep
      by_cases hpat : pattern = PatternType.Ultimate
      · subst hpat
        have hrest : PatternType.Ultimate ∉ rest := by
          rw [List.count_cons_self] at hcount
          exact List.count_eq_zero.mp (by omega)
        obtain ⟨hult, hlen, hT1, hP1⟩ := hfire rfl hT
        obtain ⟨-, -, hT2, hP2, hC2, hD2, hW2, added2, hadd2, hno2⟩ :=
          Boss.firePatterns_quiet player dt env u L now rest b2 b1 h (Or.inl hrest)
        refine ⟨hC2.trans hC, hD2.trans hD, hW2.trans hW, hT2.trans hT1, hP2.trans hP1,
          added ++ added2, by rw [hadd2, hadd, List.append_assoc], ?_⟩
        intro t ht
        have h1 : added.filter (fun p => p.isUltimateProjectile) = added :=
          List.filter_eq_self.mpr hult
        have h2 : added2.filter (fun p => p.isUltimateProjectile) = [] :=
          List.filter_eq_nil_iff.mpr (fun p hp => by rw [hno2 p hp]; decide)
        rw [List.filter_append, h1, h2, List.append_nil]
        exact hlen t ht
      · have hcount2 : rest.count PatternType.Ultimate = 1 := by
          rw [List.count_cons_of_ne (fun heq => hpat heq.symm)] at hcount
          exact hcount
        obtain ⟨hT1, hP1, hno⟩ := hplain (Or.inl hpat)
        obtain ⟨hC2, hD2, hW2, hT2, hP2, added2, hadd2, hlen2⟩ :=
          ih b2 b1 h hcount2 (by rw [hT1]; exact hT)
        simp only [hT1, hP1, hC, hD] at hT2 hP2
        refine ⟨hC2.trans hC, hD2.trans hD, hW2.trans hW, hT2, hP2,
          added ++ added2, by rw [hadd2, hadd, List.append_assoc], ?_⟩
        intro t ht
        have h1 : added.filter (fun p => p.isUltimateProjectile) = [] :=
          List.filter_eq_nil_iff.mpr (fun p hp => by rw [hno p hp]; decide)
        rw [List.filter_append, h1, List.nil_append]
        have ht2 : b2.transform = some t := by
          have : b2.transform = b.transform := congrArg GameEntity.transform hge
          rw [this]; exact ht
        rw [← hW]
        exact hlen2 t ht2

theorem Projectile.update_isUltimate (p : Projectile) (dt : ℚ) :
    (p.update dt).isUltimateProjectile = p.isUltimateProjectile := by
  simp only [Projectile.update]
  split
  · rfl
  · split_ifs <;> rfl

/-- The ultimate projectiles among updated and pruned projectiles are the
updated and pruned ultimate projectiles. -/
theorem ultimates_after_update (l : List Projectile) (dt : ℚ) :
    ((l.map (fun q => q.update dt)).filter (fun q => q.mRenderable)).filter
        (fun p => p.isUltimateProjectile) =
      ((l.filter (fun p => p.isUltimateProjectile)).map (fun q => q.update dt)).filter
        (fun q => q.mRenderable) := by
  induction l with
  | nil => rfl
  | cons a rest ih =>
    have hu := Projectile.update_isUltimate a dt
    cases hr : (a.update dt).mRenderable <;> cases hi : a.isUltimateProjectile
    all_goals
      rw [hi] at hu
      simp only [List.map_cons, List.filter_cons, hr, hi, hu, if_true, if_false,
        Bool.false_eq_true, ih]

theorem move_keeps_width (t : TransformComponent) (x y : ℚ) :
    (t.move x y).getWidth = t.getWidth := by
  simp only [TransformComponent.move, TransformComponent.getWidth]
  split_ifs <;> rfl

/-- The boss that enters the pattern loop, built from `c` and the position `r`
read at the start of the update: its transform is `r` moved, and the ultimate
timer has run down by the delta time. -/
theorem Boss.stage_fields (dt : ℚ) (d : BossDraws) (c : Boss) (r : TransformComponent) :
    (∃ t3, (((c.changeDirection dt d).moveWithinBounds r).tickCooldowns dt).transform =
      some t3 ∧ t3.getWidth = r.getWidth) ∧
    (((c.changeDirection dt d).moveWithinBounds r).tickCooldowns dt).mPatternList =
      c.mPatternList ∧
    (((c.changeDirection dt d).moveWithinBounds r).tickCooldowns dt).mProjectiles =
      c.mProjectiles ∧
    (((c.changeDirection dt d).moveWithinBounds r).tickCooldowns dt).mUltimateTimer =
      f32 (c.mUltimateTimer - dt) ∧
    (((c.changeDirection dt d).moveWithinBounds r).tickCooldowns dt).mUltimateFirePeriodTimer =
      c.mUltimateFirePeriodTimer ∧
    (((c.changeDirection dt d).moveWithinBounds r).tickCooldowns dt).mUltimateCooldown =
      c.mUltimateCooldown ∧
    (((c.changeDirection dt d).moveWithinBounds r).tickCooldowns dt).mUltimateFirePeriodDefault =
      c.mUltimateFirePeriodDefault ∧
    (((c.changeDirection dt d).moveWithinBounds r).tickCooldowns dt).mUltimateProjectileWidth =
      c.mUltimateProjectileWidth := by
  refine ⟨?_, ?_, ?_, ?_, ?_, ?_, ?_, ?_⟩
  · simp only [Boss.tickCooldowns, Boss.moveWithinBounds]
    exact ⟨_, rfl, move_keeps_width _ _ _⟩
  all_goals
    simp only [Boss.tickCooldowns, Boss.moveWithinBounds, Boss.changeDirection]
    split_ifs <;> rfl

/-- The stages of Boss::update for a boss with a transform and a non-empty
pattern list: the boss `b3` that enters the pattern loop has the ultimate timer
run down by the delta time and the other ultimate members, the projectiles and
the pattern list as before; the loop gives `b4`; the result is `b4` with its
projectiles updated and pruned. -/
theorem Boss.update_stages (b b1 : Boss) (player : Player) (dt : ℚ) (env : MathEnv)
    (u : Uninit) (d : BossDraws) (L now : ℕ) (t : TransformComponent)
    (ht : b.transform = some t) (hne : b.mPatternList ≠ [])
    (h : b.update player dt env u d L now = some b1) :
    ∃ b3 b4 : Boss,
      (∃ t3, b3.transform = some t3 ∧ t3.getWidth = t.getWidth) ∧
      b3.mPatternList = b.mPatternList ∧ b3.mProjectiles = b.mProjectiles ∧
      b3.mUltimateTimer = f32 (b.mUltimateTimer - dt) ∧
      b3.mUltimateFirePeriodTimer = b.mUltimateFirePeriodTimer ∧
      b3.mUltimateCooldown = b.mUltimateCooldown ∧
      b3.mUltimateFirePeriodDefault = b.mUltimateFirePeriodDefault ∧
      b3.mUltimateProjectileWidth = b.mUltimateProjectileWidth ∧
      Boss.firePatterns b3 player dt env u L now b3.mPatternList = some b4 ∧
      b1 = { b4 with toEnemy := b4.toEnemy.updateProjectiles dt } := by
  have hk := Boss.stage_fields dt d
  simp only [Boss.update] at h
  split at h
  · rename_i heq
    simp [GameEntity.updateComponents, ht] at heq
  · rename_i ref0 heq
    have href : ref0 = t := by
      simp [GameEntity.updateComponents, ht] at heq
      exact heq.symm
    subst href
    obtain ⟨m1, m2, m3, m4, m5, m6, m7, m8⟩ := hk
      { ({ b with toGameEntity := b.toGameEntity.updateComponents } : Boss) with
        mMovement := b.mSpeed * dt } ref0
    split_ifs at h with hempty
    · exfalso
      rw [List.isEmpty_iff] at hempty
      exact hne (m2 ▸ hempty)
    · split at h
      · cases h
      · rename_i b4 hfire
        simp only [Option.some.injEq] at h
        exact ⟨_, b4, m1, m2, m3, m4, m5, m6, m7, m8, hfire, h.symm⟩

theorem Boss.firePatterns_constants (player : Player) (dt : ℚ) (env : MathEnv) (u : Uninit)
    (L now : ℕ) :
    ∀ (patterns : List PatternType) (b b1 : Boss),
      Boss.firePatterns b player dt env u L now patterns = some b1 →
      b1.mUltimateCooldown = b.mUltimateCooldown ∧
      b1.mUltimateFirePeriodDefault = b.mUltimateFirePeriodDefault ∧
      b1.mUltimateProjectileWidth = b.mUltimateProjectileWidth := by
  intro patterns
  induction patterns with
  | nil =>
    intro b b1 h
    simp only [Boss.firePatterns, Option.some.injEq] at h
    subst h
    exact ⟨rfl, rfl, rfl⟩
  | cons pattern rest ih =>
    intro b b1 h
    simp only [Boss.firePatterns] at h
    split at h
    · cases h
    · rename_i b2 hstep
      obtain ⟨added, -, hC, hD, hW, -, -⟩ := Boss.patternStep_adds _ _ _ _ _ _ _ _ _ hstep
      obtain ⟨hC2, hD2, hW2⟩ := ih b2 b1 h
      exact ⟨hC2.trans hC, hD2.trans hD, hW2.trans hW⟩

/-- What Boss::update carries over for a boss with a transform and a non-empty
pattern list: a transform of the same width, the pattern list, the cooldown, the
burst duration and the ultimate width. -/
theorem Boss.update_carries (b b1 : Boss) (player : Player) (dt : ℚ) (env : MathEnv)
    (u : Uninit) (d : BossDraws) (L now : ℕ) (t : TransformComponent)
    (ht : b.transform = some t) (hne : b.mPatternList ≠ [])
    (h : b.update player dt env u d L now = some b1) :
    (∃ t1, b1.transform = some t1 ∧ t1.getWidth = t.getWidth) ∧
    b1.mPatternList = b.mPatternList ∧
    b1.mUltimateCooldown = b.mUltimateCooldown ∧
    b1.mUltimateFirePeriodDefault = b.mUltimateFirePeriodDefault ∧
    b1.mUltimateProjectileWidth = b.mUltimateProjectileWidth := by
  obtain ⟨b3, b4, ⟨t3, ht3, hw3⟩, hpl, -, -, -, hC, hD, hW, hfire, hb1⟩ :=
    Boss.update_stages b b1 player dt env u d L now t ht hne h
  obtain ⟨kge, -, -, -, -, -, kpl⟩ := Boss.firePatterns_keeps _ _ _ _ _ _ _ _ _ hfire
  obtain ⟨cC, cD, cW⟩ := Boss.firePatterns_constants _ _ _ _ _ _ _ _ _ hfire
  subst hb1
  refine ⟨⟨t3, ?_, hw3⟩, kpl.trans hpl, cC.trans hC, cD.trans hD, cW.trans hW⟩
  show b4.toGameEntity.transform = some t3
  rw [kge]
  exact ht3

/-- An update that leaves the ultimate timer positive spawns no ultimate
projectile: the ultimate projectiles afterwards are the earlier ones, updated
and pruned; the burst timer is untouched. -/
theorem Boss.update_quiet (b b1 : Boss) (player : Player) (dt : ℚ) (env : MathEnv)
    (u : Uninit) (d : BossDraws) (L now : ℕ) (t : TransformComponent)
    (ht : b.transform = some t) (hne : b.mPatternList ≠ [])
    (hT : 0 < f32 (b.mUltimateTimer - dt))
    (h : b.update player dt env u d L now = some b1) :
    b1.mUltimateTimer = f32 (b.mUltimateTimer - dt) ∧
    b1.mUltimateFirePeriodTimer = b.mUltimateFirePeriodTimer ∧
    b1.mProjectiles.filter (fun p => p.isUltimateProjectile) =
      ((b.mProjectiles.filter (fun p => p.isUltimateProjectile)).map
        (fun q => q.update dt)).filter (fun q => q.mRenderable) := by
  obtain ⟨b3, b4, -, -, hpr, hT3, hP3, -, -, -, hfire, hb1⟩ :=
    Boss.update_stages b b1 player dt env u d L now t ht hne h
  obtain ⟨-, -, qT, qP, -, -, -, added, hadd, hplain⟩ :=
    Boss.firePatterns_quiet player dt env u L now _ b3 b4 hfire
      (Or.inr (by rw [hT3]; exact hT))
  subst hb1
  refine ⟨qT.trans hT3, qP.trans hP3, ?_⟩
  show ((b4.mProjectiles.map (fun q => q.update dt)).filter (fun q => q.mRenderable)).filter
    (fun p => p.isUltimateProjectile) = _
  have hnone : added.filter (fun p => p.isUltimateProjectile) = [] :=
    List.filter_eq_nil_iff.mpr (fun p hp => by rw [hplain p hp]; decide)
  rw [ultimates_after_update, hadd, hpr, List.filter_append, hnone, List.append_nil]

/-- An update that finds the ultimate timer lapsed, for a pattern list that
holds Ultimate once: one dragon-breath row joins the ultimate projectiles, the
burst timer runs down by the delta time, and when it has lapsed the ultimate
timer is rearmed with the cooldown and the burst timer reset. -/
theorem Boss.update_fires (b b1 : Boss) (player : Player) (dt : ℚ) (env : MathEnv)
    (u : Uninit) (d : BossDraws) (L now : ℕ) (t : TransformComponent)
    (ht : b.transform = some t)
    (honce : b.mPatternList.count PatternType.Ultimate = 1)
    (hT : f32 (b.mUltimateTimer - dt) ≤ 0)
    (h : b.update player dt env u d L now = some b1) :
    b1.mUltimateTimer =
      (if f32 (b.mUltimateFirePeriodTimer - dt) ≤ 0 then b.mUltimateCooldown
        else f32 (b.mUltimateTimer - dt)) ∧
    b1.mUltimateFirePeriodTimer =
      (if f32 (b.mUltimateFirePeriodTimer - dt) ≤ 0 then b.mUltimateFirePeriodDefault
        else f32 (b.mUltimateFirePeriodTimer - dt)) ∧
    ∃ row : List Projectile,
      (∀ p ∈ row, p.isUltimateProjectile = true) ∧
      row.length = (Boss.breathCount t.getWidth b.mUltimateProjectileWidth).toNat ∧
      b1.mProjectiles.filter (fun p => p.isUltimateProjectile) =
        (((b.mProjectiles.filter (fun p => p.isUltimateProjectile)) ++ row).map
          (fun q => q.update dt)).filter (fun q => q.mRenderable) := by
  have hne : b.mPatternList ≠ [] := by
    intro hnil
    rw [hnil] at honce
    simp at honce
  obtain ⟨b3, b4, ⟨t3, ht3, hw3⟩, hpl, hpr, hT3, hP3, hC3, hD3, hW3, hfire, hb1⟩ :=
    Boss.update_stages b b1 player dt env u d L now t ht hne h
  obtain ⟨-, -, -, oT, oP, added, hadd, hlen⟩ :=
    Boss.firePatterns_once player dt env u L now _ b3 b4 hfire (by rw [hpl]; exact honce)
      (by rw [hT3]; exact hT)
  subst hb1
  rw [hP3, hC3, hT3] at oT
  rw [hP3, hD3] at oP
  refine ⟨oT, oP, added.filter (fun p => p.isUltimateProjectile), ?_, ?_, ?_⟩
  · intro p hp
    exact (List.mem_filter.mp hp).2
  · have := hlen t3 ht3
    rw [hw3, hW3] at this
    exact this
  · show ((b4.mProjectiles.map (fun q => q.update dt)).filter (fun q => q.mRenderable)).filter
      (fun p => p.isUltimateProjectile) = _
    rw [ultimates_after_update, hadd, hpr, List.filter_append]

/-! ## Updates of a boss that only breathes fire -/

theorem Boss.patternStep_breath_returns (b : Boss) (player : Player) (dt : ℚ) (env : MathEnv)
    (u : Uninit) (L now : ℕ) (t : TransformComponent) (ht : b.transform = some t)
    (hw : b.mUltimateProjectileWidth ≠ 0)
    (hq0 : 0 ≤ Boss.breathCount t.getWidth b.mUltimateProjectileWidth)
    (hq1 : Boss.breathCount t.getWidth b.mUltimateProjectileWidth ≤ 2147483647) :
    ∃ b1, b.patternStep PatternType.Ultimate player dt env u L now = some b1 := by
  simp only [Boss.patternStep]
  split_ifs
  · obtain ⟨b2, hb2⟩ := Boss.dragonBreath_returns b u L now t ht hw hq0 hq1
    rw [hb2]
    exact ⟨_, rfl⟩
  · exact ⟨_, rfl⟩

theorem Boss.firePatterns_breath_returns (player : Player) (dt : ℚ) (env : MathEnv)
    (u : Uninit) (L now : ℕ) (t : TransformComponent) (w : ℚ) (hw : w ≠ 0)
    (hq0 : 0 ≤ Boss.breathCount t.getWidth w) (hq1 : Boss.breathCount t.getWidth w ≤ 2147483647) :
    ∀ (patterns : List PatternType) (b : Boss),
      (∀ p ∈ patterns, p = PatternType.Ultimate) → b.transform = some t →
      b.mUltimateProjectileWidth = w →
      ∃ b1, Boss.firePatterns b player dt env u L now patterns = some b1 := by
  intro patterns
  induction patterns with
  | nil => intro b _ _ _; exact ⟨b, rfl⟩
  | cons pattern rest ih =>
    intro b hall ht hbw
    have hpat : pattern = PatternType.Ultimate := hall pattern (List.mem_cons_self _ _)
    subst hpat
    subst hbw
    obtain ⟨b2, hb2⟩ := Boss.patternStep_breath_returns b player dt env u L now t ht hw hq0 hq1
    obtain ⟨hge, -⟩ := Boss.patternStep_keeps _ _ _ _ _ _ _ _ _ hb2
    obtain ⟨added, -, -, -, hW, -, -⟩ := Boss.patternStep_adds _ _ _ _ _ _ _ _ _ hb2
    have ht2 : b2.transform = some t := by
      have : b2.transform = b.transform := congrArg GameEntity.transform hge
      rw [this]; exact ht
    obtain ⟨b1, hb1⟩ := ih b2 (fun p hp => hall p (List.mem_cons_of_mem _ hp)) ht2 hW
    exact ⟨b1, by simp only [Boss.firePatterns, hb2, hb1]⟩

/-- Boss::update returns for a boss with a transform whose patterns are all
Ultimate, when the ultimate width is not zero and the row count fits an `int`. -/
theorem Boss.update_breath_returns (b : Boss) (player : Player) (dt : ℚ) (env : MathEnv)
    (u : Uninit) (d : BossDraws) (L now : ℕ) (t : TransformComponent)
    (ht : b.transform = some t)
    (hall : ∀ p ∈ b.mPatternList, p = PatternType.Ultimate)
    (hw : b.mUltimateProjectileWidth ≠ 0)
    (hq0 : 0 ≤ Boss.breathCount t.getWidth b.mUltimateProjectileWidth)
    (hq1 : Boss.breathCount t.getWidth b.mUltimateProjectileWidth ≤ 2147483647) :
    ∃ b1, b.update player dt env u d L now = some b1 := by
  cases h : b.update player dt env u d L now with
  | some b1 => exact ⟨b1, rfl⟩
  | none =>
    exfalso
    simp only [Boss.update] at h
    split at h
    · cases h
    · rename_i ref0 heq
      have href : ref0 = t := by
        simp [GameEntity.updateComponents, ht] at heq
        exact heq.symm
      subst href
      obtain ⟨⟨t3, ht3, hw3⟩, m2, -, -, -, -, -, m8⟩ := Boss.stage_fields dt d
        { ({ b with toGameEntity := b.toGameEntity.updateComponents } : Boss) with
          mMovement := b.mSpeed * dt } ref0
      have key : ∀ c : Boss, c.transform = some t3 →
          c.mUltimateProjectileWidth = b.mUltimateProjectileWidth →
          (∀ p ∈ c.mPatternList, p = PatternType.Ultimate) →
          ∃ b4, Boss.firePatterns c player dt env u L now c.mPatternList = some b4 :=
        fun c h1 h2 h3 => Boss.firePatterns_breath_returns player dt env u L now t3
          b.mUltimateProjectileWidth hw (by rw [hw3]; exact hq0) (by rw [hw3]; exact hq1)
          c.mPatternList c h3 h1 h2
      obtain ⟨b4, hb4⟩ := key _ ht3 m8 (by intro p hp; rw [m2] at hp; exact hall p hp)
      split_ifs at h
      split at h
      · rename_i hnone
        cases hnone.symm.trans hb4
      · cases h

/-! ## The gating of the Ultimate pattern -/

/-- One returning update of a boss with a transform whose patterns are all
Ultimate, together with what the update carries over. -/
theorem Boss.update_breath_step (b : Boss) (player : Player) (dt : ℚ) (env : MathEnv)
    (u : Uninit) (d : BossDraws) (L now : ℕ) (t : TransformComponent)
    (ht : b.transform = some t) (hne : b.mPatternList ≠ [])
    (hall : ∀ p ∈ b.mPatternList, p = PatternType.Ultimate)
    (hw : b.mUltimateProjectileWidth ≠ 0)
    (hq0 : 0 ≤ Boss.breathCount t.getWidth b.mUltimateProjectileWidth)
    (hq1 : Boss.breathCount t.getWidth b.mUltimateProjectileWidth ≤ 2147483647) :
    ∃ b1, b.update player dt env u d L now = some b1 ∧
      (∃ t1, b1.transform = some t1 ∧ t1.getWidth = t.getWidth) ∧
      b1.mPatternList = b.mPatternList ∧
      b1.mUltimateCooldown = b.mUltimateCooldown ∧
      b1.mUltimateFirePeriodDefault = b.mUltimateFirePeriodDefault ∧
      b1.mUltimateProjectileWidth = b.mUltimateProjectileWidth := by
  obtain ⟨b1, hb1⟩ := Boss.update_breath_returns b player dt env u d L now t ht hall hw hq0 hq1
  exact ⟨b1, hb1, Boss.update_carries b b1 player dt env u d L now t ht hne hb1⟩

/-- The `double` nearest to 0.7. -/
theorem f64_seven_tenths : f64 (7 / 10) = 6305039478318694 / 9007199254740992 := by
  have h := roundBits_eval 53 (7 / 10) (-1) 6305039478318694
    (by norm_num [abs_of_pos]) (by norm_num [abs_of_pos])
    (by norm_num [abs_lt])
  rw [f64, h]
  norm_num

/-- The row of a 300-wide boss with ultimate width 24 has 8 projectiles. -/
theorem breath_row_count : Boss.breathCount 300 24 = 8 := by
  have h1 : f64 (300 * (6305039478318694 / 9007199254740992)) = 210 := by
    have h := roundBits_eval 53 (300 * (6305039478318694 / 9007199254740992)) 7
      7388718138654720
      (by norm_num [abs_of_pos]) (by norm_num [abs_of_pos])
      (by norm_num [abs_lt])
    rw [f64, h]
    norm_num
  have h2 : f64 (210 / 24) = 35 / 4 := by
    have h := roundBits_exact 53 35 (-2) (by norm_num)
    rw [f64]
    norm_num at h ⊢
    exact h
  have hfloor : ⌊(35 / 4 : ℚ)⌋ = 8 := by
    rw [Int.floor_eq_iff]
    constructor <;> norm_num
  simp only [Boss.breathCount, f64_seven_tenths, h1, h2]
  rw [if_pos (by norm_num), hfloor]

/-- The row of a 720-wide boss with ultimate width 24 has 20 projectiles: the
`double` product `720 * 0.7` lies below 504, and so does the quotient below 21. -/
theorem breath_row_count_wide : Boss.breathCount 720 24 = 20 := by
  have h1 : f64 (720 * (6305039478318694 / 9007199254740992)) =
      8866461766385663 / 17592186044416 := by
    have h := roundBits_eval 53 (720 * (6305039478318694 / 9007199254740992)) 8
      8866461766385663
      (by norm_num [abs_of_pos]) (by norm_num [abs_of_pos])
      (by norm_num [abs_lt])
    rw [f64, h]
    norm_num
  have h2 : f64 (8866461766385663 / 17592186044416 / 24) =
      5910974510923775 / 281474976710656 := by
    have h := roundBits_eval 53 (8866461766385663 / 17592186044416 / 24) 4
      5910974510923775
      (by norm_num [abs_of_pos]) (by norm_num [abs_of_pos])
      (by norm_num [abs_lt])
    rw [f64, h]
    norm_num
  have hfloor : ⌊(5910974510923775 / 281474976710656 : ℚ)⌋ = 20 := by
    rw [Int.floor_eq_iff]
    constructor <;> norm_num
  simp only [Boss.breathCount, f64_seven_tenths, h1, h2]
  rw [if_pos (by norm_num), hfloor]

/-- A row can be fired before 10 s have accumulated. The boss with the pattern
list `[Ultimate]` is updated with the delta times 11184811 / 2^24 (the `float`
nearest to 2/3), 9 and 349525 / 2^20, each of them a `float` value. The first
subtraction is rounded down, so the third update finds the ultimate timer at 0
and fires a row of 8 ultimate projectiles, while the accumulated time is
10 - 5 / 2^24 s. -/
theorem rounded_timer_fires_before_ten_seconds :
    f32 (11184811 / 16777216) = 11184811 / 16777216 ∧
    f32 9 = 9 ∧
    f32 (349525 / 1048576) = 349525 / 1048576 ∧
    (11184811 / 16777216 + 9 + 349525 / 1048576 : ℚ) = 10 - 5 / 16777216 ∧
    ∃ b1 b2 b3 : Boss,
      breathBoss.update examplePlayerEntity (11184811 / 16777216) exampleMath exampleUninit
        exampleDraws 0 1000 = some b1 ∧
      b1.update examplePlayerEntity 9 exampleMath exampleUninit exampleDraws 0 1000 =
        some b2 ∧
      b2.update examplePlayerEntity (349525 / 1048576) exampleMath exampleUninit
        exampleDraws 0 1000 = some b3 ∧
      b1.mUltimateTimer = 9786709 / 1048576 ∧
      b2.mUltimateTimer = 349525 / 1048576 ∧
      Boss.rowSpawned b2 b3 (349525 / 1048576) 8 := by
  have d1 : f32 (11184811 / 16777216) = 11184811 / 16777216 := by
    have h := roundBits_exact 24 11184811 (-24) (by norm_num)
    rw [f32]
    norm_num at h ⊢
    exact h
  have d2 : f32 9 = 9 := f32_ofNat 9 (by norm_num)
  have d3 : f32 (349525 / 1048576) = 349525 / 1048576 := by
    have h := roundBits_exact 24 349525 (-20) (by norm_num)
    rw [f32]
    norm_num at h ⊢
    exact h
  have e1 : f32 (10 - 11184811 / 16777216) = 9786709 / 1048576 := by
    have h := roundBits_eval 24 (10 - 11184811 / 16777216) 3 9786709
      (by norm_num [abs_of_pos]) (by norm_num [abs_of_pos])
      (by norm_num [abs_lt])
    rw [f32, h]
    norm_num
  have e2 : f32 (9786709 / 1048576 - 9) = 349525 / 1048576 := by
    have h := roundBits_exact 24 349525 (-20) (by norm_num)
    rw [f32]
    norm_num at h ⊢
    exact h
  have e3 : f32 (349525 / 1048576 - 349525 / 1048576) = 0 := by
    rw [sub_self, f32_zero]
  refine ⟨d1, d2, d3, by norm_num, ?_⟩
  obtain ⟨t0, ht0, hwidth⟩ : ∃ t, breathBoss.transform = some t ∧ t.getWidth = 300 :=
    ⟨_, rfl, rfl⟩
  have hW0 : breathBoss.mUltimateProjectileWidth = 24 := rfl
  have hpl0 : breathBoss.mPatternList = [PatternType.Ultimate] := rfl
  have hT0 : breathBoss.mUltimateTimer = 10 := rfl
  have hq : (0 : ℤ) ≤ Boss.breathCount 300 24 ∧ Boss.breathCount 300 24 ≤ 2147483647 := by
    rw [breath_row_count]
    constructor <;> norm_num
  obtain ⟨b1, h1, ⟨t1, ht1, hw1⟩, hpl1, -, -, hW1⟩ :=
    Boss.update_breath_step breathBoss examplePlayerEntity (11184811 / 16777216) exampleMath
      exampleUninit exampleDraws 0 1000 t0 ht0 (by rw [hpl0]; simp)
      (by rw [hpl0]; intro p hp; simpa using hp) (by rw [hW0]; norm_num)
      (by rw [hW0, hwidth]; exact hq.1) (by rw [hW0, hwidth]; exact hq.2)
  rw [hwidth] at hw1
  rw [hW0] at hW1
  rw [hpl0] at hpl1
  obtain ⟨hT1, -, -⟩ := Boss.update_quiet breathBoss b1 examplePlayerEntity _ exampleMath
    exampleUninit exampleDraws 0 1000 t0 ht0 (by rw [hpl0]; simp)
    (by rw [hT0, e1]; norm_num) h1
  rw [hT0, e1] at hT1
  obtain ⟨b2, h2, ⟨t2, ht2, hw2⟩, hpl2, -, -, hW2⟩ :=
    Boss.update_breath_step b1 examplePlayerEntity 9 exampleMath exampleUninit
      exampleDraws 0 1000 t1 ht1 (by rw [hpl1]; simp)
      (by rw [hpl1]; intro p hp; simpa using hp) (by rw [hW1]; norm_num)
      (by rw [hW1, hw1]; exact hq.1) (by rw [hW1, hw1]; exact hq.2)
  rw [hw1] at hw2
  rw [hW1] at hW2
  rw [hpl1] at hpl2
  obtain ⟨hT2, -, -⟩ := Boss.update_quiet b1 b2 examplePlayerEntity _ exampleMath
    exampleUninit exampleDraws 0 1000 t1 ht1 (by rw [hpl1]; simp)
    (by rw [hT1, e2]; norm_num) h2
  rw [hT1, e2] at hT2
  obtain ⟨b3, h3, -⟩ :=
    Boss.update_breath_step b2 examplePlayerEntity (349525 / 1048576) exampleMath
      exampleUninit exampleDraws 0 1000 t2 ht2 (by rw [hpl2]; simp)
      (by rw [hpl2]; intro p hp; simpa using hp) (by rw [hW2]; norm_num)
      (by rw [hW2, hw2]; exact hq.1) (by rw [hW2, hw2]; exact hq.2)
  obtain ⟨-, -, hrow⟩ := Boss.update_fires b2 b3 examplePlayerEntity _ exampleMath
    exampleUninit exampleDraws 0 1000 t2 ht2 (by rw [hpl2]; rfl)
    (by rw [hT2, e3]) h3
  rw [hw2, hW2, breath_row_count] at hrow
  exact ⟨b1, b2, b3, h1, h2, h3, hT1, hT2, hrow⟩

/-- The accumulated time alone does not decide the first row. The boss with the
pattern list `[Ultimate]` is updated with the delta times 11184811 / 2^25 (the
`float` nearest to 1/3), 9.5 and 5592405 / 2^25, each of them a `float` value.
Exactly 10 s have accumulated with the third update, but the first subtraction
was rounded up, the ultimate timer is still at 11 / 2^25 and the third update
spawns no ultimate projectile. -/
theorem rounded_timer_outlasts_ten_seconds :
    f32 (11184811 / 33554432) = 11184811 / 33554432 ∧
    f32 (19 / 2) = 19 / 2 ∧
    f32 (5592405 / 33554432) = 5592405 / 33554432 ∧
    (11184811 / 33554432 + 19 / 2 + 5592405 / 33554432 : ℚ) = 10 ∧
    ∃ b1 b2 b3 : Boss,
      breathBoss.update examplePlayerEntity (11184811 / 33554432) exampleMath exampleUninit
        exampleDraws 0 1000 = some b1 ∧
      b1.update examplePlayerEntity (19 / 2) exampleMath exampleUninit exampleDraws 0 1000 =
        some b2 ∧
      b2.update examplePlayerEntity (5592405 / 33554432) exampleMath exampleUninit
        exampleDraws 0 1000 = some b3 ∧
      b1.mUltimateTimer = 10136235 / 1048576 ∧
      b2.mUltimateTimer = 174763 / 1048576 ∧
      b3.mUltimateTimer = 11 / 33554432 ∧
      Boss.noUltimateSpawned b2 b3 (5592405 / 33554432) := by
  have d1 : f32 (11184811 / 33554432) = 11184811 / 33554432 := by
    have h := roundBits_exact 24 11184811 (-25) (by norm_num)
    rw [f32]
    norm_num at h ⊢
    exact h
  have d2 : f32 (19 / 2) = 19 / 2 := by
    have h := roundBits_exact 24 19 (-1) (by norm_num)
    rw [f32]
    norm_num at h ⊢
    exact h
  have d3 : f32 (5592405 / 33554432) = 5592405 / 33554432 := by
    have h := roundBits_exact 24 5592405 (-25) (by norm_num)
    rw [f32]
    norm_num at h ⊢
    exact h
  have e1 : f32 (10 - 11184811 / 33554432) = 10136235 / 1048576 := by
    have h := roundBits_eval 24 (10 - 11184811 / 33554432) 3 10136235
      (by norm_num [abs_of_pos]) (by norm_num [abs_of_pos])
      (by norm_num [abs_lt])
    rw [f32, h]
    norm_num
  have e2 : f32 (10136235 / 1048576 - 19 / 2) = 174763 / 1048576 := by
    have h := roundBits_exact 24 174763 (-20) (by norm_num)
    rw [f32]
    norm_num at h ⊢
    exact h
  have e3 : f32 (174763 / 1048576 - 5592405 / 33554432) = 11 / 33554432 := by
    have h := roundBits_exact 24 11 (-25) (by norm_num)
    rw [f32]
    norm_num at h ⊢
    exact h
  refine ⟨d1, d2, d3, by norm_num, ?_⟩
  obtain ⟨t0, ht0, hwidth⟩ : ∃ t, breathBoss.transform = some t ∧ t.getWidth = 300 :=
    ⟨_, rfl, rfl⟩
  have hW0 : breathBoss.mUltimateProjectileWidth = 24 := rfl
  have hpl0 : breathBoss.mPatternList = [PatternType.Ultimate] := rfl
  have hT0 : breathBoss.mUltimateTimer = 10 := rfl
  have hq : (0 : ℤ) ≤ Boss.breathCount 300 24 ∧ Boss.breathCount 300 24 ≤ 2147483647 := by
    rw [breath_row_count]
    constructor <;> norm_num
  obtain ⟨b1, h1, ⟨t1, ht1, hw1⟩, hpl1, -, -, hW1⟩ :=
    Boss.update_breath_step breathBoss examplePlayerEntity (11184811 / 33554432) exampleMath
      exampleUninit exampleDraws 0 1000 t0 ht0 (by rw [hpl0]; simp)
      (by rw [hpl0]; intro p hp; simpa using hp) (by rw [hW0]; norm_num)
      (by rw [hW0, hwidth]; exact hq.1) (by rw [hW0, hwidth]; exact hq.2)
  rw [hwidth] at hw1
  rw [hW0] at hW1
  rw [hpl0] at hpl1
  obtain ⟨hT1, -, -⟩ := Boss.update_quiet breathBoss b1 examplePlayerEntity _ exampleMath
    exampleUninit exampleDraws 0 1000 t0 ht0 (by rw [hpl0]; simp)
    (by rw [hT0, e1]; norm_num) h1
  rw [hT0, e1] at hT1
  obtain ⟨b2, h2, ⟨t2, ht2, hw2⟩, hpl2, -, -, hW2⟩ :=
    Boss.update_breath_step b1 examplePlayerEntity (19 / 2) exampleMath exampleUninit
      exampleDraws 0 1000 t1 ht1 (by rw [hpl1]; simp)
      (by rw [hpl1]; intro p hp; simpa using hp) (by rw [hW1]; norm_num)
      (by rw [hW1, hw1]; exact hq.1) (by rw [hW1, hw1]; exact hq.2)
  rw [hw1] at hw2
  rw [hW1] at hW2
  rw [hpl1] at hpl2
  obtain ⟨hT2, -, -⟩ := Boss.update_quiet b1 b2 examplePlayerEntity _ exampleMath
    exampleUninit exampleDraws 0 1000 t1 ht1 (by rw [hpl1]; simp)
    (by rw [hT1, e2]; norm_num) h2
  rw [hT1, e2] at hT2
  obtain ⟨b3, h3, -⟩ :=
    Boss.update_breath_step b2 examplePlayerEntity (5592405 / 33554432) exampleMath
      exampleUninit exampleDraws 0 1000 t2 ht2 (by rw [hpl2]; simp)
      (by rw [hpl2]; intro p hp; simpa using hp) (by rw [hW2]; norm_num)
      (by rw [hW2, hw2]; exact hq.1) (by rw [hW2, hw2]; exact hq.2)
  obtain ⟨hT3, -, hU3⟩ := Boss.update_quiet b2 b3 examplePlayerEntity _ exampleMath
    exampleUninit exampleDraws 0 1000 t2 ht2 (by rw [hpl2]; simp)
    (by rw [hT2, e3]; norm_num) h3
  rw [hT2, e3] at hT3
  exact ⟨b1, b2, b3, h1, h2, h3, hT1, hT2, hT3, hU3⟩

/-! ## How often a projectile is updated in one frame -/

/-- The stages of a frame that is played. -/
theorem Scene.frame_stages (s : Scene) (g : Globals) (inp : FrameInput) (r : Scene × Globals)
    (hplay : (Scene.stageClear s g).2.currentState = GameState.Playing)
    (hr : Scene.update s g inp = some r) :
    ∃ r1 r2 mid,
      Scene.updateEntities (Scene.stageClear s g).1 (Scene.stageClear s g).2 inp = some r1 ∧
      Scene.resolveHits r1.1 r1.2 inp = some r2 ∧
      Scene.phaseTwo (Scene.pruneDead r2.1) r2.2 inp = some mid ∧
      Scene.finishFrame mid.1 mid.2 inp = some r := by
  simp only [Scene.update] at hr
  rw [if_neg (not_not.mpr hplay)] at hr
  split at hr
  · cases hr
  · rename_i mid hmid
    obtain ⟨r1, r2, h1, h2, h3⟩ := Scene.frameUntilSpawn_spec _ _ _ _ hmid
    exact ⟨r1, r2, mid, h1, h2, h3, hr⟩

theorem Scene.finishFrame_pool (s : Scene) (g : Globals) (inp : FrameInput)
    (r : Scene × Globals) (h : Scene.finishFrame s g inp = some r) :
    r.1.globalProjectiles =
      (s.globalProjectiles.map (fun p => p.update (Scene.clampDeltaTime inp.deltaTime))).filter
        (fun p => p.mRenderable) := by
  simp only [Scene.finishFrame] at h
  split at h
  · cases h
  · simp only [Option.some.injEq] at h
    subst h
    rfl

/-- The orphan pool after a frame that is played: the pool of the frame before,
joined by the projectiles of the enemies and of the bosses that the hit phases
of this frame left non-renderable, all updated by the pool update and pruned.
`r1` is the scene after the entity updates, `r2` after the hit phases. The
bosses and (unless the phase-2 block is armed) the enemies that the frame keeps
are the renderable ones of `r2`. -/
theorem Scene.frame_pool (s : Scene) (g : Globals) (inp : FrameInput) (r : Scene × Globals)
    (hplay : (Scene.stageClear s g).2.currentState = GameState.Playing)
    (hr : Scene.update s g inp = some r) :
    ∃ r1 r2,
      Scene.updateEntities (Scene.stageClear s g).1 (Scene.stageClear s g).2 inp = some r1 ∧
      Scene.resolveHits r1.1 r1.2 inp = some r2 ∧
      r.1.globalProjectiles =
        ((s.globalProjectiles ++
          (r2.1.enemies.filter (fun e => !e.mRenderable)).flatMap (fun e => e.mProjectiles) ++
          (r2.1.mBosses.filter (fun b => !b.mRenderable)).flatMap (fun b => b.mProjectiles)).map
            (fun p => p.update (Scene.clampDeltaTime inp.deltaTime))).filter
          (fun p => p.mRenderable) ∧
      r.1.mBosses = r2.1.mBosses.filter (fun b => b.mRenderable) ∧
      ((s.mSceneType ≠ SceneType.Boss3 ∨ s.spawnedPhaseEnemies = true) →
        r.1.enemies = r2.1.enemies.filter (fun e => e.mRenderable)) := by
  obtain ⟨r1, r2, mid, h1, h2, h3, h4⟩ := Scene.frame_stages s g inp r hplay hr
  refine ⟨r1, r2, h1, h2, ?_, ?_, ?_⟩
  · obtain ⟨-, -, -, -, -, u6, -⟩ := Scene.updateEntities_spec _ _ _ _ h1
    obtain ⟨-, -, -, -, v5, -⟩ := Scene.resolveHits_spec _ _ _ _ h2
    obtain ⟨-, -, p3, -⟩ := Scene.pruneDead_spec r2.1
    obtain ⟨-, -, w3, -⟩ := Scene.phaseTwo_spec _ _ _ _ h3
    rw [Scene.finishFrame_pool _ _ _ _ h4, w3, p3, v5, u6, Scene.stageClear_scene]
  · obtain ⟨-, p2, -⟩ := Scene.pruneDead_spec r2.1
    obtain ⟨w1, -⟩ := Scene.phaseTwo_spec _ _ _ _ h3
    obtain ⟨-, -, f3, -⟩ := Scene.finishFrame_spec _ _ _ _ h4
    rw [f3, w1, p2]
  · intro hskip
    obtain ⟨-, -, -, u4, u5, -⟩ := Scene.updateEntities_spec _ _ _ _ h1
    obtain ⟨-, -, v3, v4, -⟩ := Scene.resolveHits_spec _ _ _ _ h2
    obtain ⟨p1, -, -, -, p5, p6⟩ := Scene.pruneDead_spec r2.1
    obtain ⟨-, -, -, -, -, -, -, w8, -⟩ := Scene.phaseTwo_spec _ _ _ _ h3
    obtain ⟨-, f2, -⟩ := Scene.finishFrame_spec _ _ _ _ h4
    have hskip2 : (Scene.pruneDead r2.1).mSceneType ≠ SceneType.Boss3 ∨
        (Scene.pruneDead r2.1).spawnedPhaseEnemies = true := by
      rw [p5, p6, v3, v4, u4, u5, Scene.stageClear_scene]
      exact hskip
    rw [f2, w8 hskip2, p1]

theorem Scene.updateEntities_parts (s : Scene) (g : Globals) (inp : FrameInput)
    (r : Scene × Globals) (h : Scene.updateEntities s g inp = some r) :
    ∃ player bosses1 er, s.mainCharacter = some player ∧
      Scene.updateBosses (player.update (Scene.clampDeltaTime inp.deltaTime))
        (Scene.clampDeltaTime inp.deltaTime) inp g.lastTimeLaunch s.mBosses 0 = some bosses1 ∧
      Scene.updateEnemies s.enemies g.enemyShared g.lastTimeLaunch inp.currentTime
        (Scene.clampDeltaTime inp.deltaTime) inp.uninit = some er ∧
      r.1.mainCharacter = some (player.update (Scene.clampDeltaTime inp.deltaTime)) ∧
      r.1.mBosses = bosses1 ∧ r.1.enemies = er.1 := by
  simp only [Scene.updateEntities] at h
  split at h
  · cases h
  · rename_i player hplayer
    split at h
    · cases h
    · rename_i bosses1 hb
      split at h
      · cases h
      · rename_i er he
        simp only [Option.some.injEq] at h
        subst h
        exact ⟨player, bosses1, er, hplayer, hb, he, rfl, rfl, rfl⟩

/-- The loop over the enemies gives each enemy the result of its own update. -/
theorem Scene.updateEnemies_each (L now : ℕ) (dt : ℚ) (u : Uninit) :
    ∀ (enemies : List Enemy) (s : EnemyShared) (er : List Enemy × EnemyShared),
      Scene.updateEnemies enemies s L now dt u = some er →
      List.Forall₂ (fun e e1 : Enemy => ∃ s0 s1, e.update s0 L now dt u = some (e1, s1))
        enemies er.1 := by
  intro enemies
  induction enemies with
  | nil =>
    intro s er h
    simp only [Scene.updateEnemies, Option.some.injEq] at h
    subst h
    exact List.Forall₂.nil
  | cons e rest ih =>
    intro s er h
    simp only [Scene.updateEnemies] at h
    split at h
    · cases h
    · rename_i e1 s1 he
      split at h
      · cases h
      · rename_i rest1 s2 hrest
        simp only [Option.some.injEq] at h
        subst h
        exact List.Forall₂.cons ⟨s, s1, he⟩ (ih s1 _ hrest)

/-- The loop over the bosses gives each boss the result of its own update. -/
theorem Scene.updateBosses_each (player : Player) (dt : ℚ) (inp : FrameInput) (L : ℕ) :
    ∀ (bosses : List Boss) (index : ℕ) (bs : List Boss),
      Scene.updateBosses player dt inp L bosses index = some bs →
      List.Forall₂
        (fun b b1 : Boss => ∃ i, b.update player dt inp.math inp.uninit (inp.bossDraws i) L
          inp.currentTime = some b1)
        bosses bs := by
  intro bosses
  induction bosses with
  | nil =>
    intro index bs h
    simp only [Scene.updateBosses, Option.some.injEq] at h
    subst h
    exact List.Forall₂.nil
  | cons b rest ih =>
    intro index bs h
    simp only [Scene.updateBosses] at h
    split at h
    · cases h
    · rename_i b1 hb
      split at h
      · cases h
      · rename_i rest1 hrest
        simp only [Option.some.injEq] at h
        subst h
        exact List.Forall₂.cons ⟨index, hb⟩ (ih (index + 1) _ hrest)

/-- Enemy::update and the projectiles the enemy holds: none is touched when the
enemy has no transform; otherwise each one, and the one fired in this update if
any, is updated once and the non-renderable ones are dropped. Nothing is fired
unless the enemy is renderable and its cooldown has lapsed. -/
theorem Enemy.update_projectiles (e : Enemy) (s : EnemyShared) (L now : ℕ) (dt : ℚ)
    (u : Uninit) (r : Enemy × EnemyShared) (hr : e.update s L now dt u = some r) :
    r.1.mRenderable = e.mRenderable ∧
    (e.transform = none → r.1.mProjectiles = e.mProjectiles) ∧
    (e.transform ≠ none →
      ∃ fired : List Projectile, fired.length ≤ 1 ∧
        r.1.mProjectiles =
          ((e.mProjectiles ++ fired).map (fun q => q.update dt)).filter
            (fun q => q.mRenderable) ∧
        (¬ (e.mRenderable = true ∧
            ((uint64Sub now e.lastFireTime : ℕ) : ℚ) ≥ e.minLaunchTime) → fired = [])) := by
  simp only [Enemy.update] at hr
  split at hr
  · rename_i heq
    simp only [Option.some.injEq] at hr
    subst hr
    refine ⟨rfl, fun _ => rfl, fun hne => ?_⟩
    exfalso
    apply hne
    simpa [GameEntity.updateComponents] using heq
  · rename_i ref heq
    split at hr
    · cases hr
    · rename_i e4 hfire
      simp only [Option.some.injEq] at hr
      subst hr
      have hsame := Enemy.fireIfReady_entity _ _ _ _ _ _ hfire
      have htr : e.transform ≠ none := by
        intro hnone
        simp [GameEntity.updateComponents, hnone] at heq
      have hfired : ∃ fired : List Projectile, fired.length ≤ 1 ∧
          e4.mProjectiles = e.mProjectiles ++ fired ∧
          (¬ (e.mRenderable = true ∧
            ((uint64Sub now e.lastFireTime : ℕ) : ℚ) ≥ e.minLaunchTime) → fired = []) := by
        simp only [Enemy.fireIfReady, Enemy.keepExcess] at hfire
        split_ifs at hfire with hk hready hready
        all_goals first
          | (simp only [Option.some.injEq] at hfire
             subst hfire
             exact ⟨[], by simp, by simp, fun _ => rfl⟩)
          | (split at hfire
             · cases hfire
             · split_ifs at hfire
               · simp only [Option.some.injEq] at hfire
                 subst hfire
                 exact ⟨[_], by simp, rfl, fun hn => absurd hready hn⟩
               · simp only [Option.some.injEq] at hfire
                 subst hfire
                 exact ⟨[], by simp, by simp, fun _ => rfl⟩)
      obtain ⟨fired, hlen, hadd, hidle⟩ := hfired
      refine ⟨?_, fun hnone => absurd hnone htr, fun _ => ⟨fired, hlen, ?_, hidle⟩⟩
      · show (e4.toGameEntity).mRenderable = _
        rw [hsame]
        simp only [Enemy.keepExcess]
        split_ifs <;> rfl
      · simp only [Enemy.updateProjectiles]
        rw [hadd]

theorem Scene.resolveHits_parts (s : Scene) (g : Globals) (inp : FrameInput)
    (r : Scene × Globals) (h : Scene.resolveHits s g inp = some r) :
    ∃ player, s.mainCharacter = some player ∧
      r.1.mBosses = (Scene.hitBosses s.mBosses player.mProjectiles s.playerScore).1 ∧
      r.1.enemies =
        (Scene.hitEnemies s.enemies
          (Scene.hitBosses s.mBosses player.mProjectiles s.playerScore).2.1
          (Scene.hitBosses s.mBosses player.mProjectiles s.playerScore).2.2).1 := by
  simp only [Scene.resolveHits] at h
  split at h
  · cases h
  · rename_i player hplayer
    simp only [Option.some.injEq] at h
    subst h
    exact ⟨player, hplayer, rfl, rfl⟩

/-- C27 (the code at the failing input): one frame of the raid scene, in which
two projectiles of the same kind start at y = 300. The one already in the orphan
pool is advanced once, by the pool update, to y = 305.6. The one held by the
enemy is advanced by the enemy update to y = 305.6; the arrow of the player then
kills the enemy, the clean-up moves the projectile to the orphan pool, and the
pool update at the end of the same frame advances it once more: it ends the
frame in the pool at y = 311.2, two steps of 5.6 pixels from where it started. -/
theorem orphaned_projectile_advances_twice :
    ∃ r, Scene.update raidScene exampleGlobals exampleInput = some r ∧
      r.1.enemies = [] ∧
      r.1.globalProjectiles =
        [strayShot.update (2 / 125), (minionShot.update (2 / 125)).update (2 / 125)] ∧
      strayShot.transform =
        some { mRectangle := { x := 500, y := 300, w := 8, h := 26 },
               mRotation := 180, isPlayer := false } ∧
      (strayShot.update (2 / 125)).transform =
        some { mRectangle := { x := 500, y := 1528 / 5, w := 8, h := 26 },
               mRotation := 180, isPlayer := false } ∧
      minionShot.transform =
        some { mRectangle := { x := 300, y := 300, w := 8, h := 26 },
               mRotation := 180, isPlayer := false } ∧
      (minionShot.update (2 / 125)).transform =
        some { mRectangle := { x := 300, y := 1528 / 5, w := 8, h := 26 },
               mRotation := 180, isPlayer := false } ∧
      ((minionShot.update (2 / 125)).update (2 / 125)).transform =
        some { mRectangle := { x := 300, y := 1556 / 5, w := 8, h := 26 },
               mRotation := 180, isPlayer := false } := by
  have hstray : (strayShot.update (2 / 125)).transform =
      some { mRectangle := { x := 500, y := 1528 / 5, w := 8, h := 26 },
             mRotation := 180, isPlayer := false } ∧
      (strayShot.update (2 / 125)).mRenderable = true := by
    norm_num [Projectile.update, Projectile.moved, strayShot, minionShot, rainProjectile,
      GameEntity.updateComponents, TransformComponent.move, TransformComponent.getX,
      TransformComponent.getY, WINDOW_HEIGHT]
  -- the projectiles of the frame
  have hshot1 : (minionShot.update (2 / 125)).transform =
      some { mRectangle := { x := 300, y := 1528 / 5, w := 8, h := 26 },
             mRotation := 180, isPlayer := false } ∧
      (minionShot.update (2 / 125)).mRenderable = true ∧
      (minionShot.update (2 / 125)).mIsFiring = true ∧
      (minionShot.update (2 / 125)).mSpeed = 350 ∧
      (minionShot.update (2 / 125)).mYDirectionUp = false ∧
      (minionShot.update (2 / 125)).isBossProjectile = false ∧
      (minionShot.update (2 / 125)).mMovementType = ProjectileMovementType.UpDown := by
    norm_num [Projectile.update, Projectile.moved, minionShot, rainProjectile,
      GameEntity.updateComponents, TransformComponent.move, TransformComponent.getX,
      TransformComponent.getY, WINDOW_HEIGHT]
  have hshot2 : ((minionShot.update (2 / 125)).update (2 / 125)).transform =
      some { mRectangle := { x := 300, y := 1556 / 5, w := 8, h := 26 },
             mRotation := 180, isPlayer := false } ∧
      ((minionShot.update (2 / 125)).update (2 / 125)).mRenderable = true := by
    norm_num [Projectile.update, Projectile.moved, minionShot, rainProjectile,
      GameEntity.updateComponents, TransformComponent.move, TransformComponent.getX,
      TransformComponent.getY, WINDOW_HEIGHT]
  have harrow : ((arrowAt 120 220).update (2 / 125)).hitbox =
      some { mRectangle := { x := 120, y := 204, w := 15, h := 40 },
             mWidthModifier := 1, mHeightModifier := 1 } ∧
      ((arrowAt 120 220).update (2 / 125)).mRenderable = true := by
    norm_num [Projectile.update, Projectile.moved, arrowAt, playerArrow, Projectile.new,
      Projectile.init, Projectile.setProjectileMovementType, Projectile.setIsPlayerProjectile,
      Projectile.setOwnerWidth, Projectile.setProjectileSpeed,
      GameEntity.updateComponents, Collision2DComponent.update, f32_ofNat, f32_zero, f32_one, TransformComponent.move,
      TransformComponent.getX, TransformComponent.getY, TransformComponent.getWidth,
      TransformComponent.getHeight, WINDOW_HEIGHT]
  -- the frame returns
  obtain ⟨r, hr⟩ := Scene.update_returns raidScene exampleGlobals exampleInput
    { examplePlayerEntity with mProjectiles := [arrowAt 120 220] } rfl
    (by intro b hb; simp [raidScene] at hb; subst hb; rfl) (Or.inl (by decide))
  have hplay : (Scene.stageClear raidScene exampleGlobals).2.currentState =
      GameState.Playing := by
    decide
  obtain ⟨r1, r2, h1, h2, hpool, -, henemies⟩ :=
    Scene.frame_pool raidScene exampleGlobals exampleInput r hplay hr
  have henemies := henemies (Or.inl (by decide))
  -- the entity updates
  obtain ⟨player, bosses1, er, hplayer, hb, he, hp1, hb1, he1⟩ :=
    Scene.updateEntities_parts _ _ _ _ h1
  rw [Scene.stageClear_scene] at hplayer hb he
  have hpl : player = { examplePlayerEntity with mProjectiles := [arrowAt 120 220] } :=
    (Option.some.inj hplayer).symm
  subst hpl
  have hdt : Scene.clampDeltaTime exampleInput.deltaTime = 2 / 125 := by
    norm_num [Scene.clampDeltaTime, exampleInput]
  rw [hdt] at hb he hp1 hpool
  have hbl : ({ raidScene with
      mBosses := raidScene.mBosses.filter (fun boss => boss.mRenderable) } : Scene).mBosses =
      [duelBoss] := rfl
  have hel : ({ raidScene with
      mBosses := raidScene.mBosses.filter (fun boss => boss.mRenderable) } : Scene).enemies =
      [armedEnemy] := rfl
  rw [hbl] at hb
  rw [hel] at he
  -- the boss after its update: renderable, with its hitbox where it was
  have hbs := Scene.updateBosses_each _ _ _ _ _ _ _ hb
  rw [List.forall₂_cons_left_iff] at hbs
  obtain ⟨b1, rest, ⟨i, hbu⟩, hrest, hbs1⟩ := hbs
  rw [List.forall₂_nil_left_iff] at hrest
  subst hrest
  obtain ⟨-, -, hbr, -⟩ := Boss.update_keeps_life _ _ _ _ _ _ _ _ _ hbu
  have hbh := Boss.update_hitbox_lags duelBoss b1 _ _ _ _ _ _ _ _ rfl hbu
  have hbh2 : b1.hitbox =
      some { mRectangle := { x := 1495, y := 50, w := 300, h := 300 },
             mWidthModifier := 1, mHeightModifier := 1 } := by
    rw [hbh]
    norm_num [duelBoss, Collision2DComponent.update, f32_ofNat, f32_zero, f32_one, TransformComponent.new,
      TransformComponent.setWidth, TransformComponent.setHeight, TransformComponent.move,
      TransformComponent.getX, TransformComponent.getY, TransformComponent.getWidth,
      TransformComponent.getHeight]
  -- the enemy after its update: renderable, its hitbox in place, its projectile advanced
  have hes := Scene.updateEnemies_each _ _ _ _ _ _ _ he
  rw [List.forall₂_cons_left_iff] at hes
  obtain ⟨e1, rest, ⟨s0, s1, heu⟩, hrest, hes1⟩ := hes
  rw [List.forall₂_nil_left_iff] at hrest
  subst hrest
  obtain ⟨her, -, hproj⟩ := Enemy.update_projectiles _ _ _ _ _ _ _ heu
  obtain ⟨fired, -, hprojs, hidle⟩ := hproj (by simp [armedEnemy, formationEnemy, Enemy.init])
  have hnofire : fired = [] := by
    apply hidle
    norm_num [armedEnemy, formationEnemy, Enemy.init, Enemy.new, exampleInput, uint64Sub]
  subst hnofire
  have heh := Enemy.update_hitbox armedEnemy s0 _ _ _ _ _ rfl _ heu
  have heh2 : e1.hitbox =
      some { mRectangle := { x := 96, y := 180, w := 70, h := 70 },
             mWidthModifier := 1, mHeightModifier := 1 } := by
    rw [heh]
    norm_num [armedEnemy, formationEnemy, Enemy.init, Enemy.new, Collision2DComponent.update, f32_ofNat, f32_zero, f32_one,
      Collision2DComponent.new, TransformComponent.new, TransformComponent.setWidth,
      TransformComponent.setHeight, TransformComponent.move, TransformComponent.getX,
      TransformComponent.getY, TransformComponent.getWidth, TransformComponent.getHeight]
  have her2 : e1.mRenderable = true := her
  have hprojs2 : e1.mProjectiles = [minionShot.update (2 / 125)] := by
    rw [hprojs]
    simp [armedEnemy, hshot1.2.1]
  -- the arrows after the player update
  have harrows : (({ examplePlayerEntity with mProjectiles := [arrowAt 120 220] } : Player).update
      (2 / 125)).mProjectiles = [(arrowAt 120 220).update (2 / 125)] := by
    simp [Player.update, harrow.2]
  -- the hit phases
  obtain ⟨p1, hp1b, hbosses2, henemies2⟩ := Scene.resolveHits_parts _ _ _ _ h2
  rw [hp1] at hp1b
  have harrows1 : p1.mProjectiles = [(arrowAt 120 220).update (2 / 125)] := by
    rw [← Option.some.inj hp1b]
    exact harrows
  have hbr2 : b1.mRenderable = true := hbr
  have hmissb : b1.toGameEntity.TestCollision
      ((arrowAt 120 220).update (2 / 125)).toGameEntity = false := by
    unfold GameEntity.TestCollision
    rw [show b1.toGameEntity.hitbox = _ from hbh2,
      show ((arrowAt 120 220).update (2 / 125)).toGameEntity.hitbox = _ from harrow.1]
    norm_num [Collision2DComponent.getRectangle]
  have hhite : e1.toGameEntity.TestCollision
      ((arrowAt 120 220).update (2 / 125)).toGameEntity = true := by
    unfold GameEntity.TestCollision
    rw [show e1.toGameEntity.hitbox = _ from heh2,
      show ((arrowAt 120 220).update (2 / 125)).toGameEntity.hitbox = _ from harrow.1]
    norm_num [Collision2DComponent.getRectangle]
  have hbossPhase : Scene.hitBosses [b1] [(arrowAt 120 220).update (2 / 125)]
      r1.1.playerScore =
      ([b1], [(arrowAt 120 220).update (2 / 125)], r1.1.playerScore) := by
    simp [Scene.hitBosses, Scene.firstHit, hbr2, harrow.2, hmissb]
  have henemyPhase : (Scene.hitEnemies [e1] [(arrowAt 120 220).update (2 / 125)]
      r1.1.playerScore).1 = [e1.onHit] := by
    simp [Scene.hitEnemies, Scene.firstHit, her2, harrow.2, hhite]
  rw [hb1.trans hbs1, harrows1, hbossPhase] at hbosses2
  rw [hb1.trans hbs1, he1.trans hes1, harrows1, hbossPhase, henemyPhase] at henemies2
  -- the clean-up and the pool update
  have hdead : e1.onHit.mRenderable = false := rfl
  have hkept : e1.onHit.mProjectiles = [minionShot.update (2 / 125)] := hprojs2
  refine ⟨r, hr, ?_, ?_, rfl, hstray.1, rfl, hshot1.1, hshot2.1⟩
  · rw [henemies, henemies2]
    simp [hdead]
  · rw [hpool, henemies2, hbosses2]
    simp [hdead, hkept, hbr2, hshot2.2, hstray.2, raidScene]

end OldBow
